import Mathlib

/-!
# url-shortener: a shallow embedding of the key generation service and the URL shorten service

Two Go programs make up the repository:

* `keygensvc` (namespace `keygensvc`): `keygen.go` and `postgres.go`, the key allocator over a
  relational store, and `httphandlers.go`, its two HTTP handlers;
* `urlshortenapp` (namespace `urlshortenapp`): `urlshorten.go`, the orchestrator over a document
  store and the remote key allocator, `elasticsearch.go`, the document store over the
  Elasticsearch API, and `keygensvc.go`, the client of the key allocator.

The models of the Go standard library that both programs use (`unicode/utf8`, `encoding/json`)
stand in the namespace `urlshortenapp`, where they are first needed.

Conventions of the embedding.

* A Go `string` is a sequence of bytes: `GoString := List Nat`, every element a byte value
  (`< 256` in every string the programs build).  `len` is `List.length`, `+` is `++`.
* A Go `error` is `Option GoError`; `nil` is `none`.  Sentinel errors (`errors.New` values compared
  with `==`) are constructors of their own.
* A Go interface (`PostgresDb`, `EsService`, `KgsService`) is a record of functions over an abstract
  state; a method call threads the state.  Every call through an interface is appended to a
  log, so that statements such as "no query is issued" can be read off the log.
* `log.Printf` calls write to the process log only and are left out.
-/

/-- A Go string: its bytes, in order. -/
abbrev GoString := List Nat

/-- Encode one Unicode code point as UTF-8 (`utf8.AppendRune` on a valid rune). -/
def utf8EncodeRune (r : Nat) : List Nat :=
  if r < 0x80 then [r]
  else if r < 0x800 then [0xC0 + r / 64, 0x80 + r % 64]
  else if r < 0x10000 then [0xE0 + r / 4096, 0x80 + r / 64 % 64, 0x80 + r % 64]
  else [0xF0 + r / 262144, 0x80 + r / 4096 % 64, 0x80 + r / 64 % 64, 0x80 + r % 64]

/-- The bytes of a string of Unicode scalar values: the Go strings that are valid UTF-8. -/
def utf8 (cs : List Char) : GoString :=
  cs.flatMap fun c => utf8EncodeRune c.toNat

/-- A Go string literal of the source, written as a Lean string. -/
def goStr (s : String) : GoString := utf8 s.toList

namespace keygensvc

/-! ## postgres.go -/

/-- The `error` values that reach the key generation service.  The first ten are the sentinels of
`keygen.go`; `PgError` is a `*pgconn.PgError` with its SQLSTATE code; `errorString` is any other
error value (`errors.New(msg)`); `wrapError` is an error that wraps another one (`%w`). -/
inductive GoError where
  | ErrSourceNameCannotBeEmpty
  | ErrKeyLengthMustBePositive
  | ErrCustomKeyCannotBeEmpty
  | ErrCouldNotVerifySourceForKey
  | ErrCouldNotSaveKeyForSource
  | ErrCouldNotConnectToPostgres
  | ErrCouldNotRetrieveSourceId
  | ErrCouldNotAddNewSource
  | ErrKeyAlreadyExists
  | ErrCouldNotSaveNewKey
  | PgError (code : String)
  | errorString (msg : String)
  | wrapError (msg : String) (inner : GoError)
  deriving DecidableEq, Repr

def PgErrCodeUniqueViolation : String := "23505"

/-- A positional argument of a parametrized query (`params ...interface{}`). -/
inductive SqlParam where
  | str (s : GoString)
  | int (n : Int)
  deriving DecidableEq, Repr

/-- The interface `PostgresDb` (without `Refresh`, which no request path calls) over an abstract
database state `σ`. -/
structure PostgresDb (σ : Type) where
  connect : σ → Option GoError × σ
  queryInt : String → List SqlParam → σ → (Int × Option GoError) × σ
  close : σ → σ

/-- `errors.As(err, &pgErr)` walks the chain of wrapped errors; the error is a duplicate-key error
when the `*pgconn.PgError` found carries the code `23505`. -/
def isDuplicateKeyError : GoError → Bool
  | .PgError code => code == PgErrCodeUniqueViolation
  | .wrapError _ inner => isDuplicateKeyError inner
  | _ => false

/-! ## keygen.go: the service over the interface -/

/-- One entry of the call log: a call through `PostgresDb` with what it returned, or a read of
`crypto/rand` with the number of bytes asked for. -/
inductive Event where
  | connect (err : Option GoError)
  | queryInt (sql : String) (params : List SqlParam) (id : Int) (err : Option GoError)
  | close
  | randRead (n : Nat)
  deriving DecidableEq, Repr

/-- What a call of the service runs against: the database behind `kg.Db`, the bytes that
`crypto/rand` will hand out next, and the log of calls made so far. -/
structure World (σ : Type) where
  db : σ
  entropy : List Nat
  log : List Event

structure keyGenService (σ : Type) where
  Db : PostgresDb σ

def NewKeyGenService {σ : Type} (db : PostgresDb σ) : keyGenService σ := { Db := db }

def sqlInsertSource : String := "INSERT INTO sources (name) VALUES ($1) RETURNING id"

def sqlSelectSource : String := "SELECT id FROM sources WHERE name = $1 AND is_active IS TRUE"

def sqlInsertKey : String := "INSERT INTO keys (raw_key, source_id) VALUES ($1, $2) RETURNING id"

/-- The call `kg.Db.connect()`, logged. -/
def dbConnect {σ : Type} (kg : keyGenService σ) (w : World σ) : Option GoError × World σ :=
  let r := kg.Db.connect w.db
  (r.1, { w with db := r.2, log := w.log ++ [Event.connect r.1] })

/-- The call `kg.Db.queryInt(sql, params...)`, logged. -/
def dbQueryInt {σ : Type} (kg : keyGenService σ) (sql : String) (params : List SqlParam)
    (w : World σ) : (Int × Option GoError) × World σ :=
  let r := kg.Db.queryInt sql params w.db
  (r.1, { w with db := r.2, log := w.log ++ [Event.queryInt sql params r.1.1 r.1.2] })

/-- The call `kg.Db.close()`, logged. -/
def dbClose {σ : Type} (kg : keyGenService σ) (w : World σ) : World σ :=
  { w with db := kg.Db.close w.db, log := w.log ++ [Event.close] }

/-- `getSourceId`: optimistic INSERT of the source name, SELECT on a duplicate-key error.  The
deferred `kg.Db.close()` runs on every return after a successful `connect`. -/
def getSourceId {σ : Type} (kg : keyGenService σ) (sourceName : GoString) (w : World σ) :
    (Int × Option GoError) × World σ :=
  match dbConnect kg w with
  | (some _, w1) => ((-1, some .ErrCouldNotConnectToPostgres), w1)
  | (none, w1) =>
    match dbQueryInt kg sqlInsertSource [.str sourceName] w1 with
    | ((sourceId, none), w2) => ((sourceId, none), dbClose kg w2)
    | ((_, some err), w2) =>
      if isDuplicateKeyError err then
        match dbQueryInt kg sqlSelectSource [.str sourceName] w2 with
        | ((sourceId, none), w3) => ((sourceId, none), dbClose kg w3)
        | ((_, some _), w3) => ((-1, some .ErrCouldNotRetrieveSourceId), dbClose kg w3)
      else ((-1, some .ErrCouldNotAddNewSource), dbClose kg w2)

/-- `createKey`: INSERT of the pair (raw_key, source_id). -/
def createKey {σ : Type} (kg : keyGenService σ) (sourceId : Int) (key : GoString) (w : World σ) :
    Option GoError × World σ :=
  match dbConnect kg w with
  | (some _, w1) => (some .ErrCouldNotConnectToPostgres, w1)
  | (none, w1) =>
    match dbQueryInt kg sqlInsertKey [.str key, .int sourceId] w1 with
    | ((_, none), w2) => (none, dbClose kg w2)
    | ((_, some err), w2) =>
      if isDuplicateKeyError err then (some .ErrKeyAlreadyExists, dbClose kg w2)
      else (some .ErrCouldNotSaveNewKey, dbClose kg w2)

/-! ### The float64 arithmetic of `generateUniqueKey`

`math.Ceil(float64(keyLength) / 1.33333333333)` is evaluated in IEEE 754 binary64: the conversion
of the integer, the constant and the quotient are each rounded to the nearest value with a 53-bit
significand, ties to even.  The model keeps a positive value as `mant * 2 ^ exp`; the overflow and
subnormal ranges are not reached from a Go `int` and are not modelled. -/

def log2Fuel : Nat → Nat → Nat
  | 0, _ => 0
  | fuel + 1, n => if 2 ≤ n then log2Fuel fuel (n / 2) + 1 else 0

/-- The position of the highest set bit: `⌊log₂ n⌋` for `n ≥ 1`. -/
def ilog2 (n : Nat) : Nat := log2Fuel n n

/-- The integer nearest to `a / b`, ties to even. -/
def roundHalfEven (a b : Nat) : Nat :=
  if 2 * (a % b) < b then a / b
  else if b < 2 * (a % b) then a / b + 1
  else a / b + a / b % 2

/-- A non-negative binary64 value `mant * 2 ^ exp`. -/
structure Float64 where
  mant : Nat
  exp : Int
  deriving DecidableEq, Repr

/-- The fraction `(a / b) / 2 ^ e`, as numerator and denominator. -/
def scaleBy (a b : Nat) (e : Int) : Nat × Nat :=
  if 0 ≤ e then (a, b * 2 ^ e.toNat) else (a * 2 ^ (-e).toNat, b)

/-- `⌊log₂ (a / b)⌋` for `a, b ≥ 1`. -/
def floorLog2Ratio (a b : Nat) : Int :=
  let t0 : Int := (ilog2 a : Int) - (ilog2 b : Int)
  if (scaleBy a b t0).2 ≤ (scaleBy a b t0).1 then t0 else t0 - 1

/-- The binary64 value nearest to the rational `a / b`: the significand is `a / b` scaled into
`[2^52, 2^53)` and rounded to an integer. -/
def roundToFloat64 (a b : Nat) : Float64 :=
  let e := floorLog2Ratio a b - 52
  { mant := roundHalfEven (scaleBy a b e).1 (scaleBy a b e).2, exp := e }

/-- The conversion `float64(n)` of a non-negative integer. -/
def Float64.ofNat (n : Nat) : Float64 := roundToFloat64 n 1

/-- The division `x / y` of binary64: the exact quotient, rounded. -/
def Float64.div (x y : Float64) : Float64 :=
  roundToFloat64 (scaleBy x.mant y.mant (y.exp - x.exp)).1 (scaleBy x.mant y.mant (y.exp - x.exp)).2

/-- The conversion `int(math.Ceil(x))`. -/
def Float64.ceil (x : Float64) : Nat :=
  if 0 ≤ x.exp then x.mant * 2 ^ x.exp.toNat
  else (x.mant + 2 ^ (-x.exp).toNat - 1) / 2 ^ (-x.exp).toNat

/-- The constant `1.33333333333` of the source, as the compiler rounds it to binary64. -/
def keyLengthDivisor : Float64 := roundToFloat64 133333333333 100000000000

/-- The length of the buffer: `int(math.Ceil(float64(keyLength) / 1.33333333333))`. -/
def keyBufferLen (keyLength : Nat) : Nat :=
  ((Float64.ofNat keyLength).div keyLengthDivisor).ceil

/-! ### `encoding/base64`, `RawURLEncoding` -/

/-- The alphabet `encodeURL` of `encoding/base64`. -/
def encodeURL : GoString :=
  goStr "ABCDEFGHIJKLMNOPQRSTUVWXYZabcdefghijklmnopqrstuvwxyz0123456789-_"

/-- The character that encodes the 6-bit value `i`. -/
def base64Char (i : Nat) : Nat := encodeURL.getD i 0

/-- `base64.RawURLEncoding.EncodeToString`: three bytes give four characters, a remainder of one
or two bytes gives two or three, and no padding is written. -/
def EncodeToString : List Nat → GoString
  | a :: b :: c :: rest =>
    base64Char (a / 4) :: base64Char (a % 4 * 16 + b / 16) :: base64Char (b % 16 * 4 + c / 64)
      :: base64Char (c % 64) :: EncodeToString rest
  | [a, b] => [base64Char (a / 4), base64Char (a % 4 * 16 + b / 16), base64Char (b % 16 * 4)]
  | [a] => [base64Char (a / 4), base64Char (a % 4 * 16)]
  | [] => []

/-- The table `decodeMap` that `NewEncoding` builds from the alphabet: the 6-bit value of a
character of `encodeURL`, nothing for any other byte. -/
def decodeMap (c : Nat) : Option Nat :=
  if encodeURL.indexOf c < 64 then some (encodeURL.indexOf c) else none

/-- The 6-bit values of the characters of the input; `\r` and `\n` are skipped, and any other
byte outside the alphabet (the padding character `=` included, as `RawURLEncoding` has no
padding) is a `CorruptInputError`. -/
def decodeSextets : List Nat → Option (List Nat)
  | [] => some []
  | c :: rest =>
    match decodeMap c with
    | some v => (decodeSextets rest).map fun r => v :: r
    | none => if c = 0x0A ∨ c = 0x0D then decodeSextets rest else none

/-- The bytes of a sequence of 6-bit values: four values give three bytes, a remainder of two or
three values gives one or two bytes (the unused low bits are not checked, the encoding is not
strict), and a remainder of one value is a `CorruptInputError`. -/
def decodeQuanta : List Nat → Option (List Nat)
  | a :: b :: c :: d :: rest =>
    (decodeQuanta rest).map fun r =>
      (a * 4 + b / 16) % 256 :: (b % 16 * 16 + c / 4) % 256 :: (c % 4 * 64 + d) % 256 :: r
  | [a, b, c] => some [(a * 4 + b / 16) % 256, (b % 16 * 16 + c / 4) % 256]
  | [a, b] => some [(a * 4 + b / 16) % 256]
  | [_] => none
  | [] => some []

/-- `base64.RawURLEncoding.DecodeString`: the decoded bytes, or nothing where Go returns a
`CorruptInputError`. -/
def DecodeString (s : GoString) : Option (List Nat) :=
  (decodeSextets s).bind decodeQuanta

/-- A character of the URL-safe alphabet: `A-Z`, `a-z`, `0-9`, `-` or `_`. -/
def isURLSafeChar (c : Nat) : Bool :=
  (decide (0x41 ≤ c) && decide (c ≤ 0x5A)) || (decide (0x61 ≤ c) && decide (c ≤ 0x7A))
    || (decide (0x30 ≤ c) && decide (c ≤ 0x39)) || c == 0x2D || c == 0x5F

/-- The call `rand.Read(buff)` on a zeroed buffer of `n` bytes, logged: the buffer receives the
next bytes of the entropy source; where the source delivers fewer than `n` (the error the code
ignores) the rest of the buffer stays zero. -/
def randRead {σ : Type} (n : Nat) (w : World σ) : List Nat × World σ :=
  (((w.entropy.take n).map fun b => b % 256) ++ List.replicate (n - (w.entropy.take n).length) 0,
    { w with entropy := w.entropy.drop n, log := w.log ++ [Event.randRead n] })

/-- `generateUniqueKey`, for `keyLength ≥ 0` (its one caller passes `keyLength ≥ 1`; a negative
length makes `make` fail). -/
def generateUniqueKey {σ : Type} (keyLength : Nat) (w : World σ) : GoString × World σ :=
  ((EncodeToString (randRead (keyBufferLen keyLength) w).1), (randRead (keyBufferLen keyLength) w).2)

/-- `GetGeneratedKey`. -/
def GetGeneratedKey {σ : Type} (kg : keyGenService σ) (sourceName : GoString) (keyLength : Int)
    (w : World σ) : (GoString × Option GoError) × World σ :=
  if keyLength < 1 then (([], some .ErrKeyLengthMustBePositive), w)
  else
    match getSourceId kg sourceName w with
    | ((_, some _), w1) => (([], some .ErrCouldNotVerifySourceForKey), w1)
    | ((sourceId, none), w1) =>
      match createKey kg sourceId (generateUniqueKey keyLength.toNat w1).1
          (generateUniqueKey keyLength.toNat w1).2 with
      | (some _, w3) => (([], some .ErrCouldNotSaveKeyForSource), w3)
      | (none, w3) => (((generateUniqueKey keyLength.toNat w1).1, none), w3)

/-- `StoreCustomKey`. -/
def StoreCustomKey {σ : Type} (kg : keyGenService σ) (sourceName customKey : GoString)
    (w : World σ) : Option GoError × World σ :=
  if customKey = [] then (some .ErrCustomKeyCannotBeEmpty, w)
  else
    match getSourceId kg sourceName w with
    | ((_, some _), w1) => (some .ErrCouldNotVerifySourceForKey, w1)
    | ((sourceId, none), w1) =>
      match createKey kg sourceId customKey w1 with
      | (some _, w2) => (some .ErrCouldNotSaveKeyForSource, w2)
      | (none, w2) => (none, w2)

/-- One allocation request: `GetGeneratedKey(sourceName, keyLength)` or
`StoreCustomKey(sourceName, customKey)`. -/
inductive Alloc where
  | generate (keyLength : Int)
  | store (customKey : GoString)
  deriving DecidableEq, Repr

/-- Run one allocation request; the result is the error returned and the world afterwards. -/
def allocate {σ : Type} (kg : keyGenService σ) (sourceName : GoString) (a : Alloc) (w : World σ) :
    Option GoError × World σ :=
  match a with
  | .generate keyLength =>
    ((GetGeneratedKey kg sourceName keyLength w).1.2, (GetGeneratedKey kg sourceName keyLength w).2)
  | .store customKey => StoreCustomKey kg sourceName customKey w

/-- Run a sequence of allocation requests, each for its own source name, one after the other. -/
def allocateAll {σ : Type} (kg : keyGenService σ) : List (GoString × Alloc) → World σ → World σ
  | [], w => w
  | (sourceName, a) :: rest, w => allocateAll kg rest (allocate kg sourceName a w).2

/-- The log entries written between two worlds of one run. -/
def eventsSince {σ : Type} (before after : World σ) : List Event :=
  after.log.drop before.log.length

/-- An INSERT into the key ledger. -/
def Event.isKeyInsert : Event → Bool
  | .queryInt sql _ _ _ => sql == sqlInsertKey
  | _ => false

/-- An INSERT into the key ledger that the database answered with an error. -/
def Event.isRejectedKeyInsert : Event → Bool
  | .queryInt sql _ _ (some _) => sql == sqlInsertKey
  | _ => false

/-- A read of `crypto/rand`: the generation of one key. -/
def Event.isRandRead : Event → Bool
  | .randRead _ => true
  | _ => false

/-- The connection discipline, run over a log from the state `isOpen` (whether a connection is
open): a successful `connect` opens the connection and a failed one leaves it closed, and either
is allowed only while no connection is open; a query is allowed only while the connection is
open; `close` is allowed only while it is open and closes it; a read of `crypto/rand` is allowed
anywhere.  The result is the state at the end of the log, or nothing when the log breaks the
discipline. -/
def connectionDiscipline : Bool → List Event → Option Bool
  | isOpen, [] => some isOpen
  | false, .connect none :: rest => connectionDiscipline true rest
  | false, .connect (some _) :: rest => connectionDiscipline false rest
  | true, .connect _ :: _ => none
  | true, .queryInt _ _ _ _ :: rest => connectionDiscipline true rest
  | false, .queryInt _ _ _ _ :: _ => none
  | true, .close :: rest => connectionDiscipline false rest
  | false, .close :: _ => none
  | isOpen, .randRead _ :: rest => connectionDiscipline isOpen rest

/-! ## The relational store

`postgres.go` hands every statement to a PostgreSQL server through `pgx`; the schema lives in
`db/migrations`.  Neither is among the sources, so the server is modelled with the two tables and
the two uniqueness constraints the specification names. -/

/-- Modelled from the spec: a row of the table `sources` (`db/migrations` is not among the
sources), `{id, name, active}` with `name` the natural key. -/
structure SourceRow where
  id : Int
  name : GoString
  is_active : Bool
  deriving DecidableEq, Repr

/-- Modelled from the spec: a row of the table `keys` (`db/migrations` is not among the sources),
`{id, source_id, raw_key}` with `raw_key` unique across the whole ledger. -/
structure KeyRow where
  id : Int
  raw_key : GoString
  source_id : Int
  deriving DecidableEq, Repr

/-- Modelled from the spec: the state of the PostgreSQL server and of the `postgresDb` handle (the
server and `db/migrations` are not among the sources).  `sourcesIdSeq` and `keysIdSeq` are the
sequences behind the two `id` columns; `connected` says whether `db.Conn` is set; `outages` is the
fate of the coming connection attempts (`true`: the attempt fails). -/
structure PgState where
  sources : List SourceRow
  keys : List KeyRow
  sourcesIdSeq : Int
  keysIdSeq : Int
  connected : Bool
  outages : List Bool
  deriving DecidableEq, Repr

/-- `postgresDb.connect`: on failure `db.Conn` is left as it was. -/
def pgConnect (s : PgState) : Option GoError × PgState :=
  match s.outages with
  | true :: rest => (some (.errorString "failed to connect"), { s with outages := rest })
  | false :: rest => (none, { s with outages := rest, connected := true })
  | [] => (none, { s with connected := true })

/-- `postgresDb.close`. -/
def pgClose (s : PgState) : PgState := { s with connected := false }

/-- Modelled from the spec: what the server does with the three statements of `keygen.go` (the
server and `db/migrations` are not among the sources).  An INSERT that would repeat a source name
or a raw key is refused with SQLSTATE 23505, and the refused INSERT has already drawn its id from
the sequence; a new source row is active; the SELECT sees active rows only and fails with
"no rows in result set" when there is none.  As in `postgresDb.queryInt`, an error comes with the
id 0. -/
def pgQueryInt (sql : String) (params : List SqlParam) (s : PgState) :
    (Int × Option GoError) × PgState :=
  if s.connected = false then ((0, some (.errorString "conn closed")), s)
  else if sql = sqlInsertSource then
    match params with
    | [.str name] =>
      if s.sources.any (fun r => r.name = name) then
        ((0, some (.PgError "23505")), { s with sourcesIdSeq := s.sourcesIdSeq + 1 })
      else
        ((s.sourcesIdSeq, none),
          { s with
            sources := s.sources ++ [SourceRow.mk s.sourcesIdSeq name true],
            sourcesIdSeq := s.sourcesIdSeq + 1 })
    | _ => ((0, some (.PgError "08P01")), s)
  else if sql = sqlSelectSource then
    match params with
    | [.str name] =>
      match s.sources.find? (fun r => r.name = name && r.is_active) with
      | some r => ((r.id, none), s)
      | none => ((0, some (.errorString "no rows in result set")), s)
    | _ => ((0, some (.PgError "08P01")), s)
  else if sql = sqlInsertKey then
    match params with
    | [.str key, .int sourceId] =>
      if s.keys.any (fun r => r.raw_key = key) then
        ((0, some (.PgError "23505")), { s with keysIdSeq := s.keysIdSeq + 1 })
      else
        ((s.keysIdSeq, none),
          { s with
            keys := s.keys ++ [KeyRow.mk s.keysIdSeq key sourceId],
            keysIdSeq := s.keysIdSeq + 1 })
    | _ => ((0, some (.PgError "08P01")), s)
  else ((0, some (.PgError "42601")), s)

/-- `NewPostgresDb(connStr)`: the production implementation of `PostgresDb`. -/
def NewPostgresDb : PostgresDb PgState :=
  { connect := pgConnect, queryInt := pgQueryInt, close := pgClose }

/-- The service as `main.go` builds it: `NewKeyGenService(NewPostgresDb(connStr))`. -/
def pgKeyGenService : keyGenService PgState := NewKeyGenService NewPostgresDb

/-- A freshly migrated database: both tables empty, no connection open, no outage ahead. -/
def PgState.fresh : PgState :=
  { sources := [], keys := [], sourcesIdSeq := 1, keysIdSeq := 1, connected := false, outages := [] }

/-- The rows of the key ledger that hold the raw key `k`. -/
def PgState.rowsOfKey (s : PgState) (k : GoString) : List KeyRow :=
  s.keys.filter fun r => r.raw_key = k

/-- The world of a freshly migrated database, before any call. -/
def World.fresh : World PgState := ⟨PgState.fresh, [], []⟩

/-- A world whose ledger already holds the key that seven zero bytes encode to, registered for
the source `some-source`; the entropy source delivers nothing, so the next generated key of
length 8 is that key. -/
def World.taken : World PgState :=
  ⟨{ sources := [SourceRow.mk 1 (goStr "some-source") true],
     keys := [KeyRow.mk 1 (goStr "AAAAAAAAAA") 1],
     sourcesIdSeq := 2, keysIdSeq := 2, connected := false, outages := [] }, [], []⟩

/-! ## keygen_test.go: the test double -/

/-- `MockPostgresDb` of `keygen_test.go`: the n-th call of `connect` or `queryInt` returns the
n-th entry of `errors`, `queryInt` returns the fixed `id`, and `close` does nothing.  The state
is the global `callCount`. -/
def MockPostgresDb (errors : List (Option GoError)) (id : Int) : PostgresDb Nat :=
  { connect := fun callCount => (errors.getD callCount none, callCount + 1),
    queryInt := fun _ _ callCount => ((id, errors.getD callCount none), callCount + 1),
    close := fun callCount => callCount }

/-- The rational number a binary64 value stands for (used to state bounds on the rounding). -/
def Float64.toRat (x : Float64) : ℚ := (x.mant : ℚ) * (2 : ℚ) ^ x.exp

end keygensvc

namespace urlshortenapp

/-! ## `crypto/md5` and `encoding/hex` -/

/-- The per-round shift amounts of MD5 (RFC 1321). -/
def md5Shifts : List Nat :=
  [7, 12, 17, 22, 7, 12, 17, 22, 7, 12, 17, 22, 7, 12, 17, 22,
   5, 9, 14, 20, 5, 9, 14, 20, 5, 9, 14, 20, 5, 9, 14, 20,
   4, 11, 16, 23, 4, 11, 16, 23, 4, 11, 16, 23, 4, 11, 16, 23,
   6, 10, 15, 21, 6, 10, 15, 21, 6, 10, 15, 21, 6, 10, 15, 21]

/-- The constants of MD5: the integer part of `2 ^ 32 * |sin (i + 1)|`. -/
def md5Table : List Nat :=
  [
    0xd76aa478, 0xe8c7b756, 0x242070db, 0xc1bdceee,
    0xf57c0faf, 0x4787c62a, 0xa8304613, 0xfd469501,
    0x698098d8, 0x8b44f7af, 0xffff5bb1, 0x895cd7be,
    0x6b901122, 0xfd987193, 0xa679438e, 0x49b40821,
    0xf61e2562, 0xc040b340, 0x265e5a51, 0xe9b6c7aa,
    0xd62f105d, 0x02441453, 0xd8a1e681, 0xe7d3fbc8,
    0x21e1cde6, 0xc33707d6, 0xf4d50d87, 0x455a14ed,
    0xa9e3e905, 0xfcefa3f8, 0x676f02d9, 0x8d2a4c8a,
    0xfffa3942, 0x8771f681, 0x6d9d6122, 0xfde5380c,
    0xa4beea44, 0x4bdecfa9, 0xf6bb4b60, 0xbebfbc70,
    0x289b7ec6, 0xeaa127fa, 0xd4ef3085, 0x04881d05,
    0xd9d4d039, 0xe6db99e5, 0x1fa27cf8, 0xc4ac5665,
    0xf4292244, 0x432aff97, 0xab9423a7, 0xfc93a039,
    0x655b59c3, 0x8f0ccc92, 0xffeff47d, 0x85845dd1,
    0x6fa87e4f, 0xfe2ce6e0, 0xa3014314, 0x4e0811a1,
    0xf7537e82, 0xbd3af235, 0x2ad7d2bb, 0xeb86d391
  ]

/-- Rotate a 32-bit word left by `c` bits. -/
def rotl32 (x c : Nat) : Nat := (x <<< c ||| x >>> (32 - c)) % 2 ^ 32

/-- The four little-endian bytes of a 32-bit word. -/
def le32 (x : Nat) : List Nat := [x % 256, x / 2 ^ 8 % 256, x / 2 ^ 16 % 256, x / 2 ^ 24 % 256]

/-- The 32-bit word of four little-endian bytes, starting at byte `4 * j` of a block. -/
def md5Word (block : List Nat) (j : Nat) : Nat :=
  block.getD (4 * j) 0 % 256 + block.getD (4 * j + 1) 0 % 256 * 2 ^ 8
    + block.getD (4 * j + 2) 0 % 256 * 2 ^ 16 + block.getD (4 * j + 3) 0 % 256 * 2 ^ 24

/-- The state of the MD5 compression: the four 32-bit registers. -/
structure Md5State where
  a : Nat
  b : Nat
  c : Nat
  d : Nat
  deriving DecidableEq, Repr

/-- One of the 64 operations of the MD5 compression function on a 64-byte block. -/
def md5Step (block : List Nat) (st : Md5State) (i : Nat) : Md5State :=
  let nb := st.b ^^^ 0xffffffff
  let nd := st.d ^^^ 0xffffffff
  let f :=
    if i < 16 then st.b &&& st.c ||| nb &&& st.d
    else if i < 32 then st.d &&& st.b ||| nd &&& st.c
    else if i < 48 then st.b ^^^ st.c ^^^ st.d
    else st.c ^^^ (st.b ||| nd)
  let g :=
    if i < 16 then i
    else if i < 32 then (5 * i + 1) % 16
    else if i < 48 then (3 * i + 5) % 16
    else 7 * i % 16
  let x := (f + st.a + md5Table.getD i 0 + md5Word block g) % 2 ^ 32
  { a := st.d, d := st.c, c := st.b, b := (st.b + rotl32 x (md5Shifts.getD i 0)) % 2 ^ 32 }

/-- The MD5 compression of one 64-byte block into the running state. -/
def md5Block (st : Md5State) (block : List Nat) : Md5State :=
  let r := (List.range 64).foldl (md5Step block) st
  { a := (st.a + r.a) % 2 ^ 32, b := (st.b + r.b) % 2 ^ 32,
    c := (st.c + r.c) % 2 ^ 32, d := (st.d + r.d) % 2 ^ 32 }

/-- The message with the MD5 padding: a `0x80` byte, zeros up to 56 modulo 64, and the length
in bits as 8 little-endian bytes. -/
def md5Pad (msg : List Nat) : List Nat :=
  msg ++ [0x80] ++ List.replicate ((119 - msg.length % 64) % 64) 0
    ++ (List.range 8).map fun i => 8 * msg.length / 2 ^ (8 * i) % 256

/-- `md5.Sum`: the 16 bytes of the MD5 digest. -/
def md5Sum (msg : List Nat) : List Nat :=
  let padded := md5Pad msg
  let r := (List.range (padded.length / 64)).foldl
    (fun st j => md5Block st ((padded.drop (64 * j)).take 64))
    { a := 0x67452301, b := 0xefcdab89, c := 0x98badcfe, d := 0x10325476 }
  le32 r.a ++ le32 r.b ++ le32 r.c ++ le32 r.d

/-- The table `hextable` of `encoding/hex`. -/
def hextable : GoString := goStr "0123456789abcdef"

/-- `hex.EncodeToString`: two lower-case hexadecimal digits per byte. -/
def hexEncodeToString (src : List Nat) : GoString :=
  src.flatMap fun b => [hextable.getD (b / 16) 0, hextable.getD (b % 16) 0]

/-- The document id of a short URL: `hex.EncodeToString(md5.Sum([]byte(shortUrl))[:])`. -/
def documentId (shortUrl : GoString) : GoString := hexEncodeToString (md5Sum shortUrl)

/-! ## `unicode/utf8` -/

/-- `utf8.RuneError`, U+FFFD. -/
def RuneError : Nat := 0xFFFD

/-- The table `first` with `acceptRanges`: for the leading byte of a multi-byte sequence, the
length of the sequence and the range the second byte must lie in. -/
def utf8First (s0 : Nat) : Option (Nat × Nat × Nat) :=
  if 0xC2 ≤ s0 ∧ s0 ≤ 0xDF then some (2, 0x80, 0xBF)
  else if s0 = 0xE0 then some (3, 0xA0, 0xBF)
  else if s0 = 0xED then some (3, 0x80, 0x9F)
  else if 0xE1 ≤ s0 ∧ s0 ≤ 0xEF then some (3, 0x80, 0xBF)
  else if s0 = 0xF0 then some (4, 0x90, 0xBF)
  else if 0xF1 ≤ s0 ∧ s0 ≤ 0xF3 then some (4, 0x80, 0xBF)
  else if s0 = 0xF4 then some (4, 0x80, 0x8F)
  else none

/-- `utf8.DecodeRune`: the first rune of `s` and its width in bytes; `(RuneError, 1)` for a byte
that starts no valid sequence, `(RuneError, 0)` for the empty input. -/
def DecodeRune (s : List Nat) : Nat × Nat :=
  match s with
  | [] => (RuneError, 0)
  | s0 :: rest =>
    if s0 < 0x80 then (s0, 1)
    else
      match utf8First s0 with
      | none => (RuneError, 1)
      | some (sz, lo, hi) =>
        match rest with
        | [] => (RuneError, 1)
        | s1 :: rest1 =>
          if s1 < lo ∨ hi < s1 then (RuneError, 1)
          else if sz ≤ 2 then (s0 % 32 * 64 + s1 % 64, 2)
          else
            match rest1 with
            | [] => (RuneError, 1)
            | s2 :: rest2 =>
              if s2 < 0x80 ∨ 0xBF < s2 then (RuneError, 1)
              else if sz ≤ 3 then (s0 % 16 * 4096 + s1 % 64 * 64 + s2 % 64, 3)
              else
                match rest2 with
                | [] => (RuneError, 1)
                | s3 :: _ =>
                  if s3 < 0x80 ∨ 0xBF < s3 then (RuneError, 1)
                  else (s0 % 8 * 262144 + s1 % 64 * 4096 + s2 % 64 * 64 + s3 % 64, 4)

/-- `utf8.EncodeRune`: a surrogate or a value past U+10FFFF is written as U+FFFD. -/
def EncodeRune (r : Nat) : List Nat :=
  if (0xD800 ≤ r ∧ r ≤ 0xDFFF) ∨ 0x10FFFF < r then utf8EncodeRune RuneError
  else utf8EncodeRune r

/-! ## `encoding/json`: encoding a string -/

/-- The table `htmlSafeSet`: the ASCII bytes written as they are. -/
def htmlSafeSet (b : Nat) : Bool :=
  decide (0x20 ≤ b) && decide (b < 0x80) && b != 0x22 && b != 0x26 && b != 0x3C && b != 0x3E
    && b != 0x5C

/-- The escape written for an ASCII byte that is not in `htmlSafeSet`. -/
def escapeByte (b : Nat) : List Nat :=
  if b = 0x5C ∨ b = 0x22 then [0x5C, b]
  else if b = 0x08 then goStr "\\b"
  else if b = 0x0C then goStr "\\f"
  else if b = 0x0A then goStr "\\n"
  else if b = 0x0D then goStr "\\r"
  else if b = 0x09 then goStr "\\t"
  else goStr "\\u00" ++ [hextable.getD (b / 16) 0, hextable.getD (b % 16) 0]

/-- The loop of `appendString` (with `escapeHTML`), from the current position on.  An ASCII byte is
copied or escaped; an invalid byte becomes `\ufffd`; U+2028 and U+2029 are escaped; every other
rune is copied.  The first argument bounds the number of iterations. -/
def appendStringLoop : Nat → List Nat → List Nat
  | 0, _ => []
  | _ + 1, [] => []
  | fuel + 1, b :: rest =>
    if b < 0x80 then
      (if htmlSafeSet b then [b] else escapeByte b) ++ appendStringLoop fuel rest
    else if (DecodeRune ((b :: rest).take 4)).1 = RuneError
        ∧ (DecodeRune ((b :: rest).take 4)).2 = 1 then
      goStr "\\ufffd" ++ appendStringLoop fuel rest
    else if (DecodeRune ((b :: rest).take 4)).1 = 0x2028
        ∨ (DecodeRune ((b :: rest).take 4)).1 = 0x2029 then
      goStr "\\u202" ++ [hextable.getD ((DecodeRune ((b :: rest).take 4)).1 % 16) 0]
        ++ appendStringLoop fuel ((b :: rest).drop (DecodeRune ((b :: rest).take 4)).2)
    else
      (b :: rest).take (DecodeRune ((b :: rest).take 4)).2
        ++ appendStringLoop fuel ((b :: rest).drop (DecodeRune ((b :: rest).take 4)).2)

/-- `appendString`: the JSON string literal for a Go string. -/
def appendString (src : GoString) : List Nat :=
  [0x22] ++ appendStringLoop src.length src ++ [0x22]

/-- The string a JSON string literal written by `appendString` stands for: the source with every
byte that starts no valid UTF-8 sequence replaced by U+FFFD.  The first argument bounds the number
of iterations. -/
def coerceLoop : Nat → List Nat → List Nat
  | 0, _ => []
  | _ + 1, [] => []
  | fuel + 1, b :: rest =>
    if b < 0x80 then b :: coerceLoop fuel rest
    else if (DecodeRune ((b :: rest).take 4)).1 = RuneError
        ∧ (DecodeRune ((b :: rest).take 4)).2 = 1 then
      EncodeRune RuneError ++ coerceLoop fuel rest
    else
      (b :: rest).take (DecodeRune ((b :: rest).take 4)).2
        ++ coerceLoop fuel ((b :: rest).drop (DecodeRune ((b :: rest).take 4)).2)

/-- The Go string that comes back when `src` is written as a JSON string and read again. -/
def coerceToUTF8 (src : GoString) : GoString := coerceLoop src.length src

/-- The loop of `utf8.ValidString`: every byte is ASCII or starts a sequence that `DecodeRune`
accepts.  The first argument bounds the number of iterations. -/
def ValidStringLoop : Nat → List Nat → Bool
  | 0, s => s.isEmpty
  | _ + 1, [] => true
  | fuel + 1, b :: rest =>
    if b < 0x80 then ValidStringLoop fuel rest
    else if (DecodeRune (b :: rest)).1 = RuneError ∧ (DecodeRune (b :: rest)).2 = 1 then false
    else ValidStringLoop fuel ((b :: rest).drop (DecodeRune (b :: rest)).2)

/-- `utf8.ValidString`: the string consists of valid UTF-8 sequences only. -/
def ValidString (s : GoString) : Bool := ValidStringLoop s.length s

/-! ## `encoding/json`: reading a value -/

/-- A JSON value as the decoder sees it; a number keeps its literal. -/
inductive Json where
  | null
  | bool (b : Bool)
  | number (literal : List Nat)
  | string (s : GoString)
  | array (items : List Json)
  | object (members : List (GoString × Json))

/-- The errors of `json.Unmarshal`. -/
inductive JsonError where
  | SyntaxError
  | UnmarshalTypeError
  deriving DecidableEq, Repr

/-- `isSpace` of the scanner. -/
def isSpace (c : Nat) : Bool := c == 0x20 || c == 0x09 || c == 0x0D || c == 0x0A

def skipSpace : List Nat → List Nat
  | [] => []
  | c :: rest => if isSpace c then skipSpace rest else c :: rest

/-- The value of a hexadecimal digit. -/
def hexValue (c : Nat) : Option Nat :=
  if 0x30 ≤ c ∧ c ≤ 0x39 then some (c - 0x30)
  else if 0x61 ≤ c ∧ c ≤ 0x66 then some (c - 0x61 + 10)
  else if 0x41 ≤ c ∧ c ≤ 0x46 then some (c - 0x41 + 10)
  else none

/-- `getu4`: the code unit of a `\uXXXX` escape at the head of `s`. -/
def getu4 (s : List Nat) : Option Nat :=
  match s with
  | 0x5C :: 0x75 :: a :: b :: c :: d :: _ =>
    match hexValue a, hexValue b, hexValue c, hexValue d with
    | some a, some b, some c, some d => some (a * 4096 + b * 256 + c * 16 + d)
    | _, _, _, _ => none
  | _ => none

/-- The byte a one-letter escape stands for. -/
def simpleEscape (c : Nat) : Option Nat :=
  if c = 0x22 ∨ c = 0x5C ∨ c = 0x2F then some c
  else if c = 0x62 then some 0x08
  else if c = 0x66 then some 0x0C
  else if c = 0x6E then some 0x0A
  else if c = 0x72 then some 0x0D
  else if c = 0x74 then some 0x09
  else none

/-- The scanner's string state together with `unquote`: read a string literal after its opening
quote, up to and including the closing quote; the result is the decoded string and the input
that follows.  A control character or a malformed escape is a syntax error; an unpaired surrogate
escape and an invalid UTF-8 byte are replaced by U+FFFD.  The first argument bounds the number
of iterations. -/
def parseStringBody : Nat → List Nat → Option (GoString × List Nat)
  | 0, _ => none
  | _ + 1, [] => none
  | fuel + 1, c :: rest =>
    if c = 0x22 then some ([], rest)
    else if c = 0x5C then
      match rest with
      | [] => none
      | e :: rest1 =>
        if e = 0x75 then
          match getu4 (c :: rest) with
          | none => none
          | some rr =>
            if 0xD800 ≤ rr ∧ rr ≤ 0xDFFF then
              match getu4 (rest1.drop 4) with
              | some rr1 =>
                if rr < 0xDC00 ∧ 0xDC00 ≤ rr1 ∧ rr1 ≤ 0xDFFF then
                  (parseStringBody fuel (rest1.drop 10)).map fun r =>
                    (EncodeRune ((rr - 0xD800) * 1024 + (rr1 - 0xDC00) + 0x10000) ++ r.1, r.2)
                else
                  (parseStringBody fuel (rest1.drop 4)).map fun r =>
                    (EncodeRune RuneError ++ r.1, r.2)
              | none =>
                (parseStringBody fuel (rest1.drop 4)).map fun r =>
                  (EncodeRune RuneError ++ r.1, r.2)
            else
              (parseStringBody fuel (rest1.drop 4)).map fun r => (EncodeRune rr ++ r.1, r.2)
        else
          match simpleEscape e with
          | none => none
          | some b => (parseStringBody fuel rest1).map fun r => (b :: r.1, r.2)
    else if c < 0x20 then none
    else if c < 0x80 then (parseStringBody fuel rest).map fun r => (c :: r.1, r.2)
    else
      (parseStringBody fuel ((c :: rest).drop (DecodeRune (c :: rest)).2)).map fun r =>
        (EncodeRune (DecodeRune (c :: rest)).1 ++ r.1, r.2)

/-- Read a string literal after its opening quote. -/
def parseString (s : List Nat) : Option (GoString × List Nat) := parseStringBody s.length s

def isDigit (c : Nat) : Bool := decide (0x30 ≤ c) && decide (c ≤ 0x39)

/-- The leading digits of the input, and what follows them. -/
def spanDigits : List Nat → List Nat × List Nat
  | [] => ([], [])
  | c :: rest => if isDigit c then (c :: (spanDigits rest).1, (spanDigits rest).2) else ([], c :: rest)

/-- The scanner's number states: `-? (0 | [1-9][0-9]*) (. [0-9]+)? ([eE] [+-]? [0-9]+)?`.  The
result is the literal and the input that follows. -/
def parseNumber (s : List Nat) : Option (List Nat × List Nat) :=
  let sign := if s.head? = some 0x2D then [0x2D] else []
  let s1 := s.drop sign.length
  match s1 with
  | [] => none
  | d :: rest =>
    if !isDigit d then none
    else
      let intPart := if d = 0x30 then [d] else d :: (spanDigits rest).1
      let s2 := if d = 0x30 then rest else (spanDigits rest).2
      let frac : Option (List Nat × List Nat) :=
        match s2 with
        | 0x2E :: rest2 =>
          if (spanDigits rest2).1 = [] then none
          else some (0x2E :: (spanDigits rest2).1, (spanDigits rest2).2)
        | _ => some ([], s2)
      match frac with
      | none => none
      | some (fracPart, s3) =>
        match s3 with
        | e :: rest3 =>
          if e = 0x65 ∨ e = 0x45 then
            let esign := if rest3.head? = some 0x2B ∨ rest3.head? = some 0x2D
              then rest3.take 1 else []
            let s4 := rest3.drop esign.length
            if (spanDigits s4).1 = [] then none
            else some (sign ++ intPart ++ fracPart ++ [e] ++ esign ++ (spanDigits s4).1,
              (spanDigits s4).2)
          else some (sign ++ intPart ++ fracPart, s3)
        | [] => some (sign ++ intPart ++ fracPart, s3)

/-- `maxNestingDepth` of the scanner. -/
def maxNestingDepth : Nat := 10000

/-- Strip a fixed prefix. -/
def stripPrefix (p s : List Nat) : Option (List Nat) :=
  if s.take p.length = p then some (s.drop p.length) else none

mutual
/-- Read one JSON value at the head of the input (no leading space); `depth` is the number of
arrays and objects open around it.  The first argument bounds the recursion. -/
def parseValue : Nat → Nat → List Nat → Option (Json × List Nat)
  | 0, _, _ => none
  | _ + 1, _, [] => none
  | fuel + 1, depth, c :: rest =>
    if c = 0x7B then
      if maxNestingDepth ≤ depth then none
      else
        match skipSpace rest with
        | 0x7D :: rest1 => some (.object [], rest1)
        | rest1 => (parseMembers fuel (depth + 1) rest1).map fun r => (.object r.1, r.2)
    else if c = 0x5B then
      if maxNestingDepth ≤ depth then none
      else
        match skipSpace rest with
        | 0x5D :: rest1 => some (.array [], rest1)
        | rest1 => (parseElements fuel (depth + 1) rest1).map fun r => (.array r.1, r.2)
    else if c = 0x22 then (parseString rest).map fun r => (.string r.1, r.2)
    else if c = 0x74 then (stripPrefix (goStr "rue") rest).map fun r => (.bool true, r)
    else if c = 0x66 then (stripPrefix (goStr "alse") rest).map fun r => (.bool false, r)
    else if c = 0x6E then (stripPrefix (goStr "ull") rest).map fun r => (.null, r)
    else (parseNumber (c :: rest)).map fun r => (.number r.1, r.2)
/-- Read the members of an object from its first key on, up to and including the closing brace. -/
def parseMembers : Nat → Nat → List Nat → Option (List (GoString × Json) × List Nat)
  | 0, _, _ => none
  | fuel + 1, depth, s =>
    match s with
    | 0x22 :: rest =>
      match parseString rest with
      | none => none
      | some (key, rest1) =>
        match skipSpace rest1 with
        | 0x3A :: rest2 =>
          match parseValue fuel depth (skipSpace rest2) with
          | none => none
          | some (v, rest3) =>
            match skipSpace rest3 with
            | 0x2C :: rest4 =>
              (parseMembers fuel depth (skipSpace rest4)).map fun r => ((key, v) :: r.1, r.2)
            | 0x7D :: rest4 => some ([(key, v)], rest4)
            | _ => none
        | _ => none
    | _ => none
/-- Read the elements of an array from its first element on, up to and including the closing
bracket. -/
def parseElements : Nat → Nat → List Nat → Option (List Json × List Nat)
  | 0, _, _ => none
  | fuel + 1, depth, s =>
    match parseValue fuel depth s with
    | none => none
    | some (v, rest1) =>
      match skipSpace rest1 with
      | 0x2C :: rest2 => (parseElements fuel depth (skipSpace rest2)).map fun r => (v :: r.1, r.2)
      | 0x5D :: rest2 => some ([v], rest2)
      | _ => none
end

/-- `checkValid` and the decoder's walk, as one pass: the value the whole input holds, or nothing
when the input is not one JSON value between optional spaces. -/
def parseJson (data : List Nat) : Option Json :=
  match parseValue (data.length + 1) 0 (skipSpace data) with
  | none => none
  | some (v, rest) => if skipSpace rest = [] then some v else none

/-! ## `encoding/json`: the struct `urlDocumentContent` -/

/-- The struct `urlDocumentContent` with its two tagged fields. -/
structure urlDocumentContent where
  OriginalUrl : GoString
  ShortUrl : GoString
  deriving DecidableEq, Repr

/-- `json.Marshal(urlDocumentContent{...})`: the two fields in declaration order under their tag
names.  Encoding a struct of two strings cannot fail, so there is no error to return. -/
def Marshal (c : urlDocumentContent) : List Nat :=
  goStr "\x7b\"original_url\":" ++ appendString c.OriginalUrl
    ++ goStr ",\"short_url\":" ++ appendString c.ShortUrl ++ goStr "\x7d"

/-- `foldName`: the key under which a field name is matched without regard to case.  ASCII letters
go to upper case; the two letters outside ASCII whose case orbit holds an ASCII letter, U+017F
and U+212A, go to `S` and `K`; every other byte stays. -/
def foldName : List Nat → List Nat
  | [] => []
  | 0xC5 :: 0xBF :: rest => 0x53 :: foldName rest
  | 0xE2 :: 0x84 :: 0xAA :: rest => 0x4B :: foldName rest
  | c :: rest => (if 0x61 ≤ c ∧ c ≤ 0x7A then c - 0x20 else c) :: foldName rest

/-- The fields of `urlDocumentContent`. -/
inductive Field where
  | OriginalUrl
  | ShortUrl
  deriving DecidableEq, Repr

/-- The field an object key addresses: the field with exactly that name, else the field whose
name matches under `foldName`. -/
def fieldOfKey (key : GoString) : Option Field :=
  if key = goStr "original_url" then some .OriginalUrl
  else if key = goStr "short_url" then some .ShortUrl
  else if foldName key = foldName (goStr "original_url") then some .OriginalUrl
  else if foldName key = foldName (goStr "short_url") then some .ShortUrl
  else none

/-- Store one member of the object: a string is stored in the field its key addresses, `null`
leaves the field alone, any other value is an `UnmarshalTypeError` (the first error is the one
kept), and a key that addresses no field is skipped. -/
def storeMember (st : urlDocumentContent × Option JsonError) (m : GoString × Json) :
    urlDocumentContent × Option JsonError :=
  match fieldOfKey m.1, m.2 with
  | none, _ => st
  | some .OriginalUrl, .string s => ({ st.1 with OriginalUrl := s }, st.2)
  | some .ShortUrl, .string s => ({ st.1 with ShortUrl := s }, st.2)
  | some _, .null => st
  | some _, _ => (st.1, st.2.orElse fun _ => some .UnmarshalTypeError)

/-- `json.Unmarshal(data, &content)` for a `content` of type `urlDocumentContent`: the struct
afterwards and the error returned. -/
def Unmarshal (data : List Nat) (content : urlDocumentContent) :
    urlDocumentContent × Option JsonError :=
  match parseJson data with
  | none => (content, some .SyntaxError)
  | some (.object members) => members.foldl storeMember (content, none)
  | some .null => (content, none)
  | some _ => (content, some .UnmarshalTypeError)

/-! ## elasticsearch.go and keygensvc.go: the interfaces -/

/-- The `error` values of the URL shorten application: the sentinels of `urlshorten.go`,
`elasticsearch.go` and `keygensvc.go`, and `errorString` for any other error value. -/
inductive GoError where
  | ErrCouldNotRefreshElasticsearchIndex
  | ErrCouldNotConstructShortUrl
  | ErrCouldNotAssignShortUrlToOriginalUrl
  | ErrCouldNotCreateNewSlugForShortUrl
  | ErrCouldNotGenerateNewSlugForShortUrl
  | ErrCouldNotConstructDocumentJson
  | ErrCouldNotStoreDocumentForShortUrl
  | ErrCouldNotFindDocumentForShortUrl
  | ErrCouldNotParseDocumentJson
  | ErrEsClientNotInstantiated
  | ErrEsCouldNotFulfillRequest
  | ErrCouldNotParseResponseJson_
  | ErrEsCouldNotDeleteIndices
  | ErrEsCouldNotCreateIndex
  | ErrEsDoesNotContainDocument
  | ErrKgsCouldNotProcessRequest
  | ErrKgsCouldNotFulfillRequest
  | ErrCouldNotParseResponseJson
  | errorString (msg : String)
  deriving DecidableEq, Repr

/-- The struct `Document`; `Content` is a `json.RawMessage`. -/
structure Document where
  Id : GoString
  Content : List Nat
  deriving DecidableEq, Repr

/-- The interface `EsService` over an abstract state `σ` of the document store. -/
structure EsService (σ : Type) where
  PrintInfo : σ → Option GoError × σ
  RefreshIndices : List GoString → σ → Option GoError × σ
  IndexDocument : GoString → Document → σ → (GoString × Option GoError) × σ
  GetDocumentById : GoString → GoString → σ → (Document × Option GoError) × σ

/-- The interface `KgsService` over an abstract state `κ` of the key generation service. -/
structure KgsService (κ : Type) where
  GenerateKey : GoString → Int → κ → (GoString × Option GoError) × κ
  CreateNewKey : GoString → GoString → κ → (GoString × Option GoError) × κ

/-! ## main.go: the global `App` -/

/-- The environment variables of `UrlShortenApp.EnvVars` that the service layer reads. -/
structure EnvVars where
  EsIndex : GoString
  InternalShortHost : GoString
  MinShortUrlPathLength : Int
  MaxShortUrlPathLength : Int
  deriving DecidableEq, Repr

/-- The global `App`, as far as the service layer reads it. -/
structure UrlShortenApp where
  EnvVars : EnvVars
  deriving DecidableEq, Repr

/-! ## urlshorten.go -/

structure urlShortenService (σ κ : Type) where
  EsIndex : GoString
  EsService : EsService σ
  KgsService : KgsService κ

def NewUrlShortenService {σ κ : Type} (esIndex : GoString) (esService : EsService σ)
    (kgsService : KgsService κ) : urlShortenService σ κ :=
  { EsIndex := esIndex, EsService := esService, KgsService := kgsService }

/-- One entry of the call log: a call through `EsService` or `KgsService` with its arguments. -/
inductive Call where
  | PrintInfo
  | RefreshIndices (indices : List GoString)
  | IndexDocument (index : GoString) (document : Document)
  | GetDocumentById (index : GoString) (id : GoString)
  | GenerateKey (sourceName : GoString) (keyLength : Int)
  | CreateNewKey (sourceName : GoString) (key : GoString)
  deriving DecidableEq, Repr

/-- What a call of the service runs against: the document store, the key generation service,
and the log of the calls made so far. -/
structure World (σ κ : Type) where
  es : σ
  kgs : κ
  calls : List Call

/-- A call of `EsService.IndexDocument`. -/
def Call.isIndexDocument : Call → Bool
  | .IndexDocument _ _ => true
  | _ => false

/-- The calls logged between two worlds of one run. -/
def callsSince {σ κ : Type} (before after : World σ κ) : List Call :=
  after.calls.drop before.calls.length

/-- `constructShortUrl`: a custom slug is registered with `CreateNewKey`, otherwise a slug is
asked of `GenerateKey`; the short URL is `fmt.Sprintf("%s/%s", shortHost, slug)`. -/
def constructShortUrl {σ κ : Type} (s : urlShortenService σ κ) (shortHost customSlug : GoString)
    (slugLength : Int) (w : World σ κ) : (GoString × Option GoError) × World σ κ :=
  if customSlug ≠ [] then
    match s.KgsService.CreateNewKey shortHost customSlug w.kgs with
    | ((_, some _), k1) =>
      (([], some .ErrCouldNotCreateNewSlugForShortUrl),
        { w with kgs := k1, calls := w.calls ++ [.CreateNewKey shortHost customSlug] })
    | ((slug, none), k1) =>
      ((shortHost ++ goStr "/" ++ slug, none),
        { w with kgs := k1, calls := w.calls ++ [.CreateNewKey shortHost customSlug] })
  else
    match s.KgsService.GenerateKey shortHost slugLength w.kgs with
    | ((_, some _), k1) =>
      (([], some .ErrCouldNotGenerateNewSlugForShortUrl),
        { w with kgs := k1, calls := w.calls ++ [.GenerateKey shortHost slugLength] })
    | ((slug, none), k1) =>
      ((shortHost ++ goStr "/" ++ slug, none),
        { w with kgs := k1, calls := w.calls ++ [.GenerateKey shortHost slugLength] })

/-- `assignShortUrlToOriginalUrl`: the document is indexed under the index the service was
constructed with. -/
def assignShortUrlToOriginalUrl {σ κ : Type} (s : urlShortenService σ κ) (url shortUrl : GoString)
    (w : World σ κ) : Option GoError × World σ κ :=
  let document : Document :=
    { Id := documentId shortUrl, Content := Marshal { OriginalUrl := url, ShortUrl := shortUrl } }
  match s.EsService.IndexDocument s.EsIndex document w.es with
  | ((_, some _), e1) =>
    (some .ErrCouldNotStoreDocumentForShortUrl,
      { w with es := e1, calls := w.calls ++ [.IndexDocument s.EsIndex document] })
  | ((_, none), e1) =>
    (none, { w with es := e1, calls := w.calls ++ [.IndexDocument s.EsIndex document] })

/-- `GetOriginalUrlForShortUrl`: the document is fetched from the index named by the global
`App.EnvVars.EsIndex`. -/
def GetOriginalUrlForShortUrl {σ κ : Type} (App : UrlShortenApp) (s : urlShortenService σ κ)
    (shortUrl : GoString) (w : World σ κ) : (GoString × Option GoError) × World σ κ :=
  match s.EsService.GetDocumentById App.EnvVars.EsIndex (documentId shortUrl) w.es with
  | ((_, some _), e1) =>
    (([], some .ErrCouldNotFindDocumentForShortUrl),
      { w with es := e1,
               calls := w.calls ++ [.GetDocumentById App.EnvVars.EsIndex (documentId shortUrl)] })
  | ((document, none), e1) =>
    match Unmarshal document.Content { OriginalUrl := [], ShortUrl := [] } with
    | (_, some _) =>
      (([], some .ErrCouldNotParseDocumentJson),
        { w with es := e1,
                 calls := w.calls ++ [.GetDocumentById App.EnvVars.EsIndex (documentId shortUrl)] })
    | (content, none) =>
      ((content.OriginalUrl, none),
        { w with es := e1,
                 calls := w.calls ++ [.GetDocumentById App.EnvVars.EsIndex (documentId shortUrl)] })

/-- `ConstructShortUrlAndAssignToOriginalUrl`. -/
def ConstructShortUrlAndAssignToOriginalUrl {σ κ : Type} (s : urlShortenService σ κ)
    (originalUrl shortHost customSlug : GoString) (slugLength : Int) (w : World σ κ) :
    (GoString × Option GoError) × World σ κ :=
  match constructShortUrl s shortHost customSlug slugLength w with
  | ((_, some _), w1) => (([], some .ErrCouldNotConstructShortUrl), w1)
  | ((shortUrl, none), w1) =>
    match assignShortUrlToOriginalUrl s originalUrl shortUrl w1 with
    | (some _, w2) => (([], some .ErrCouldNotAssignShortUrlToOriginalUrl), w2)
    | (none, w2) => ((shortUrl, none), w2)

/-! ## The document store as a map -/

/-- A document store that behaves as a map from (index, id) to content: the entries written so
far, the latest first. -/
abbrev DocStore := List ((GoString × GoString) × List Nat)

/-- The content stored under (index, id), if any. -/
def DocStore.get (store : DocStore) (index id : GoString) : Option (List Nat) :=
  (store.find? fun e => e.1 = (index, id)).map fun e => e.2

/-- An `EsService` over the map: `IndexDocument` writes the content under (index, document id)
and acknowledges the id; `GetDocumentById` returns the content found there, or
`ErrEsDoesNotContainDocument` with the zero `Document`. -/
def mapEsService : EsService DocStore :=
  { PrintInfo := fun store => (none, store),
    RefreshIndices := fun indices store =>
      (none, store.filter fun e => !indices.contains e.1.1),
    IndexDocument := fun index document store =>
      ((document.Id, none), ((index, document.Id), document.Content) :: store),
    GetDocumentById := fun index id store =>
      match store.get index id with
      | some content => (({ Id := id, Content := content }, none), store)
      | none => (({ Id := [], Content := [] }, some .ErrEsDoesNotContainDocument), store) }

/-! ## urlshorten_test.go: the test doubles -/

/-- `MockEsService` of `urlshorten_test.go`: every method returns the fixed values. -/
def MockEsService (id : GoString) (document : Document) (error : Option GoError) :
    EsService Unit :=
  { PrintInfo := fun u => (error, u),
    RefreshIndices := fun _ u => (error, u),
    IndexDocument := fun _ _ u => ((id, error), u),
    GetDocumentById := fun _ _ u => ((document, error), u) }

/-- `MockKgsService` of `urlshorten_test.go`: both methods return the fixed key and error. -/
def MockKgsService (key : GoString) (error : Option GoError) : KgsService Unit :=
  { GenerateKey := fun _ _ u => ((key, error), u),
    CreateNewKey := fun _ _ u => ((key, error), u) }

/-! ### Worlds and services for the examples -/

/-- The service of the tests, constructed with the index name `some-index`, over the map-backed
document store. -/
def serviceSomeIndex : urlShortenService DocStore Unit :=
  NewUrlShortenService (goStr "some-index") mapEsService (MockKgsService (goStr "gen-slug") none)

/-- The service as `main.go` constructs it: with the index name of `App.EnvVars.EsIndex`. -/
def serviceOf (App : UrlShortenApp) : urlShortenService DocStore Unit :=
  NewUrlShortenService App.EnvVars.EsIndex mapEsService (MockKgsService (goStr "gen-slug") none)

/-- A global `App` whose environment names the index `urls`. -/
def appUrls : UrlShortenApp :=
  { EnvVars := { EsIndex := goStr "urls", InternalShortHost := goStr "http://shortho.st",
                 MinShortUrlPathLength := 4, MaxShortUrlPathLength := 16 } }

/-- An empty document store and an empty call log. -/
def World.empty : World DocStore Unit := { es := [], kgs := (), calls := [] }

/-! ## `encoding/json`: decoding into a struct of scalar fields -/

/-- Read the members of an object as `parseMembers` does, keeping with each value the bytes it
was read from (what a `json.RawMessage` field receives). -/
def parseMembersRaw : Nat → Nat → List Nat → Option (List (GoString × Json × List Nat) × List Nat)
  | 0, _, _ => none
  | fuel + 1, depth, s =>
    match s with
    | 0x22 :: rest =>
      match parseString rest with
      | none => none
      | some (key, rest1) =>
        match skipSpace rest1 with
        | 0x3A :: rest2 =>
          match parseValue fuel depth (skipSpace rest2) with
          | none => none
          | some (v, rest3) =>
            match skipSpace rest3 with
            | 0x2C :: rest4 =>
              (parseMembersRaw fuel depth (skipSpace rest4)).map fun r =>
                ((key, v, (skipSpace rest2).take ((skipSpace rest2).length - rest3.length))
                  :: r.1, r.2)
            | 0x7D :: rest4 =>
              some ([(key, v, (skipSpace rest2).take ((skipSpace rest2).length - rest3.length))],
                rest4)
            | _ => none
        | _ => none
    | _ => none

/-- The members of the object a JSON text holds, each with the bytes of its value; empty when the
text is not an object. -/
def objectMembers (data : List Nat) : List (GoString × Json × List Nat) :=
  match skipSpace data with
  | 0x7B :: rest =>
    match skipSpace rest with
    | 0x7D :: _ => []
    | rest1 =>
      match parseMembersRaw data.length 1 rest1 with
      | some (members, _) => members
      | none => []
  | _ => []

/-- The Go types of the struct fields the two programs decode: `string`, `int`, `bool` and
`json.RawMessage`. -/
inductive FieldKind where
  | string
  | int
  | bool
  | raw
  deriving DecidableEq, Repr

/-- The value of a struct field. -/
inductive FieldValue where
  | string (s : GoString)
  | int (n : Int)
  | bool (b : Bool)
  | raw (data : List Nat)
  deriving DecidableEq, Repr

/-- A struct field as the decoder sees it: the name of its `json` tag and its Go type. -/
structure FieldSpec where
  name : GoString
  kind : FieldKind
  deriving DecidableEq, Repr

/-- The zero value of a Go type. -/
def FieldKind.zero : FieldKind → FieldValue
  | .string => .string []
  | .int => .int 0
  | .bool => .bool false
  | .raw => .raw []

/-- `strconv.ParseInt(s, 10, 64)` on a JSON number literal: an optional minus sign and decimal
digits, within the range of `int64` (a Go `int` on the 64-bit platforms the services run on). -/
def parseInt (literal : List Nat) : Option Int :=
  let digits := if literal.head? = some 0x2D then literal.drop 1 else literal
  let n : Nat := digits.foldl (fun acc d => acc * 10 + (d - 0x30)) 0
  if digits = [] ∨ digits.all isDigit = false then none
  else if literal.head? = some 0x2D then (if n ≤ 2 ^ 63 then some (-(n : Int)) else none)
  else if n < 2 ^ 63 then some (n : Int)
  else none

/-- What the decoder stores into a field of a Go type for a JSON value read from the bytes `raw`:
a `json.RawMessage` takes the bytes of any value; `null` leaves every other field as it is; a
string, a number that `ParseInt` accepts, `true` or `false` is stored into a field of the matching
type; anything else leaves the field as it is and is an `UnmarshalTypeError`. -/
def decodeValue (kind : FieldKind) (v : Json) (raw : List Nat) (old : FieldValue) :
    FieldValue × Option JsonError :=
  match kind, v with
  | .raw, _ => (.raw raw, none)
  | _, .null => (old, none)
  | .string, .string s => (.string s, none)
  | .int, .number literal =>
    match parseInt literal with
    | some n => (.int n, none)
    | none => (old, some .UnmarshalTypeError)
  | .bool, .bool b => (.bool b, none)
  | _, _ => (old, some .UnmarshalTypeError)

/-- The field an object key addresses, with its position among the fields: the field whose name
is exactly the key, else the first field whose name matches the key under `foldName`. -/
def lookupField (fields : List FieldSpec) (key : GoString) : Option (Nat × FieldSpec) :=
  match fields.enum.find? fun f => f.2.name = key with
  | some f => some f
  | none => fields.enum.find? fun f => foldName f.2.name = foldName key

/-- Store one member of the object into the struct; the first error is the one kept, and a key
that addresses no field is skipped. -/
def storeField (fields : List FieldSpec) (st : List FieldValue × Option JsonError)
    (m : GoString × Json × List Nat) : List FieldValue × Option JsonError :=
  match lookupField fields m.1 with
  | none => st
  | some (i, f) =>
    (st.1.set i (decodeValue f.kind m.2.1 m.2.2 (st.1.getD i f.kind.zero)).1,
      st.2.orElse fun _ => (decodeValue f.kind m.2.1 m.2.2 (st.1.getD i f.kind.zero)).2)

/-- `json.Unmarshal(data, &v)` for a struct `v` with the given fields, its field values listed
in declaration order: the values afterwards and the error returned.  A text that is not valid
JSON is a `SyntaxError` and leaves the struct alone; an object is stored member by member; `null`
is a no-op; any other value is an `UnmarshalTypeError`. -/
def unmarshalStruct (fields : List FieldSpec) (data : List Nat) (init : List FieldValue) :
    List FieldValue × Option JsonError :=
  match parseJson data with
  | none => (init, some .SyntaxError)
  | some (.object _) => (objectMembers data).foldl (storeField fields) (init, none)
  | some .null => (init, none)
  | some _ => (init, some .UnmarshalTypeError)

/-- `strconv.AppendInt(dst, n, 10)`, the `%d` of `fmt`: the decimal digits, after a minus sign for
a negative number. -/
def formatInt (n : Int) : GoString :=
  (if n < 0 then [0x2D] else []) ++ (Nat.toDigits 10 n.natAbs).map fun c => c.toNat

/-! ## elasticsearch.go: the service over the Elasticsearch API -/

/-- An `*esapi.Response` or `*http.Response` as far as the code reads it: the status code and the
bytes its body delivers. -/
structure Response where
  StatusCode : Int
  Body : List Nat
  deriving DecidableEq, Repr

/-- The interface `EsApi` over an abstract state `ε` of the Elasticsearch cluster; the receiver
(the service, passed for its `EsClient`) is left out.  Each call returns the response and the
error of the request. -/
structure EsApi (ε : Type) where
  Info : ε → (Response × Option GoError) × ε
  IndicesDelete : List GoString → ε → (Response × Option GoError) × ε
  IndicesCreate : GoString → ε → (Response × Option GoError) × ε
  Index : GoString → List Nat → GoString → ε → (Response × Option GoError) × ε
  Get : GoString → GoString → ε → (Response × Option GoError) × ε

/-- The struct `esService`, without the `EsClient` that only the production `esApi` reads. -/
structure esService (ε : Type) where
  EsApi : EsApi ε

/-- `NewEsService(esAddresses, esApi)`. -/
def NewEsService {ε : Type} (esApi : EsApi ε) : esService ε := { EsApi := esApi }

/-- `parseRawJsonFromHttpBody` of `httphandlers.go`: all the bytes the body delivers (a read
error is ignored, the bytes read so far are kept). -/
def parseRawJsonFromHttpBody (body : List Nat) : List Nat := body

/-- `json.RawMessage.MarshalJSON`: the message itself, `null` for a nil message (the empty
message of the model). -/
def RawMessage.MarshalJSON (m : List Nat) : List Nat :=
  if m = [] then goStr "null" else m

/-- The struct `indexResponseJson`. -/
structure indexResponseJson where
  Result : GoString
  Id : GoString
  Version : Int
  deriving DecidableEq, Repr

def indexResponseJson.fields : List FieldSpec :=
  [⟨goStr "result", .string⟩, ⟨goStr "_id", .string⟩, ⟨goStr "_version", .int⟩]

def indexResponseJson.ofValues : List FieldValue → indexResponseJson
  | [.string result, .string id, .int version] => ⟨result, id, version⟩
  | _ => ⟨[], [], 0⟩

/-- `json.Unmarshal(data, &responseJson)` on a zero `indexResponseJson`. -/
def indexResponseJson.Unmarshal (data : List Nat) : indexResponseJson × Option JsonError :=
  (indexResponseJson.ofValues
      (unmarshalStruct indexResponseJson.fields data [.string [], .string [], .int 0]).1,
    (unmarshalStruct indexResponseJson.fields data [.string [], .string [], .int 0]).2)

/-- `esService.IndexDocument`. -/
def esService.IndexDocument {ε : Type} (s : esService ε) (index : GoString) (document : Document)
    (st : ε) : (GoString × Option GoError) × ε :=
  match s.EsApi.Index index (RawMessage.MarshalJSON document.Content) document.Id st with
  | ((_, some _), st1) => (([], some .ErrEsCouldNotFulfillRequest), st1)
  | ((httpResponse, none), st1) =>
    match indexResponseJson.Unmarshal (parseRawJsonFromHttpBody httpResponse.Body) with
    | (_, some _) => (([], some .ErrCouldNotParseResponseJson_), st1)
    | (responseJson, none) => ((responseJson.Id, none), st1)

/-- The struct `getResponseJson`. -/
structure getResponseJson where
  Found : Bool
  Id : GoString
  Version : Int
  Source : List Nat
  deriving DecidableEq, Repr

def getResponseJson.fields : List FieldSpec :=
  [⟨goStr "found", .bool⟩, ⟨goStr "_id", .string⟩, ⟨goStr "_version", .int⟩,
    ⟨goStr "_source", .raw⟩]

def getResponseJson.ofValues : List FieldValue → getResponseJson
  | [.bool found, .string id, .int version, .raw source] => ⟨found, id, version, source⟩
  | _ => ⟨false, [], 0, []⟩

/-- `json.Unmarshal(data, &responseJson)` on a zero `getResponseJson`. -/
def getResponseJson.Unmarshal (data : List Nat) : getResponseJson × Option JsonError :=
  (getResponseJson.ofValues
      (unmarshalStruct getResponseJson.fields data [.bool false, .string [], .int 0, .raw []]).1,
    (unmarshalStruct getResponseJson.fields data [.bool false, .string [], .int 0, .raw []]).2)

/-- `esService.GetDocumentById`; `Document{}` is the document with the empty id and no content. -/
def esService.GetDocumentById {ε : Type} (s : esService ε) (index id : GoString) (st : ε) :
    (Document × Option GoError) × ε :=
  match s.EsApi.Get index id st with
  | ((_, some _), st1) => (({ Id := [], Content := [] }, some .ErrEsCouldNotFulfillRequest), st1)
  | ((httpResponse, none), st1) =>
    match getResponseJson.Unmarshal (parseRawJsonFromHttpBody httpResponse.Body) with
    | (_, some _) => (({ Id := [], Content := [] }, some .ErrCouldNotParseResponseJson_), st1)
    | (responseJson, none) =>
      if responseJson.Found = false then
        (({ Id := [], Content := [] }, some .ErrEsDoesNotContainDocument), st1)
      else (({ Id := responseJson.Id, Content := responseJson.Source }, none), st1)

/-- `MockEsApi` of `elasticsearch_test.go`: `Index` and `Get` answer with the first status code,
body and error of the three lists. -/
def MockEsApi (statusCodes : List Int) (errors : List (Option GoError)) (bodies : List (List Nat)) :
    EsApi Unit :=
  { Info := fun u => ((⟨statusCodes.getD 0 0, bodies.getD 0 []⟩, errors.getD 0 none), u),
    IndicesDelete := fun _ u =>
      ((⟨statusCodes.getD 0 0, bodies.getD 0 []⟩, errors.getD 0 none), u),
    IndicesCreate := fun _ u =>
      ((⟨statusCodes.getD 1 0, bodies.getD 1 []⟩, errors.getD 1 none), u),
    Index := fun _ _ _ u => ((⟨statusCodes.getD 0 0, bodies.getD 0 []⟩, errors.getD 0 none), u),
    Get := fun _ _ u => ((⟨statusCodes.getD 0 0, bodies.getD 0 []⟩, errors.getD 0 none), u) }

/-! ## keygensvc.go: the client of the key generation service -/

/-- The interface `KgsClient` over an abstract state `γ` of the remote service. -/
structure KgsClient (γ : Type) where
  PostJson : GoString → List Nat → γ → (Response × Option GoError) × γ

structure kgsService (γ : Type) where
  Client : KgsClient γ

/-- `NewKgsService(kgsClient)`. -/
def NewKgsService {γ : Type} (kgsClient : KgsClient γ) : kgsService γ := { Client := kgsClient }

/-- `http.StatusCreated`. -/
def StatusCreated : Int := 201

/-- `json.Marshal(generateKeyRequestJson{SourceName: sourceName, KeyLength: keyLength})`. -/
def generateKeyRequestJson.Marshal (sourceName : GoString) (keyLength : Int) : List Nat :=
  goStr "\x7b\"source_name\":" ++ appendString sourceName ++ goStr ",\"key_length\":"
    ++ formatInt keyLength ++ goStr "\x7d"

/-- `json.Marshal(newKeyRequestJson{SourceName: sourceName, Key: key})`. -/
def newKeyRequestJson.Marshal (sourceName key : GoString) : List Nat :=
  goStr "\x7b\"source_name\":" ++ appendString sourceName ++ goStr ",\"key\":"
    ++ appendString key ++ goStr "\x7d"

/-- The struct `generateKeyResponseJson`. -/
structure generateKeyResponseJson where
  Key : GoString
  deriving DecidableEq, Repr

def generateKeyResponseJson.fields : List FieldSpec := [⟨goStr "key", .string⟩]

def generateKeyResponseJson.ofValues : List FieldValue → generateKeyResponseJson
  | [.string key] => ⟨key⟩
  | _ => ⟨[]⟩

/-- `json.Unmarshal(rawJson, &responseJson)` on a zero `generateKeyResponseJson`. -/
def generateKeyResponseJson.Unmarshal (data : List Nat) :
    generateKeyResponseJson × Option JsonError :=
  (generateKeyResponseJson.ofValues
      (unmarshalStruct generateKeyResponseJson.fields data [.string []]).1,
    (unmarshalStruct generateKeyResponseJson.fields data [.string []]).2)

/-- `kgsService.GenerateKey`. -/
def kgsService.GenerateKey {γ : Type} (s : kgsService γ) (sourceName : GoString) (keyLength : Int)
    (st : γ) : (GoString × Option GoError) × γ :=
  match s.Client.PostJson (goStr "/key/generate")
      (generateKeyRequestJson.Marshal sourceName keyLength) st with
  | ((_, some _), st1) => (([], some .ErrKgsCouldNotProcessRequest), st1)
  | ((httpResponse, none), st1) =>
    if httpResponse.StatusCode ≠ StatusCreated then
      (([], some .ErrKgsCouldNotFulfillRequest), st1)
    else
      match generateKeyResponseJson.Unmarshal (parseRawJsonFromHttpBody httpResponse.Body) with
      | (_, some _) => (([], some .ErrCouldNotParseResponseJson), st1)
      | (responseJson, none) => ((responseJson.Key, none), st1)

/-- `kgsService.CreateNewKey`. -/
def kgsService.CreateNewKey {γ : Type} (s : kgsService γ) (sourceName key : GoString) (st : γ) :
    (GoString × Option GoError) × γ :=
  match s.Client.PostJson (goStr "/key/new") (newKeyRequestJson.Marshal sourceName key) st with
  | ((_, some _), st1) => (([], some .ErrKgsCouldNotProcessRequest), st1)
  | ((httpResponse, none), st1) =>
    if httpResponse.StatusCode ≠ StatusCreated then
      (([], some .ErrKgsCouldNotFulfillRequest), st1)
    else ((key, none), st1)

/-- `MockKgsClient` of `keygensvc_test.go`: `PostJson` answers with the fixed response and
error. -/
def MockKgsClient (response : Response) (error : Option GoError) : KgsClient Unit :=
  { PostJson := fun _ _ u => ((response, error), u) }

end urlshortenapp

namespace keygensvc

open urlshortenapp (FieldSpec FieldKind FieldValue JsonError unmarshalStruct appendString
  formatInt)

/-! ## keygen.go: the interface `KeyGenService` -/

/-- The interface `KeyGenService` over an abstract state `κ` of the implementation. -/
structure KeyGenService (κ : Type) where
  GetGeneratedKey : GoString → Int → κ → (GoString × Option GoError) × κ
  StoreCustomKey : GoString → GoString → κ → Option GoError × κ

/-- The struct `keyGenService` as an implementation of `KeyGenService`, which is how
`NewKeyGenService` returns it. -/
def keyGenService.toKeyGenService {σ : Type} (kg : keyGenService σ) : KeyGenService (World σ) :=
  { GetGeneratedKey := GetGeneratedKey kg, StoreCustomKey := StoreCustomKey kg }

/-- `MockKgService` of `httphandlers_test.go`: both methods return the fixed values. -/
def MockKgService (key : GoString) (error : Option GoError) : KeyGenService Unit :=
  { GetGeneratedKey := fun _ _ u => ((key, error), u),
    StoreCustomKey := fun _ _ u => (error, u) }

/-! ## main.go: the global `App` -/

/-- The environment variables of `KeyGenSvc.EnvVars` that the handlers read. -/
structure EnvVars where
  MaxKeyLength : Int
  MinKeyLength : Int
  MinSourceNameLength : Int
  deriving DecidableEq, Repr

/-- The global `App`, as far as the handlers read it. -/
structure KeyGenSvc (κ : Type) where
  EnvVars : EnvVars
  Kg : KeyGenService κ

/-! ## `net/http` -/

/-- An `*http.Request` as far as the handlers read it: the method and the bytes the body
delivers. -/
structure Request where
  Method : GoString
  Body : List Nat
  deriving DecidableEq, Repr

/-- The `http.ResponseWriter` a handler writes to, as `httptest.ResponseRecorder` records it: the
status code, the headers, the body, and whether the status line is written. -/
structure ResponseRecorder where
  Code : Int
  HeaderMap : List (GoString × GoString)
  Body : List Nat
  wroteHeader : Bool
  deriving DecidableEq, Repr

/-- `httptest.NewRecorder()`. -/
def NewRecorder : ResponseRecorder :=
  { Code := 200, HeaderMap := [], Body := [], wroteHeader := false }

/-- `w.Header().Set(key, value)`: the value replaces what the header held. -/
def ResponseRecorder.HeaderSet (w : ResponseRecorder) (key value : GoString) : ResponseRecorder :=
  { w with HeaderMap := (w.HeaderMap.filter fun h => h.1 ≠ key) ++ [(key, value)] }

/-- `w.Header().Get(key)`: the value of the header, the empty string when it is not set. -/
def ResponseRecorder.HeaderGet (w : ResponseRecorder) (key : GoString) : GoString :=
  ((w.HeaderMap.find? fun h => h.1 = key).map fun h => h.2).getD []

/-- `w.WriteHeader(code)`: the first call fixes the status code. -/
def ResponseRecorder.WriteHeader (w : ResponseRecorder) (code : Int) : ResponseRecorder :=
  if w.wroteHeader then w else { w with Code := code, wroteHeader := true }

/-- `w.Write(buf)`: the status line is written with 200 if it is not written yet. -/
def ResponseRecorder.Write (w : ResponseRecorder) (buf : List Nat) : ResponseRecorder :=
  { w.WriteHeader 200 with Body := (w.WriteHeader 200).Body ++ buf }

/-- `http.Error(w, error, code)`: a plain-text reply with the message and a newline. -/
def Error (w : ResponseRecorder) (error : GoString) (code : Int) : ResponseRecorder :=
  ((((w.HeaderSet (goStr "Content-Type") (goStr "text/plain; charset=utf-8")).HeaderSet
    (goStr "X-Content-Type-Options") (goStr "nosniff")).WriteHeader code).Write
      (error ++ goStr "\n"))

def MethodPost : GoString := goStr "POST"

def StatusCreated : Int := 201

def StatusBadRequest : Int := 400

def StatusMethodNotAllowed : Int := 405

def StatusUnprocessableEntity : Int := 422

def StatusInternalServerError : Int := 500

/-! ## httphandlers.go -/

/-- One entry of the call log: a call through `App.Kg` with its arguments. -/
inductive KgCall where
  | GetGeneratedKey (sourceName : GoString) (keyLength : Int)
  | StoreCustomKey (sourceName : GoString) (customKey : GoString)
  deriving DecidableEq, Repr

/-- What a handler runs against: the state behind `App.Kg` and the log of the calls made through
it. -/
structure HandlerWorld (κ : Type) where
  kg : κ
  calls : List KgCall

/-- The struct `generateKeyRequestJson`. -/
structure generateKeyRequestJson where
  SourceName : GoString
  KeyLength : Int
  deriving DecidableEq, Repr

def generateKeyRequestJson.fields : List FieldSpec :=
  [⟨goStr "source_name", .string⟩, ⟨goStr "key_length", .int⟩]

def generateKeyRequestJson.ofValues : List FieldValue → generateKeyRequestJson
  | [.string sourceName, .int keyLength] => ⟨sourceName, keyLength⟩
  | _ => ⟨[], 0⟩

/-- `json.Unmarshal(data, &requestJson)` on a zero `generateKeyRequestJson`. -/
def generateKeyRequestJson.Unmarshal (data : List Nat) :
    generateKeyRequestJson × Option JsonError :=
  (generateKeyRequestJson.ofValues
      (unmarshalStruct generateKeyRequestJson.fields data [.string [], .int 0]).1,
    (unmarshalStruct generateKeyRequestJson.fields data [.string [], .int 0]).2)

/-- `json.Marshal(generateKeyResponseJson{Key: key})`. -/
def generateKeyResponseJson.Marshal (key : GoString) : List Nat :=
  goStr "\x7b\"key\":" ++ appendString key ++ goStr "\x7d"

/-- `HandleGenerateKeyRequest`, writing to a fresh response writer. -/
def HandleGenerateKeyRequest {κ : Type} (App : KeyGenSvc κ) (r : Request) (w : HandlerWorld κ) :
    ResponseRecorder × HandlerWorld κ :=
  if r.Method ≠ MethodPost then
    (Error (NewRecorder.HeaderSet (goStr "Allow") MethodPost) [] StatusMethodNotAllowed, w)
  else
    match generateKeyRequestJson.Unmarshal r.Body with
    | (_, some _) =>
      (Error NewRecorder (goStr "Could not parse request JSON.") StatusUnprocessableEntity, w)
    | (requestJson, none) =>
      if requestJson.KeyLength < App.EnvVars.MinKeyLength
          ∨ requestJson.KeyLength > App.EnvVars.MaxKeyLength then
        (Error NewRecorder
          (goStr "Key length is invalid, must be >" ++ formatInt App.EnvVars.MinKeyLength
            ++ goStr " and <" ++ formatInt App.EnvVars.MaxKeyLength) StatusBadRequest, w)
      else if (requestJson.SourceName.length : Int) < App.EnvVars.MinSourceNameLength then
        (Error NewRecorder
          (goStr "Source name length is invalid, must be >"
            ++ formatInt App.EnvVars.MinSourceNameLength) StatusBadRequest, w)
      else
        match App.Kg.GetGeneratedKey requestJson.SourceName requestJson.KeyLength w.kg with
        | ((_, some _), k1) =>
          (Error NewRecorder (goStr "Internal server error: Failed to process request.")
              StatusInternalServerError,
            { kg := k1,
              calls := w.calls
                ++ [.GetGeneratedKey requestJson.SourceName requestJson.KeyLength] })
        | ((key, none), k1) =>
          ((((NewRecorder.HeaderSet (goStr "Content-Type") (goStr "application/json")).WriteHeader
              StatusCreated).Write (generateKeyResponseJson.Marshal key)),
            { kg := k1,
              calls := w.calls
                ++ [.GetGeneratedKey requestJson.SourceName requestJson.KeyLength] })

/-- The struct `newKeyRequestJson`. -/
structure newKeyRequestJson where
  SourceName : GoString
  Key : GoString
  deriving DecidableEq, Repr

def newKeyRequestJson.fields : List FieldSpec :=
  [⟨goStr "source_name", .string⟩, ⟨goStr "key", .string⟩]

def newKeyRequestJson.ofValues : List FieldValue → newKeyRequestJson
  | [.string sourceName, .string key] => ⟨sourceName, key⟩
  | _ => ⟨[], []⟩

/-- `json.Unmarshal(data, &requestJson)` on a zero `newKeyRequestJson`. -/
def newKeyRequestJson.Unmarshal (data : List Nat) : newKeyRequestJson × Option JsonError :=
  (newKeyRequestJson.ofValues
      (unmarshalStruct newKeyRequestJson.fields data [.string [], .string []]).1,
    (unmarshalStruct newKeyRequestJson.fields data [.string [], .string []]).2)

/-- `HandleNewKeyRequest`, writing to a fresh response writer. -/
def HandleNewKeyRequest {κ : Type} (App : KeyGenSvc κ) (r : Request) (w : HandlerWorld κ) :
    ResponseRecorder × HandlerWorld κ :=
  if r.Method ≠ MethodPost then
    (Error (NewRecorder.HeaderSet (goStr "Allow") MethodPost) [] StatusMethodNotAllowed, w)
  else
    match newKeyRequestJson.Unmarshal r.Body with
    | (_, some _) =>
      (Error NewRecorder (goStr "Could not parse request JSON.") StatusUnprocessableEntity, w)
    | (requestJson, none) =>
      if (requestJson.Key.length : Int) < App.EnvVars.MinKeyLength
          ∨ (requestJson.Key.length : Int) > App.EnvVars.MaxKeyLength then
        (Error NewRecorder
          (goStr "Key length is invalid, must be >" ++ formatInt App.EnvVars.MinKeyLength
            ++ goStr " and <" ++ formatInt App.EnvVars.MaxKeyLength) StatusBadRequest, w)
      else if requestJson.SourceName ≠ []
          ∧ (requestJson.SourceName.length : Int) < App.EnvVars.MinSourceNameLength then
        (Error NewRecorder
          (goStr "Source name length is invalid, must be >"
            ++ formatInt App.EnvVars.MinSourceNameLength) StatusBadRequest, w)
      else
        match App.Kg.StoreCustomKey requestJson.SourceName requestJson.Key w.kg with
        | (some _, k1) =>
          (Error NewRecorder (goStr "Internal server error: Failed to process request.")
              StatusInternalServerError,
            { kg := k1,
              calls := w.calls ++ [.StoreCustomKey requestJson.SourceName requestJson.Key] })
        | (none, k1) =>
          (NewRecorder.WriteHeader StatusCreated,
            { kg := k1,
              calls := w.calls ++ [.StoreCustomKey requestJson.SourceName requestJson.Key] })

/-- The environment of the examples: keys of 4 to 16 characters, source names of at least 4. -/
def exampleEnvVars : EnvVars := { MaxKeyLength := 16, MinKeyLength := 4, MinSourceNameLength := 4 }

/-- The global `App` of the handler tests: `App.Kg` is the mock. -/
def appMock (key : GoString) (error : Option GoError) : KeyGenSvc Unit :=
  { EnvVars := exampleEnvVars, Kg := MockKgService key error }

/-- The global `App` as `main.go` builds it: `App.Kg` is the service over PostgreSQL. -/
def appPg : KeyGenSvc (World PgState) :=
  { EnvVars := exampleEnvVars, Kg := pgKeyGenService.toKeyGenService }

end keygensvc

namespace urlshortenapp

open keygensvc (ResponseRecorder NewRecorder)

/-! ## `regexp`: the patterns of the handlers and of the routes

Every pattern of the program has the form `^ item ... item $` with items of three kinds: a
literal, an alternation of literals, and `[class]+`.  `MatchString` of such a pattern asks whether
the whole string splits into parts that match the items in turn.  Go matches runes decoded from
UTF-8; as every literal and every class of the patterns is ASCII, a byte from `0x80` on belongs to
a rune that no item matches, and matching byte by byte gives the same answer. -/

/-- A character class: a list of inclusive ranges of bytes. -/
abbrev CharClass := List (Nat × Nat)

/-- Whether a byte lies in a class. -/
def CharClass.mem (cls : CharClass) (c : Nat) : Bool :=
  cls.any fun r => decide (r.1 ≤ c) && decide (c ≤ r.2)

/-- An item of a pattern: a literal, an alternation of literals `(a|b)`, or `[class]+`. -/
inductive Item where
  | lit (s : GoString)
  | alt (choices : List GoString)
  | plus (cls : CharClass)
  deriving DecidableEq, Repr

/-- A compiled `*regexp.Regexp` of the form `^ item ... item $`. -/
structure Regexp where
  items : List Item
  deriving DecidableEq, Repr

/-- The input after a literal, when the input starts with it. -/
def stripLiteral (p s : List Nat) : Option (List Nat) :=
  if s.take p.length = p then some (s.drop p.length) else none

/-- One or more bytes of the class, followed by input that the rest of the pattern accepts:
every split is tried. -/
def matchPlus (cls : CharClass) (next : List Nat → Bool) : List Nat → Bool
  | [] => false
  | c :: rest => cls.mem c && (next rest || matchPlus cls next rest)

/-- Whether the whole input matches the items in turn. -/
def matchItems : List Item → List Nat → Bool
  | [], s => s.isEmpty
  | .lit p :: items, s =>
    match stripLiteral p s with
    | some rest => matchItems items rest
    | none => false
  | .alt choices :: items, s =>
    choices.any fun p =>
      match stripLiteral p s with
      | some rest => matchItems items rest
      | none => false
  | .plus cls :: items, s => matchPlus cls (matchItems items) s

/-- `re.MatchString(s)`. -/
def Regexp.MatchString (re : Regexp) (s : GoString) : Bool := matchItems re.items s

/-- The ranges `a-z`, `A-Z` and `0-9`. -/
def alnum : CharClass := [(0x61, 0x7A), (0x41, 0x5A), (0x30, 0x39)]

/-- The class `[a-zA-Z0-9\.\/\?\=\_\-]`. -/
def originalUrlClass : CharClass :=
  alnum ++ [(0x2E, 0x2E), (0x2F, 0x2F), (0x3F, 0x3F), (0x3D, 0x3D), (0x5F, 0x5F), (0x2D, 0x2D)]

/-- The class `[a-zA-Z0-9\.]`. -/
def hostClass : CharClass := alnum ++ [(0x2E, 0x2E)]

/-- The class `[a-zA-Z0-9\-_]`. -/
def slugClass : CharClass := alnum ++ [(0x2D, 0x2D), (0x5F, 0x5F)]

/-- The pattern `^(http|https)://[a-zA-Z0-9\.\/\?\=\_\-]+$` of `urlShortenRequestJson.Validate`. -/
def originalUrlTemplate : Regexp :=
  ⟨[.alt [goStr "http", goStr "https"], .lit (goStr "://"), .plus originalUrlClass]⟩

/-- The pattern `^(http|https)://[a-zA-Z0-9\.]+$` of `urlShortenRequestJson.Validate`. -/
def shortHostTemplate : Regexp :=
  ⟨[.alt [goStr "http", goStr "https"], .lit (goStr "://"), .plus hostClass]⟩

/-- The pattern `^(http|https)://[a-zA-Z0-9\.]+/[a-zA-Z0-9\-_]+$` of
`urlRedirectExternalRequestJson.Validate`. -/
def shortUrlTemplate : Regexp :=
  ⟨[.alt [goStr "http", goStr "https"], .lit (goStr "://"), .plus hostClass, .lit (goStr "/"),
    .plus slugClass]⟩

/-! ## urlshorten.go: the interface `UrlShortenService` -/

/-- The interface `UrlShortenService` over an abstract state `υ` of the implementation. -/
structure UrlShortenService (υ : Type) where
  TestElasticsearchConnection : υ → Bool × υ
  RefreshElasticsearchIndex : υ → Option GoError × υ
  ConstructShortUrlAndAssignToOriginalUrl :
    GoString → GoString → GoString → Int → υ → (GoString × Option GoError) × υ
  constructShortUrl : GoString → GoString → Int → υ → (GoString × Option GoError) × υ
  assignShortUrlToOriginalUrl : GoString → GoString → υ → Option GoError × υ
  GetOriginalUrlForShortUrl : GoString → υ → (GoString × Option GoError) × υ

/-- `TestElasticsearchConnection`. -/
def TestElasticsearchConnection {σ κ : Type} (s : urlShortenService σ κ) (w : World σ κ) :
    Bool × World σ κ :=
  match s.EsService.PrintInfo w.es with
  | (some _, e1) => (false, { w with es := e1, calls := w.calls ++ [.PrintInfo] })
  | (none, e1) => (true, { w with es := e1, calls := w.calls ++ [.PrintInfo] })

/-- `RefreshElasticsearchIndex`. -/
def RefreshElasticsearchIndex {σ κ : Type} (s : urlShortenService σ κ) (w : World σ κ) :
    Option GoError × World σ κ :=
  match s.EsService.RefreshIndices [s.EsIndex] w.es with
  | (some _, e1) =>
    (some .ErrCouldNotRefreshElasticsearchIndex,
      { w with es := e1, calls := w.calls ++ [.RefreshIndices [s.EsIndex]] })
  | (none, e1) => (none, { w with es := e1, calls := w.calls ++ [.RefreshIndices [s.EsIndex]] })

/-- The struct `urlShortenService` as an implementation of `UrlShortenService`, which is how
`NewUrlShortenService` returns it; `GetOriginalUrlForShortUrl` reads the global `App`. -/
def urlShortenService.toUrlShortenService {σ κ : Type} (App : UrlShortenApp)
    (s : urlShortenService σ κ) : UrlShortenService (World σ κ) :=
  { TestElasticsearchConnection := TestElasticsearchConnection s,
    RefreshElasticsearchIndex := RefreshElasticsearchIndex s,
    ConstructShortUrlAndAssignToOriginalUrl := ConstructShortUrlAndAssignToOriginalUrl s,
    constructShortUrl := constructShortUrl s,
    assignShortUrlToOriginalUrl := assignShortUrlToOriginalUrl s,
    GetOriginalUrlForShortUrl := GetOriginalUrlForShortUrl App s }

/-- `MockUsService` of `httphandlers_test.go`: every method returns the fixed values. -/
def MockUsService (esIsLive : Bool) (error : Option GoError) (shortUrl originalUrl : GoString) :
    UrlShortenService Unit :=
  { TestElasticsearchConnection := fun u => (esIsLive, u),
    RefreshElasticsearchIndex := fun u => (error, u),
    ConstructShortUrlAndAssignToOriginalUrl := fun _ _ _ _ u => ((shortUrl, error), u),
    constructShortUrl := fun _ _ _ u => (([], none), u),
    assignShortUrlToOriginalUrl := fun _ _ u => (none, u),
    GetOriginalUrlForShortUrl := fun _ u => ((originalUrl, error), u) }

/-! ## httphandlers.go -/

/-- An `*http.Request` as far as the handlers and the routes read it: the method, `URL.Path` and
the bytes the body delivers. -/
structure Request where
  Method : GoString
  Path : GoString
  Body : List Nat
  deriving DecidableEq, Repr

/-- One entry of the call log: a call through `App.UsService` with its arguments. -/
inductive UsCall where
  | TestElasticsearchConnection
  | ConstructShortUrlAndAssignToOriginalUrl (originalUrl shortHost customSlug : GoString)
      (slugLength : Int)
  | GetOriginalUrlForShortUrl (shortUrl : GoString)
  deriving DecidableEq, Repr

/-- What a handler runs against: the state behind `App.UsService` and the log of the calls made
through it. -/
structure HandlerWorld (υ : Type) where
  us : υ
  calls : List UsCall

/-- The global `App` as the handlers read it: the environment and `App.UsService`. -/
structure ServingApp (υ : Type) extends UrlShortenApp where
  UsService : UrlShortenService υ

/-- The struct `Validation`: the list of validation errors (nil when empty). -/
structure Validation where
  Errors : List GoString
  deriving DecidableEq, Repr

/-- `validation.Append(errorMessage)`. -/
def Validation.Append (validation : Validation) (errorMessage : GoString) : Validation :=
  { Errors := validation.Errors ++ [errorMessage] }

/-- `validation.Fails()`. -/
def Validation.Fails (validation : Validation) : Bool := decide (validation.Errors.length > 0)

def ResDefaultMessage : GoString :=
  goStr "Use a shortened link or use /url/shorten to shorten URLs."

def ResApplicationUnhealthy : GoString := goStr "Application not healthy"

def ResApplicationHealthy : GoString := goStr "Application healthy"

def ResMethodNotAllowed : GoString :=
  goStr "Method not allowed: see Allow header for allowed methods."

def ResCouldNotParseRequestJson : GoString := goStr "Could not parse request JSON"

def MethodGet : GoString := goStr "GET"

def MethodPost : GoString := goStr "POST"

/-- `strings.Join(elems, sep)`. -/
def stringsJoin : List GoString → GoString → GoString
  | [], _ => []
  | [a], _ => a
  | a :: b :: rest, sep => a ++ sep ++ stringsJoin (b :: rest) sep

/-- `handleCreated`. -/
def handleCreated (w : ResponseRecorder) (responseJson : List Nat) : ResponseRecorder :=
  ((w.HeaderSet (goStr "Content-Type") (goStr "application/json")).WriteHeader 201).Write
    responseJson

/-- `handleFound`. -/
def handleFound (w : ResponseRecorder) (redirectUrl : GoString) : ResponseRecorder :=
  ((w.HeaderSet (goStr "Content-Type") []).HeaderSet (goStr "Location") redirectUrl).WriteHeader
    302

/-- `handleBadRequest`. -/
def handleBadRequest (w : ResponseRecorder) (responseJson : List Nat) : ResponseRecorder :=
  ((w.HeaderSet (goStr "Content-Type") (goStr "application/json")).WriteHeader 400).Write
    responseJson

/-- `handleMethodNotAllowed`. -/
def handleMethodNotAllowed (w : ResponseRecorder) (allowedMethods : List GoString) :
    ResponseRecorder :=
  ((((w.HeaderSet (goStr "Allow") (stringsJoin allowedMethods (goStr ","))).HeaderSet
    (goStr "Content-Type") (goStr "text/plain; charset=utf-8")).HeaderSet
    (goStr "X-Content-Type-Options") (goStr "nosniff")).WriteHeader 405).Write ResMethodNotAllowed

/-- `handleUnprocessableEntity`. -/
def handleUnprocessableEntity (w : ResponseRecorder) (message : GoString) : ResponseRecorder :=
  (((w.HeaderSet (goStr "Content-Type") (goStr "text/plain; charset=utf-8")).HeaderSet
    (goStr "X-Content-Type-Options") (goStr "nosniff")).WriteHeader 422).Write
      (goStr "Unprocessable entity: " ++ message ++ goStr ".")

/-- `handleInternalServerError`. -/
def handleInternalServerError (w : ResponseRecorder) (message : GoString) : ResponseRecorder :=
  (((w.HeaderSet (goStr "Content-Type") (goStr "text/plain; charset=utf-8")).HeaderSet
    (goStr "X-Content-Type-Options") (goStr "nosniff")).WriteHeader 500).Write
      (goStr "Internal server error: " ++ message ++ goStr ".")

/-- `handleServiceUnavailable`. -/
def handleServiceUnavailable (w : ResponseRecorder) (message : GoString) : ResponseRecorder :=
  (((w.HeaderSet (goStr "Content-Type") (goStr "text/plain; charset=utf-8")).HeaderSet
    (goStr "X-Content-Type-Options") (goStr "nosniff")).WriteHeader 503).Write
      (goStr "Service unavailable: " ++ message ++ goStr ".")

/-- `isMethodAllowed`. -/
def isMethodAllowed (method : GoString) : List GoString → Bool
  | [] => false
  | allowedMethod :: rest => if method = allowedMethod then true else isMethodAllowed method rest

/-- A handler: it writes to the response writer it is given and may call `App.UsService`. -/
abbrev Handler (υ : Type) :=
  ResponseRecorder → Request → HandlerWorld υ → ResponseRecorder × HandlerWorld υ

/-- `HandleIndexRequest`. -/
def HandleIndexRequest {υ : Type} : Handler υ :=
  fun w _ hw => (w.Write ResDefaultMessage, hw)

/-- `App.VerifyHealth()` followed by the reply of `HandleHealthcheckRequest`. -/
def HandleHealthcheckRequest {υ : Type} (App : ServingApp υ) : Handler υ :=
  fun w _ hw =>
    match App.UsService.TestElasticsearchConnection hw.us with
    | (false, u1) =>
      (handleServiceUnavailable w ResApplicationUnhealthy,
        { us := u1, calls := hw.calls ++ [.TestElasticsearchConnection] })
    | (true, u1) =>
      (w.Write ResApplicationHealthy,
        { us := u1, calls := hw.calls ++ [.TestElasticsearchConnection] })

/-- The struct `urlShortenRequestJson`. -/
structure urlShortenRequestJson where
  OriginalUrl : GoString
  ShortUrlHost : GoString
  CustomSlug : GoString
  SlugLength : Int
  deriving DecidableEq, Repr

def urlShortenRequestJson.fields : List FieldSpec :=
  [⟨goStr "original_url", .string⟩, ⟨goStr "short_url_host", .string⟩,
    ⟨goStr "custom_slug", .string⟩, ⟨goStr "slug_length", .int⟩]

def urlShortenRequestJson.ofValues : List FieldValue → urlShortenRequestJson
  | [.string originalUrl, .string shortUrlHost, .string customSlug, .int slugLength] =>
    ⟨originalUrl, shortUrlHost, customSlug, slugLength⟩
  | _ => ⟨[], [], [], 0⟩

/-- `json.Unmarshal(rawJson, &requestJson)` on a zero `urlShortenRequestJson`. -/
def urlShortenRequestJson.Unmarshal (data : List Nat) : urlShortenRequestJson × Option JsonError :=
  (urlShortenRequestJson.ofValues
      (unmarshalStruct urlShortenRequestJson.fields data
        [.string [], .string [], .string [], .int 0]).1,
    (unmarshalStruct urlShortenRequestJson.fields data
        [.string [], .string [], .string [], .int 0]).2)

/-- The check of the original URL in `urlShortenRequestJson.Validate`. -/
def validateOriginalUrl (r : urlShortenRequestJson) (validation : Validation) : Validation :=
  if !originalUrlTemplate.MatchString r.OriginalUrl then
    validation.Append (goStr "Provided original URL is invalid: " ++ r.OriginalUrl)
  else validation

/-- The check of the short URL host in `urlShortenRequestJson.Validate`. -/
def validateShortUrlHost (r : urlShortenRequestJson) (validation : Validation) : Validation :=
  if r.ShortUrlHost ≠ [] then
    if !shortHostTemplate.MatchString r.ShortUrlHost then
      validation.Append (goStr "Provided short host is invalid: " ++ r.ShortUrlHost)
    else validation
  else validation

/-- The check of the custom slug in `urlShortenRequestJson.Validate`: its length only. -/
def validateCustomSlug (App : UrlShortenApp) (r : urlShortenRequestJson)
    (validation : Validation) : Validation :=
  if r.CustomSlug ≠ [] then
    if (r.CustomSlug.length : Int) < App.EnvVars.MinShortUrlPathLength
        ∨ (r.CustomSlug.length : Int) > App.EnvVars.MaxShortUrlPathLength then
      validation.Append
        (goStr "Provided slug has incorrect length, minimum is "
          ++ formatInt App.EnvVars.MinShortUrlPathLength ++ goStr " and maximum is "
          ++ formatInt App.EnvVars.MaxShortUrlPathLength)
    else validation
  else validation

/-- The check of the slug length in `urlShortenRequestJson.Validate`. -/
def validateSlugLength (App : UrlShortenApp) (r : urlShortenRequestJson)
    (validation : Validation) : Validation :=
  if r.SlugLength > 0 then
    if r.SlugLength < App.EnvVars.MinShortUrlPathLength
        ∨ r.SlugLength > App.EnvVars.MaxShortUrlPathLength then
      validation.Append
        (goStr "Requested slug length is too short, minimum is "
          ++ formatInt App.EnvVars.MinShortUrlPathLength)
    else validation
  else validation

/-- `urlShortenRequestJson.Validate`: the four checks in turn, on a `Validation` without
errors. -/
def urlShortenRequestJson.Validate (App : UrlShortenApp) (r : urlShortenRequestJson) :
    Validation :=
  validateSlugLength App r
    (validateCustomSlug App r (validateShortUrlHost r (validateOriginalUrl r ⟨[]⟩)))

/-- `json.Marshal` of a `[]ValidationError`: `null` for the nil slice, else the array of the
strings. -/
def marshalValidationErrors (errors : List GoString) : List Nat :=
  if errors = [] then goStr "null"
  else goStr "[" ++ stringsJoin (errors.map appendString) (goStr ",") ++ goStr "]"

/-- `json.Marshal(urlShortenResponseJson{...})`. -/
def urlShortenResponseJson.Marshal (originalUrl shortUrl : GoString)
    (validationErrors : List GoString) : List Nat :=
  goStr "\x7b\"original_url\":" ++ appendString originalUrl ++ goStr ",\"short_url\":"
    ++ appendString shortUrl ++ goStr ",\"validation_errors\":"
    ++ marshalValidationErrors validationErrors ++ goStr "\x7d"

/-- `HandleUrlShortenRequest`. -/
def HandleUrlShortenRequest {υ : Type} (App : ServingApp υ) : Handler υ :=
  fun w r hw =>
    if !isMethodAllowed r.Method [MethodPost] then (handleMethodNotAllowed w [MethodPost], hw)
    else
      match urlShortenRequestJson.Unmarshal (parseRawJsonFromHttpBody r.Body) with
      | (_, some _) => (handleUnprocessableEntity w ResCouldNotParseRequestJson, hw)
      | (requestJson, none) =>
        if (requestJson.Validate App.toUrlShortenApp).Fails then
          (handleBadRequest w
            (urlShortenResponseJson.Marshal requestJson.OriginalUrl []
              (requestJson.Validate App.toUrlShortenApp).Errors), hw)
        else
          match App.UsService.ConstructShortUrlAndAssignToOriginalUrl requestJson.OriginalUrl
              (if requestJson.ShortUrlHost = [] then App.EnvVars.InternalShortHost
                else requestJson.ShortUrlHost)
              requestJson.CustomSlug
              (if requestJson.SlugLength ≤ 0 then App.EnvVars.MinShortUrlPathLength
                else requestJson.SlugLength) hw.us with
          | ((_, some _), u1) =>
            (handleInternalServerError w
                (goStr "Could not shorten URL " ++ requestJson.OriginalUrl),
              { us := u1,
                calls := hw.calls ++ [.ConstructShortUrlAndAssignToOriginalUrl
                  requestJson.OriginalUrl
                  (if requestJson.ShortUrlHost = [] then App.EnvVars.InternalShortHost
                    else requestJson.ShortUrlHost)
                  requestJson.CustomSlug
                  (if requestJson.SlugLength ≤ 0 then App.EnvVars.MinShortUrlPathLength
                    else requestJson.SlugLength)] })
          | ((shortUrl, none), u1) =>
            (handleCreated w
                (urlShortenResponseJson.Marshal requestJson.OriginalUrl shortUrl
                  (requestJson.Validate App.toUrlShortenApp).Errors),
              { us := u1,
                calls := hw.calls ++ [.ConstructShortUrlAndAssignToOriginalUrl
                  requestJson.OriginalUrl
                  (if requestJson.ShortUrlHost = [] then App.EnvVars.InternalShortHost
                    else requestJson.ShortUrlHost)
                  requestJson.CustomSlug
                  (if requestJson.SlugLength ≤ 0 then App.EnvVars.MinShortUrlPathLength
                    else requestJson.SlugLength)] })

/-- The struct `urlRedirectExternalRequestJson`. -/
structure urlRedirectExternalRequestJson where
  ShortUrl : GoString
  deriving DecidableEq, Repr

def urlRedirectExternalRequestJson.fields : List FieldSpec := [⟨goStr "short_url", .string⟩]

def urlRedirectExternalRequestJson.ofValues : List FieldValue → urlRedirectExternalRequestJson
  | [.string shortUrl] => ⟨shortUrl⟩
  | _ => ⟨[]⟩

/-- `json.Unmarshal(rawJson, &requestJson)` on a zero `urlRedirectExternalRequestJson`. -/
def urlRedirectExternalRequestJson.Unmarshal (data : List Nat) :
    urlRedirectExternalRequestJson × Option JsonError :=
  (urlRedirectExternalRequestJson.ofValues
      (unmarshalStruct urlRedirectExternalRequestJson.fields data [.string []]).1,
    (unmarshalStruct urlRedirectExternalRequestJson.fields data [.string []]).2)

/-- `urlRedirectExternalRequestJson.Validate`. -/
def urlRedirectExternalRequestJson.Validate (r : urlRedirectExternalRequestJson) : Validation :=
  if !shortUrlTemplate.MatchString r.ShortUrl then
    (Validation.mk []).Append (goStr "Provided short URL is invalid: " ++ r.ShortUrl)
  else ⟨[]⟩

/-- `json.Marshal(urlRedirectExternalResponseJson{...})`. -/
def urlRedirectExternalResponseJson.Marshal (validationErrors : List GoString) : List Nat :=
  goStr "\x7b\"validation_errors\":" ++ marshalValidationErrors validationErrors ++ goStr "\x7d"

/-- `HandleExternalUrlRedirect`. -/
def HandleExternalUrlRedirect {υ : Type} (App : ServingApp υ) : Handler υ :=
  fun w r hw =>
    if !isMethodAllowed r.Method [MethodPost] then (handleMethodNotAllowed w [MethodPost], hw)
    else
      match urlRedirectExternalRequestJson.Unmarshal (parseRawJsonFromHttpBody r.Body) with
      | (_, some _) => (handleUnprocessableEntity w ResCouldNotParseRequestJson, hw)
      | (requestJson, none) =>
        if requestJson.Validate.Fails then
          (handleBadRequest w (urlRedirectExternalResponseJson.Marshal requestJson.Validate.Errors),
            hw)
        else
          match App.UsService.GetOriginalUrlForShortUrl requestJson.ShortUrl hw.us with
          | ((_, some _), u1) =>
            (handleInternalServerError w
                (goStr "Could not forward short URL " ++ requestJson.ShortUrl),
              { us := u1,
                calls := hw.calls ++ [.GetOriginalUrlForShortUrl requestJson.ShortUrl] })
          | ((originalUrl, none), u1) =>
            (handleFound w originalUrl,
              { us := u1,
                calls := hw.calls ++ [.GetOriginalUrlForShortUrl requestJson.ShortUrl] })

/-- `HandleInternalUrlRedirect`. -/
def HandleInternalUrlRedirect {υ : Type} (App : ServingApp υ) : Handler υ :=
  fun w r hw =>
    if !isMethodAllowed r.Method [MethodGet] then (handleMethodNotAllowed w [MethodGet], hw)
    else
      match App.UsService.GetOriginalUrlForShortUrl (App.EnvVars.InternalShortHost ++ r.Path)
          hw.us with
      | ((_, some _), u1) =>
        (handleInternalServerError w
            (goStr "Could not forward short URL " ++ (App.EnvVars.InternalShortHost ++ r.Path)),
          { us := u1,
            calls := hw.calls
              ++ [.GetOriginalUrlForShortUrl (App.EnvVars.InternalShortHost ++ r.Path)] })
      | ((originalUrl, none), u1) =>
        (handleFound w originalUrl,
          { us := u1,
            calls := hw.calls
              ++ [.GetOriginalUrlForShortUrl (App.EnvVars.InternalShortHost ++ r.Path)] })

/-! ## main.go: the routes -/

/-- The struct `RouteHandler`: a pattern and the handler it leads to. -/
structure RouteHandler (υ : Type) where
  Pattern : Regexp
  Func : Handler υ

/-- The struct `Routes`. -/
structure Routes (υ : Type) where
  Handlers : List (RouteHandler υ)

/-- `routes.HandleFunc(pattern, handler)`: the route is appended. -/
def Routes.HandleFunc {υ : Type} (routes : Routes υ) (pattern : Regexp) (handler : Handler υ) :
    Routes υ :=
  { Handlers := routes.Handlers ++ [{ Pattern := pattern, Func := handler }] }

/-- `http.NotFound(w, r)`: `http.Error(w, "404 page not found", 404)`. -/
def NotFound {υ : Type} : Handler υ :=
  fun w _ hw => (keygensvc.Error w (goStr "404 page not found") 404, hw)

/-- The loop of `Routes.ServeHTTP` over the handlers that are left. -/
def serveFrom {υ : Type} : List (RouteHandler υ) → Handler υ
  | [] => NotFound
  | handler :: rest => fun w r hw =>
    if handler.Pattern.MatchString r.Path then handler.Func w r hw else serveFrom rest w r hw

/-- `Routes.ServeHTTP`. -/
def Routes.ServeHTTP {υ : Type} (routes : Routes υ) : Handler υ := serveFrom routes.Handlers

/-- The route `^/$`. -/
def indexRoute : Regexp := ⟨[.lit (goStr "/")]⟩

/-- The route `^/healthcheck$`. -/
def healthcheckRoute : Regexp := ⟨[.lit (goStr "/healthcheck")]⟩

/-- The route `^/url/shorten$`. -/
def urlShortenRoute : Regexp := ⟨[.lit (goStr "/url/shorten")]⟩

/-- The route `^/url/redirect$`. -/
def urlRedirectExternalRoute : Regexp := ⟨[.lit (goStr "/url/redirect")]⟩

/-- The route `^/[a-zA-Z0-9\-_]+$`. -/
def urlRedirectInternalRoute : Regexp := ⟨[.lit (goStr "/"), .plus slugClass]⟩

/-- `Routes{}.Define()`: the five routes in the order they are registered. -/
def Routes.Define {υ : Type} (App : ServingApp υ) : Routes υ :=
  ((((((Routes.mk []).HandleFunc indexRoute HandleIndexRequest).HandleFunc healthcheckRoute
    (HandleHealthcheckRequest App)).HandleFunc urlShortenRoute
    (HandleUrlShortenRequest App)).HandleFunc urlRedirectExternalRoute
    (HandleExternalUrlRedirect App)).HandleFunc urlRedirectInternalRoute
    (HandleInternalUrlRedirect App))

/-- The global `App` of the handler tests: the environment of `appUrls` and the mock service. -/
def servingMock (esIsLive : Bool) (error : Option GoError) (shortUrl originalUrl : GoString) :
    ServingApp Unit :=
  { appUrls with UsService := MockUsService esIsLive error shortUrl originalUrl }

end urlshortenapp

namespace urlshortenapp

/-- The global `App` as `main.go` builds it, for the examples: the environment of `appUrls`, and
the service constructed with the index name of the environment over the map-backed document
store and a key generation service that answers every request with `key`. -/
def servingUrls (key : GoString) : ServingApp (World DocStore Unit) :=
  { appUrls with
    UsService := (NewUrlShortenService appUrls.EnvVars.EsIndex mapEsService
      (MockKgsService key none)).toUrlShortenService appUrls }

/-- The value of the `original_url` member of an object, as the decoder leaves it in the field:
the string of the last member whose key addresses the field and whose value is a string, or
`cur` when there is none. -/
def originalUrlOf : List (GoString × Json) → GoString → GoString
  | [], cur => cur
  | (key, .string s) :: rest, cur =>
    originalUrlOf rest (if fieldOfKey key = some .OriginalUrl then s else cur)
  | _ :: rest, cur => originalUrlOf rest cur

/-- Whether a JSON value is a string or `null`. -/
def Json.isStringOrNull : Json → Bool
  | .string _ => true
  | .null => true
  | _ => false

end urlshortenapp
/-! # Theorems: the key generation service -/

namespace keygensvc

/-! ## The call log -/

theorem eventsSince_self {σ : Type} (w : World σ) : eventsSince w w = [] := by
  simp [eventsSince]

theorem eventsSince_append {σ : Type} (w w1 : World σ) (evs : List Event)
    (h : w1.log = w.log ++ evs) : eventsSince w w1 = evs := by
  simp [eventsSince, h]

theorem sqlInsertSource_beq : (sqlInsertSource == sqlInsertKey) = false := by decide

theorem sqlSelectSource_beq : (sqlSelectSource == sqlInsertKey) = false := by decide

theorem Event.isKeyInsert_of_isRejectedKeyInsert (e : Event)
    (h : e.isRejectedKeyInsert = true) : e.isKeyInsert = true := by
  cases e with
  | queryInt sql params id err =>
    cases err with
    | none => simp [Event.isRejectedKeyInsert] at h
    | some _ => simpa [Event.isRejectedKeyInsert, Event.isKeyInsert] using h
  | _ => simp [Event.isRejectedKeyInsert] at h

/-- The five ways through `getSourceId`, each with the calls it makes. -/
theorem getSourceId_cases {σ : Type} (kg : keyGenService σ) (sourceName : GoString) (w : World σ) :
    (∃ e s1, kg.Db.connect w.db = (some e, s1)
      ∧ getSourceId kg sourceName w = ((-1, some .ErrCouldNotConnectToPostgres),
          ⟨s1, w.entropy, w.log ++ [.connect (some e)]⟩))
    ∨ (∃ s1 id s2, kg.Db.connect w.db = (none, s1)
      ∧ kg.Db.queryInt sqlInsertSource [.str sourceName] s1 = ((id, none), s2)
      ∧ getSourceId kg sourceName w = ((id, none),
          ⟨kg.Db.close s2, w.entropy,
            w.log ++ [.connect none, .queryInt sqlInsertSource [.str sourceName] id none, .close]⟩))
    ∨ (∃ s1 id err s2 id2 s3, kg.Db.connect w.db = (none, s1)
      ∧ kg.Db.queryInt sqlInsertSource [.str sourceName] s1 = ((id, some err), s2)
      ∧ isDuplicateKeyError err = true
      ∧ kg.Db.queryInt sqlSelectSource [.str sourceName] s2 = ((id2, none), s3)
      ∧ getSourceId kg sourceName w = ((id2, none),
          ⟨kg.Db.close s3, w.entropy,
            w.log ++ [.connect none, .queryInt sqlInsertSource [.str sourceName] id (some err),
              .queryInt sqlSelectSource [.str sourceName] id2 none, .close]⟩))
    ∨ (∃ s1 id err s2 id2 err2 s3, kg.Db.connect w.db = (none, s1)
      ∧ kg.Db.queryInt sqlInsertSource [.str sourceName] s1 = ((id, some err), s2)
      ∧ isDuplicateKeyError err = true
      ∧ kg.Db.queryInt sqlSelectSource [.str sourceName] s2 = ((id2, some err2), s3)
      ∧ getSourceId kg sourceName w = ((-1, some .ErrCouldNotRetrieveSourceId),
          ⟨kg.Db.close s3, w.entropy,
            w.log ++ [.connect none, .queryInt sqlInsertSource [.str sourceName] id (some err),
              .queryInt sqlSelectSource [.str sourceName] id2 (some err2), .close]⟩))
    ∨ (∃ s1 id err s2, kg.Db.connect w.db = (none, s1)
      ∧ kg.Db.queryInt sqlInsertSource [.str sourceName] s1 = ((id, some err), s2)
      ∧ isDuplicateKeyError err = false
      ∧ getSourceId kg sourceName w = ((-1, some .ErrCouldNotAddNewSource),
          ⟨kg.Db.close s2, w.entropy,
            w.log ++ [.connect none, .queryInt sqlInsertSource [.str sourceName] id (some err),
              .close]⟩)) := by
  rcases hc : kg.Db.connect w.db with ⟨_ | e, s1⟩
  · rcases hq : kg.Db.queryInt sqlInsertSource [.str sourceName] s1 with ⟨⟨id, _ | err⟩, s2⟩
    · right; left
      exact ⟨s1, id, s2, rfl, hq, by simp [getSourceId, dbConnect, dbQueryInt, dbClose, hc, hq]⟩
    · by_cases hd : isDuplicateKeyError err = true
      · rcases hs : kg.Db.queryInt sqlSelectSource [.str sourceName] s2 with ⟨⟨id2, _ | err2⟩, s3⟩
        · right; right; left
          exact ⟨s1, id, err, s2, id2, s3, rfl, hq, hd, hs,
            by simp [getSourceId, dbConnect, dbQueryInt, dbClose, hc, hq, hd, hs]⟩
        · right; right; right; left
          exact ⟨s1, id, err, s2, id2, err2, s3, rfl, hq, hd, hs,
            by simp [getSourceId, dbConnect, dbQueryInt, dbClose, hc, hq, hd, hs]⟩
      · right; right; right; right
        exact ⟨s1, id, err, s2, rfl, hq, by simpa using hd,
          by simp [getSourceId, dbConnect, dbQueryInt, dbClose, hc, hq, hd]⟩
  · left
    exact ⟨e, s1, rfl, by simp [getSourceId, dbConnect, hc]⟩

/-- The three ways through `createKey`, each with the calls it makes. -/
theorem createKey_cases {σ : Type} (kg : keyGenService σ) (sourceId : Int) (key : GoString)
    (w : World σ) :
    (∃ e s1, kg.Db.connect w.db = (some e, s1)
      ∧ createKey kg sourceId key w = (some .ErrCouldNotConnectToPostgres,
          ⟨s1, w.entropy, w.log ++ [.connect (some e)]⟩))
    ∨ (∃ s1 id s2, kg.Db.connect w.db = (none, s1)
      ∧ kg.Db.queryInt sqlInsertKey [.str key, .int sourceId] s1 = ((id, none), s2)
      ∧ createKey kg sourceId key w = (none,
          ⟨kg.Db.close s2, w.entropy,
            w.log ++ [.connect none, .queryInt sqlInsertKey [.str key, .int sourceId] id none,
              .close]⟩))
    ∨ (∃ s1 id err s2, kg.Db.connect w.db = (none, s1)
      ∧ kg.Db.queryInt sqlInsertKey [.str key, .int sourceId] s1 = ((id, some err), s2)
      ∧ createKey kg sourceId key w =
          (some (if isDuplicateKeyError err then .ErrKeyAlreadyExists else .ErrCouldNotSaveNewKey),
          ⟨kg.Db.close s2, w.entropy,
            w.log ++ [.connect none,
              .queryInt sqlInsertKey [.str key, .int sourceId] id (some err), .close]⟩)) := by
  rcases hc : kg.Db.connect w.db with ⟨_ | e, s1⟩
  · rcases hq : kg.Db.queryInt sqlInsertKey [.str key, .int sourceId] s1 with ⟨⟨id, _ | err⟩, s2⟩
    · right; left
      exact ⟨s1, id, s2, rfl, hq, by simp [createKey, dbConnect, dbQueryInt, dbClose, hc, hq]⟩
    · right; right
      refine ⟨s1, id, err, s2, rfl, hq, ?_⟩
      by_cases hd : isDuplicateKeyError err = true <;>
        simp [createKey, dbConnect, dbQueryInt, dbClose, hc, hq, hd]
  · left
    exact ⟨e, s1, rfl, by simp [createKey, dbConnect, hc]⟩

/-- What `getSourceId` adds to the log: no INSERT into the key ledger, no read of `crypto/rand`;
and it reads no entropy. -/
theorem getSourceId_log {σ : Type} (kg : keyGenService σ) (sourceName : GoString) (w : World σ) :
    ∃ evs, (getSourceId kg sourceName w).2.log = w.log ++ evs
      ∧ (∀ e ∈ evs, e.isKeyInsert = false ∧ e.isRandRead = false)
      ∧ (getSourceId kg sourceName w).2.entropy = w.entropy := by
  rcases getSourceId_cases kg sourceName w with
    ⟨e, s1, -, h⟩ | ⟨s1, id, s2, -, -, h⟩ | ⟨s1, id, err, s2, id2, s3, -, -, -, -, h⟩
    | ⟨s1, id, err, s2, id2, err2, s3, -, -, -, -, h⟩ | ⟨s1, id, err, s2, -, -, -, h⟩ <;>
  · rw [h]
    exact ⟨_, rfl, by simp [Event.isKeyInsert, Event.isRandRead, sqlInsertSource_beq,
      sqlSelectSource_beq], rfl⟩

/-- What `createKey` adds to the log: at most one INSERT into the key ledger, rejected exactly
when `createKey` fails after it, and no read of `crypto/rand`. -/
theorem createKey_log {σ : Type} (kg : keyGenService σ) (sourceId : Int) (key : GoString)
    (w : World σ) :
    ∃ evs, (createKey kg sourceId key w).2.log = w.log ++ evs
      ∧ (∀ e ∈ evs, e.isRandRead = false)
      ∧ (evs.any Event.isRejectedKeyInsert = true →
          (createKey kg sourceId key w).1 ≠ none ∧ (evs.filter Event.isKeyInsert).length = 1)
      ∧ (evs.filter Event.isKeyInsert).length ≤ 1 := by
  have hk : (sqlInsertKey == sqlInsertKey) = true := by decide
  rcases createKey_cases kg sourceId key w with
    ⟨e, s1, -, h⟩ | ⟨s1, id, s2, -, -, h⟩ | ⟨s1, id, err, s2, -, -, h⟩ <;>
  · rw [h]
    refine ⟨_, rfl, ?_, ?_, ?_⟩ <;>
      simp [Event.isKeyInsert, Event.isRandRead, Event.isRejectedKeyInsert, hk, List.filter]

/-! ## Input checks come before any call to the database -/

theorem GetGeneratedKey_of_lt_one {σ : Type} (kg : keyGenService σ) (sourceName : GoString)
    (keyLength : Int) (w : World σ) (h : keyLength < 1) :
    GetGeneratedKey kg sourceName keyLength w = (([], some .ErrKeyLengthMustBePositive), w) := by
  simp [GetGeneratedKey, h]

theorem StoreCustomKey_of_empty {σ : Type} (kg : keyGenService σ) (sourceName : GoString)
    (w : World σ) : StoreCustomKey kg sourceName [] w = (some .ErrCustomKeyCannotBeEmpty, w) := by
  simp [StoreCustomKey]

/-- C5: for every source name and every `keyLength < 1`, `GetGeneratedKey` returns
`("", ErrKeyLengthMustBePositive)` and leaves the world as it found it, whatever the database is
and whatever state it is in: the log gains no entry (no `connect`, no query, no `close`, no read
of `crypto/rand`) and the state behind `kg.Db` is untouched. -/
theorem GetGeneratedKey_rejects_nonpositive_length {σ : Type} (kg : keyGenService σ)
    (sourceName : GoString) (keyLength : Int) (w : World σ) (h : keyLength < 1) :
    GetGeneratedKey kg sourceName keyLength w = (([], some .ErrKeyLengthMustBePositive), w)
      ∧ eventsSince w (GetGeneratedKey kg sourceName keyLength w).2 = [] := by
  have hr := GetGeneratedKey_of_lt_one kg sourceName keyLength w h
  exact ⟨hr, by rw [hr]; exact eventsSince_self w⟩

/-- The test "returns error if key length is 0 or negative" on the production database, and a
negative length on a database that already holds rows. -/
theorem GetGeneratedKey_rejects_nonpositive_length_witness :
    (0 : Int) < 1
      ∧ (GetGeneratedKey pgKeyGenService (goStr "some-source") 0 ⟨PgState.fresh, [], []⟩
          = (([], some .ErrKeyLengthMustBePositive), ⟨PgState.fresh, [], []⟩)
        ∧ eventsSince ⟨PgState.fresh, [], []⟩
            (GetGeneratedKey pgKeyGenService (goStr "some-source") 0 ⟨PgState.fresh, [], []⟩).2
          = []) :=
  ⟨by decide,
    GetGeneratedKey_rejects_nonpositive_length pgKeyGenService (goStr "some-source") 0
      ⟨PgState.fresh, [], []⟩ (by decide)⟩

/-- C6: for every source name and every database in every state, `StoreCustomKey(sourceName, "")`
returns `ErrCustomKeyCannotBeEmpty` and leaves the world as it found it: the log gains no entry
and the state behind `kg.Db` is untouched. -/
theorem StoreCustomKey_rejects_empty_key {σ : Type} (kg : keyGenService σ)
    (sourceName : GoString) (w : World σ) :
    StoreCustomKey kg sourceName [] w = (some .ErrCustomKeyCannotBeEmpty, w)
      ∧ eventsSince w (StoreCustomKey kg sourceName [] w).2 = [] := by
  have hr := StoreCustomKey_of_empty kg sourceName w
  exact ⟨hr, by rw [hr]; exact eventsSince_self w⟩

/-! ## A rejected key is not retried -/

/-- `GetGeneratedKey` with a valid length: the source is resolved, one key is generated, one
`createKey` is attempted. -/
theorem GetGeneratedKey_of_pos {σ : Type} (kg : keyGenService σ) (sourceName : GoString)
    (keyLength : Int) (w : World σ) (h : 1 ≤ keyLength) :
    GetGeneratedKey kg sourceName keyLength w =
      match getSourceId kg sourceName w with
      | ((_, some _), w1) => (([], some .ErrCouldNotVerifySourceForKey), w1)
      | ((sourceId, none), w1) =>
        match createKey kg sourceId (generateUniqueKey keyLength.toNat w1).1
            (generateUniqueKey keyLength.toNat w1).2 with
        | (some _, w3) => (([], some .ErrCouldNotSaveKeyForSource), w3)
        | (none, w3) => (((generateUniqueKey keyLength.toNat w1).1, none), w3) := by
  simp [GetGeneratedKey, not_lt.mpr h]

/-- C7: for every call `GetGeneratedKey(sourceName, keyLength)` with `keyLength ≥ 1` in which
the database answers an INSERT into the key ledger with an error (a uniqueness violation or any
other error), the call returns `("", ErrCouldNotSaveKeyForSource)`, and the call has issued
exactly one INSERT into the key ledger and read `crypto/rand` exactly once: one key is generated
and there is no regenerate-and-retry. -/
theorem GetGeneratedKey_rejected_key_not_retried {σ : Type} (kg : keyGenService σ)
    (sourceName : GoString) (keyLength : Int) (w : World σ) (hlen : 1 ≤ keyLength)
    (hrej : (eventsSince w (GetGeneratedKey kg sourceName keyLength w).2).any
      Event.isRejectedKeyInsert = true) :
    (GetGeneratedKey kg sourceName keyLength w).1 = ([], some .ErrCouldNotSaveKeyForSource)
      ∧ ((eventsSince w (GetGeneratedKey kg sourceName keyLength w).2).filter
          Event.isKeyInsert).length = 1
      ∧ ((eventsSince w (GetGeneratedKey kg sourceName keyLength w).2).filter
          Event.isRandRead).length = 1 := by
  rw [GetGeneratedKey_of_pos kg sourceName keyLength w hlen] at hrej ⊢
  obtain ⟨evs1, hlog1, hno1, -⟩ := getSourceId_log kg sourceName w
  have hrej1 : evs1.any Event.isRejectedKeyInsert = false := by
    rw [List.any_eq_false]
    intro e he hr
    have h1 := Event.isKeyInsert_of_isRejectedKeyInsert e hr
    rw [(hno1 e he).1] at h1
    exact absurd h1 (by decide)
  have hkey1 : evs1.filter Event.isKeyInsert = [] := by
    rw [List.filter_eq_nil_iff]
    intro e he
    simp [(hno1 e he).1]
  have hrand1 : evs1.filter Event.isRandRead = [] := by
    rw [List.filter_eq_nil_iff]
    intro e he
    simp [(hno1 e he).2]
  rcases hg : getSourceId kg sourceName w with ⟨⟨sid, _ | e⟩, w1⟩
  · rw [hg] at hlog1 hrej
    simp only at hlog1 hrej ⊢
    obtain ⟨evs2, hlog2, hnr2, hrej2, -⟩ :=
      createKey_log kg sid (generateUniqueKey keyLength.toNat w1).1
        (generateUniqueKey keyLength.toNat w1).2
    have hrand2 : evs2.filter Event.isRandRead = [] := by
      rw [List.filter_eq_nil_iff]
      intro e he
      simp [hnr2 e he]
    have hlog3 : (createKey kg sid (generateUniqueKey keyLength.toNat w1).1
        (generateUniqueKey keyLength.toNat w1).2).2.log
        = w.log ++ (evs1 ++ Event.randRead (keyBufferLen keyLength.toNat) :: evs2) := by
      rw [hlog2]
      simp [generateUniqueKey, randRead, hlog1]
    rcases hck : createKey kg sid (generateUniqueKey keyLength.toNat w1).1
        (generateUniqueKey keyLength.toNat w1).2 with ⟨_ | e, w3⟩
    · rw [hck] at hlog3 hrej hrej2
      simp only at hlog3 hrej hrej2
      rw [eventsSince_append w w3 _ hlog3, List.any_append, hrej1, List.any_cons] at hrej
      simp only [Event.isRejectedKeyInsert, Bool.false_or] at hrej
      exact absurd rfl (hrej2 hrej).1
    · rw [hck] at hlog3 hrej hrej2
      simp only at hlog3 hrej hrej2 ⊢
      rw [eventsSince_append w w3 _ hlog3, List.any_append, hrej1, List.any_cons] at hrej
      simp only [Event.isRejectedKeyInsert, Bool.false_or] at hrej
      rw [eventsSince_append w w3 _ hlog3]
      refine ⟨trivial, ?_, ?_⟩
      · rw [List.filter_append, hkey1, List.nil_append, List.filter_cons]
        simpa [Event.isKeyInsert] using (hrej2 hrej).2
      · rw [List.filter_append, hrand1, List.nil_append, List.filter_cons, hrand2]
        simp [Event.isRandRead]
  · rw [hg] at hlog1 hrej
    simp only at hlog1 hrej
    rw [eventsSince_append w w1 _ hlog1, hrej1] at hrej
    exact absurd hrej (by decide)

/-! ## The service over the relational store -/

theorem pgConnect_of_not_outage (s : PgState) (h : s.outages.head? ≠ some true) :
    pgConnect s = (none, { s with connected := true, outages := s.outages.tail }) := by
  rcases ho : s.outages with _ | ⟨_ | _, rest⟩
  · simp [pgConnect, ho]
  · simp [pgConnect, ho]
  · simp [ho] at h

theorem pgConnect_of_outage (s : PgState) (rest : List Bool) (h : s.outages = true :: rest) :
    pgConnect s = (some (.errorString "failed to connect"), { s with outages := rest }) := by
  simp [pgConnect, h]

theorem pgQueryInt_insertKey (s : PgState) (key : GoString) (sourceId : Int)
    (h : s.connected = true) :
    pgQueryInt sqlInsertKey [.str key, .int sourceId] s =
      if s.keys.any (fun r => r.raw_key = key) then
        ((0, some (.PgError "23505")), { s with keysIdSeq := s.keysIdSeq + 1 })
      else
        ((s.keysIdSeq, none),
          { s with
            keys := s.keys ++ [KeyRow.mk s.keysIdSeq key sourceId],
            keysIdSeq := s.keysIdSeq + 1 }) := by
  have h1 : ¬ (sqlInsertKey = sqlInsertSource) := by decide
  have h2 : ¬ (sqlInsertKey = sqlSelectSource) := by decide
  simp [pgQueryInt, h, h1, h2]

theorem pgQueryInt_insertSource (s : PgState) (name : GoString) (h : s.connected = true) :
    pgQueryInt sqlInsertSource [.str name] s =
      if s.sources.any (fun r => r.name = name) then
        ((0, some (.PgError "23505")), { s with sourcesIdSeq := s.sourcesIdSeq + 1 })
      else
        ((s.sourcesIdSeq, none),
          { s with
            sources := s.sources ++ [SourceRow.mk s.sourcesIdSeq name true],
            sourcesIdSeq := s.sourcesIdSeq + 1 }) := by
  simp [pgQueryInt, h]

theorem pgQueryInt_selectSource (s : PgState) (name : GoString) (h : s.connected = true) :
    pgQueryInt sqlSelectSource [.str name] s =
      match s.sources.find? (fun r => r.name = name && r.is_active) with
      | some r => ((r.id, none), s)
      | none => ((0, some (.errorString "no rows in result set")), s) := by
  have h1 : ¬ (sqlSelectSource = sqlInsertSource) := by decide
  simp [pgQueryInt, h, h1]

theorem pg_createKey_outage (sourceId : Int) (key : GoString) (w : World PgState)
    (rest : List Bool) (h : w.db.outages = true :: rest) :
    createKey pgKeyGenService sourceId key w =
      (some .ErrCouldNotConnectToPostgres,
        ⟨{ w.db with outages := rest }, w.entropy,
          w.log ++ [.connect (some (.errorString "failed to connect"))]⟩) := by
  simp [createKey, dbConnect, pgKeyGenService, NewKeyGenService, NewPostgresDb,
    pgConnect_of_outage w.db rest h]

theorem pg_createKey_taken (sourceId : Int) (key : GoString) (w : World PgState)
    (h : w.db.outages.head? ≠ some true)
    (hk : w.db.keys.any (fun r => r.raw_key = key) = true) :
    createKey pgKeyGenService sourceId key w =
      (some .ErrKeyAlreadyExists,
        ⟨{ w.db with
            keysIdSeq := w.db.keysIdSeq + 1, connected := false, outages := w.db.outages.tail },
          w.entropy,
          w.log ++ [.connect none,
            .queryInt sqlInsertKey [.str key, .int sourceId] 0 (some (.PgError "23505")),
            .close]⟩) := by
  simp [createKey, dbConnect, dbQueryInt, dbClose, pgKeyGenService, NewKeyGenService,
    NewPostgresDb, pgConnect_of_not_outage w.db h, pgQueryInt_insertKey, hk, pgClose, isDuplicateKeyError, PgErrCodeUniqueViolation]

theorem pg_createKey_free (sourceId : Int) (key : GoString) (w : World PgState)
    (h : w.db.outages.head? ≠ some true)
    (hk : w.db.keys.any (fun r => r.raw_key = key) = false) :
    createKey pgKeyGenService sourceId key w =
      (none,
        ⟨{ w.db with
            keys := w.db.keys ++ [KeyRow.mk w.db.keysIdSeq key sourceId],
            keysIdSeq := w.db.keysIdSeq + 1, connected := false, outages := w.db.outages.tail },
          w.entropy,
          w.log ++ [.connect none,
            .queryInt sqlInsertKey [.str key, .int sourceId] w.db.keysIdSeq none, .close]⟩) := by
  simp [createKey, dbConnect, dbQueryInt, dbClose, pgKeyGenService, NewKeyGenService,
    NewPostgresDb, pgConnect_of_not_outage w.db h, pgQueryInt_insertKey, hk, pgClose]



theorem pg_getSourceId_outage (sourceName : GoString) (w : World PgState)
    (rest : List Bool) (h : w.db.outages = true :: rest) :
    getSourceId pgKeyGenService sourceName w =
      ((-1, some .ErrCouldNotConnectToPostgres),
        ⟨{ w.db with outages := rest }, w.entropy,
          w.log ++ [.connect (some (.errorString "failed to connect"))]⟩) := by
  simp [getSourceId, dbConnect, pgKeyGenService, NewKeyGenService, NewPostgresDb,
    pgConnect_of_outage w.db rest h]

theorem pg_getSourceId_new (sourceName : GoString) (w : World PgState)
    (h : w.db.outages.head? ≠ some true)
    (hn : w.db.sources.any (fun r => r.name = sourceName) = false) :
    getSourceId pgKeyGenService sourceName w =
      ((w.db.sourcesIdSeq, none),
        ⟨{ w.db with
            sources := w.db.sources ++ [SourceRow.mk w.db.sourcesIdSeq sourceName true],
            sourcesIdSeq := w.db.sourcesIdSeq + 1, connected := false,
            outages := w.db.outages.tail },
          w.entropy,
          w.log ++ [.connect none,
            .queryInt sqlInsertSource [.str sourceName] w.db.sourcesIdSeq none, .close]⟩) := by
  simp [getSourceId, dbConnect, dbQueryInt, dbClose, pgKeyGenService, NewKeyGenService,
    NewPostgresDb, pgConnect_of_not_outage w.db h, pgQueryInt_insertSource, hn, pgClose]

theorem pg_getSourceId_existing (sourceName : GoString) (w : World PgState) (r : SourceRow)
    (h : w.db.outages.head? ≠ some true)
    (hn : w.db.sources.any (fun r => r.name = sourceName) = true)
    (hf : w.db.sources.find? (fun r => r.name = sourceName && r.is_active) = some r) :
    getSourceId pgKeyGenService sourceName w =
      ((r.id, none),
        ⟨{ w.db with
            sourcesIdSeq := w.db.sourcesIdSeq + 1, connected := false,
            outages := w.db.outages.tail },
          w.entropy,
          w.log ++ [.connect none,
            .queryInt sqlInsertSource [.str sourceName] 0 (some (.PgError "23505")),
            .queryInt sqlSelectSource [.str sourceName] r.id none, .close]⟩) := by
  simp [getSourceId, dbConnect, dbQueryInt, dbClose, pgKeyGenService, NewKeyGenService,
    NewPostgresDb, pgConnect_of_not_outage w.db h, pgQueryInt_insertSource, hn,
    pgQueryInt_selectSource, hf, pgClose, isDuplicateKeyError, PgErrCodeUniqueViolation]

theorem pg_getSourceId_inactive (sourceName : GoString) (w : World PgState)
    (h : w.db.outages.head? ≠ some true)
    (hn : w.db.sources.any (fun r => r.name = sourceName) = true)
    (hf : w.db.sources.find? (fun r => r.name = sourceName && r.is_active) = none) :
    getSourceId pgKeyGenService sourceName w =
      ((-1, some .ErrCouldNotRetrieveSourceId),
        ⟨{ w.db with
            sourcesIdSeq := w.db.sourcesIdSeq + 1, connected := false,
            outages := w.db.outages.tail },
          w.entropy,
          w.log ++ [.connect none,
            .queryInt sqlInsertSource [.str sourceName] 0 (some (.PgError "23505")),
            .queryInt sqlSelectSource [.str sourceName] 0
              (some (.errorString "no rows in result set")), .close]⟩) := by
  simp [getSourceId, dbConnect, dbQueryInt, dbClose, pgKeyGenService, NewKeyGenService,
    NewPostgresDb, pgConnect_of_not_outage w.db h, pgQueryInt_insertSource, hn,
    pgQueryInt_selectSource, hf, pgClose, isDuplicateKeyError, PgErrCodeUniqueViolation]

theorem outages_cases (s : PgState) :
    (∃ rest, s.outages = true :: rest) ∨ s.outages.head? ≠ some true := by
  rcases ho : s.outages with _ | ⟨_ | _, rest⟩ <;> simp

/-- `getSourceId` leaves the key ledger alone. -/
theorem pg_getSourceId_keys (sourceName : GoString) (w : World PgState) :
    (getSourceId pgKeyGenService sourceName w).2.db.keys = w.db.keys := by
  rcases outages_cases w.db with ⟨rest, ho⟩ | ho
  · rw [pg_getSourceId_outage sourceName w rest ho]
  · cases hn : w.db.sources.any (fun r => r.name = sourceName)
    · rw [pg_getSourceId_new sourceName w ho hn]
    · cases hf : w.db.sources.find? (fun r => r.name = sourceName && r.is_active) with
      | none => rw [pg_getSourceId_inactive sourceName w ho hn hf]
      | some r => rw [pg_getSourceId_existing sourceName w r ho hn hf]

/-- A successful `getSourceId` either created the row of the source (the name was new) or found
the active row of that name after the INSERT was refused as a duplicate. -/
theorem pg_getSourceId_success (sourceName : GoString) (w w1 : World PgState) (sid : Int)
    (h : getSourceId pgKeyGenService sourceName w = ((sid, none), w1)) :
    (w.db.sources.any (fun r => r.name = sourceName) = false
      ∧ w1.db.sources = w.db.sources ++ [SourceRow.mk sid sourceName true]
      ∧ w1.log = w.log ++ [.connect none,
            .queryInt sqlInsertSource [.str sourceName] sid none, .close])
    ∨ (w.db.sources.any (fun r => r.name = sourceName) = true
      ∧ (∃ r, w.db.sources.find? (fun r => r.name = sourceName && r.is_active) = some r
          ∧ r.id = sid)
      ∧ w1.db.sources = w.db.sources
      ∧ w1.log = w.log ++ [.connect none,
            .queryInt sqlInsertSource [.str sourceName] 0 (some (.PgError "23505")),
            .queryInt sqlSelectSource [.str sourceName] sid none, .close]) := by
  rcases outages_cases w.db with ⟨rest, ho⟩ | ho
  · rw [pg_getSourceId_outage sourceName w rest ho] at h
    simp at h
  · cases hn : w.db.sources.any (fun r => r.name = sourceName)
    · rw [pg_getSourceId_new sourceName w ho hn] at h
      simp only [Prod.mk.injEq] at h
      obtain ⟨⟨rfl, -⟩, rfl⟩ := h
      exact Or.inl ⟨rfl, rfl, rfl⟩
    · cases hf : w.db.sources.find? (fun r => r.name = sourceName && r.is_active) with
      | none =>
        rw [pg_getSourceId_inactive sourceName w ho hn hf] at h
        simp at h
      | some r =>
        rw [pg_getSourceId_existing sourceName w r ho hn hf] at h
        simp only [Prod.mk.injEq] at h
        obtain ⟨⟨rfl, -⟩, rfl⟩ := h
        exact Or.inr ⟨rfl, ⟨r, rfl, rfl⟩, rfl, rfl⟩

/-- What `createKey` does to the two tables: the sources stay; the ledger gains the row of the
key exactly when `createKey` succeeds, which it does only for a key the ledger does not hold. -/
theorem pg_createKey_tables (sourceId : Int) (key : GoString) (w : World PgState) :
    (createKey pgKeyGenService sourceId key w).2.db.sources = w.db.sources
    ∧ (((createKey pgKeyGenService sourceId key w).1 = none
        ∧ w.db.keys.any (fun r => r.raw_key = key) = false
        ∧ (createKey pgKeyGenService sourceId key w).2.db.keys
            = w.db.keys ++ [KeyRow.mk w.db.keysIdSeq key sourceId])
      ∨ ((createKey pgKeyGenService sourceId key w).1 ≠ none
        ∧ (createKey pgKeyGenService sourceId key w).2.db.keys = w.db.keys)) := by
  rcases outages_cases w.db with ⟨rest, ho⟩ | ho
  · rw [pg_createKey_outage sourceId key w rest ho]
    simp
  · cases hk : w.db.keys.any (fun r => r.raw_key = key)
    · rw [pg_createKey_free sourceId key w ho hk]
      simp
    · rw [pg_createKey_taken sourceId key w ho hk]
      simp



/-- The ways through `StoreCustomKey` with a non-empty key. -/
theorem StoreCustomKey_cases {σ : Type} (kg : keyGenService σ) (sourceName customKey : GoString)
    (w : World σ) (hk : customKey ≠ []) :
    (∃ sid e w1, getSourceId kg sourceName w = ((sid, some e), w1)
      ∧ StoreCustomKey kg sourceName customKey w = (some .ErrCouldNotVerifySourceForKey, w1))
    ∨ (∃ sid w1 e w2, getSourceId kg sourceName w = ((sid, none), w1)
      ∧ createKey kg sid customKey w1 = (some e, w2)
      ∧ StoreCustomKey kg sourceName customKey w = (some .ErrCouldNotSaveKeyForSource, w2))
    ∨ (∃ sid w1 w2, getSourceId kg sourceName w = ((sid, none), w1)
      ∧ createKey kg sid customKey w1 = (none, w2)
      ∧ StoreCustomKey kg sourceName customKey w = (none, w2)) := by
  rcases hg : getSourceId kg sourceName w with ⟨⟨sid, _ | e⟩, w1⟩
  · rcases hc : createKey kg sid customKey w1 with ⟨_ | e, w2⟩
    · right; right
      exact ⟨sid, w1, w2, rfl, hc, by simp [StoreCustomKey, hk, hg, hc]⟩
    · right; left
      exact ⟨sid, w1, e, w2, rfl, hc, by simp [StoreCustomKey, hk, hg, hc]⟩
  · left
    exact ⟨sid, e, w1, rfl, by simp [StoreCustomKey, hk, hg]⟩

/-- The ways through `GetGeneratedKey` with a valid length. -/
theorem GetGeneratedKey_cases {σ : Type} (kg : keyGenService σ) (sourceName : GoString)
    (keyLength : Int) (w : World σ) (hlen : 1 ≤ keyLength) :
    (∃ sid e w1, getSourceId kg sourceName w = ((sid, some e), w1)
      ∧ GetGeneratedKey kg sourceName keyLength w
          = (([], some .ErrCouldNotVerifySourceForKey), w1))
    ∨ (∃ sid w1 e w2, getSourceId kg sourceName w = ((sid, none), w1)
      ∧ createKey kg sid (generateUniqueKey keyLength.toNat w1).1
          (generateUniqueKey keyLength.toNat w1).2 = (some e, w2)
      ∧ GetGeneratedKey kg sourceName keyLength w
          = (([], some .ErrCouldNotSaveKeyForSource), w2))
    ∨ (∃ sid w1 w2, getSourceId kg sourceName w = ((sid, none), w1)
      ∧ createKey kg sid (generateUniqueKey keyLength.toNat w1).1
          (generateUniqueKey keyLength.toNat w1).2 = (none, w2)
      ∧ GetGeneratedKey kg sourceName keyLength w
          = (((generateUniqueKey keyLength.toNat w1).1, none), w2)) := by
  rw [GetGeneratedKey_of_pos kg sourceName keyLength w hlen]
  rcases hg : getSourceId kg sourceName w with ⟨⟨sid, _ | e⟩, w1⟩
  · rcases hc : createKey kg sid (generateUniqueKey keyLength.toNat w1).1
        (generateUniqueKey keyLength.toNat w1).2 with ⟨_ | e, w2⟩
    · right; right
      exact ⟨sid, w1, w2, rfl, hc, by simp [hc]⟩
    · right; left
      exact ⟨sid, w1, e, w2, rfl, hc, by simp [hc]⟩
  · left
    exact ⟨sid, e, w1, rfl, rfl⟩

/-- Every allocation request either leaves the world alone (an input check failed), stops after
`getSourceId`, or runs `createKey` once on the database `getSourceId` left behind. -/
theorem allocate_cases {σ : Type} (kg : keyGenService σ) (sourceName : GoString) (a : Alloc)
    (w : World σ) :
    ((allocate kg sourceName a w).1 ≠ none ∧ (allocate kg sourceName a w).2 = w)
    ∨ ((allocate kg sourceName a w).1 ≠ none
      ∧ (allocate kg sourceName a w).2 = (getSourceId kg sourceName w).2)
    ∨ (∃ sid w1 key wk, getSourceId kg sourceName w = ((sid, none), w1)
      ∧ wk.db = w1.db
      ∧ (∃ pre, wk.log = w1.log ++ pre ∧ (pre = [] ∨ ∃ n, pre = [Event.randRead n]))
      ∧ allocate kg sourceName a w
          = ((createKey kg sid key wk).1.map fun _ => GoError.ErrCouldNotSaveKeyForSource,
              (createKey kg sid key wk).2)
      ∧ (a = .store key ∨ ∃ keyLength, a = .generate keyLength
          ∧ ((createKey kg sid key wk).1 = none →
              (GetGeneratedKey kg sourceName keyLength w).1.1 = key))) := by
  cases a with
  | generate keyLength =>
    by_cases hlen : 1 ≤ keyLength
    · rcases GetGeneratedKey_cases kg sourceName keyLength w hlen with
        ⟨sid, e, w1, hg, h⟩ | ⟨sid, w1, e, w2, hg, hc, h⟩ | ⟨sid, w1, w2, hg, hc, h⟩
      · right; left
        simp [allocate, h, hg]
      · right; right
        refine ⟨sid, w1, (generateUniqueKey keyLength.toNat w1).1,
          (generateUniqueKey keyLength.toNat w1).2, hg, rfl,
          ⟨_, rfl, Or.inr ⟨_, rfl⟩⟩, ?_,
          Or.inr ⟨keyLength, rfl, ?_⟩⟩
        · simp [allocate, h, hc]
        · simp [hc]
      · right; right
        refine ⟨sid, w1, (generateUniqueKey keyLength.toNat w1).1,
          (generateUniqueKey keyLength.toNat w1).2, hg, rfl,
          ⟨_, rfl, Or.inr ⟨_, rfl⟩⟩, ?_,
          Or.inr ⟨keyLength, rfl, ?_⟩⟩
        · simp [allocate, h, hc]
        · simp [h]
    · left
      have h := GetGeneratedKey_of_lt_one kg sourceName keyLength w (by omega)
      simp [allocate, h]
  | store customKey =>
    by_cases hk : customKey = []
    · left
      subst hk
      simp [allocate, StoreCustomKey_of_empty kg sourceName w]
    · rcases StoreCustomKey_cases kg sourceName customKey w hk with
        ⟨sid, e, w1, hg, h⟩ | ⟨sid, w1, e, w2, hg, hc, h⟩ | ⟨sid, w1, w2, hg, hc, h⟩
      · right; left
        simp [allocate, h, hg]
      · right; right
        exact ⟨sid, w1, customKey, w1, hg, rfl, ⟨[], by simp, Or.inl rfl⟩,
          by simp [allocate, h, hc],
          Or.inl rfl⟩
      · right; right
        exact ⟨sid, w1, customKey, w1, hg, rfl, ⟨[], by simp, Or.inl rfl⟩,
          by simp [allocate, h, hc],
          Or.inl rfl⟩



/-- A successful allocation over the relational store: `getSourceId` resolved the source, and
`createKey` appended the row that pairs the new key with the id of the source. -/
theorem pg_allocate_success (sourceName : GoString) (a : Alloc) (w : World PgState)
    (h : (allocate pgKeyGenService sourceName a w).1 = none) :
    ∃ sid w1 key kid evs, getSourceId pgKeyGenService sourceName w = ((sid, none), w1)
      ∧ w.db.keys.any (fun r => r.raw_key = key) = false
      ∧ (allocate pgKeyGenService sourceName a w).2.db.keys
          = w.db.keys ++ [KeyRow.mk kid key sid]
      ∧ (allocate pgKeyGenService sourceName a w).2.db.sources = w1.db.sources
      ∧ (allocate pgKeyGenService sourceName a w).2.log = w1.log ++ evs
      ∧ (a = .store key ∨ ∃ keyLength, a = .generate keyLength
          ∧ (GetGeneratedKey pgKeyGenService sourceName keyLength w).1.1 = key) := by
  rcases allocate_cases pgKeyGenService sourceName a w with
    ⟨hne, -⟩ | ⟨hne, -⟩ | ⟨sid, w1, key, wk, hg, hdb, ⟨pre, hlog, -⟩, heq, hkey⟩
  · exact absurd h hne
  · exact absurd h hne
  · rw [heq] at h ⊢
    simp only [Option.map_eq_none'] at h
    have hkeys : wk.db.keys = w.db.keys := by
      rw [hdb, ← pg_getSourceId_keys sourceName w, hg]
    obtain ⟨evs, hevs, -⟩ := createKey_log pgKeyGenService sid key wk
    obtain ⟨hsrc, ⟨-, hfree, hk⟩ | ⟨hne, -⟩⟩ := pg_createKey_tables sid key wk
    · refine ⟨sid, w1, key, wk.db.keysIdSeq, pre ++ evs, hg, by rw [← hkeys]; exact hfree,
        ?_, ?_, ?_, ?_⟩
      · simp only
        rw [hk, hkeys]
      · simp only
        rw [hsrc, hdb]
      · simp only
        rw [hevs, hlog, List.append_assoc]
      · rcases hkey with hs | ⟨keyLength, ha, hgk⟩
        · exact Or.inl hs
        · exact Or.inr ⟨keyLength, ha, hgk h⟩
    · exact absurd h hne

/-- An allocation that fails leaves the key ledger as it was. -/
theorem pg_allocate_failure (sourceName : GoString) (a : Alloc) (w : World PgState)
    (h : (allocate pgKeyGenService sourceName a w).1 ≠ none) :
    (allocate pgKeyGenService sourceName a w).2.db.keys = w.db.keys := by
  rcases allocate_cases pgKeyGenService sourceName a w with
    ⟨-, hw⟩ | ⟨-, hw⟩ | ⟨sid, w1, key, wk, hg, hdb, -, heq, -⟩
  · rw [hw]
  · rw [hw, pg_getSourceId_keys]
  · rw [heq] at h ⊢
    have hkeys : wk.db.keys = w.db.keys := by
      rw [hdb, ← pg_getSourceId_keys sourceName w, hg]
    obtain ⟨-, ⟨hnone, -, -⟩ | ⟨-, hk⟩⟩ := pg_createKey_tables sid key wk
    · simp [hnone] at h
    · simp only
      rw [hk, hkeys]

theorem rowsOfKey_append_other (s : List KeyRow) (row : KeyRow) (k : GoString)
    (h : row.raw_key ≠ k) :
    (s ++ [row]).filter (fun r => r.raw_key = k) = s.filter (fun r => r.raw_key = k) := by
  simp [List.filter_append, h]

/-- Once the ledger holds `k`, no allocation changes the rows that hold `k`. -/
theorem pg_allocate_rowsOfKey (sourceName : GoString) (a : Alloc) (w : World PgState)
    (k : GoString) (hk : w.db.keys.any (fun r => r.raw_key = k) = true) :
    (allocate pgKeyGenService sourceName a w).2.db.rowsOfKey k = w.db.rowsOfKey k := by
  cases h : (allocate pgKeyGenService sourceName a w).1 with
  | some e =>
    have := pg_allocate_failure sourceName a w (by rw [h]; simp)
    simp [PgState.rowsOfKey, this]
  | none =>
    obtain ⟨sid, w1, key, kid, evs, -, hfree, hkeys, -⟩ := pg_allocate_success sourceName a w h
    have hne : key ≠ k := by
      rintro rfl
      rw [hk] at hfree
      exact absurd hfree (by decide)
    simp only [PgState.rowsOfKey, hkeys]
    exact rowsOfKey_append_other _ _ _ hne

theorem any_raw_key_iff (s : PgState) (k : GoString) :
    s.keys.any (fun r => r.raw_key = k) = true ↔ s.rowsOfKey k ≠ [] := by
  simp [PgState.rowsOfKey, List.filter_eq_nil_iff]

/-- Once the ledger holds `k`, no sequence of allocations changes the rows that hold `k`. -/
theorem pg_allocateAll_rowsOfKey (later : List (GoString × Alloc)) (w : World PgState)
    (k : GoString) (hk : w.db.rowsOfKey k ≠ []) :
    (allocateAll pgKeyGenService later w).db.rowsOfKey k = w.db.rowsOfKey k := by
  induction later generalizing w with
  | nil => rfl
  | cons x rest ih =>
    obtain ⟨sourceName, a⟩ := x
    have h1 := pg_allocate_rowsOfKey sourceName a w k ((any_raw_key_iff _ _).2 hk)
    simp only [allocateAll]
    rw [ih _ (by rw [h1]; exact hk), h1]



/-- The source id a successful `getSourceId` returns is the id of a row of that name. -/
theorem pg_getSourceId_row (sourceName : GoString) (w w1 : World PgState) (sid : Int)
    (h : getSourceId pgKeyGenService sourceName w = ((sid, none), w1)) :
    ∃ r ∈ w1.db.sources, r.name = sourceName ∧ r.id = sid := by
  rcases pg_getSourceId_success sourceName w w1 sid h with
    ⟨-, hs, -⟩ | ⟨-, ⟨r, hf, hid⟩, hs, -⟩
  · exact ⟨SourceRow.mk sid sourceName true, by simp [hs], rfl, rfl⟩
  · refine ⟨r, by rw [hs]; exact List.mem_of_find?_eq_some hf, ?_, hid⟩
    have := List.find?_some hf
    simp only [Bool.and_eq_true, decide_eq_true_eq] at this
    exact this.1

/-- C8: over the relational store, whose key ledger refuses a raw key it already holds: once a
key `k` has been committed for the source `n1`, by a successful `StoreCustomKey(n1, k)` or by a
successful `GetGeneratedKey` for `n1` that returned `k`, the ledger holds exactly one row for `k`,
paired with the id of a source row named `n1`; and after any sequence of further allocation
requests, `StoreCustomKey(n2, k)` for any `n2` returns a non-nil error, leaves the key ledger
unchanged, and the one row for `k` is still the row of the commit: `k` is never paired with a
second source. -/
theorem committed_key_never_reused (w0 w1 : World PgState) (n1 k : GoString) (keyLength : Int)
    (hcommit : StoreCustomKey pgKeyGenService n1 k w0 = (none, w1)
      ∨ GetGeneratedKey pgKeyGenService n1 keyLength w0 = ((k, none), w1))
    (later : List (GoString × Alloc)) (n2 : GoString) :
    ∃ kid sid,
      w1.db.rowsOfKey k = [KeyRow.mk kid k sid]
      ∧ (∃ r ∈ w1.db.sources, r.name = n1 ∧ r.id = sid)
      ∧ (StoreCustomKey pgKeyGenService n2 k (allocateAll pgKeyGenService later w1)).1 ≠ none
      ∧ (StoreCustomKey pgKeyGenService n2 k (allocateAll pgKeyGenService later w1)).2.db.keys
          = (allocateAll pgKeyGenService later w1).db.keys
      ∧ (StoreCustomKey pgKeyGenService n2 k
            (allocateAll pgKeyGenService later w1)).2.db.rowsOfKey k
          = [KeyRow.mk kid k sid] := by
  -- the commit, seen as an allocation request
  obtain ⟨a, ha, hak⟩ : ∃ a, allocate pgKeyGenService n1 a w0 = (none, w1)
      ∧ (a = .store k ∨ ∃ len, a = .generate len
          ∧ (GetGeneratedKey pgKeyGenService n1 len w0).1.1 = k) := by
    rcases hcommit with h | h
    · exact ⟨.store k, by simp [allocate, h], Or.inl rfl⟩
    · exact ⟨.generate keyLength, by simp [allocate, h], Or.inr ⟨keyLength, rfl, by rw [h]⟩⟩
  obtain ⟨sid, wg, key, kid, evs, hg, hfree, hkeys, hsrc, -, hkind⟩ :=
    pg_allocate_success n1 a w0 (by rw [ha])
  have hkey : key = k := by
    rcases hak with rfl | ⟨len, rfl, hlen⟩
    · rcases hkind with h | ⟨len, h, -⟩
      · injection h with h; exact h.symm
      · exact absurd h (by simp)
    · rcases hkind with h | ⟨len2, h, hk2⟩
      · exact absurd h (by simp)
      · injection h with h
        subst h
        rw [← hk2, hlen]
  subst hkey
  rw [ha] at hkeys hsrc
  simp only at hkeys hsrc
  have hrows : w1.db.rowsOfKey key = [KeyRow.mk kid key sid] := by
    have h0 : w0.db.keys.filter (fun r => r.raw_key = key) = [] := by
      rw [List.filter_eq_nil_iff]
      intro r hr
      have := List.any_eq_false.1 hfree r hr
      simpa using this
    simp [PgState.rowsOfKey, hkeys, List.filter_append, h0]
  have hne : w1.db.rowsOfKey key ≠ [] := by rw [hrows]; simp
  have hlater := pg_allocateAll_rowsOfKey later w1 key hne
  have hheld : (allocateAll pgKeyGenService later w1).db.keys.any
      (fun r => r.raw_key = key) = true := by
    rw [any_raw_key_iff, hlater]; exact hne
  have hfail : (StoreCustomKey pgKeyGenService n2 key
      (allocateAll pgKeyGenService later w1)).1 ≠ none := by
    intro hnone
    obtain ⟨_, _, key2, _, _, -, hfree2, -, -, -, hkind2⟩ :=
      pg_allocate_success n2 (.store key) (allocateAll pgKeyGenService later w1) hnone
    rcases hkind2 with h | ⟨len, h, -⟩
    · injection h with h
      subst h
      rw [hheld] at hfree2
      exact absurd hfree2 (by decide)
    · exact absurd h (by simp)
  have hsame := pg_allocate_failure n2 (.store key) (allocateAll pgKeyGenService later w1) hfail
  simp only [allocate] at hsame
  refine ⟨kid, sid, hrows, ?_, hfail, hsame, ?_⟩
  · rw [hsrc]
    exact pg_getSourceId_row n1 w0 wg sid hg
  · rw [PgState.rowsOfKey, hsame]
    exact hlater.trans hrows



/-- C9: over the relational store, whose source registry refuses a name it already holds and
creates rows active: when two allocation requests for the same source name (each a
`GetGeneratedKey` or a `StoreCustomKey`) run one after the other and both succeed, the two key
rows they append carry the same source id; the second request finds the source through the
fallback (its INSERT into `sources` is refused with 23505 and the SELECT returns the id) and adds
no source row; and when the name was not registered before, the first request creates the row by
its INSERT, which returns that id. -/
theorem sequential_allocations_share_source_id (sourceName : GoString) (a1 a2 : Alloc)
    (w0 : World PgState)
    (h1 : (allocate pgKeyGenService sourceName a1 w0).1 = none)
    (h2 : (allocate pgKeyGenService sourceName a2
      (allocate pgKeyGenService sourceName a1 w0).2).1 = none) :
    ∃ sid kid1 key1 kid2 key2,
      (allocate pgKeyGenService sourceName a1 w0).2.db.keys
          = w0.db.keys ++ [KeyRow.mk kid1 key1 sid]
      ∧ (allocate pgKeyGenService sourceName a2
            (allocate pgKeyGenService sourceName a1 w0).2).2.db.keys
          = (allocate pgKeyGenService sourceName a1 w0).2.db.keys ++ [KeyRow.mk kid2 key2 sid]
      ∧ (allocate pgKeyGenService sourceName a2
            (allocate pgKeyGenService sourceName a1 w0).2).2.db.sources
          = (allocate pgKeyGenService sourceName a1 w0).2.db.sources
      ∧ (eventsSince (allocate pgKeyGenService sourceName a1 w0).2
            (allocate pgKeyGenService sourceName a2
              (allocate pgKeyGenService sourceName a1 w0).2).2).take 4
          = [.connect none,
              .queryInt sqlInsertSource [.str sourceName] 0 (some (.PgError "23505")),
              .queryInt sqlSelectSource [.str sourceName] sid none, .close]
      ∧ (w0.db.sources.any (fun r => r.name = sourceName) = false →
          (allocate pgKeyGenService sourceName a1 w0).2.db.sources
              = w0.db.sources ++ [SourceRow.mk sid sourceName true]
          ∧ (eventsSince w0 (allocate pgKeyGenService sourceName a1 w0).2).take 3
              = [.connect none, .queryInt sqlInsertSource [.str sourceName] sid none,
                  .close]) := by
  obtain ⟨sid1, wg1, key1, kid1, evs1, hg1, -, hkeys1, hsrc1, hlog1, -⟩ :=
    pg_allocate_success sourceName a1 w0 h1
  obtain ⟨sid2, wg2, key2, kid2, evs2, hg2, -, hkeys2, hsrc2, hlog2, -⟩ :=
    pg_allocate_success sourceName a2 _ h2
  generalize allocate pgKeyGenService sourceName a1 w0 = r1 at *
  generalize allocate pgKeyGenService sourceName a2 r1.2 = r2 at *
  -- the second request takes the fallback, with the id of the first
  have hsecond : sid2 = sid1 ∧ wg2.db.sources = r1.2.db.sources
      ∧ wg2.log = r1.2.log ++ [.connect none,
          .queryInt sqlInsertSource [.str sourceName] 0 (some (.PgError "23505")),
          .queryInt sqlSelectSource [.str sourceName] sid2 none, .close] := by
    rcases pg_getSourceId_success sourceName _ wg2 sid2 hg2 with
      ⟨hnew2, -, -⟩ | ⟨-, ⟨r, hf2, hid2⟩, hs2, hl2⟩
    · exfalso
      obtain ⟨r, hr, hname, -⟩ := pg_getSourceId_row sourceName w0 wg1 sid1 hg1
      rw [← hsrc1] at hr
      have := List.any_eq_false.1 hnew2 r hr
      simp [hname] at this
    · refine ⟨?_, hs2, hl2⟩
      rw [hsrc1] at hf2
      rcases pg_getSourceId_success sourceName w0 wg1 sid1 hg1 with
        ⟨hnew1, hs1, -⟩ | ⟨-, ⟨r', hf1, hid1⟩, hs1, -⟩
      · have hnone : w0.db.sources.find? (fun r => r.name = sourceName && r.is_active)
            = none := by
          rw [List.find?_eq_none]
          intro x hx
          have := List.any_eq_false.1 hnew1 x hx
          simp only [decide_eq_true_eq] at this
          simp [this]
        rw [hs1, List.find?_append, hnone] at hf2
        simp at hf2
        rw [← hid2, ← hf2]
      · rw [hs1, hf1] at hf2
        injection hf2 with hf2
        rw [← hid2, ← hf2, hid1]
  obtain ⟨hsid, hsrc2', hlog2'⟩ := hsecond
  subst hsid
  refine ⟨sid2, kid1, key1, kid2, key2, hkeys1, hkeys2, by rw [hsrc2, hsrc2'], ?_, ?_⟩
  · rw [eventsSince_append r1.2 r2.2 _ (by rw [hlog2, hlog2', List.append_assoc])]
    rfl
  · intro hnew
    rcases pg_getSourceId_success sourceName w0 wg1 sid2 hg1 with
      ⟨-, hs1, hl1⟩ | ⟨hex, -, -, -⟩
    · refine ⟨by rw [hsrc1, hs1], ?_⟩
      rw [eventsSince_append w0 r1.2 _ (by rw [hlog1, hl1, List.append_assoc])]
      rfl
    · rw [hnew] at hex
      exact absurd hex (by decide)



/-- Over a reachable store in which every source row is active, `getSourceId` succeeds and
leaves the store reachable, the rows active and the key ledger as it was. -/
theorem pg_getSourceId_reachable (sourceName : GoString) (w : World PgState)
    (ho : w.db.outages = []) (ha : ∀ r ∈ w.db.sources, r.is_active = true) :
    ∃ sid w1, getSourceId pgKeyGenService sourceName w = ((sid, none), w1)
      ∧ w1.db.outages = [] ∧ (∀ r ∈ w1.db.sources, r.is_active = true)
      ∧ w1.db.keys = w.db.keys := by
  have hh : w.db.outages.head? ≠ some true := by simp [ho]
  cases hn : w.db.sources.any (fun r => r.name = sourceName)
  · refine ⟨_, _, pg_getSourceId_new sourceName w hh hn, by simp [ho], ?_, rfl⟩
    intro r hr
    simp only [List.mem_append, List.mem_singleton] at hr
    rcases hr with hr | rfl
    · exact ha r hr
    · rfl
  · cases hf : w.db.sources.find? (fun r => r.name = sourceName && r.is_active) with
    | none =>
      exfalso
      obtain ⟨r, hr, hname⟩ := List.any_eq_true.1 hn
      have := List.find?_eq_none.1 hf r hr
      simp only [decide_eq_true_eq] at hname
      simp [hname, ha r hr] at this
    | some r =>
      exact ⟨_, _, pg_getSourceId_existing sourceName w r hh hn hf, by simp [ho], ha, rfl⟩

/-- C3 (as amended): for every source name and every non-empty key `k`: when the database answers
the INSERT of `k` into the key ledger with an error, `StoreCustomKey` returns
`ErrCouldNotSaveKeyForSource`, whether the error is a uniqueness violation or any other one; only
`createKey`, inside, tells the two apart (`ErrKeyAlreadyExists` against `ErrCouldNotSaveNewKey`).
In particular, over a reachable relational store with active source rows whose ledger does not
hold `k`, `StoreCustomKey(n1, k)` returns nil, and a following `StoreCustomKey(n2, k)`, whose
INSERT the ledger refuses with 23505, returns `ErrCouldNotSaveKeyForSource`. -/
theorem StoreCustomKey_ledger_rejection {σ : Type} (kg : keyGenService σ)
    (sourceName k : GoString) (w : World σ) (hk : k ≠ []) :
    ((eventsSince w (StoreCustomKey kg sourceName k w).2).any Event.isRejectedKeyInsert = true →
        (StoreCustomKey kg sourceName k w).1 = some .ErrCouldNotSaveKeyForSource)
    ∧ (∀ (sourceId id : Int) (err : GoError),
        Event.queryInt sqlInsertKey [.str k, .int sourceId] id (some err)
            ∈ eventsSince w (createKey kg sourceId k w).2 →
        (createKey kg sourceId k w).1
          = some (if isDuplicateKeyError err then .ErrKeyAlreadyExists
              else .ErrCouldNotSaveNewKey))
    ∧ (∀ (n1 n2 : GoString) (v : World PgState), v.db.outages = [] →
        (∀ r ∈ v.db.sources, r.is_active = true) →
        v.db.keys.any (fun r => r.raw_key = k) = false →
        (StoreCustomKey pgKeyGenService n1 k v).1 = none
        ∧ (∃ sid, Event.queryInt sqlInsertKey [.str k, .int sid] 0 (some (.PgError "23505"))
            ∈ eventsSince (StoreCustomKey pgKeyGenService n1 k v).2
                (StoreCustomKey pgKeyGenService n2 k (StoreCustomKey pgKeyGenService n1 k v).2).2)
        ∧ (StoreCustomKey pgKeyGenService n2 k (StoreCustomKey pgKeyGenService n1 k v).2).1
            = some .ErrCouldNotSaveKeyForSource) := by
  refine ⟨?_, ?_, ?_⟩
  · intro hrej
    obtain ⟨evs1, hlog1, hno1, -⟩ := getSourceId_log kg sourceName w
    have hrej1 : evs1.any Event.isRejectedKeyInsert = false := by
      rw [List.any_eq_false]
      intro e he hr
      have h1 := Event.isKeyInsert_of_isRejectedKeyInsert e hr
      rw [(hno1 e he).1] at h1
      exact absurd h1 (by decide)
    rcases StoreCustomKey_cases kg sourceName k w hk with
      ⟨sid, e, w1, hg, h⟩ | ⟨sid, w1, e, w2, hg, hc, h⟩ | ⟨sid, w1, w2, hg, hc, h⟩
    · rw [h] at hrej
      rw [hg] at hlog1
      rw [eventsSince_append w w1 _ hlog1, hrej1] at hrej
      exact absurd hrej (by decide)
    · rw [h]
    · obtain ⟨evs2, hlog2, -, hrej2, -⟩ := createKey_log kg sid k w1
      rw [h] at hrej
      rw [hg] at hlog1
      rw [hc] at hlog2 hrej2
      simp only at hlog1 hlog2 hrej2 hrej
      rw [eventsSince_append w w2 (evs1 ++ evs2) (by rw [hlog2, hlog1, List.append_assoc]),
        List.any_append, hrej1, Bool.false_or] at hrej
      exact absurd rfl (hrej2 hrej).1
  · intro sourceId id err hmem
    rcases createKey_cases kg sourceId k w with
      ⟨e, s1, -, h⟩ | ⟨s1, id', s2, -, -, h⟩ | ⟨s1, id', err', s2, -, -, h⟩
    · rw [h] at hmem
      rw [eventsSince_append w _ [Event.connect (some e)] rfl] at hmem
      simp at hmem
    · rw [h] at hmem
      rw [eventsSince_append w _ _ rfl] at hmem
      simp at hmem
    · rw [h] at hmem ⊢
      rw [eventsSince_append w _ _ rfl] at hmem
      simp at hmem
      rw [hmem.2]
  · intro n1 n2 v ho ha hfree
    obtain ⟨sid1, v1, hg1, ho1, ha1, hk1⟩ := pg_getSourceId_reachable n1 v ho ha
    obtain ⟨v1', hc1, ho1', hsrc1', hkeys1'⟩ : ∃ v1', createKey pgKeyGenService sid1 k v1
        = (none, v1') ∧ v1'.db.outages = [] ∧ v1'.db.sources = v1.db.sources
        ∧ v1'.db.keys = v1.db.keys ++ [KeyRow.mk v1.db.keysIdSeq k sid1] :=
      ⟨_, pg_createKey_free sid1 k v1 (by simp [ho1]) (by rw [hk1]; exact hfree),
        by simp [ho1], rfl, rfl⟩
    have hs1 : StoreCustomKey pgKeyGenService n1 k v = (none, v1') := by
      simp only [StoreCustomKey, hk, if_false, hg1, hc1]
    rw [hs1]
    simp only
    obtain ⟨sid2, v2, hg2, ho2, -, hk2⟩ := pg_getSourceId_reachable n2 v1' ho1'
      (by rw [hsrc1']; exact ha1)
    have hheld : v2.db.keys.any (fun r => r.raw_key = k) = true := by
      rw [hk2, hkeys1']
      simp
    have hc2 := pg_createKey_taken sid2 k v2 (by simp [ho2]) hheld
    obtain ⟨evs, hevs, -⟩ := getSourceId_log pgKeyGenService n2 v1'
    rw [hg2] at hevs
    simp only at hevs
    have hs2 : StoreCustomKey pgKeyGenService n2 k v1'
        = (some .ErrCouldNotSaveKeyForSource, (createKey pgKeyGenService sid2 k v2).2) := by
      simp only [StoreCustomKey, hk, if_false, hg2, hc2]
    rw [hs2]
    refine ⟨trivial, ⟨sid2, ?_⟩, rfl⟩
    simp only
    rw [eventsSince_append v1' _ (evs ++ [Event.connect none,
      Event.queryInt sqlInsertKey [.str k, .int sid2] 0 (some (.PgError "23505")),
      Event.close]) (by rw [hc2]; simp only [hevs, List.append_assoc])]
    simp



/-- A rejection at a concrete input: the ledger of `World.taken` holds the key the call
generates. -/
theorem GetGeneratedKey_rejected_key_not_retried_witness :
    ((1 : Int) ≤ 8
      ∧ (eventsSince World.taken
          (GetGeneratedKey pgKeyGenService (goStr "some-source") 8 World.taken).2).any
            Event.isRejectedKeyInsert = true)
    ∧ ((GetGeneratedKey pgKeyGenService (goStr "some-source") 8 World.taken).1
          = ([], some .ErrCouldNotSaveKeyForSource)
      ∧ ((eventsSince World.taken
          (GetGeneratedKey pgKeyGenService (goStr "some-source") 8 World.taken).2).filter
            Event.isKeyInsert).length = 1
      ∧ ((eventsSince World.taken
          (GetGeneratedKey pgKeyGenService (goStr "some-source") 8 World.taken).2).filter
            Event.isRandRead).length = 1) :=
  ⟨⟨by decide, by decide⟩,
    GetGeneratedKey_rejected_key_not_retried pgKeyGenService (goStr "some-source") 8 World.taken
      (by decide) (by decide)⟩

/-- The commit of `some-key` for the source `a` on a fresh database, two further requests, and
then the attempt to register `some-key` for the source `b`. -/
theorem committed_key_never_reused_witness :
    (StoreCustomKey pgKeyGenService (goStr "a") (goStr "some-key") World.fresh).1 = none
    ∧ (StoreCustomKey pgKeyGenService (goStr "b") (goStr "some-key")
        (allocateAll pgKeyGenService
          [(goStr "b", .generate 8), (goStr "b", .store (goStr "some-key"))]
          (StoreCustomKey pgKeyGenService (goStr "a") (goStr "some-key") World.fresh).2)).1
        ≠ none
    ∧ (StoreCustomKey pgKeyGenService (goStr "b") (goStr "some-key")
        (allocateAll pgKeyGenService
          [(goStr "b", .generate 8), (goStr "b", .store (goStr "some-key"))]
          (StoreCustomKey pgKeyGenService (goStr "a") (goStr "some-key")
            World.fresh).2)).2.db.keys
        = (allocateAll pgKeyGenService
          [(goStr "b", .generate 8), (goStr "b", .store (goStr "some-key"))]
          (StoreCustomKey pgKeyGenService (goStr "a") (goStr "some-key")
            World.fresh).2).db.keys :=
  have hfirst : (StoreCustomKey pgKeyGenService (goStr "a") (goStr "some-key")
      World.fresh).1 = none := by decide
  have h := committed_key_never_reused World.fresh
    (StoreCustomKey pgKeyGenService (goStr "a") (goStr "some-key") World.fresh).2
    (goStr "a") (goStr "some-key") 0 (Or.inl (Prod.ext hfirst rfl))
    [(goStr "b", .generate 8), (goStr "b", .store (goStr "some-key"))] (goStr "b")
  ⟨hfirst, h.elim fun _ h => h.elim fun _ h => ⟨h.2.2.1, h.2.2.2.1⟩⟩

/-- A custom key and then a generated key for the same new source on a fresh database. -/
theorem sequential_allocations_share_source_id_witness :
    ((allocate pgKeyGenService (goStr "some-source") (.store (goStr "some-key"))
        World.fresh).1 = none
      ∧ (allocate pgKeyGenService (goStr "some-source") (.generate 8)
          (allocate pgKeyGenService (goStr "some-source") (.store (goStr "some-key"))
            World.fresh).2).1 = none)
    ∧ ∃ sid kid1 key1 kid2 key2,
      (allocate pgKeyGenService (goStr "some-source") (.store (goStr "some-key"))
          World.fresh).2.db.keys = World.fresh.db.keys ++ [KeyRow.mk kid1 key1 sid]
      ∧ (allocate pgKeyGenService (goStr "some-source") (.generate 8)
          (allocate pgKeyGenService (goStr "some-source") (.store (goStr "some-key"))
            World.fresh).2).2.db.keys
        = (allocate pgKeyGenService (goStr "some-source") (.store (goStr "some-key"))
            World.fresh).2.db.keys ++ [KeyRow.mk kid2 key2 sid] :=
  ⟨⟨by decide, by decide⟩,
    (sequential_allocations_share_source_id (goStr "some-source") (.store (goStr "some-key"))
      (.generate 8) World.fresh (by decide) (by decide)).elim
      fun sid h => h.elim fun kid1 h => h.elim fun key1 h => h.elim fun kid2 h =>
        h.elim fun key2 h => ⟨sid, kid1, key1, kid2, key2, h.1, h.2.1⟩⟩

/-- C3 fails as stated.  On a fresh database `StoreCustomKey("some-source", "some-key")` returns
nil; the same call again has its INSERT into the key ledger refused with 23505 and returns
`ErrCouldNotSaveKeyForSource`, not `ErrKeyAlreadyExists`; and that is the very error the call
returns when the INSERT fails for another reason (the test double of the test "returns error if
key cannot be saved for source"). -/
theorem StoreCustomKey_ledger_conflict_counterexample :
    (StoreCustomKey pgKeyGenService (goStr "some-source") (goStr "some-key") World.fresh).1
        = none
    ∧ Event.queryInt sqlInsertKey [.str (goStr "some-key"), .int 1] 0 (some (.PgError "23505"))
        ∈ (StoreCustomKey pgKeyGenService (goStr "some-source") (goStr "some-key")
            (StoreCustomKey pgKeyGenService (goStr "some-source") (goStr "some-key")
              World.fresh).2).2.log
    ∧ (StoreCustomKey pgKeyGenService (goStr "some-source") (goStr "some-key")
        (StoreCustomKey pgKeyGenService (goStr "some-source") (goStr "some-key")
          World.fresh).2).1 = some .ErrCouldNotSaveKeyForSource
    ∧ (StoreCustomKey pgKeyGenService (goStr "some-source") (goStr "some-key")
        (StoreCustomKey pgKeyGenService (goStr "some-source") (goStr "some-key")
          World.fresh).2).1 ≠ some .ErrKeyAlreadyExists
    ∧ (StoreCustomKey
        (NewKeyGenService (MockPostgresDb [none, none, none, some (.errorString "failed")] 0))
        (goStr "some-source") (goStr "some-key") ⟨0, [], []⟩).1
        = some .ErrCouldNotSaveKeyForSource := by
  decide

/-- The amended statement at a concrete input: the key `some-key`, twice, on a fresh database. -/
theorem StoreCustomKey_ledger_rejection_witness :
    goStr "some-key" ≠ []
    ∧ (StoreCustomKey pgKeyGenService (goStr "a") (goStr "some-key") World.fresh).1 = none
    ∧ (StoreCustomKey pgKeyGenService (goStr "b") (goStr "some-key")
        (StoreCustomKey pgKeyGenService (goStr "a") (goStr "some-key") World.fresh).2).1
        = some .ErrCouldNotSaveKeyForSource :=
  have h := (StoreCustomKey_ledger_rejection pgKeyGenService (goStr "a") (goStr "some-key")
    World.fresh (by decide)).2.2 (goStr "a") (goStr "b") World.fresh rfl
    (by decide) (by decide)
  ⟨by decide, h.1, h.2.2⟩


/-! ## The length of a generated key -/

theorem log2Fuel_spec : ∀ (fuel n : Nat), 1 ≤ n → n ≤ fuel →
    2 ^ log2Fuel fuel n ≤ n ∧ n < 2 ^ (log2Fuel fuel n + 1) := by
  intro fuel
  induction fuel with
  | zero => intro n h1 h2; omega
  | succ fuel ih =>
    intro n h1 h2
    unfold log2Fuel
    split
    · next h =>
      obtain ⟨ih1, ih2⟩ := ih (n / 2) (by omega) (by omega)
      rw [pow_succ] at ih2 ⊢
      constructor
      · omega
      · rw [pow_succ]; omega
    · next h =>
      simp
      omega

theorem ilog2_spec (n : Nat) (h : 1 ≤ n) : 2 ^ ilog2 n ≤ n ∧ n < 2 ^ (ilog2 n + 1) :=
  log2Fuel_spec n n h le_rfl

/-- Rounding to the nearest integer loses at most one half. -/
theorem roundHalfEven_lower (a b : Nat) (hb : 0 < b) :
    2 * a ≤ (2 * roundHalfEven a b + 1) * b := by
  have hdm := Nat.div_add_mod a b
  have hlt := Nat.mod_lt a hb
  unfold roundHalfEven
  split
  · nlinarith
  · split
    · nlinarith
    · have : 2 * (a % b) = b := by omega
      nlinarith [Nat.zero_le (a / b % 2)]

theorem scaleBy_pos (a b : Nat) (e : Int) (hb : 0 < b) : 0 < (scaleBy a b e).2 := by
  unfold scaleBy
  split
  · exact Nat.mul_pos hb (by positivity)
  · exact hb

theorem scaleBy_toRat (a b : Nat) (e : Int) (hb : 0 < b) :
    ((scaleBy a b e).1 : ℚ) / ((scaleBy a b e).2 : ℚ) = (a : ℚ) / (b : ℚ) / (2 : ℚ) ^ e := by
  have hb' : (b : ℚ) ≠ 0 := by exact_mod_cast hb.ne'
  unfold scaleBy
  split
  · next h =>
    have : (2 : ℚ) ^ e = ((2 : ℚ) ^ e.toNat) := by
      conv_lhs => rw [← Int.toNat_of_nonneg h]
      rw [zpow_natCast]
    simp only [Nat.cast_mul, Nat.cast_pow, Nat.cast_ofNat]
    rw [this]
    field_simp
  · next h =>
    have hne : 0 ≤ -e := by omega
    have : (2 : ℚ) ^ e = ((2 : ℚ) ^ (-e).toNat)⁻¹ := by
      rw [← zpow_natCast, Int.toNat_of_nonneg hne, zpow_neg, inv_inv]
    simp only [Nat.cast_mul, Nat.cast_pow, Nat.cast_ofNat]
    rw [this]
    field_simp



/-- The exponent chosen for `a / b` is not too large: `2 ^ t ≤ a / b`. -/
theorem floorLog2Ratio_lower (a b : Nat) (ha : 1 ≤ a) (hb : 1 ≤ b) :
    (2 : ℚ) ^ floorLog2Ratio a b ≤ (a : ℚ) / (b : ℚ) := by
  have hbq : (0 : ℚ) < b := by exact_mod_cast hb
  obtain ⟨ha1, -⟩ := ilog2_spec a ha
  obtain ⟨-, hb2⟩ := ilog2_spec b hb
  have ha1q : (2 : ℚ) ^ (ilog2 a : Int) ≤ a := by
    rw [zpow_natCast]; exact_mod_cast ha1
  have hb2q : (b : ℚ) < (2 : ℚ) ^ ((ilog2 b : Int) + 1) := by
    have : (b : ℚ) < (2 : ℚ) ^ (ilog2 b + 1) := by exact_mod_cast hb2
    rw [← zpow_natCast] at this
    exact_mod_cast this
  unfold floorLog2Ratio
  simp only
  split
  · next h =>
    have hs := scaleBy_toRat a b ((ilog2 a : Int) - (ilog2 b : Int)) hb
    have hpos := scaleBy_pos a b ((ilog2 a : Int) - (ilog2 b : Int)) hb
    have hq : (1 : ℚ) ≤ ((scaleBy a b ((ilog2 a : Int) - (ilog2 b : Int))).1 : ℚ)
        / ((scaleBy a b ((ilog2 a : Int) - (ilog2 b : Int))).2 : ℚ) := by
      rw [one_le_div (by exact_mod_cast hpos)]
      exact_mod_cast h
    rw [hs, one_le_div (by positivity)] at hq
    exact hq
  · rw [le_div_iff₀ hbq]
    have h2 : (2 : ℚ) ^ ((ilog2 a : Int) - (ilog2 b : Int) - 1)
        = (2 : ℚ) ^ (ilog2 a : Int) / (2 : ℚ) ^ ((ilog2 b : Int) + 1) := by
      rw [← zpow_sub₀ (by norm_num : (2 : ℚ) ≠ 0)]
      congr 1
      ring
    rw [h2, div_mul_eq_mul_div, div_le_iff₀ (by positivity)]
    have hpa : (0 : ℚ) < (2 : ℚ) ^ (ilog2 a : Int) := by positivity
    nlinarith

/-- Rounding to binary64 loses at most the fraction `2 ^ -53` of the value. -/
theorem roundToFloat64_lower (a b : Nat) (ha : 1 ≤ a) (hb : 1 ≤ b) :
    (a : ℚ) / (b : ℚ) * (1 - 1 / 2 ^ 53) ≤ (roundToFloat64 a b).toRat := by
  have hbq : (0 : ℚ) < b := by exact_mod_cast hb
  have ht := floorLog2Ratio_lower a b ha hb
  unfold roundToFloat64 Float64.toRat
  simp only
  generalize floorLog2Ratio a b = t at ht ⊢
  have hs := scaleBy_toRat a b (t - 52) hb
  have hpos := scaleBy_pos a b (t - 52) hb
  have hr := roundHalfEven_lower (scaleBy a b (t - 52)).1 (scaleBy a b (t - 52)).2 hpos
  generalize (scaleBy a b (t - 52)).1 = p at hs hr ⊢
  generalize (scaleBy a b (t - 52)).2 = q at hs hr hpos ⊢
  generalize roundHalfEven p q = m at hr ⊢
  have hqq : (0 : ℚ) < q := by exact_mod_cast hpos
  have hrq : (2 : ℚ) * p ≤ (2 * m + 1) * q := by exact_mod_cast hr
  have he : (0 : ℚ) < (2 : ℚ) ^ (t - 52) := by positivity
  -- y = p / q is the scaled value, at least 2 ^ 52
  have hy : (2 : ℚ) ^ 52 ≤ (p : ℚ) / q := by
    rw [hs, le_div_iff₀ he]
    have : (2 : ℚ) ^ 52 * (2 : ℚ) ^ (t - 52) = (2 : ℚ) ^ t := by
      rw [← zpow_natCast, ← zpow_add₀ (by norm_num : (2 : ℚ) ≠ 0)]
      congr 1
      simp
    rw [this]
    exact ht
  have hm : (p : ℚ) / q * (1 - 1 / 2 ^ 53) ≤ m := by
    have h1 : (p : ℚ) / q ≤ m + 1 / 2 := by
      rw [div_le_iff₀ hqq]
      linarith
    linarith
  have hab : (a : ℚ) / b = (p : ℚ) / q * (2 : ℚ) ^ (t - 52) := by
    rw [hs]
    field_simp
    ring
  rw [hab]
  calc (p : ℚ) / q * (2 : ℚ) ^ (t - 52) * (1 - 1 / 2 ^ 53)
      = (p : ℚ) / q * (1 - 1 / 2 ^ 53) * (2 : ℚ) ^ (t - 52) := by ring
    _ ≤ m * (2 : ℚ) ^ (t - 52) := by
      exact mul_le_mul_of_nonneg_right hm he.le

theorem roundToFloat64_mant_pos (a b : Nat) (ha : 1 ≤ a) (hb : 1 ≤ b) :
    1 ≤ (roundToFloat64 a b).mant := by
  have h := roundToFloat64_lower a b ha hb
  have hpos : (0 : ℚ) < (a : ℚ) / (b : ℚ) * (1 - 1 / 2 ^ 53) := by
    have : (0 : ℚ) < (a : ℚ) / b := by
      apply div_pos <;> exact_mod_cast (by omega)
    apply mul_pos this
    norm_num
  have h2 : (0 : ℚ) < (roundToFloat64 a b).toRat := lt_of_lt_of_le hpos h
  unfold Float64.toRat at h2
  by_contra hc
  have : (roundToFloat64 a b).mant = 0 := by omega
  rw [this] at h2
  simp at h2

/-- `math.Ceil` does not go below its argument. -/
theorem Float64.le_ceil (x : Float64) : x.toRat ≤ (x.ceil : ℚ) := by
  unfold Float64.toRat Float64.ceil
  split
  · next h =>
    have : (2 : ℚ) ^ x.exp = ((2 : ℚ) ^ x.exp.toNat) := by
      conv_lhs => rw [← Int.toNat_of_nonneg h]
      rw [zpow_natCast]
    rw [this]
    push_cast
    exact le_rfl
  · next h =>
    have hne : 0 ≤ -x.exp := by omega
    have : (2 : ℚ) ^ x.exp = ((2 : ℚ) ^ (-x.exp).toNat)⁻¹ := by
      rw [← zpow_natCast, Int.toNat_of_nonneg hne, zpow_neg, inv_inv]
    rw [this]
    generalize (-x.exp).toNat = p
    have hP : 0 < 2 ^ p := by positivity
    have hdiv : x.mant ≤ (x.mant + 2 ^ p - 1) / 2 ^ p * 2 ^ p := by
      have h1 := Nat.div_add_mod (x.mant + 2 ^ p - 1) (2 ^ p)
      have h2 := Nat.mod_lt (x.mant + 2 ^ p - 1) hP
      rw [Nat.mul_comm] at h1
      omega
    have hq : (x.mant : ℚ) ≤ (((x.mant + 2 ^ p - 1) / 2 ^ p : Nat) : ℚ) * (2 : ℚ) ^ p := by
      exact_mod_cast hdiv
    rw [← div_eq_mul_inv, div_le_iff₀ (by positivity)]
    exact hq



theorem scaleBy_fst_pos (a b : Nat) (e : Int) (ha : 1 ≤ a) : 1 ≤ (scaleBy a b e).1 := by
  unfold scaleBy
  split
  · exact ha
  · exact Nat.mul_pos ha (by positivity)

theorem keyLengthDivisor_eq : keyLengthDivisor = ⟨6004799503145649, -52⟩ := by decide

/-- The division of binary64 loses at most the fraction `2 ^ -53` of the exact quotient. -/
theorem Float64.div_lower (x y : Float64) (hx : 1 ≤ x.mant) (hy : 1 ≤ y.mant) :
    x.toRat / y.toRat * (1 - 1 / 2 ^ 53) ≤ (x.div y).toRat := by
  have h := roundToFloat64_lower (scaleBy x.mant y.mant (y.exp - x.exp)).1
    (scaleBy x.mant y.mant (y.exp - x.exp)).2 (scaleBy_fst_pos _ _ _ hx)
    (scaleBy_pos _ _ _ hy)
  rw [scaleBy_toRat _ _ _ hy] at h
  have hq : x.toRat / y.toRat = (x.mant : ℚ) / (y.mant : ℚ) / (2 : ℚ) ^ (y.exp - x.exp) := by
    unfold Float64.toRat
    have hy' : (y.mant : ℚ) ≠ 0 := by exact_mod_cast (by omega : y.mant ≠ 0)
    rw [zpow_sub₀ (by norm_num : (2 : ℚ) ≠ 0)]
    field_simp
  rw [hq]
  exact h

/-- The buffer is long enough: at least three quarters of the requested length. -/
theorem keyBufferLen_lower (keyLength : Nat) : 3 * keyLength ≤ 4 * keyBufferLen keyLength := by
  rcases Nat.eq_zero_or_pos keyLength with rfl | hpos
  · simp
  have hX := roundToFloat64_lower keyLength 1 hpos le_rfl
  have hXm := roundToFloat64_mant_pos keyLength 1 hpos le_rfl
  have hQ := Float64.div_lower (Float64.ofNat keyLength) keyLengthDivisor hXm
    (by rw [keyLengthDivisor_eq]; norm_num)
  have hC := Float64.le_ceil ((Float64.ofNat keyLength).div keyLengthDivisor)
  have hc : keyLengthDivisor.toRat = 6004799503145649 / 2 ^ 52 := by
    rw [keyLengthDivisor_eq]
    simp [Float64.toRat]
    norm_num
  simp only [Nat.cast_one, div_one] at hX
  have hk : (0 : ℚ) < keyLength := by exact_mod_cast hpos
  have hn : (3 : ℚ) * keyLength ≤ 4 * (keyBufferLen keyLength : ℚ) := by
    have h1 : (keyLength : ℚ) * (1 - 1 / 2 ^ 53) / keyLengthDivisor.toRat * (1 - 1 / 2 ^ 53)
        ≤ (keyBufferLen keyLength : ℚ) := by
      refine le_trans ?_ (le_trans hQ hC)
      apply mul_le_mul_of_nonneg_right _ (by norm_num)
      apply div_le_div_of_nonneg_right hX
      rw [hc]; norm_num
    rw [hc] at h1
    have h2 : (3 : ℚ) / 4 * keyLength
        ≤ (keyLength : ℚ) * (1 - 1 / 2 ^ 53) / (6004799503145649 / 2 ^ 52) * (1 - 1 / 2 ^ 53) := by
      have : (keyLength : ℚ) * (1 - 1 / 2 ^ 53) / (6004799503145649 / 2 ^ 52) * (1 - 1 / 2 ^ 53)
          = (keyLength : ℚ) * ((1 - 1 / 2 ^ 53) / (6004799503145649 / 2 ^ 52) * (1 - 1 / 2 ^ 53)) := by
        ring
      rw [this, mul_comm ((3 : ℚ) / 4)]
      apply mul_le_mul_of_nonneg_left _ hk.le
      norm_num
    linarith
  exact_mod_cast hn

/-- `EncodedLen` of `RawURLEncoding`: `n` bytes give `⌈4n/3⌉ = (8n + 5) / 6` characters. -/
theorem EncodeToString_length : ∀ (src : List Nat),
    (EncodeToString src).length = (src.length * 8 + 5) / 6
  | [] => by simp [EncodeToString]
  | [_] => by simp [EncodeToString]
  | [_, _] => by simp [EncodeToString]
  | _ :: _ :: _ :: rest => by
    simp only [EncodeToString, List.length_cons, EncodeToString_length rest]
    omega

theorem randRead_length {σ : Type} (n : Nat) (w : World σ) : (randRead n w).1.length = n := by
  simp [randRead]

/-- The generated key is the encoding of `keyBufferLen keyLength` bytes. -/
theorem generateUniqueKey_length {σ : Type} (keyLength : Nat) (w : World σ) :
    (generateUniqueKey keyLength w).1.length = (keyBufferLen keyLength * 8 + 5) / 6 := by
  simp [generateUniqueKey, EncodeToString_length, randRead_length]

/-- C4: for every `keyLength ≥ 1` the string `generateUniqueKey(keyLength)` returns has at least
`keyLength` characters, whatever bytes `crypto/rand` delivers; hence every key that
`GetGeneratedKey(sourceName, keyLength)` returns with a nil error has length at least
`keyLength`. -/
theorem generated_key_length_ge {σ : Type} (kg : keyGenService σ) (sourceName : GoString)
    (keyLength : Int) (w : World σ) (h : 1 ≤ keyLength) :
    keyLength ≤ ((generateUniqueKey keyLength.toNat w).1.length : Int)
    ∧ ((GetGeneratedKey kg sourceName keyLength w).1.2 = none →
        keyLength ≤ ((GetGeneratedKey kg sourceName keyLength w).1.1.length : Int)) := by
  have hlen : ∀ v : World σ, keyLength ≤ ((generateUniqueKey keyLength.toNat v).1.length : Int) := by
    intro v
    rw [generateUniqueKey_length]
    have := keyBufferLen_lower keyLength.toNat
    omega
  refine ⟨hlen w, ?_⟩
  intro hnil
  rcases GetGeneratedKey_cases kg sourceName keyLength w h with
    ⟨sid, e, w1, hg, hr⟩ | ⟨sid, w1, e, w2, hg, hc, hr⟩ | ⟨sid, w1, w2, hg, hc, hr⟩
  · rw [hr] at hnil; simp at hnil
  · rw [hr] at hnil; simp at hnil
  · rw [hr]
    exact hlen w1

/-- The test "returns key if successful": a key of length 8 on a fresh database. -/
theorem generated_key_length_ge_witness :
    (1 : Int) ≤ 8
    ∧ (8 : Int) ≤ ((generateUniqueKey (8 : Int).toNat World.fresh).1.length : Int)
    ∧ ((GetGeneratedKey pgKeyGenService (goStr "some-source") 8 World.fresh).1.2 = none →
        (8 : Int) ≤ ((GetGeneratedKey pgKeyGenService (goStr "some-source") 8
          World.fresh).1.1.length : Int)) :=
  ⟨by decide, generated_key_length_ge pgKeyGenService (goStr "some-source") 8 World.fresh
    (by decide)⟩

/-! ## The generated key as URL-safe base64 -/



set_option maxRecDepth 100000 in
theorem decodeMap_base64Char : ∀ i, i < 64 → decodeMap (base64Char i) = some i := by
  decide

set_option maxRecDepth 100000 in
theorem isURLSafeChar_base64Char : ∀ i, i < 64 → isURLSafeChar (base64Char i) = true := by
  decide

theorem decodeSextets_cons (i : Nat) (h : i < 64) (rest : List Nat) :
    decodeSextets (base64Char i :: rest) = (decodeSextets rest).map fun r => i :: r := by
  simp [decodeSextets, decodeMap_base64Char i h]

/-- Every character of an encoding is a character of the URL-safe alphabet. -/
theorem EncodeToString_chars : ∀ (src : List Nat), (∀ b ∈ src, b < 256) →
    ∀ c ∈ EncodeToString src, isURLSafeChar c = true
  | [], _ => by simp [EncodeToString]
  | [a], h => by
    have ha : a < 256 := h a (by simp)
    intro c hc
    simp only [EncodeToString, List.mem_cons, List.mem_singleton, List.not_mem_nil, or_false]
      at hc
    rcases hc with rfl | rfl <;> exact isURLSafeChar_base64Char _ (by omega)
  | [a, b], h => by
    have ha : a < 256 := h a (by simp)
    have hb : b < 256 := h b (by simp)
    intro c hc
    simp only [EncodeToString, List.mem_cons, List.mem_singleton, List.not_mem_nil, or_false]
      at hc
    rcases hc with rfl | rfl | rfl <;> exact isURLSafeChar_base64Char _ (by omega)
  | a :: b :: c :: rest, h => by
    have ha : a < 256 := h a (by simp)
    have hb : b < 256 := h b (by simp)
    have hc : c < 256 := h c (by simp)
    have ih := EncodeToString_chars rest (fun x hx => h x (by simp [hx]))
    intro x hx
    simp only [EncodeToString, List.mem_cons] at hx
    rcases hx with rfl | rfl | rfl | rfl | hx
    · exact isURLSafeChar_base64Char _ (by omega)
    · exact isURLSafeChar_base64Char _ (by omega)
    · exact isURLSafeChar_base64Char _ (by omega)
    · exact isURLSafeChar_base64Char _ (by omega)
    · exact ih x hx

/-- Decoding undoes encoding. -/
theorem DecodeString_EncodeToString : ∀ (src : List Nat), (∀ b ∈ src, b < 256) →
    DecodeString (EncodeToString src) = some src
  | [], _ => by simp [EncodeToString, DecodeString, decodeSextets, decodeQuanta]
  | [a], h => by
    have ha : a < 256 := h a (by simp)
    simp only [EncodeToString, DecodeString]
    rw [decodeSextets_cons _ (by omega), decodeSextets_cons _ (by omega)]
    simp only [decodeSextets, Option.map_some', Option.some_bind, decodeQuanta, Option.some.injEq,
      List.cons.injEq, and_true]
    omega
  | [a, b], h => by
    have ha : a < 256 := h a (by simp)
    have hb : b < 256 := h b (by simp)
    simp only [EncodeToString, DecodeString]
    rw [decodeSextets_cons _ (by omega), decodeSextets_cons _ (by omega),
      decodeSextets_cons _ (by omega)]
    simp only [decodeSextets, Option.map_some', Option.some_bind, decodeQuanta, Option.some.injEq,
      List.cons.injEq, and_true]
    omega
  | a :: b :: c :: rest, h => by
    have ha : a < 256 := h a (by simp)
    have hb : b < 256 := h b (by simp)
    have hc : c < 256 := h c (by simp)
    have ih := DecodeString_EncodeToString rest (fun x hx => h x (by simp [hx]))
    simp only [DecodeString] at ih
    rcases hs : decodeSextets (EncodeToString rest) with _ | q
    · rw [hs] at ih; simp at ih
    · rw [hs] at ih
      simp only [Option.some_bind] at ih
      simp only [EncodeToString, DecodeString]
      rw [decodeSextets_cons _ (by omega), decodeSextets_cons _ (by omega),
        decodeSextets_cons _ (by omega), decodeSextets_cons _ (by omega), hs]
      simp only [Option.map_some', Option.some_bind, decodeQuanta, ih, Option.some.injEq,
        List.cons.injEq, and_true]
      omega

theorem randRead_lt {σ : Type} (n : Nat) (w : World σ) : ∀ b ∈ (randRead n w).1, b < 256 := by
  intro b hb
  simp only [randRead, List.mem_append, List.mem_map, List.mem_replicate] at hb
  rcases hb with ⟨x, _, rfl⟩ | ⟨_, rfl⟩
  · exact Nat.mod_lt _ (by decide)
  · decide

/-- C19: for every `keyLength` (every `keyLength ≥ 1` among them) and whatever bytes
`crypto/rand` delivers, every character of the string `generateUniqueKey(keyLength)` returns is
one of `A-Z`, `a-z`, `0-9`, `-`, `_` (so none is the padding character `=`), and
`base64.RawURLEncoding.DecodeString` of the string succeeds and gives back the byte buffer the
string was encoded from. -/
theorem generated_key_is_raw_url_base64 {σ : Type} (keyLength : Nat) (w : World σ) :
    (∀ c ∈ (generateUniqueKey keyLength w).1, isURLSafeChar c = true ∧ c ≠ 0x3D)
    ∧ DecodeString (generateUniqueKey keyLength w).1
        = some (randRead (keyBufferLen keyLength) w).1 := by
  refine ⟨?_, ?_⟩
  · intro c hc
    have h1 := EncodeToString_chars _ (randRead_lt (keyBufferLen keyLength) w) c hc
    refine ⟨h1, ?_⟩
    rintro rfl
    exact absurd h1 (by decide)
  · exact DecodeString_EncodeToString _ (randRead_lt (keyBufferLen keyLength) w)

/-! ## The errors the service returns -/

/-- C17: for every input and every database, whatever it answers: the error `GetGeneratedKey`
returns is nil or one of `ErrKeyLengthMustBePositive`, `ErrCouldNotVerifySourceForKey`,
`ErrCouldNotSaveKeyForSource`, and a non-nil error comes with the empty key; the error
`StoreCustomKey` returns is nil or one of `ErrCustomKeyCannotBeEmpty`,
`ErrCouldNotVerifySourceForKey`, `ErrCouldNotSaveKeyForSource`.  Neither returns an error value
of the database driver (a `*pgconn.PgError`, any other error string, or an error wrapping
another). -/
theorem service_errors_closed {σ : Type} (kg : keyGenService σ) (sourceName customKey : GoString)
    (keyLength : Int) (w : World σ) :
    ((GetGeneratedKey kg sourceName keyLength w).1.2 ∈
        [none, some GoError.ErrKeyLengthMustBePositive, some .ErrCouldNotVerifySourceForKey,
          some .ErrCouldNotSaveKeyForSource]
      ∧ ((GetGeneratedKey kg sourceName keyLength w).1.2 ≠ none →
          (GetGeneratedKey kg sourceName keyLength w).1.1 = [])
      ∧ (∀ code, (GetGeneratedKey kg sourceName keyLength w).1.2 ≠ some (.PgError code))
      ∧ (∀ msg, (GetGeneratedKey kg sourceName keyLength w).1.2 ≠ some (.errorString msg))
      ∧ (∀ msg inner,
          (GetGeneratedKey kg sourceName keyLength w).1.2 ≠ some (.wrapError msg inner)))
    ∧ ((StoreCustomKey kg sourceName customKey w).1 ∈
        [none, some GoError.ErrCustomKeyCannotBeEmpty, some .ErrCouldNotVerifySourceForKey,
          some .ErrCouldNotSaveKeyForSource]
      ∧ (∀ code, (StoreCustomKey kg sourceName customKey w).1 ≠ some (.PgError code))
      ∧ (∀ msg, (StoreCustomKey kg sourceName customKey w).1 ≠ some (.errorString msg))
      ∧ (∀ msg inner, (StoreCustomKey kg sourceName customKey w).1 ≠ some (.wrapError msg inner)))
    := by
  constructor
  · by_cases hlen : keyLength < 1
    · rw [GetGeneratedKey_of_lt_one kg sourceName keyLength w hlen]
      simp
    · rcases GetGeneratedKey_cases kg sourceName keyLength w (by omega) with
        ⟨sid, e, w1, hg, hr⟩ | ⟨sid, w1, e, w2, hg, hc, hr⟩ | ⟨sid, w1, w2, hg, hc, hr⟩ <;>
      · rw [hr]
        simp
  · by_cases hk : customKey = []
    · subst hk
      rw [StoreCustomKey_of_empty kg sourceName w]
      simp
    · rcases StoreCustomKey_cases kg sourceName customKey w hk with
        ⟨sid, e, w1, hg, hr⟩ | ⟨sid, w1, e, w2, hg, hc, hr⟩ | ⟨sid, w1, w2, hg, hc, hr⟩ <;>
      · rw [hr]
        simp

/-! ## The calls of `getSourceId` and the connection discipline -/

/-- C23: for every source name, over every database.  If `connect` fails, `getSourceId` returns
`(-1, ErrCouldNotConnectToPostgres)` and issues no query.  Otherwise it issues one INSERT into
`sources`.  If the INSERT succeeds, its id is returned and no SELECT is issued.  If it fails with
a duplicate-key error (a `*pgconn.PgError` with the code 23505, here or down the chain of wrapped
errors), exactly one SELECT by name restricted to active rows follows, and its id is returned, or
`(-1, ErrCouldNotRetrieveSourceId)` if the SELECT fails.  If the INSERT fails with any other
error, `(-1, ErrCouldNotAddNewSource)` is returned and no SELECT is issued.  The calls the log
gains are listed in each case. -/
theorem getSourceId_insert_then_select {σ : Type} (kg : keyGenService σ) (sourceName : GoString)
    (w : World σ) :
    (∀ e s1, kg.Db.connect w.db = (some e, s1) →
      (getSourceId kg sourceName w).1 = (-1, some .ErrCouldNotConnectToPostgres)
      ∧ eventsSince w (getSourceId kg sourceName w).2 = [.connect (some e)])
    ∧ (∀ s1, kg.Db.connect w.db = (none, s1) →
      (∀ id s2, kg.Db.queryInt sqlInsertSource [.str sourceName] s1 = ((id, none), s2) →
        (getSourceId kg sourceName w).1 = (id, none)
        ∧ eventsSince w (getSourceId kg sourceName w).2
            = [.connect none, .queryInt sqlInsertSource [.str sourceName] id none, .close])
      ∧ (∀ id err s2, kg.Db.queryInt sqlInsertSource [.str sourceName] s1 = ((id, some err), s2) →
        (isDuplicateKeyError err = true →
          (∀ id2 s3, kg.Db.queryInt sqlSelectSource [.str sourceName] s2 = ((id2, none), s3) →
            (getSourceId kg sourceName w).1 = (id2, none)
            ∧ eventsSince w (getSourceId kg sourceName w).2
                = [.connect none, .queryInt sqlInsertSource [.str sourceName] id (some err),
                    .queryInt sqlSelectSource [.str sourceName] id2 none, .close])
          ∧ (∀ id2 err2 s3,
              kg.Db.queryInt sqlSelectSource [.str sourceName] s2 = ((id2, some err2), s3) →
            (getSourceId kg sourceName w).1 = (-1, some .ErrCouldNotRetrieveSourceId)
            ∧ eventsSince w (getSourceId kg sourceName w).2
                = [.connect none, .queryInt sqlInsertSource [.str sourceName] id (some err),
                    .queryInt sqlSelectSource [.str sourceName] id2 (some err2), .close]))
        ∧ (isDuplicateKeyError err = false →
          (getSourceId kg sourceName w).1 = (-1, some .ErrCouldNotAddNewSource)
          ∧ eventsSince w (getSourceId kg sourceName w).2
              = [.connect none, .queryInt sqlInsertSource [.str sourceName] id (some err),
                  .close])))
    ∧ (∀ code, isDuplicateKeyError (.PgError code) = true ↔ code = "23505") := by
  refine ⟨?_, ?_, ?_⟩
  · intro e s1 hc
    simp [getSourceId, dbConnect, hc, eventsSince]
  · intro s1 hc
    refine ⟨?_, ?_⟩
    · intro id s2 hq
      simp [getSourceId, dbConnect, dbQueryInt, dbClose, hc, hq, eventsSince]
    · intro id err s2 hq
      refine ⟨?_, ?_⟩
      · intro hd
        refine ⟨?_, ?_⟩
        · intro id2 s3 hs
          simp [getSourceId, dbConnect, dbQueryInt, dbClose, hc, hq, hd, hs, eventsSince]
        · intro id2 err2 s3 hs
          simp [getSourceId, dbConnect, dbQueryInt, dbClose, hc, hq, hd, hs, eventsSince]
      · intro hd
        simp [getSourceId, dbConnect, dbQueryInt, dbClose, hc, hq, hd, eventsSince]
  · intro code
    simp [isDuplicateKeyError, PgErrCodeUniqueViolation]

set_option maxRecDepth 100000 in
/-- Runs of `getSourceId` on the test double and on the database model: the connection fails; the
INSERT succeeds on a fresh database; the INSERT fails with a duplicate-key error and the SELECT
finds the source of `World.taken`; the INSERT fails with the error `failed`. -/
theorem getSourceId_insert_then_select_witness :
    ((getSourceId (NewKeyGenService (MockPostgresDb [some (.errorString "failed")] 0))
        (goStr "some-source") ⟨0, [], []⟩).1 = (-1, some .ErrCouldNotConnectToPostgres)
      ∧ eventsSince ⟨0, [], []⟩
          (getSourceId (NewKeyGenService (MockPostgresDb [some (.errorString "failed")] 0))
            (goStr "some-source") ⟨0, [], []⟩).2 = [.connect (some (.errorString "failed"))])
    ∧ ((getSourceId pgKeyGenService (goStr "some-source") World.fresh).1 = (1, none)
      ∧ eventsSince World.fresh (getSourceId pgKeyGenService (goStr "some-source") World.fresh).2
          = [.connect none, .queryInt sqlInsertSource [.str (goStr "some-source")] 1 none,
              .close])
    ∧ ((getSourceId pgKeyGenService (goStr "some-source") World.taken).1 = (1, none)
      ∧ eventsSince World.taken (getSourceId pgKeyGenService (goStr "some-source") World.taken).2
          = [.connect none,
              .queryInt sqlInsertSource [.str (goStr "some-source")] 0 (some (.PgError "23505")),
              .queryInt sqlSelectSource [.str (goStr "some-source")] 1 none, .close])
    ∧ ((getSourceId (NewKeyGenService (MockPostgresDb [none, some (.errorString "failed")] 0))
        (goStr "some-source") ⟨0, [], []⟩).1 = (-1, some .ErrCouldNotAddNewSource)
      ∧ eventsSince ⟨0, [], []⟩
          (getSourceId (NewKeyGenService (MockPostgresDb [none, some (.errorString "failed")] 0))
            (goStr "some-source") ⟨0, [], []⟩).2
          = [.connect none,
              .queryInt sqlInsertSource [.str (goStr "some-source")] 0
                (some (.errorString "failed")), .close]) :=
  ⟨(getSourceId_insert_then_select
      (NewKeyGenService (MockPostgresDb [some (.errorString "failed")] 0))
      (goStr "some-source") ⟨0, [], []⟩).1 (.errorString "failed") 1 rfl,
    ((getSourceId_insert_then_select pgKeyGenService (goStr "some-source") World.fresh).2.1
      { PgState.fresh with connected := true } rfl).1 1
      { PgState.fresh with
        connected := true,
        sources := [SourceRow.mk 1 (goStr "some-source") true],
        sourcesIdSeq := 2 } (by decide),
    ((((getSourceId_insert_then_select pgKeyGenService (goStr "some-source") World.taken).2.1
      { World.taken.db with connected := true } rfl).2 0 (.PgError "23505")
      { World.taken.db with connected := true, sourcesIdSeq := 3 } (by decide)).1 rfl).1 1
      { World.taken.db with connected := true, sourcesIdSeq := 3 } (by decide),
    (((getSourceId_insert_then_select
      (NewKeyGenService (MockPostgresDb [none, some (.errorString "failed")] 0))
      (goStr "some-source") ⟨0, [], []⟩).2.1 1 rfl).2 0 (.errorString "failed") 2 rfl).2 rfl⟩

theorem connectionDiscipline_append : ∀ (evs1 evs2 : List Event) (isOpen : Bool),
    connectionDiscipline isOpen (evs1 ++ evs2)
      = (connectionDiscipline isOpen evs1).bind fun st => connectionDiscipline st evs2
  | [], evs2, isOpen => by simp [connectionDiscipline]
  | e :: evs1, evs2, isOpen => by
    have ih := connectionDiscipline_append evs1 evs2
    cases isOpen <;> cases e with
    | connect err => cases err <;> simp [connectionDiscipline, ih]
    | queryInt sql params id err => simp [connectionDiscipline, ih]
    | close => simp [connectionDiscipline, ih]
    | randRead n => simp [connectionDiscipline, ih]

/-- Logs that break the discipline are rejected: a `close` or a query without a connection, a
second `connect` before the `close`; and a log that ends with the connection open ends in the
state `true`. -/
theorem connectionDiscipline_rejects :
    connectionDiscipline false [.close] = none
    ∧ connectionDiscipline false [.queryInt sqlInsertKey [] 0 none] = none
    ∧ connectionDiscipline false [.connect none, .connect none] = none
    ∧ connectionDiscipline false [.connect none, .close, .close] = none
    ∧ connectionDiscipline false [.connect none, .queryInt sqlInsertKey [] 0 none] = some true := by
  decide

/-- The calls of `getSourceId` keep the connection discipline. -/
theorem getSourceId_discipline {σ : Type} (kg : keyGenService σ) (sourceName : GoString)
    (w : World σ) :
    ∃ evs, (getSourceId kg sourceName w).2.log = w.log ++ evs
      ∧ connectionDiscipline false evs = some false := by
  rcases getSourceId_cases kg sourceName w with
    ⟨e, s1, -, h⟩ | ⟨s1, id, s2, -, -, h⟩ | ⟨s1, id, err, s2, id2, s3, -, -, -, -, h⟩
    | ⟨s1, id, err, s2, id2, err2, s3, -, -, -, -, h⟩ | ⟨s1, id, err, s2, -, -, -, h⟩ <;>
  · rw [h]
    exact ⟨_, rfl, rfl⟩

/-- The calls of `createKey` keep the connection discipline. -/
theorem createKey_discipline {σ : Type} (kg : keyGenService σ) (sourceId : Int) (key : GoString)
    (w : World σ) :
    ∃ evs, (createKey kg sourceId key w).2.log = w.log ++ evs
      ∧ connectionDiscipline false evs = some false := by
  rcases createKey_cases kg sourceId key w with
    ⟨e, s1, -, h⟩ | ⟨s1, id, s2, -, -, h⟩ | ⟨s1, id, err, s2, -, -, h⟩ <;>
  · rw [h]
    exact ⟨_, rfl, rfl⟩

/-- C24: in every execution of `GetGeneratedKey` and of `StoreCustomKey`, over every database and
on every path, the calls the execution logs keep the connection discipline from a closed
connection to a closed connection: every successful `connect` is followed by exactly one `close`
before the next `connect` and before the call returns, no `close` comes without a successful
`connect` before it, and every query lies between a successful `connect` and its `close`. -/
theorem connect_close_paired {σ : Type} (kg : keyGenService σ) (sourceName customKey : GoString)
    (keyLength : Int) (w : World σ) :
    connectionDiscipline false (eventsSince w (GetGeneratedKey kg sourceName keyLength w).2)
        = some false
    ∧ connectionDiscipline false (eventsSince w (StoreCustomKey kg sourceName customKey w).2)
        = some false := by
  constructor
  · by_cases hlen : keyLength < 1
    · rw [GetGeneratedKey_of_lt_one kg sourceName keyLength w hlen, eventsSince_self]
      rfl
    · obtain ⟨evs1, hl1, hd1⟩ := getSourceId_discipline kg sourceName w
      rcases GetGeneratedKey_cases kg sourceName keyLength w (by omega) with
        ⟨sid, e, w1, hg, hr⟩ | ⟨sid, w1, e, w2, hg, hc, hr⟩ | ⟨sid, w1, w2, hg, hc, hr⟩
      · rw [hr]
        rw [hg] at hl1
        rw [eventsSince_append w w1 evs1 hl1]
        exact hd1
      all_goals
        rw [hr]
        rw [hg] at hl1
        obtain ⟨evs2, hl2, hd2⟩ := createKey_discipline kg sid
          (generateUniqueKey keyLength.toNat w1).1 (generateUniqueKey keyLength.toNat w1).2
        rw [hc] at hl2
        rw [eventsSince_append w w2
          (evs1 ++ ([.randRead (keyBufferLen keyLength.toNat)] ++ evs2)) (by
            show w2.log = _
            rw [show w2.log = _ from hl2]
            simp only [generateUniqueKey, randRead]
            rw [show w1.log = _ from hl1]
            simp only [List.append_assoc])]
        rw [connectionDiscipline_append, hd1]
        simp only [Option.some_bind, List.singleton_append, connectionDiscipline]
        exact hd2
  · by_cases hk : customKey = []
    · subst hk
      rw [StoreCustomKey_of_empty kg sourceName w, eventsSince_self]
      rfl
    · obtain ⟨evs1, hl1, hd1⟩ := getSourceId_discipline kg sourceName w
      rcases StoreCustomKey_cases kg sourceName customKey w hk with
        ⟨sid, e, w1, hg, hr⟩ | ⟨sid, w1, e, w2, hg, hc, hr⟩ | ⟨sid, w1, w2, hg, hc, hr⟩
      · rw [hr]
        rw [hg] at hl1
        rw [eventsSince_append w w1 evs1 hl1]
        exact hd1
      all_goals
        rw [hr]
        rw [hg] at hl1
        obtain ⟨evs2, hl2, hd2⟩ := createKey_discipline kg sid customKey w1
        rw [hc] at hl2
        rw [eventsSince_append w w2 (evs1 ++ evs2) (by
            show w2.log = _
            rw [show w2.log = _ from hl2, show w1.log = _ from hl1, List.append_assoc])]
        rw [connectionDiscipline_append, hd1]
        exact hd2

/-! ## The exact length of a generated key -/

/-- Rounding to the nearest integer adds at most one half. -/
theorem roundHalfEven_upper (a b : Nat) (hb : 0 < b) :
    2 * roundHalfEven a b * b ≤ 2 * a + b := by
  have hdm := Nat.div_add_mod a b
  have hlt := Nat.mod_lt a hb
  have e0 : 2 * (a / b) * b = 2 * (b * (a / b)) := by ring
  have e1 : 2 * (a / b + 1) * b = 2 * (b * (a / b)) + 2 * b := by ring
  have hle : 2 * (a / b + a / b % 2) * b ≤ 2 * (a / b + 1) * b :=
    Nat.mul_le_mul_right b (by omega)
  unfold roundHalfEven
  split
  · rw [e0]; omega
  · split
    · rw [e1]; omega
    · rw [e1] at hle; omega

/-- Rounding to binary64 adds at most the fraction `2 ^ -53` of the value. -/
theorem roundToFloat64_upper (a b : Nat) (ha : 1 ≤ a) (hb : 1 ≤ b) :
    (roundToFloat64 a b).toRat ≤ (a : ℚ) / (b : ℚ) * (1 + 1 / 2 ^ 53) := by
  have hbq : (0 : ℚ) < b := by exact_mod_cast hb
  have ht := floorLog2Ratio_lower a b ha hb
  unfold roundToFloat64 Float64.toRat
  simp only
  generalize floorLog2Ratio a b = t at ht ⊢
  have hs := scaleBy_toRat a b (t - 52) hb
  have hpos := scaleBy_pos a b (t - 52) hb
  have hr := roundHalfEven_upper (scaleBy a b (t - 52)).1 (scaleBy a b (t - 52)).2 hpos
  generalize (scaleBy a b (t - 52)).1 = p at hs hr ⊢
  generalize (scaleBy a b (t - 52)).2 = q at hs hr hpos ⊢
  generalize roundHalfEven p q = m at hr ⊢
  have hqq : (0 : ℚ) < q := by exact_mod_cast hpos
  have hrq : (2 : ℚ) * m * q ≤ 2 * p + q := by exact_mod_cast hr
  have he : (0 : ℚ) < (2 : ℚ) ^ (t - 52) := by positivity
  have hy : (2 : ℚ) ^ 52 ≤ (p : ℚ) / q := by
    rw [hs, le_div_iff₀ he]
    have : (2 : ℚ) ^ 52 * (2 : ℚ) ^ (t - 52) = (2 : ℚ) ^ t := by
      rw [← zpow_natCast, ← zpow_add₀ (by norm_num : (2 : ℚ) ≠ 0)]
      congr 1
      simp
    rw [this]
    exact ht
  have hm : (m : ℚ) ≤ (p : ℚ) / q * (1 + 1 / 2 ^ 53) := by
    have h1 : (m : ℚ) ≤ (p : ℚ) / q + 1 / 2 := by
      have : (m : ℚ) * q ≤ ((p : ℚ) / q + 1 / 2) * q := by
        rw [add_mul, div_mul_cancel₀ _ hqq.ne']
        linarith
      exact le_of_mul_le_mul_right this hqq
    linarith
  have hab : (a : ℚ) / b = (p : ℚ) / q * (2 : ℚ) ^ (t - 52) := by
    rw [hs]
    field_simp
    ring
  rw [hab]
  calc (m : ℚ) * (2 : ℚ) ^ (t - 52)
      ≤ (p : ℚ) / q * (1 + 1 / 2 ^ 53) * (2 : ℚ) ^ (t - 52) :=
        mul_le_mul_of_nonneg_right hm he.le
    _ = (p : ℚ) / q * (2 : ℚ) ^ (t - 52) * (1 + 1 / 2 ^ 53) := by ring

/-- The division of binary64 adds at most the fraction `2 ^ -53` of the exact quotient. -/
theorem Float64.div_upper (x y : Float64) (hx : 1 ≤ x.mant) (hy : 1 ≤ y.mant) :
    (x.div y).toRat ≤ x.toRat / y.toRat * (1 + 1 / 2 ^ 53) := by
  have h := roundToFloat64_upper (scaleBy x.mant y.mant (y.exp - x.exp)).1
    (scaleBy x.mant y.mant (y.exp - x.exp)).2 (scaleBy_fst_pos _ _ _ hx)
    (scaleBy_pos _ _ _ hy)
  rw [scaleBy_toRat _ _ _ hy] at h
  have hq : x.toRat / y.toRat = (x.mant : ℚ) / (y.mant : ℚ) / (2 : ℚ) ^ (y.exp - x.exp) := by
    unfold Float64.toRat
    have hy' : (y.mant : ℚ) ≠ 0 := by exact_mod_cast (by omega : y.mant ≠ 0)
    rw [zpow_sub₀ (by norm_num : (2 : ℚ) ≠ 0)]
    field_simp
  rw [hq]
  exact h

/-- `math.Ceil` goes up by less than one. -/
theorem Float64.ceil_lt (x : Float64) : (x.ceil : ℚ) < x.toRat + 1 := by
  unfold Float64.toRat Float64.ceil
  split
  · next h =>
    have : (2 : ℚ) ^ x.exp = ((2 : ℚ) ^ x.exp.toNat) := by
      conv_lhs => rw [← Int.toNat_of_nonneg h]
      rw [zpow_natCast]
    rw [this]
    push_cast
    linarith
  · next h =>
    have hne : 0 ≤ -x.exp := by omega
    have : (2 : ℚ) ^ x.exp = ((2 : ℚ) ^ (-x.exp).toNat)⁻¹ := by
      rw [← zpow_natCast, Int.toNat_of_nonneg hne, zpow_neg, inv_inv]
    rw [this]
    generalize (-x.exp).toNat = p
    have hP : 0 < 2 ^ p := by positivity
    have hdiv : (x.mant + 2 ^ p - 1) / 2 ^ p * 2 ^ p < x.mant + 2 ^ p := by
      have h1 := Nat.div_add_mod (x.mant + 2 ^ p - 1) (2 ^ p)
      rw [Nat.mul_comm] at h1
      omega
    have hq : (((x.mant + 2 ^ p - 1) / 2 ^ p : Nat) : ℚ) * (2 : ℚ) ^ p
        < (x.mant : ℚ) + (2 : ℚ) ^ p := by
      exact_mod_cast hdiv
    have hPq : (0 : ℚ) < (2 : ℚ) ^ p := by positivity
    rw [← div_eq_mul_inv, ← sub_lt_iff_lt_add, lt_div_iff₀ hPq]
    linarith

/-- The length of the buffer, exactly: `⌊3k/4⌋ + 1` bytes for a key length `k` up to a
million. -/
theorem keyBufferLen_eq (keyLength : Nat) (h1 : 1 ≤ keyLength) (h2 : keyLength ≤ 1000000) :
    keyBufferLen keyLength = 3 * keyLength / 4 + 1 := by
  have hXl := roundToFloat64_lower keyLength 1 h1 le_rfl
  have hXu := roundToFloat64_upper keyLength 1 h1 le_rfl
  have hXm := roundToFloat64_mant_pos keyLength 1 h1 le_rfl
  have hdm : 1 ≤ keyLengthDivisor.mant := by rw [keyLengthDivisor_eq]; norm_num
  have hQl := Float64.div_lower (Float64.ofNat keyLength) keyLengthDivisor hXm hdm
  have hQu := Float64.div_upper (Float64.ofNat keyLength) keyLengthDivisor hXm hdm
  have hCl := Float64.le_ceil ((Float64.ofNat keyLength).div keyLengthDivisor)
  have hCu := Float64.ceil_lt ((Float64.ofNat keyLength).div keyLengthDivisor)
  have hc : keyLengthDivisor.toRat = 6004799503145649 / 2 ^ 52 := by
    rw [keyLengthDivisor_eq]
    simp [Float64.toRat]
    norm_num
  simp only [Nat.cast_one, div_one] at hXl hXu
  have hk : (0 : ℚ) < keyLength := by exact_mod_cast h1
  have hk2 : (keyLength : ℚ) ≤ 1000000 := by exact_mod_cast h2
  have hd : (0 : ℚ) < keyLengthDivisor.toRat := by rw [hc]; norm_num
  change (Float64.ofNat keyLength).toRat ≤ _ at hXu
  change _ ≤ (Float64.ofNat keyLength).toRat at hXl
  change _ ≤ (keyBufferLen keyLength : ℚ) at hCl
  change (keyBufferLen keyLength : ℚ) < _ at hCu
  -- the quotient lies strictly above 3k/4 and at most 1/8 above it
  have hlow : (3 : ℚ) / 4 * keyLength
      < ((Float64.ofNat keyLength).div keyLengthDivisor).toRat := by
    refine lt_of_lt_of_le ?_ hQl
    have h3 : (keyLength : ℚ) * (1 - 1 / 2 ^ 53) / keyLengthDivisor.toRat * (1 - 1 / 2 ^ 53)
        ≤ (Float64.ofNat keyLength).toRat / keyLengthDivisor.toRat * (1 - 1 / 2 ^ 53) := by
      apply mul_le_mul_of_nonneg_right _ (by norm_num)
      exact div_le_div_of_nonneg_right hXl hd.le
    refine lt_of_lt_of_le ?_ h3
    rw [hc]
    have : (keyLength : ℚ) * (1 - 1 / 2 ^ 53) / (6004799503145649 / 2 ^ 52) * (1 - 1 / 2 ^ 53)
        = (keyLength : ℚ) * ((1 - 1 / 2 ^ 53) / (6004799503145649 / 2 ^ 52) * (1 - 1 / 2 ^ 53)) := by
      ring
    rw [this, mul_comm ((3 : ℚ) / 4)]
    apply mul_lt_mul_of_pos_left _ hk
    norm_num
  have hupp : ((Float64.ofNat keyLength).div keyLengthDivisor).toRat
      ≤ (3 : ℚ) / 4 * keyLength + 1 / 8 := by
    refine le_trans hQu ?_
    have h3 : (Float64.ofNat keyLength).toRat / keyLengthDivisor.toRat * (1 + 1 / 2 ^ 53)
        ≤ (keyLength : ℚ) * (1 + 1 / 2 ^ 53) / keyLengthDivisor.toRat * (1 + 1 / 2 ^ 53) := by
      apply mul_le_mul_of_nonneg_right _ (by norm_num)
      exact div_le_div_of_nonneg_right hXu hd.le
    refine le_trans h3 ?_
    rw [hc]
    have : (keyLength : ℚ) * (1 + 1 / 2 ^ 53) / (6004799503145649 / 2 ^ 52) * (1 + 1 / 2 ^ 53)
        = (keyLength : ℚ) * ((1 + 1 / 2 ^ 53) / (6004799503145649 / 2 ^ 52) * (1 + 1 / 2 ^ 53)) := by
      ring
    rw [this]
    have hcoef : (1 + 1 / 2 ^ 53) / (6004799503145649 / 2 ^ 52) * (1 + 1 / 2 ^ 53)
        ≤ (3 : ℚ) / 4 + 1 / 8000000 := by norm_num
    have := mul_le_mul_of_nonneg_left hcoef hk.le
    nlinarith
  have hn1 : (3 : ℚ) * keyLength < 4 * (keyBufferLen keyLength : ℚ) := by linarith
  have hn2 : (4 : ℚ) * (keyBufferLen keyLength : ℚ) < 3 * keyLength + 5 := by linarith
  have hn1' : 3 * keyLength < 4 * keyBufferLen keyLength := by exact_mod_cast hn1
  have hn2' : 4 * keyBufferLen keyLength < 3 * keyLength + 5 := by exact_mod_cast hn2
  omega

end keygensvc

/-! # Theorems: the URL shorten service -/

namespace urlshortenapp

/-! ## The slug of a short URL -/

/-- C10: for every `shortHost`, `customSlug` and `slugLength`, over every key generation service:
with a non-empty `customSlug`, `constructShortUrl` makes exactly one call through `KgsService`,
`CreateNewKey(shortHost, customSlug)`, and so never `GenerateKey`; with an empty `customSlug` it
makes exactly one call, `GenerateKey(shortHost, slugLength)`, and so never `CreateNewKey`; and
when the call made returns `slug` with a nil error, `constructShortUrl` returns
`(shortHost + "/" + slug, nil)`. -/
theorem constructShortUrl_one_call {σ κ : Type} (s : urlShortenService σ κ)
    (shortHost customSlug : GoString) (slugLength : Int) (w : World σ κ) :
    (customSlug ≠ [] →
      (constructShortUrl s shortHost customSlug slugLength w).2.calls
          = w.calls ++ [.CreateNewKey shortHost customSlug]
      ∧ ∀ slug, (s.KgsService.CreateNewKey shortHost customSlug w.kgs).1 = (slug, none) →
          (constructShortUrl s shortHost customSlug slugLength w).1
            = (shortHost ++ goStr "/" ++ slug, none))
    ∧ (customSlug = [] →
      (constructShortUrl s shortHost customSlug slugLength w).2.calls
          = w.calls ++ [.GenerateKey shortHost slugLength]
      ∧ ∀ slug, (s.KgsService.GenerateKey shortHost slugLength w.kgs).1 = (slug, none) →
          (constructShortUrl s shortHost customSlug slugLength w).1
            = (shortHost ++ goStr "/" ++ slug, none)) := by
  constructor
  · intro h
    rcases hc : s.KgsService.CreateNewKey shortHost customSlug w.kgs with ⟨⟨slug, _ | e⟩, k1⟩ <;>
      simp [constructShortUrl, h, hc]
  · intro h
    rcases hc : s.KgsService.GenerateKey shortHost slugLength w.kgs with ⟨⟨slug, _ | e⟩, k1⟩ <;>
      simp [constructShortUrl, h, hc]

/-- The two tests "returns short url when successfully constructing": a custom slug and a
generated slug for the host `http://shortho.st`. -/
theorem constructShortUrl_one_call_witness :
    ((constructShortUrl
        (NewUrlShortenService (goStr "some-index") mapEsService
          (MockKgsService (goStr "custom-slug") none))
        (goStr "http://shortho.st") (goStr "custom-slug") 0 World.empty).2.calls
      = [.CreateNewKey (goStr "http://shortho.st") (goStr "custom-slug")]
    ∧ (constructShortUrl
        (NewUrlShortenService (goStr "some-index") mapEsService
          (MockKgsService (goStr "custom-slug") none))
        (goStr "http://shortho.st") (goStr "custom-slug") 0 World.empty).1
      = (goStr "http://shortho.st/custom-slug", none))
    ∧ ((constructShortUrl serviceSomeIndex (goStr "http://shortho.st") [] 8 World.empty).2.calls
      = [.GenerateKey (goStr "http://shortho.st") 8]
    ∧ (constructShortUrl serviceSomeIndex (goStr "http://shortho.st") [] 8 World.empty).1
      = (goStr "http://shortho.st/gen-slug", none)) :=
  have h1 := (constructShortUrl_one_call
    (NewUrlShortenService (goStr "some-index") mapEsService
      (MockKgsService (goStr "custom-slug") none))
    (goStr "http://shortho.st") (goStr "custom-slug") 0 World.empty).1 (by decide)
  have h2 := (constructShortUrl_one_call serviceSomeIndex (goStr "http://shortho.st") [] 8
    World.empty).2 rfl
  ⟨⟨h1.1, h1.2 (goStr "custom-slug") rfl⟩, ⟨h2.1, h2.2 (goStr "gen-slug") rfl⟩⟩

/-! ## The document id -/

theorem le32_length (x : Nat) : (le32 x).length = 4 := rfl

theorem le32_lt (x b : Nat) (h : b ∈ le32 x) : b < 256 := by
  simp only [le32, List.mem_cons, List.mem_singleton, List.not_mem_nil, or_false] at h
  rcases h with rfl | rfl | rfl | rfl <;> exact Nat.mod_lt _ (by norm_num)

/-- `md5.Sum` returns an array of 16 bytes. -/
theorem md5Sum_length (msg : List Nat) : (md5Sum msg).length = 16 := by
  simp [md5Sum, le32_length]

theorem md5Sum_lt (msg : List Nat) (b : Nat) (h : b ∈ md5Sum msg) : b < 256 := by
  simp only [md5Sum, List.mem_append] at h
  rcases h with ((h | h) | h) | h <;> exact le32_lt _ _ h

theorem hexEncodeToString_length (src : List Nat) :
    (hexEncodeToString src).length = 2 * src.length := by
  induction src with
  | nil => rfl
  | cons b rest ih =>
    simp only [hexEncodeToString, List.flatMap_cons, List.length_append, List.length_cons,
      List.length_nil] at ih ⊢
    omega

theorem hextable_mem : ∀ k, k < 16 → hextable.getD k 0 ∈ goStr "0123456789abcdef" := by
  decide

theorem hexEncodeToString_mem (src : List Nat) (hsrc : ∀ b ∈ src, b < 256) (c : Nat)
    (h : c ∈ hexEncodeToString src) : c ∈ goStr "0123456789abcdef" := by
  simp only [hexEncodeToString, List.mem_flatMap, List.mem_cons, List.mem_singleton,
    List.not_mem_nil, or_false] at h
  obtain ⟨b, hb, rfl | rfl⟩ := h
  · exact hextable_mem _ (by have := hsrc b hb; omega)
  · exact hextable_mem _ (Nat.mod_lt _ (by norm_num))

/-- C2: for every short URL `s` and every original URL `u`, over every document store and from
every state: the one call `assignShortUrlToOriginalUrl(u, s)` makes is `IndexDocument` with a
document whose id is `hex(md5(s))`, the one call `GetOriginalUrlForShortUrl(s)` makes is
`GetDocumentById` with the id `hex(md5(s))`; that id is a function of `s` alone (the same for
every `u` and every earlier history), and it is always exactly 32 characters, each one of
`0123456789abcdef`. -/
theorem document_id_is_hex_md5 {σ κ : Type} (App : UrlShortenApp) (s : urlShortenService σ κ)
    (u shortUrl : GoString) (w w' : World σ κ) :
    (assignShortUrlToOriginalUrl s u shortUrl w).2.calls
        = w.calls ++ [.IndexDocument s.EsIndex
            { Id := hexEncodeToString (md5Sum shortUrl),
              Content := Marshal { OriginalUrl := u, ShortUrl := shortUrl } }]
    ∧ (GetOriginalUrlForShortUrl App s shortUrl w').2.calls
        = w'.calls ++ [.GetDocumentById App.EnvVars.EsIndex
            (hexEncodeToString (md5Sum shortUrl))]
    ∧ (hexEncodeToString (md5Sum shortUrl)).length = 32
    ∧ ∀ c ∈ hexEncodeToString (md5Sum shortUrl), c ∈ goStr "0123456789abcdef" := by
  refine ⟨?_, ?_, ?_, ?_⟩
  · unfold assignShortUrlToOriginalUrl
    simp only [documentId]
    split <;> rfl
  · unfold GetOriginalUrlForShortUrl
    simp only [documentId]
    split
    · rfl
    · split <;> rfl
  · rw [hexEncodeToString_length, md5Sum_length]
  · exact hexEncodeToString_mem _ (md5Sum_lt shortUrl)


/-! ## Writing a string as JSON and reading it back -/

theorem DecodeRune_take_four (s : List Nat) : DecodeRune (s.take 4) = DecodeRune s := by
  rcases s with _ | ⟨s0, _ | ⟨s1, _ | ⟨s2, _ | ⟨s3, rest⟩⟩⟩⟩ <;> simp [DecodeRune]

theorem utf8First_cases (b : Nat) :
    utf8First b = none
    ∨ (utf8First b = some (2, 0x80, 0xBF) ∧ 0xC2 ≤ b ∧ b ≤ 0xDF)
    ∨ (utf8First b = some (3, 0xA0, 0xBF) ∧ b = 0xE0)
    ∨ (utf8First b = some (3, 0x80, 0x9F) ∧ b = 0xED)
    ∨ (utf8First b = some (3, 0x80, 0xBF) ∧ 0xE1 ≤ b ∧ b ≤ 0xEF ∧ b ≠ 0xED)
    ∨ (utf8First b = some (4, 0x90, 0xBF) ∧ b = 0xF0)
    ∨ (utf8First b = some (4, 0x80, 0xBF) ∧ 0xF1 ≤ b ∧ b ≤ 0xF3)
    ∨ (utf8First b = some (4, 0x80, 0x8F) ∧ b = 0xF4) := by
  unfold utf8First
  split_ifs <;> simp <;> omega

theorem DecodeRune_valid3 (b lo hi : Nat) (rest : List Nat) (hb : 0xE0 ≤ b) (hb2 : b ≤ 0xEF)
    (h : utf8First b = some (3, lo, hi)) (hlo : 0x80 ≤ lo) (hhi : hi ≤ 0xBF)
    (hE0 : b = 0xE0 → 0xA0 ≤ lo) (hED : b = 0xED → hi ≤ 0x9F)
    (hv : ¬ ((DecodeRune (b :: rest)).1 = RuneError ∧ (DecodeRune (b :: rest)).2 = 1)) :
    (DecodeRune (b :: rest)).2 ≤ (b :: rest).length
    ∧ 2 ≤ (DecodeRune (b :: rest)).2
    ∧ EncodeRune (DecodeRune (b :: rest)).1 = (b :: rest).take (DecodeRune (b :: rest)).2
    ∧ ∀ t, DecodeRune ((b :: rest).take (DecodeRune (b :: rest)).2 ++ t)
        = DecodeRune (b :: rest) := by
  have hb' : ¬ b < 0x80 := by omega
  rcases rest with _ | ⟨s1, _ | ⟨s2, rest2⟩⟩
  · simp [DecodeRune, hb', h] at hv
  · by_cases hr : s1 < lo ∨ hi < s1 <;> simp [DecodeRune, hb', h, hr] at hv
  · by_cases hr : s1 < lo ∨ hi < s1
    · simp [DecodeRune, hb', h, hr] at hv
    · by_cases hr2 : s2 < 0x80 ∨ 0xBF < s2
      · simp [DecodeRune, hb', h, hr, hr2] at hv
      · have e : DecodeRune (b :: s1 :: s2 :: rest2)
            = (b % 16 * 4096 + s1 % 64 * 64 + s2 % 64, 3) := by
          simp [DecodeRune, hb', h, hr, hr2]
        rw [e]
        refine ⟨by simp, by norm_num, ?_, ?_⟩
        · simp only [EncodeRune, utf8EncodeRune, List.take]
          split_ifs <;> first | omega | (simp; omega)
        · intro t
          simp [DecodeRune, hb', h, hr, hr2]

theorem DecodeRune_valid4 (b lo hi : Nat) (rest : List Nat) (hb : 0xF0 ≤ b) (hb2 : b ≤ 0xF4)
    (h : utf8First b = some (4, lo, hi)) (hlo : 0x80 ≤ lo) (hhi : hi ≤ 0xBF)
    (hF0 : b = 0xF0 → 0x90 ≤ lo) (hF4 : b = 0xF4 → hi ≤ 0x8F)
    (hv : ¬ ((DecodeRune (b :: rest)).1 = RuneError ∧ (DecodeRune (b :: rest)).2 = 1)) :
    (DecodeRune (b :: rest)).2 ≤ (b :: rest).length
    ∧ 2 ≤ (DecodeRune (b :: rest)).2
    ∧ EncodeRune (DecodeRune (b :: rest)).1 = (b :: rest).take (DecodeRune (b :: rest)).2
    ∧ ∀ t, DecodeRune ((b :: rest).take (DecodeRune (b :: rest)).2 ++ t)
        = DecodeRune (b :: rest) := by
  have hb' : ¬ b < 0x80 := by omega
  rcases rest with _ | ⟨s1, _ | ⟨s2, _ | ⟨s3, rest3⟩⟩⟩
  · simp [DecodeRune, hb', h] at hv
  · by_cases hr : s1 < lo ∨ hi < s1 <;> simp [DecodeRune, hb', h, hr] at hv
  · by_cases hr : s1 < lo ∨ hi < s1
    · simp [DecodeRune, hb', h, hr] at hv
    · by_cases hr2 : s2 < 0x80 ∨ 0xBF < s2 <;> simp [DecodeRune, hb', h, hr, hr2] at hv
  · by_cases hr : s1 < lo ∨ hi < s1
    · simp [DecodeRune, hb', h, hr] at hv
    · by_cases hr2 : s2 < 0x80 ∨ 0xBF < s2
      · simp [DecodeRune, hb', h, hr, hr2] at hv
      · by_cases hr3 : s3 < 0x80 ∨ 0xBF < s3
        · simp [DecodeRune, hb', h, hr, hr2, hr3] at hv
        · have e : DecodeRune (b :: s1 :: s2 :: s3 :: rest3)
              = (b % 8 * 262144 + s1 % 64 * 4096 + s2 % 64 * 64 + s3 % 64, 4) := by
            simp [DecodeRune, hb', h, hr, hr2, hr3]
          rw [e]
          refine ⟨by simp, by norm_num, ?_, ?_⟩
          · simp only [EncodeRune, utf8EncodeRune, List.take]
            split_ifs <;> first | omega | (simp; omega)
          · intro t
            simp [DecodeRune, hb', h, hr, hr2, hr3]

/-- A multi-byte sequence that `DecodeRune` accepts is the encoding of the rune it returns, and
the result depends on the bytes of the sequence only. -/
theorem DecodeRune_valid (b : Nat) (rest : List Nat) (hb : 0x80 ≤ b)
    (hv : ¬ ((DecodeRune (b :: rest)).1 = RuneError ∧ (DecodeRune (b :: rest)).2 = 1)) :
    (DecodeRune (b :: rest)).2 ≤ (b :: rest).length
    ∧ 2 ≤ (DecodeRune (b :: rest)).2
    ∧ EncodeRune (DecodeRune (b :: rest)).1 = (b :: rest).take (DecodeRune (b :: rest)).2
    ∧ ∀ t, DecodeRune ((b :: rest).take (DecodeRune (b :: rest)).2 ++ t)
        = DecodeRune (b :: rest) := by
  have hb' : ¬ b < 0x80 := by omega
  rcases utf8First_cases b with h | ⟨h, h1, h2⟩ | ⟨h, rfl⟩ | ⟨h, rfl⟩ | ⟨h, h1, h2, h3⟩
    | ⟨h, rfl⟩ | ⟨h, h1, h2⟩ | ⟨h, rfl⟩
  · simp [DecodeRune, hb', h] at hv
  · rcases rest with _ | ⟨s1, rest1⟩
    · simp [DecodeRune, hb', h] at hv
    · by_cases hr : s1 < 0x80 ∨ 0xBF < s1
      · simp [DecodeRune, hb', h, hr] at hv
      · have e : DecodeRune (b :: s1 :: rest1) = (b % 32 * 64 + s1 % 64, 2) := by
          simp [DecodeRune, hb', h, hr]
        rw [e]
        refine ⟨by simp, le_rfl, ?_, ?_⟩
        · simp only [EncodeRune, utf8EncodeRune, List.take]
          split_ifs <;> first | omega | (simp; omega)
        · intro t
          simp [DecodeRune, hb', h, hr]
  · exact DecodeRune_valid3 _ _ _ rest (by norm_num) (by norm_num) h (by norm_num)
      (by norm_num) (by norm_num) (by norm_num) hv
  · exact DecodeRune_valid3 _ _ _ rest (by norm_num) (by norm_num) h (by norm_num)
      (by norm_num) (by norm_num) (by norm_num) hv
  · exact DecodeRune_valid3 _ _ _ rest (by omega) (by omega) h (by norm_num)
      (by norm_num) (by omega) (by omega) hv
  · exact DecodeRune_valid4 _ _ _ rest (by norm_num) (by norm_num) h (by norm_num)
      (by norm_num) (by norm_num) (by norm_num) hv
  · exact DecodeRune_valid4 _ _ _ rest (by omega) (by omega) h (by norm_num)
      (by norm_num) (by omega) (by omega) hv
  · exact DecodeRune_valid4 _ _ _ rest (by norm_num) (by norm_num) h (by norm_num)
      (by norm_num) (by norm_num) (by norm_num) hv



/-! ### Reading back what `appendString` wrote -/

theorem parseStringBody_quote (N : Nat) (t : List Nat) :
    parseStringBody (N + 1) (0x22 :: t) = some ([], t) := by
  simp [parseStringBody]

theorem parseStringBody_plain (N c : Nat) (t : List Nat) (h1 : 0x20 ≤ c) (h2 : c < 0x80)
    (h3 : c ≠ 0x22) (h4 : c ≠ 0x5C) :
    parseStringBody (N + 1) (c :: t) = (parseStringBody N t).map fun r => (c :: r.1, r.2) := by
  have h5 : ¬ c < 0x20 := by omega
  simp [parseStringBody, h2, h3, h4, h5]

theorem parseStringBody_escape (N e b : Nat) (t : List Nat) (he : e ≠ 0x75)
    (hs : simpleEscape e = some b) :
    parseStringBody (N + 1) (0x5C :: e :: t)
      = (parseStringBody N t).map fun r => (b :: r.1, r.2) := by
  simp [parseStringBody, he, hs]

theorem parseStringBody_u4 (N a b c d va vb vc vd : Nat) (t : List Nat)
    (ha : hexValue a = some va) (hb : hexValue b = some vb) (hc : hexValue c = some vc)
    (hd : hexValue d = some vd)
    (hns : ¬ (0xD800 ≤ va * 4096 + vb * 256 + vc * 16 + vd
      ∧ va * 4096 + vb * 256 + vc * 16 + vd ≤ 0xDFFF)) :
    parseStringBody (N + 1) (0x5C :: 0x75 :: a :: b :: c :: d :: t)
      = (parseStringBody N t).map fun r =>
          (EncodeRune (va * 4096 + vb * 256 + vc * 16 + vd) ++ r.1, r.2) := by
  simp [parseStringBody, getu4, ha, hb, hc, hd, hns]

theorem parseStringBody_multibyte (N c : Nat) (t : List Nat) (h : 0x80 ≤ c) :
    parseStringBody (N + 1) (c :: t)
      = (parseStringBody N ((c :: t).drop (DecodeRune (c :: t)).2)).map fun r =>
          (EncodeRune (DecodeRune (c :: t)).1 ++ r.1, r.2) := by
  have h1 : c ≠ 0x22 := by omega
  have h2 : c ≠ 0x5C := by omega
  have h3 : ¬ c < 0x20 := by omega
  have h4 : ¬ c < 0x80 := by omega
  simp [parseStringBody, h1, h2, h3, h4]

theorem hexValue_hextable : ∀ k, k < 16 → hexValue (hextable.getD k 0) = some k := by
  decide


/-- The escape of an ASCII byte outside `htmlSafeSet` reads back as that byte. -/
theorem parseStringBody_escapeByte (N b : Nat) (t : List Nat) (h : b < 0x80) :
    parseStringBody (N + 1) (escapeByte b ++ t)
      = (parseStringBody N t).map fun r => (b :: r.1, r.2) := by
  unfold escapeByte
  split_ifs with h1 h2 h3 h4 h5 h6
  · rcases h1 with rfl | rfl
    · exact parseStringBody_escape N _ _ t (by norm_num) (by simp [simpleEscape])
    · exact parseStringBody_escape N _ _ t (by norm_num) (by simp [simpleEscape])
  · subst h2; exact parseStringBody_escape N 0x62 _ t (by norm_num) (by simp [simpleEscape])
  · subst h3; exact parseStringBody_escape N 0x66 _ t (by norm_num) (by simp [simpleEscape])
  · subst h4; exact parseStringBody_escape N 0x6E _ t (by norm_num) (by simp [simpleEscape])
  · subst h5; exact parseStringBody_escape N 0x72 _ t (by norm_num) (by simp [simpleEscape])
  · subst h6; exact parseStringBody_escape N 0x74 _ t (by norm_num) (by simp [simpleEscape])
  · have e : goStr "\\u00" = [0x5C, 0x75, 0x30, 0x30] := by decide
    rw [e]
    have hh := parseStringBody_u4 N 0x30 0x30 (hextable.getD (b / 16) 0)
      (hextable.getD (b % 16) 0) 0 0 (b / 16) (b % 16) t (by decide) (by decide)
      (hexValue_hextable _ (by omega)) (hexValue_hextable _ (Nat.mod_lt _ (by norm_num)))
      (by omega)
    have hv : 0 * 4096 + 0 * 256 + b / 16 * 16 + b % 16 = b := by omega
    rw [hv] at hh
    have he : EncodeRune b = [b] := by
      simp only [EncodeRune, utf8EncodeRune]
      split_ifs <;> first | omega | rfl
    simp only [List.cons_append, List.nil_append]
    rw [hh, he]
    rfl

theorem escapeByte_length_pos (b : Nat) : 1 ≤ (escapeByte b).length := by
  unfold escapeByte
  split_ifs <;> simp [goStr, utf8, utf8EncodeRune]


theorem htmlSafeSet_plain (b : Nat) (h : htmlSafeSet b = true) :
    0x20 ≤ b ∧ b < 0x80 ∧ b ≠ 0x22 ∧ b ≠ 0x5C := by
  simp only [htmlSafeSet, Bool.and_eq_true, decide_eq_true_eq, bne_iff_ne, ne_eq] at h
  exact ⟨h.1.1.1.1.1.1, h.1.1.1.1.1.2, h.1.1.1.1.2, h.2⟩

theorem appendStringLoop_cons (fuel b : Nat) (rest : List Nat) :
    appendStringLoop (fuel + 1) (b :: rest) =
      if b < 0x80 then
        (if htmlSafeSet b then [b] else escapeByte b) ++ appendStringLoop fuel rest
      else if (DecodeRune (b :: rest)).1 = RuneError ∧ (DecodeRune (b :: rest)).2 = 1 then
        goStr "\\ufffd" ++ appendStringLoop fuel rest
      else if (DecodeRune (b :: rest)).1 = 0x2028 ∨ (DecodeRune (b :: rest)).1 = 0x2029 then
        goStr "\\u202" ++ [hextable.getD ((DecodeRune (b :: rest)).1 % 16) 0]
          ++ appendStringLoop fuel ((b :: rest).drop (DecodeRune (b :: rest)).2)
      else
        (b :: rest).take (DecodeRune (b :: rest)).2
          ++ appendStringLoop fuel ((b :: rest).drop (DecodeRune (b :: rest)).2) := by
  rw [appendStringLoop]
  simp only [DecodeRune_take_four]

theorem coerceLoop_cons (fuel b : Nat) (rest : List Nat) :
    coerceLoop (fuel + 1) (b :: rest) =
      if b < 0x80 then b :: coerceLoop fuel rest
      else if (DecodeRune (b :: rest)).1 = RuneError ∧ (DecodeRune (b :: rest)).2 = 1 then
        EncodeRune RuneError ++ coerceLoop fuel rest
      else
        (b :: rest).take (DecodeRune (b :: rest)).2
          ++ coerceLoop fuel ((b :: rest).drop (DecodeRune (b :: rest)).2) := by
  rw [coerceLoop]
  simp only [DecodeRune_take_four]

/-- What `appendString` wrote between the quotes reads back, up to the closing quote, as the
source coerced to valid UTF-8. -/
theorem parseStringBody_appendStringLoop : ∀ (fuel : Nat) (src : List Nat) (N : Nat)
    (tail : List Nat), (appendStringLoop fuel src).length < N →
    parseStringBody N (appendStringLoop fuel src ++ 0x22 :: tail)
      = some (coerceLoop fuel src, tail) := by
  intro fuel
  induction fuel with
  | zero =>
    intro src N tail h
    obtain ⟨M, rfl⟩ : ∃ M, N = M + 1 := ⟨N - 1, by omega⟩
    simp [appendStringLoop, coerceLoop, parseStringBody_quote]
  | succ fuel ih =>
    intro src N tail h
    obtain ⟨M, rfl⟩ : ∃ M, N = M + 1 := ⟨N - 1, by omega⟩
    cases src with
    | nil => simp [appendStringLoop, coerceLoop, parseStringBody_quote]
    | cons b rest =>
      by_cases hb : b < 0x80
      · have hco : coerceLoop (fuel + 1) (b :: rest) = b :: coerceLoop fuel rest := by
          rw [coerceLoop_cons, if_pos hb]
        by_cases hs : htmlSafeSet b = true
        · have happ : appendStringLoop (fuel + 1) (b :: rest) = b :: appendStringLoop fuel rest := by
            rw [appendStringLoop_cons, if_pos hb, if_pos hs]; rfl
          obtain ⟨h1, h2, h3, h4⟩ := htmlSafeSet_plain b hs
          rw [happ] at h ⊢
          rw [hco, List.cons_append, parseStringBody_plain M b _ h1 h2 h3 h4,
            ih rest M tail (by simpa using h)]
          rfl
        · have happ : appendStringLoop (fuel + 1) (b :: rest)
              = escapeByte b ++ appendStringLoop fuel rest := by
            rw [appendStringLoop_cons, if_pos hb, if_neg hs]
          rw [happ] at h ⊢
          have hl := escapeByte_length_pos b
          rw [hco, List.append_assoc, parseStringBody_escapeByte M b _ hb,
            ih rest M tail (by simp only [List.length_append] at h; omega)]
          rfl
      · have hb' : 0x80 ≤ b := by omega
        by_cases hinv : (DecodeRune (b :: rest)).1 = RuneError
            ∧ (DecodeRune (b :: rest)).2 = 1
        · have happ : appendStringLoop (fuel + 1) (b :: rest)
              = goStr "\\ufffd" ++ appendStringLoop fuel rest := by
            rw [appendStringLoop_cons, if_neg hb, if_pos hinv]
          have hco : coerceLoop (fuel + 1) (b :: rest)
              = EncodeRune RuneError ++ coerceLoop fuel rest := by
            rw [coerceLoop_cons, if_neg hb, if_pos hinv]
          have e : goStr "\\ufffd" = [0x5C, 0x75, 0x66, 0x66, 0x66, 0x64] := by decide
          rw [happ, e] at h ⊢
          have hh := parseStringBody_u4 M 0x66 0x66 0x66 0x64 15 15 15 13
            (appendStringLoop fuel rest ++ 0x22 :: tail)
            (by decide) (by decide) (by decide) (by decide) (by norm_num)
          simp only [List.cons_append, List.nil_append, List.length_cons] at h ⊢
          rw [hco, hh, ih rest M tail (by omega)]
          rfl
        · obtain ⟨hlen, h2, henc, hdep⟩ := DecodeRune_valid b rest hb' hinv
          have hco : coerceLoop (fuel + 1) (b :: rest)
              = (b :: rest).take (DecodeRune (b :: rest)).2
                ++ coerceLoop fuel ((b :: rest).drop (DecodeRune (b :: rest)).2) := by
            rw [coerceLoop_cons, if_neg hb, if_neg hinv]
          by_cases hsep : (DecodeRune (b :: rest)).1 = 0x2028
              ∨ (DecodeRune (b :: rest)).1 = 0x2029
          · have happ : appendStringLoop (fuel + 1) (b :: rest)
                = goStr "\\u202" ++ [hextable.getD ((DecodeRune (b :: rest)).1 % 16) 0]
                  ++ appendStringLoop fuel ((b :: rest).drop (DecodeRune (b :: rest)).2) := by
              rw [appendStringLoop_cons, if_neg hb, if_neg hinv, if_pos hsep]
            have e : goStr "\\u202" = [0x5C, 0x75, 0x32, 0x30, 0x32] := by decide
            rw [happ, e] at h ⊢
            have hh := parseStringBody_u4 M 0x32 0x30 0x32
              (hextable.getD ((DecodeRune (b :: rest)).1 % 16) 0) 2 0 2
              ((DecodeRune (b :: rest)).1 % 16)
              (appendStringLoop fuel ((b :: rest).drop (DecodeRune (b :: rest)).2)
                ++ 0x22 :: tail)
              (by decide) (by decide) (by decide)
              (hexValue_hextable _ (Nat.mod_lt _ (by norm_num))) (by omega)
            have hv : 2 * 4096 + 0 * 256 + 2 * 16 + (DecodeRune (b :: rest)).1 % 16
                = (DecodeRune (b :: rest)).1 := by
              rcases hsep with h' | h' <;> rw [h']
            rw [hv, henc] at hh
            simp only [List.cons_append, List.nil_append, List.length_cons, List.length_append,
              List.length_nil, List.append_assoc] at h hh ⊢
            rw [hco, hh, ih _ M tail (by omega)]
            rfl
          · have happ : appendStringLoop (fuel + 1) (b :: rest)
                = (b :: rest).take (DecodeRune (b :: rest)).2
                  ++ appendStringLoop fuel ((b :: rest).drop (DecodeRune (b :: rest)).2) := by
              rw [appendStringLoop_cons, if_neg hb, if_neg hinv, if_neg hsep]
            rw [happ] at h ⊢
            obtain ⟨k, hk⟩ : ∃ k, (DecodeRune (b :: rest)).2 = k + 1 :=
              ⟨(DecodeRune (b :: rest)).2 - 1, by omega⟩
            have htake : (b :: rest).take (DecodeRune (b :: rest)).2 = b :: rest.take k := by
              rw [hk]; rfl
            have hdep' := hdep (appendStringLoop fuel ((b :: rest).drop (DecodeRune (b :: rest)).2)
              ++ 0x22 :: tail)
            have hlen' : ((b :: rest).take (DecodeRune (b :: rest)).2).length
                = (DecodeRune (b :: rest)).2 := by
              rw [List.length_take]; omega
            rw [List.append_assoc]
            rw [htake] at hdep' ⊢
            rw [List.cons_append] at hdep' ⊢
            rw [parseStringBody_multibyte M b _ hb', hdep', henc]
            have hdrop : (b :: (rest.take k ++ (appendStringLoop fuel
                  ((b :: rest).drop (DecodeRune (b :: rest)).2) ++ 0x22 :: tail))).drop
                  (DecodeRune (b :: rest)).2
                = appendStringLoop fuel ((b :: rest).drop (DecodeRune (b :: rest)).2)
                  ++ 0x22 :: tail := by
              rw [← List.cons_append, ← htake]
              exact List.drop_left' hlen'
            rw [hdrop, ih _ M tail (by
              rw [List.length_append, hlen'] at h; omega), hco, htake]
            rfl


/-- A valid UTF-8 string is left as it is. -/
theorem coerceLoop_of_valid : ∀ (fuel : Nat) (s : List Nat), ValidStringLoop fuel s = true →
    coerceLoop fuel s = s := by
  intro fuel
  induction fuel with
  | zero =>
    intro s h
    cases s with
    | nil => rfl
    | cons b rest => simp [ValidStringLoop] at h
  | succ fuel ih =>
    intro s h
    cases s with
    | nil => rfl
    | cons b rest =>
      rw [coerceLoop_cons]
      rw [ValidStringLoop] at h
      by_cases hb : b < 0x80
      · rw [if_pos hb] at h ⊢
        rw [ih rest h]
      · rw [if_neg hb] at h ⊢
        by_cases hinv : (DecodeRune (b :: rest)).1 = RuneError ∧ (DecodeRune (b :: rest)).2 = 1
        · rw [if_pos hinv] at h
          exact absurd h (by decide)
        · rw [if_neg hinv] at h ⊢
          rw [ih _ h, List.take_append_drop]

theorem coerceToUTF8_of_valid (s : GoString) (h : ValidString s = true) : coerceToUTF8 s = s :=
  coerceLoop_of_valid s.length s h

/-- The string literal `appendString` writes reads back as the source coerced to valid UTF-8. -/
theorem parseString_appendString (src : GoString) (tail : List Nat) :
    parseString (appendStringLoop src.length src ++ 0x22 :: tail)
      = some (coerceToUTF8 src, tail) := by
  unfold parseString coerceToUTF8
  exact parseStringBody_appendStringLoop src.length src _ tail (by simp)


theorem parseString_key (key : GoString) (tail : List Nat)
    (h1 : appendStringLoop key.length key = key) (h2 : coerceToUTF8 key = key) :
    parseString (key ++ 0x22 :: tail) = some (key, tail) := by
  have := parseString_appendString key tail
  rw [h1, h2] at this
  exact this

/-- The bytes `json.Marshal` writes for a `urlDocumentContent`, token by token. -/
theorem Marshal_eq (c : urlDocumentContent) :
    Marshal c = 0x7B :: 0x22 :: (goStr "original_url" ++ 0x22 :: 0x3A :: 0x22
      :: (appendStringLoop c.OriginalUrl.length c.OriginalUrl ++ 0x22 :: 0x2C :: 0x22
      :: (goStr "short_url" ++ 0x22 :: 0x3A :: 0x22
      :: (appendStringLoop c.ShortUrl.length c.ShortUrl ++ 0x22 :: [0x7D])))) := by
  have e1 : goStr "\x7b\"original_url\":" = 0x7B :: 0x22 :: (goStr "original_url" ++ [0x22, 0x3A]) := by
    decide
  have e2 : goStr ",\"short_url\":" = 0x2C :: 0x22 :: (goStr "short_url" ++ [0x22, 0x3A]) := by
    decide
  have e3 : goStr "\x7d" = [0x7D] := by decide
  simp only [Marshal, appendString, e1, e2, e3, List.cons_append, List.nil_append,
    List.append_assoc]

theorem parseValue_two_members (K1 K2 L1 L2 U1 U2 : List Nat)
    (k1 : ∀ tail, parseString (K1 ++ 0x22 :: tail) = some (K1, tail))
    (k2 : ∀ tail, parseString (K2 ++ 0x22 :: tail) = some (K2, tail))
    (p1 : ∀ tail, parseString (L1 ++ 0x22 :: tail) = some (U1, tail))
    (p2 : ∀ tail, parseString (L2 ++ 0x22 :: tail) = some (U2, tail)) (n : Nat) :
    parseValue (n + 5) 0 (0x7B :: 0x22 :: (K1 ++ 0x22 :: 0x3A :: 0x22
      :: (L1 ++ 0x22 :: 0x2C :: 0x22 :: (K2 ++ 0x22 :: 0x3A :: 0x22 :: (L2 ++ 0x22 :: [0x7D])))))
      = some (.object [(K1, .string U1), (K2, .string U2)], []) := by
  have s1 : ∀ t, skipSpace (0x22 :: t) = 0x22 :: t := by intro t; simp [skipSpace, isSpace]
  have s2 : ∀ t, skipSpace (0x3A :: t) = 0x3A :: t := by intro t; simp [skipSpace, isSpace]
  have s3 : ∀ t, skipSpace (0x2C :: t) = 0x2C :: t := by intro t; simp [skipSpace, isSpace]
  have s4 : ∀ t, skipSpace (0x7D :: t) = 0x7D :: t := by intro t; simp [skipSpace, isSpace]
  have v1 : ∀ m d tail, parseValue (m + 1) d (0x22 :: (L1 ++ 0x22 :: tail))
      = some (.string U1, tail) := by
    intro m d tail
    rw [parseValue]
    simp [p1]
  have v2 : ∀ m d tail, parseValue (m + 1) d (0x22 :: (L2 ++ 0x22 :: tail))
      = some (.string U2, tail) := by
    intro m d tail
    rw [parseValue]
    simp [p2]
  have m2 : parseMembers (n + 3) 1 (0x22 :: (K2 ++ 0x22 :: 0x3A :: 0x22 :: (L2 ++ 0x22 :: [0x7D])))
      = some ([(K2, .string U2)], []) := by
    rw [parseMembers]
    simp [k2, s1, s2, s4, v2]
  have m1 : parseMembers (n + 4) 1 (0x22 :: (K1 ++ 0x22 :: 0x3A :: 0x22
      :: (L1 ++ 0x22 :: 0x2C :: 0x22 :: (K2 ++ 0x22 :: 0x3A :: 0x22 :: (L2 ++ 0x22 :: [0x7D])))))
      = some ([(K1, .string U1), (K2, .string U2)], []) := by
    rw [parseMembers]
    simp [k1, s1, s2, s3, v1, m2]
  rw [parseValue]
  simp [s1, m1, maxNestingDepth]

/-- Reading what `json.Marshal` wrote: an object of the two members, each a string. -/
theorem parseValue_Marshal (c : urlDocumentContent) (n : Nat) :
    parseValue (n + 5) 0 (Marshal c)
      = some (.object [(goStr "original_url", .string (coerceToUTF8 c.OriginalUrl)),
          (goStr "short_url", .string (coerceToUTF8 c.ShortUrl))], []) := by
  rw [Marshal_eq]
  exact parseValue_two_members _ _ _ _ _ _
    (fun tail => parseString_key (goStr "original_url") tail (by decide) (by decide))
    (fun tail => parseString_key (goStr "short_url") tail (by decide) (by decide))
    (parseString_appendString c.OriginalUrl) (parseString_appendString c.ShortUrl) n

theorem Marshal_length (c : urlDocumentContent) : 4 ≤ (Marshal c).length := by
  rw [Marshal_eq]
  simp only [List.length_cons, List.length_append]
  omega

/-- `json.Unmarshal` of what `json.Marshal` wrote returns no error and the two fields coerced to
valid UTF-8. -/
theorem Unmarshal_Marshal (c c0 : urlDocumentContent) :
    Unmarshal (Marshal c) c0
      = ({ OriginalUrl := coerceToUTF8 c.OriginalUrl, ShortUrl := coerceToUTF8 c.ShortUrl },
          none) := by
  have hp : parseJson (Marshal c)
      = some (.object [(goStr "original_url", .string (coerceToUTF8 c.OriginalUrl)),
          (goStr "short_url", .string (coerceToUTF8 c.ShortUrl))]) := by
    obtain ⟨n, hn⟩ : ∃ n, (Marshal c).length + 1 = n + 5 :=
      ⟨(Marshal c).length - 4, by have := Marshal_length c; omega⟩
    have hs : skipSpace (Marshal c) = Marshal c := by
      rw [Marshal_eq]; simp [skipSpace, isSpace]
    unfold parseJson
    rw [hs, hn, parseValue_Marshal c n]
    simp [skipSpace]
  have f1 : fieldOfKey (goStr "original_url") = some .OriginalUrl := by decide
  have f2 : fieldOfKey (goStr "short_url") = some .ShortUrl := by decide
  unfold Unmarshal
  rw [hp]
  simp [storeMember, f1, f2]


/-! ## Read after write -/

theorem DocStore.get_cons_self (store : DocStore) (index id : GoString) (content : List Nat) :
    DocStore.get (((index, id), content) :: store) index id = some content := by
  simp [DocStore.get]

/-- Read after write on the index the read path uses.  Over the map-backed document store, for a
service whose index name is `App.EnvVars.EsIndex` (as `main.go` constructs it), for every short
URL `shortUrl` and every original URL `url`: `assignShortUrlToOriginalUrl(url, shortUrl)` returns
nil, and the following `GetOriginalUrlForShortUrl(shortUrl)` returns, with a nil error, `url` as
JSON keeps it (every byte that starts no valid UTF-8 sequence replaced by U+FFFD), which is `url`
itself whenever `url` is valid UTF-8. -/
theorem read_after_write_same_index {κ : Type} (App : UrlShortenApp) (kgs : KgsService κ)
    (url shortUrl : GoString) (w : World DocStore κ) :
    (assignShortUrlToOriginalUrl (NewUrlShortenService App.EnvVars.EsIndex mapEsService kgs)
        url shortUrl w).1 = none
    ∧ (GetOriginalUrlForShortUrl App (NewUrlShortenService App.EnvVars.EsIndex mapEsService kgs)
        shortUrl
        (assignShortUrlToOriginalUrl (NewUrlShortenService App.EnvVars.EsIndex mapEsService kgs)
          url shortUrl w).2).1 = (coerceToUTF8 url, none)
    ∧ (ValidString url = true → coerceToUTF8 url = url) := by
  refine ⟨?_, ?_, coerceToUTF8_of_valid url⟩
  · simp [assignShortUrlToOriginalUrl, NewUrlShortenService, mapEsService]
  · simp [assignShortUrlToOriginalUrl, GetOriginalUrlForShortUrl, NewUrlShortenService,
      mapEsService, DocStore.get_cons_self, Unmarshal_Marshal]


set_option maxRecDepth 100000 in
/-- C1 at a concrete input (the defect).  The service of the tests is constructed with the index
name `some-index` while `App.EnvVars.EsIndex` is `urls`; the store is an empty map.
`assignShortUrlToOriginalUrl("http://some-url", "http://shrt-url")` returns nil and writes the
document under `some-index`; the following `GetOriginalUrlForShortUrl("http://shrt-url")` asks
the index `urls` and returns `("", ErrCouldNotFindDocumentForShortUrl)`.  The same two calls on
the service constructed with the index name `urls` return `("http://some-url", nil)`. -/
theorem read_after_write_lost_on_other_index :
    (assignShortUrlToOriginalUrl serviceSomeIndex (goStr "http://some-url")
        (goStr "http://shrt-url") World.empty).1 = none
    ∧ (assignShortUrlToOriginalUrl serviceSomeIndex (goStr "http://some-url")
        (goStr "http://shrt-url") World.empty).2.es.get (goStr "some-index")
          (goStr "477a9987ac5dd841182a6bc3890b0081")
        = some (goStr
          "\x7b\"original_url\":\"http://some-url\",\"short_url\":\"http://shrt-url\"\x7d")
    ∧ (GetOriginalUrlForShortUrl appUrls serviceSomeIndex (goStr "http://shrt-url")
        (assignShortUrlToOriginalUrl serviceSomeIndex (goStr "http://some-url")
          (goStr "http://shrt-url") World.empty).2).2.calls
        = [.IndexDocument (goStr "some-index")
            { Id := goStr "477a9987ac5dd841182a6bc3890b0081",
              Content := goStr
                "\x7b\"original_url\":\"http://some-url\",\"short_url\":\"http://shrt-url\"\x7d" },
           .GetDocumentById (goStr "urls") (goStr "477a9987ac5dd841182a6bc3890b0081")]
    ∧ (GetOriginalUrlForShortUrl appUrls serviceSomeIndex (goStr "http://shrt-url")
        (assignShortUrlToOriginalUrl serviceSomeIndex (goStr "http://some-url")
          (goStr "http://shrt-url") World.empty).2).1
        = ([], some .ErrCouldNotFindDocumentForShortUrl)
    ∧ (GetOriginalUrlForShortUrl appUrls (serviceOf appUrls) (goStr "http://shrt-url")
        (assignShortUrlToOriginalUrl (serviceOf appUrls) (goStr "http://some-url")
          (goStr "http://shrt-url") World.empty).2).1
        = (goStr "http://some-url", none) := by
  decide

/-! ## The error kinds of the service -/



theorem callsSince_append {σ κ : Type} (w v : World σ κ) (cs : List Call)
    (h : v.calls = w.calls ++ cs) : callsSince w v = cs := by
  simp [callsSince, h]

/-- The ways through `constructShortUrl`: the one call made, and the result by its outcome. -/
theorem constructShortUrl_cases {σ κ : Type} (s : urlShortenService σ κ)
    (shortHost customSlug : GoString) (slugLength : Int) (w : World σ κ) :
    ∃ c, c.isIndexDocument = false
      ∧ (constructShortUrl s shortHost customSlug slugLength w).2.calls = w.calls ++ [c]
      ∧ (constructShortUrl s shortHost customSlug slugLength w).2.es = w.es := by
  by_cases h : customSlug = []
  · rcases hc : s.KgsService.GenerateKey shortHost slugLength w.kgs with ⟨⟨slug, _ | e⟩, k1⟩ <;>
      exact ⟨.GenerateKey shortHost slugLength, rfl, by simp [constructShortUrl, h, hc]⟩
  · rcases hc : s.KgsService.CreateNewKey shortHost customSlug w.kgs with ⟨⟨slug, _ | e⟩, k1⟩ <;>
      exact ⟨.CreateNewKey shortHost customSlug, rfl, by simp [constructShortUrl, h, hc]⟩

theorem assignShortUrlToOriginalUrl_calls {σ κ : Type} (s : urlShortenService σ κ)
    (url shortUrl : GoString) (w : World σ κ) :
    (assignShortUrlToOriginalUrl s url shortUrl w).2.calls
      = w.calls ++ [.IndexDocument s.EsIndex
          { Id := documentId shortUrl,
            Content := Marshal { OriginalUrl := url, ShortUrl := shortUrl } }] := by
  rcases hc : s.EsService.IndexDocument s.EsIndex
      { Id := documentId shortUrl, Content := Marshal { OriginalUrl := url, ShortUrl := shortUrl } }
      w.es with ⟨⟨id, _ | e⟩, e1⟩ <;>
    simp [assignShortUrlToOriginalUrl, hc]

/-- C11: for every `shortHost`, `customSlug` and `slugLength`, over every key generation service
and every error it returns: with a non-empty `customSlug`, when `CreateNewKey` returns an error
`constructShortUrl` returns `("", ErrCouldNotCreateNewSlugForShortUrl)`; with an empty
`customSlug`, when `GenerateKey` returns an error `constructShortUrl` returns
`("", ErrCouldNotGenerateNewSlugForShortUrl)`. -/
theorem constructShortUrl_error_kinds {σ κ : Type} (s : urlShortenService σ κ)
    (shortHost customSlug : GoString) (slugLength : Int) (w : World σ κ) :
    (customSlug ≠ [] →
      ∀ key e, (s.KgsService.CreateNewKey shortHost customSlug w.kgs).1 = (key, some e) →
        (constructShortUrl s shortHost customSlug slugLength w).1
          = ([], some .ErrCouldNotCreateNewSlugForShortUrl))
    ∧ (customSlug = [] →
      ∀ key e, (s.KgsService.GenerateKey shortHost slugLength w.kgs).1 = (key, some e) →
        (constructShortUrl s shortHost customSlug slugLength w).1
          = ([], some .ErrCouldNotGenerateNewSlugForShortUrl)) := by
  constructor
  · intro h key e he
    rcases hc : s.KgsService.CreateNewKey shortHost customSlug w.kgs with ⟨⟨slug, _ | e1⟩, k1⟩ <;>
      simp [constructShortUrl, h, hc] at he ⊢
  · intro h key e he
    rcases hc : s.KgsService.GenerateKey shortHost slugLength w.kgs with ⟨⟨slug, _ | e1⟩, k1⟩ <;>
      simp [constructShortUrl, h, hc] at he ⊢

/-- The two tests "returns error when failing to create new slug" and "returns error when failing
to generate new slug": the key generation service answers with the error `failed`. -/
theorem constructShortUrl_error_kinds_witness :
    (constructShortUrl
        (NewUrlShortenService (goStr "some-index") mapEsService
          (MockKgsService [] (some (.errorString "failed"))))
        (goStr "http://shortho.st") (goStr "custom-slug") 0 World.empty).1
      = ([], some .ErrCouldNotCreateNewSlugForShortUrl)
    ∧ (constructShortUrl
        (NewUrlShortenService (goStr "some-index") mapEsService
          (MockKgsService [] (some (.errorString "failed"))))
        (goStr "http://shortho.st") [] 8 World.empty).1
      = ([], some .ErrCouldNotGenerateNewSlugForShortUrl) :=
  ⟨(constructShortUrl_error_kinds
      (NewUrlShortenService (goStr "some-index") mapEsService
        (MockKgsService [] (some (.errorString "failed"))))
      (goStr "http://shortho.st") (goStr "custom-slug") 0 World.empty).1 (by decide) []
      (.errorString "failed") rfl,
    (constructShortUrl_error_kinds
      (NewUrlShortenService (goStr "some-index") mapEsService
        (MockKgsService [] (some (.errorString "failed"))))
      (goStr "http://shortho.st") [] 8 World.empty).2 rfl [] (.errorString "failed") rfl⟩

/-- C12: for all inputs of `ConstructShortUrlAndAssignToOriginalUrl`, over every document store
and every key generation service: when `constructShortUrl` returns an error, the call returns
`("", ErrCouldNotConstructShortUrl)`, logs no call of `EsService.IndexDocument` and leaves the
document store as it was; when `constructShortUrl` returns `shortUrl` with a nil error, exactly
one call of `IndexDocument` is made, and the call returns
`("", ErrCouldNotAssignShortUrlToOriginalUrl)` when the store write fails and `(shortUrl, nil)`
when it succeeds. -/
theorem ConstructShortUrlAndAssignToOriginalUrl_short_circuit {σ κ : Type}
    (s : urlShortenService σ κ) (originalUrl shortHost customSlug : GoString) (slugLength : Int)
    (w : World σ κ) :
    (∀ u e, (constructShortUrl s shortHost customSlug slugLength w).1 = (u, some e) →
      (ConstructShortUrlAndAssignToOriginalUrl s originalUrl shortHost customSlug slugLength w).1
          = ([], some .ErrCouldNotConstructShortUrl)
      ∧ (callsSince w (ConstructShortUrlAndAssignToOriginalUrl s originalUrl shortHost customSlug
          slugLength w).2).filter Call.isIndexDocument = []
      ∧ (ConstructShortUrlAndAssignToOriginalUrl s originalUrl shortHost customSlug slugLength
          w).2.es = w.es)
    ∧ (∀ shortUrl, (constructShortUrl s shortHost customSlug slugLength w).1 = (shortUrl, none) →
      ((callsSince w (ConstructShortUrlAndAssignToOriginalUrl s originalUrl shortHost customSlug
          slugLength w).2).filter Call.isIndexDocument).length = 1
      ∧ (∀ e, (assignShortUrlToOriginalUrl s originalUrl shortUrl
            (constructShortUrl s shortHost customSlug slugLength w).2).1 = some e →
          (ConstructShortUrlAndAssignToOriginalUrl s originalUrl shortHost customSlug slugLength
            w).1 = ([], some .ErrCouldNotAssignShortUrlToOriginalUrl))
      ∧ ((assignShortUrlToOriginalUrl s originalUrl shortUrl
            (constructShortUrl s shortHost customSlug slugLength w).2).1 = none →
          (ConstructShortUrlAndAssignToOriginalUrl s originalUrl shortHost customSlug slugLength
            w).1 = (shortUrl, none))) := by
  obtain ⟨c, hc, hcalls, hes⟩ := constructShortUrl_cases s shortHost customSlug slugLength w
  rcases hk : constructShortUrl s shortHost customSlug slugLength w with ⟨⟨u0, _ | e0⟩, w1⟩
  · rw [hk] at hcalls hes
    refine ⟨by intro u e he; simp at he, ?_⟩
    intro shortUrl hs
    simp only [Prod.mk.injEq, and_true] at hs
    subst hs
    have hlog := assignShortUrlToOriginalUrl_calls s originalUrl u0 w1
    have hfilter : ∀ d : Document,
        ([c, Call.IndexDocument s.EsIndex d].filter Call.isIndexDocument).length = 1 := by
      intro d
      rw [List.filter_cons_of_neg (by rw [hc]; decide), List.filter_cons_of_pos rfl]
      rfl
    rcases ha : assignShortUrlToOriginalUrl s originalUrl u0 w1 with ⟨_ | e1, w2⟩
    · rw [ha] at hlog
      have hres : ConstructShortUrlAndAssignToOriginalUrl s originalUrl shortHost customSlug
          slugLength w = ((u0, none), w2) := by
        simp only [ConstructShortUrlAndAssignToOriginalUrl, hk, ha]
      rw [hres]
      refine ⟨?_, by intro e he; simp at he, fun _ => rfl⟩
      rw [callsSince_append w w2 _ (by
        show w2.calls = _
        rw [show w2.calls = _ from hlog, show w1.calls = _ from hcalls, List.append_assoc])]
      exact hfilter _
    · rw [ha] at hlog
      have hres : ConstructShortUrlAndAssignToOriginalUrl s originalUrl shortHost customSlug
          slugLength w = (([], some .ErrCouldNotAssignShortUrlToOriginalUrl), w2) := by
        simp only [ConstructShortUrlAndAssignToOriginalUrl, hk, ha]
      rw [hres]
      refine ⟨?_, fun _ _ => rfl, by intro he; simp at he⟩
      rw [callsSince_append w w2 _ (by
        show w2.calls = _
        rw [show w2.calls = _ from hlog, show w1.calls = _ from hcalls, List.append_assoc])]
      exact hfilter _
  · rw [hk] at hcalls hes
    refine ⟨?_, by intro shortUrl hs; simp at hs⟩
    intro u e _
    have hres : ConstructShortUrlAndAssignToOriginalUrl s originalUrl shortHost customSlug
        slugLength w = (([], some .ErrCouldNotConstructShortUrl), w1) := by
      simp only [ConstructShortUrlAndAssignToOriginalUrl, hk]
    rw [hres]
    refine ⟨rfl, ?_, hes⟩
    rw [callsSince_append w w1 [c] hcalls, List.filter_cons_of_neg (by rw [hc]; decide)]
    rfl

/-- The three tests of `ConstructShortUrlAndAssignToOriginalUrl`: the key generation service
fails; the document store fails; both succeed. -/
theorem ConstructShortUrlAndAssignToOriginalUrl_short_circuit_witness :
    ((ConstructShortUrlAndAssignToOriginalUrl
          (NewUrlShortenService (goStr "some-index") (MockEsService [] ⟨[], []⟩ none)
            (MockKgsService [] (some (.errorString "failed"))))
          (goStr "http://some-url") (goStr "http://shortho.st") (goStr "custom-slug") 0
          ⟨(), (), []⟩).1 = ([], some .ErrCouldNotConstructShortUrl)
      ∧ (callsSince ⟨(), (), []⟩ (ConstructShortUrlAndAssignToOriginalUrl
          (NewUrlShortenService (goStr "some-index") (MockEsService [] ⟨[], []⟩ none)
            (MockKgsService [] (some (.errorString "failed"))))
          (goStr "http://some-url") (goStr "http://shortho.st") (goStr "custom-slug") 0
          ⟨(), (), []⟩).2).filter Call.isIndexDocument = [])
    ∧ (ConstructShortUrlAndAssignToOriginalUrl
          (NewUrlShortenService (goStr "some-index")
            (MockEsService [] ⟨[], []⟩ (some (.errorString "failed"))) (MockKgsService [] none))
          (goStr "http://some-url") (goStr "http://shortho.st") (goStr "custom-slug") 0
          ⟨(), (), []⟩).1 = ([], some .ErrCouldNotAssignShortUrlToOriginalUrl)
    ∧ ((ConstructShortUrlAndAssignToOriginalUrl
          (NewUrlShortenService (goStr "some-index") (MockEsService [] ⟨[], []⟩ none)
            (MockKgsService (goStr "custom-slug") none))
          (goStr "http://some-url") (goStr "http://shortho.st") (goStr "custom-slug") 0
          ⟨(), (), []⟩).1 = (goStr "http://shortho.st/custom-slug", none)
      ∧ ((callsSince ⟨(), (), []⟩ (ConstructShortUrlAndAssignToOriginalUrl
          (NewUrlShortenService (goStr "some-index") (MockEsService [] ⟨[], []⟩ none)
            (MockKgsService (goStr "custom-slug") none))
          (goStr "http://some-url") (goStr "http://shortho.st") (goStr "custom-slug") 0
          ⟨(), (), []⟩).2).filter Call.isIndexDocument).length = 1) :=
  have h1 := (ConstructShortUrlAndAssignToOriginalUrl_short_circuit
    (NewUrlShortenService (goStr "some-index") (MockEsService [] ⟨[], []⟩ none)
      (MockKgsService [] (some (.errorString "failed"))))
    (goStr "http://some-url") (goStr "http://shortho.st") (goStr "custom-slug") 0
    ⟨(), (), []⟩).1 [] .ErrCouldNotCreateNewSlugForShortUrl (by decide)
  have h2 := (ConstructShortUrlAndAssignToOriginalUrl_short_circuit
    (NewUrlShortenService (goStr "some-index")
      (MockEsService [] ⟨[], []⟩ (some (.errorString "failed"))) (MockKgsService [] none))
    (goStr "http://some-url") (goStr "http://shortho.st") (goStr "custom-slug") 0
    ⟨(), (), []⟩).2 (goStr "http://shortho.st/") (by decide)
  have h3 := (ConstructShortUrlAndAssignToOriginalUrl_short_circuit
    (NewUrlShortenService (goStr "some-index") (MockEsService [] ⟨[], []⟩ none)
      (MockKgsService (goStr "custom-slug") none))
    (goStr "http://some-url") (goStr "http://shortho.st") (goStr "custom-slug") 0
    ⟨(), (), []⟩).2 (goStr "http://shortho.st/custom-slug") (by decide)
  ⟨⟨h1.1, h1.2.1⟩, h2.2.1 .ErrCouldNotStoreDocumentForShortUrl (by decide), h3.2.2 (by decide), h3.1⟩

/-- C13: for every short URL `shortUrl`, over every document store: when
`EsService.GetDocumentById` returns an error (any error, `ErrEsDoesNotContainDocument`
included), `GetOriginalUrlForShortUrl(shortUrl)` returns
`("", ErrCouldNotFindDocumentForShortUrl)`; when a document is returned with a nil error and
`json.Unmarshal` of its content fails, as it does for every content that is not a JSON text, the
call returns `("", ErrCouldNotParseDocumentJson)`.  Over the map-backed store, a short URL under
whose id nothing is stored in the index gets `("", ErrCouldNotFindDocumentForShortUrl)`. -/
theorem GetOriginalUrlForShortUrl_error_kinds {σ κ : Type} (App : UrlShortenApp)
    (s : urlShortenService σ κ) (shortUrl : GoString) (w : World σ κ) :
    (∀ d e, (s.EsService.GetDocumentById App.EnvVars.EsIndex (documentId shortUrl) w.es).1
        = (d, some e) →
      (GetOriginalUrlForShortUrl App s shortUrl w).1
        = ([], some .ErrCouldNotFindDocumentForShortUrl))
    ∧ (∀ d, (s.EsService.GetDocumentById App.EnvVars.EsIndex (documentId shortUrl) w.es).1
        = (d, none) →
      ((Unmarshal d.Content { OriginalUrl := [], ShortUrl := [] }).2 ≠ none →
        (GetOriginalUrlForShortUrl App s shortUrl w).1
          = ([], some .ErrCouldNotParseDocumentJson))
      ∧ (parseJson d.Content = none →
        (GetOriginalUrlForShortUrl App s shortUrl w).1
          = ([], some .ErrCouldNotParseDocumentJson)))
    ∧ (∀ (index : GoString) (kgs : KgsService κ) (v : World DocStore κ),
      v.es.get App.EnvVars.EsIndex (documentId shortUrl) = none →
      (GetOriginalUrlForShortUrl App (NewUrlShortenService index mapEsService kgs) shortUrl v).1
        = ([], some .ErrCouldNotFindDocumentForShortUrl)) := by
  refine ⟨?_, ?_, ?_⟩
  · intro d e he
    rcases hg : s.EsService.GetDocumentById App.EnvVars.EsIndex (documentId shortUrl) w.es
      with ⟨⟨d1, _ | e1⟩, es1⟩
    · rw [hg] at he; simp at he
    · simp only [GetOriginalUrlForShortUrl, hg]
  · intro d hd
    rcases hg : s.EsService.GetDocumentById App.EnvVars.EsIndex (documentId shortUrl) w.es
      with ⟨⟨d1, _ | e1⟩, es1⟩
    · rw [hg] at hd
      simp only [Prod.mk.injEq, and_true] at hd
      subst hd
      have hmain : (Unmarshal d1.Content { OriginalUrl := [], ShortUrl := [] }).2 ≠ none →
          (GetOriginalUrlForShortUrl App s shortUrl w).1
            = ([], some .ErrCouldNotParseDocumentJson) := by
        intro hu
        rcases hm : Unmarshal d1.Content { OriginalUrl := [], ShortUrl := [] } with ⟨c, _ | je⟩
        · rw [hm] at hu; exact absurd rfl hu
        · simp only [GetOriginalUrlForShortUrl, hg, hm]
      refine ⟨hmain, fun hp => hmain ?_⟩
      simp [Unmarshal, hp]
    · rw [hg] at hd; simp at hd
  · intro index kgs v hv
    simp [GetOriginalUrlForShortUrl, NewUrlShortenService, mapEsService, hv]

set_option maxRecDepth 100000 in
/-- The tests "returns error when document cannot be found" and "returns error when document
content JSON cannot be parsed", and a short URL asked of an empty store. -/
theorem GetOriginalUrlForShortUrl_error_kinds_witness :
    (GetOriginalUrlForShortUrl appUrls
        (NewUrlShortenService (goStr "some-index")
          (MockEsService [] ⟨[], []⟩ (some (.errorString "not found"))) (MockKgsService [] none))
        (goStr "http://shrt-url") ⟨(), (), []⟩).1
      = ([], some .ErrCouldNotFindDocumentForShortUrl)
    ∧ (GetOriginalUrlForShortUrl appUrls
        (NewUrlShortenService (goStr "some-index")
          (MockEsService [] ⟨goStr "123", goStr "\x7b]"⟩ none) (MockKgsService [] none))
        (goStr "http://shrt-url") ⟨(), (), []⟩).1
      = ([], some .ErrCouldNotParseDocumentJson)
    ∧ (GetOriginalUrlForShortUrl appUrls (serviceOf appUrls) (goStr "http://shrt-url")
        World.empty).1 = ([], some .ErrCouldNotFindDocumentForShortUrl) :=
  ⟨(GetOriginalUrlForShortUrl_error_kinds appUrls
      (NewUrlShortenService (goStr "some-index")
        (MockEsService [] ⟨[], []⟩ (some (.errorString "not found"))) (MockKgsService [] none))
      (goStr "http://shrt-url") ⟨(), (), []⟩).1 ⟨[], []⟩ (.errorString "not found") rfl,
    ((GetOriginalUrlForShortUrl_error_kinds appUrls
      (NewUrlShortenService (goStr "some-index")
        (MockEsService [] ⟨goStr "123", goStr "\x7b]"⟩ none) (MockKgsService [] none))
      (goStr "http://shrt-url") ⟨(), (), []⟩).2.1 ⟨goStr "123", goStr "\x7b]"⟩ rfl).1 (by decide),
    (GetOriginalUrlForShortUrl_error_kinds appUrls serviceSomeIndex
      (goStr "http://shrt-url") World.empty).2.2 (goStr "urls")
        (MockKgsService (goStr "gen-slug") none) World.empty rfl⟩

/-! ## The service over the Elasticsearch API and the client of the key generation service -/

/-- The walk that keeps the bytes of each value reads the same members as `parseMembers`. -/
theorem parseMembersRaw_members : ∀ (fuel depth : Nat) (s : List Nat),
    (parseMembersRaw fuel depth s).map (fun r => (r.1.map fun m => (m.1, m.2.1), r.2))
      = parseMembers fuel depth s
  | 0, _, _ => by simp [parseMembersRaw, parseMembers]
  | fuel + 1, depth, [] => by simp [parseMembersRaw, parseMembers]
  | fuel + 1, depth, c :: rest => by
    by_cases hc : c = 0x22
    · subst hc
      rcases hk : parseString rest with _ | ⟨key, rest1⟩
      · simp [parseMembersRaw, parseMembers, hk]
      · rcases hs : skipSpace rest1 with _ | ⟨c1, rest2⟩
        · simp [parseMembersRaw, parseMembers, hk, hs]
        · by_cases hc1 : c1 = 0x3A
          · subst hc1
            rcases hv : parseValue fuel depth (skipSpace rest2) with _ | ⟨v, rest3⟩
            · simp [parseMembersRaw, parseMembers, hk, hs, hv]
            · rcases hs3 : skipSpace rest3 with _ | ⟨c3, rest4⟩
              · simp [parseMembersRaw, parseMembers, hk, hs, hv, hs3]
              · by_cases hc3 : c3 = 0x2C
                · subst hc3
                  have ih := parseMembersRaw_members fuel depth (skipSpace rest4)
                  simp only [parseMembersRaw, parseMembers, hk, hs, hv, hs3, ← ih]
                  cases parseMembersRaw fuel depth (skipSpace rest4) <;> rfl
                · by_cases hc4 : c3 = 0x7D
                  · subst hc4
                    simp [parseMembersRaw, parseMembers, hk, hs, hv, hs3]
                  · simp [parseMembersRaw, parseMembers, hk, hs, hv, hs3, hc3, hc4]
          · simp [parseMembersRaw, parseMembers, hk, hs, hc1]
    · simp [parseMembersRaw, parseMembers, hc]


/-- The ways through `esService.GetDocumentById`. -/
theorem GetDocumentById_cases {ε : Type} (s : esService ε) (index id : GoString)
    (st : ε) :
    (∃ r e st1, s.EsApi.Get index id st = ((r, some e), st1)
      ∧ s.GetDocumentById index id st
          = ((⟨[], []⟩, some .ErrEsCouldNotFulfillRequest), st1))
    ∨ (∃ r st1 je, s.EsApi.Get index id st = ((r, none), st1)
      ∧ (getResponseJson.Unmarshal r.Body).2 = some je
      ∧ s.GetDocumentById index id st
          = ((⟨[], []⟩, some .ErrCouldNotParseResponseJson_), st1))
    ∨ (∃ r st1, s.EsApi.Get index id st = ((r, none), st1)
      ∧ (getResponseJson.Unmarshal r.Body).2 = none
      ∧ (getResponseJson.Unmarshal r.Body).1.Found = false
      ∧ s.GetDocumentById index id st
          = ((⟨[], []⟩, some .ErrEsDoesNotContainDocument), st1))
    ∨ (∃ r st1, s.EsApi.Get index id st = ((r, none), st1)
      ∧ (getResponseJson.Unmarshal r.Body).2 = none
      ∧ (getResponseJson.Unmarshal r.Body).1.Found = true
      ∧ s.GetDocumentById index id st
          = ((⟨(getResponseJson.Unmarshal r.Body).1.Id,
                (getResponseJson.Unmarshal r.Body).1.Source⟩, none), st1)) := by
  rcases hg : s.EsApi.Get index id st with ⟨⟨r, _ | e⟩, st1⟩
  · rcases hu : getResponseJson.Unmarshal r.Body with ⟨resp, _ | je⟩
    · cases hf : resp.Found
      · right; right; left
        exact ⟨r, st1, rfl, by rw [hu], by rw [hu]; exact hf,
          by simp [esService.GetDocumentById, hg, parseRawJsonFromHttpBody, hu, hf]⟩
      · right; right; right
        exact ⟨r, st1, rfl, by rw [hu], by rw [hu]; exact hf,
          by simp [esService.GetDocumentById, hg, parseRawJsonFromHttpBody, hu, hf]⟩
    · right; left
      exact ⟨r, st1, je, rfl, by rw [hu],
        by simp [esService.GetDocumentById, hg, parseRawJsonFromHttpBody, hu]⟩
  · left
    exact ⟨r, e, st1, rfl, by simp [esService.GetDocumentById, hg]⟩

/-- C14: for every index and id, over every Elasticsearch API: `esService.GetDocumentById`
returns `ErrEsCouldNotFulfillRequest` when the Get call returns an error,
`ErrCouldNotParseResponseJson_` when `json.Unmarshal` of the response body fails,
`ErrEsDoesNotContainDocument` when the decoded response has `found = false`, and otherwise
`Document{Id: _id, Content: _source}` of the decoded response with a nil error; whenever the
error is not nil the document returned is the zero `Document`. -/
theorem GetDocumentById_error_kinds {ε : Type} (s : esService ε)
    (index id : GoString) (st : ε) :
    (∀ r e, (s.EsApi.Get index id st).1 = (r, some e) →
      (s.GetDocumentById index id st).1 = (⟨[], []⟩, some .ErrEsCouldNotFulfillRequest))
    ∧ (∀ r, (s.EsApi.Get index id st).1 = (r, none) →
      ((getResponseJson.Unmarshal r.Body).2 ≠ none →
        (s.GetDocumentById index id st).1 = (⟨[], []⟩, some .ErrCouldNotParseResponseJson_))
      ∧ ((getResponseJson.Unmarshal r.Body).2 = none →
          (getResponseJson.Unmarshal r.Body).1.Found = false →
          (s.GetDocumentById index id st).1 = (⟨[], []⟩, some .ErrEsDoesNotContainDocument))
      ∧ ((getResponseJson.Unmarshal r.Body).2 = none →
          (getResponseJson.Unmarshal r.Body).1.Found = true →
          (s.GetDocumentById index id st).1
            = (⟨(getResponseJson.Unmarshal r.Body).1.Id,
                (getResponseJson.Unmarshal r.Body).1.Source⟩, none)))
    ∧ ((s.GetDocumentById index id st).1.2 ≠ none →
        (s.GetDocumentById index id st).1.1 = ⟨[], []⟩) := by
  rcases GetDocumentById_cases s index id st with
    ⟨r, e, st1, hg, hr⟩ | ⟨r, st1, je, hg, hu, hr⟩ | ⟨r, st1, hg, hu, hf, hr⟩
      | ⟨r, st1, hg, hu, hf, hr⟩
  · rw [hr, hg]
    refine ⟨fun _ _ _ => rfl, ?_, fun _ => rfl⟩
    intro r1 h1
    simp at h1
  · rw [hr, hg]
    refine ⟨by intro r1 e1 h1; simp at h1, ?_, fun _ => rfl⟩
    intro r1 h1
    simp only [Prod.mk.injEq, and_true] at h1
    subst h1
    refine ⟨fun _ => rfl, ?_, ?_⟩ <;>
      · intro h2
        rw [hu] at h2
        simp at h2
  · rw [hr, hg]
    refine ⟨by intro r1 e1 h1; simp at h1, ?_, fun _ => rfl⟩
    intro r1 h1
    simp only [Prod.mk.injEq, and_true] at h1
    subst h1
    refine ⟨fun h2 => absurd hu h2, fun _ _ => rfl, ?_⟩
    intro _ h3
    rw [hf] at h3
    simp at h3
  · rw [hr, hg]
    refine ⟨by intro r1 e1 h1; simp at h1, ?_, fun h => absurd rfl h⟩
    intro r1 h1
    simp only [Prod.mk.injEq, and_true] at h1
    subst h1
    refine ⟨fun h2 => absurd hu h2, ?_, fun _ _ => rfl⟩
    intro _ h3
    rw [hf] at h3
    simp at h3

set_option maxRecDepth 100000 in
/-- The four tests of `GetDocumentById`: the Get call fails; the body is `{]`; the body says
`"found": false`; the body holds the document `123`. -/
theorem GetDocumentById_error_kinds_witness :
    ((NewEsService (MockEsApi [0] [some (.errorString "failed")] [[]])).GetDocumentById
        (goStr "some-index") (goStr "123") ()).1
      = (⟨[], []⟩, some .ErrEsCouldNotFulfillRequest)
    ∧ ((NewEsService (MockEsApi [0] [none] [goStr "\x7b]"])).GetDocumentById
        (goStr "some-index") (goStr "123") ()).1
      = (⟨[], []⟩, some .ErrCouldNotParseResponseJson_)
    ∧ ((NewEsService (MockEsApi [200] [none] [goStr "\x7b\"found\": false\x7d"])).GetDocumentById
        (goStr "some-index") (goStr "123") ()).1
      = (⟨[], []⟩, some .ErrEsDoesNotContainDocument)
    ∧ ((NewEsService (MockEsApi [200] [none]
          [goStr "\x7b\"found\": true, \"_id\": \"123\", \"_version\": 1, \"_source\": \"\x7b\x7d\"\x7d"])).GetDocumentById
        (goStr "some-index") (goStr "123") ()).1
      = (⟨goStr "123", goStr "\"\x7b\x7d\""⟩, none) :=
  ⟨(GetDocumentById_error_kinds
      (NewEsService (MockEsApi [0] [some (.errorString "failed")] [[]]))
      (goStr "some-index") (goStr "123") ()).1 ⟨0, []⟩ (.errorString "failed") rfl,
    ((GetDocumentById_error_kinds
      (NewEsService (MockEsApi [0] [none] [goStr "\x7b]"]))
      (goStr "some-index") (goStr "123") ()).2.1 ⟨0, goStr "\x7b]"⟩ rfl).1 (by decide),
    ((GetDocumentById_error_kinds
      (NewEsService (MockEsApi [200] [none] [goStr "\x7b\"found\": false\x7d"]))
      (goStr "some-index") (goStr "123") ()).2.1 ⟨200, goStr "\x7b\"found\": false\x7d"⟩
        rfl).2.1 (by decide) (by decide),
    (((GetDocumentById_error_kinds
      (NewEsService (MockEsApi [200] [none]
        [goStr "\x7b\"found\": true, \"_id\": \"123\", \"_version\": 1, \"_source\": \"\x7b\x7d\"\x7d"]))
      (goStr "some-index") (goStr "123") ()).2.1
        ⟨200, goStr "\x7b\"found\": true, \"_id\": \"123\", \"_version\": 1, \"_source\": \"\x7b\x7d\"\x7d"⟩
        rfl).2.2 (by decide) (by decide)).trans (by decide)⟩

/-- C15, as the code has it: for every index and document, over every Elasticsearch API:
`esService.IndexDocument` returns `("", ErrEsCouldNotFulfillRequest)` when the Index call returns
an error (a transport error), `("", ErrCouldNotParseResponseJson_)` when `json.Unmarshal` of the
response body fails, and otherwise the `_id` of the decoded body with a nil error.  The status
code of the response is not read: two responses with the same body get the same result. -/
theorem IndexDocument_error_kinds {ε : Type} (s : esService ε) (index : GoString)
    (document : Document) (st : ε) :
    (∀ r e, (s.EsApi.Index index (RawMessage.MarshalJSON document.Content) document.Id st).1
        = (r, some e) →
      (s.IndexDocument index document st).1 = ([], some .ErrEsCouldNotFulfillRequest))
    ∧ (∀ r, (s.EsApi.Index index (RawMessage.MarshalJSON document.Content) document.Id st).1
        = (r, none) →
      ((indexResponseJson.Unmarshal r.Body).2 ≠ none →
        (s.IndexDocument index document st).1 = ([], some .ErrCouldNotParseResponseJson_))
      ∧ ((indexResponseJson.Unmarshal r.Body).2 = none →
        (s.IndexDocument index document st).1 = ((indexResponseJson.Unmarshal r.Body).1.Id, none)))
    := by
  rcases hg : s.EsApi.Index index (RawMessage.MarshalJSON document.Content) document.Id st
    with ⟨⟨r, _ | e⟩, st1⟩
  · refine ⟨by intro r1 e1 h1; simp at h1, ?_⟩
    intro r1 h1
    simp only [Prod.mk.injEq, and_true] at h1
    subst h1
    rcases hu : indexResponseJson.Unmarshal r.Body with ⟨resp, _ | je⟩
    · refine ⟨fun h2 => absurd rfl h2, fun _ => ?_⟩
      simp [esService.IndexDocument, hg, parseRawJsonFromHttpBody, hu]
    · refine ⟨fun _ => ?_, by intro h2; simp at h2⟩
      simp [esService.IndexDocument, hg, parseRawJsonFromHttpBody, hu]
  · refine ⟨fun _ _ _ => ?_, by intro r1 h1; simp at h1⟩
    simp [esService.IndexDocument, hg]

set_option maxRecDepth 100000 in
/-- The three tests of `IndexDocument`: the Index call fails; the body is `{]`; the body
acknowledges the id `123`. -/
theorem IndexDocument_error_kinds_witness :
    ((NewEsService (MockEsApi [0] [some (.errorString "failed")] [[]])).IndexDocument
        (goStr "some-index") ⟨goStr "123", goStr "\x7b\x7d"⟩ ()).1
      = ([], some .ErrEsCouldNotFulfillRequest)
    ∧ ((NewEsService (MockEsApi [0] [none] [goStr "\x7b]"])).IndexDocument
        (goStr "some-index") ⟨goStr "123", goStr "\x7b\x7d"⟩ ()).1
      = ([], some .ErrCouldNotParseResponseJson_)
    ∧ ((NewEsService (MockEsApi [200] [none]
          [goStr "\x7b\"result\": \"created\", \"_id\": \"123\", \"_version\": 1\x7d"])).IndexDocument
        (goStr "some-index") ⟨goStr "123", goStr "\x7b\x7d"⟩ ()).1
      = (goStr "123", none) :=
  ⟨(IndexDocument_error_kinds (NewEsService (MockEsApi [0] [some (.errorString "failed")] [[]]))
      (goStr "some-index") ⟨goStr "123", goStr "\x7b\x7d"⟩ ()).1 ⟨0, []⟩ (.errorString "failed")
      rfl,
    ((IndexDocument_error_kinds (NewEsService (MockEsApi [0] [none] [goStr "\x7b]"]))
      (goStr "some-index") ⟨goStr "123", goStr "\x7b\x7d"⟩ ()).2 ⟨0, goStr "\x7b]"⟩ rfl).1
      (by decide),
    (((IndexDocument_error_kinds (NewEsService (MockEsApi [200] [none]
        [goStr "\x7b\"result\": \"created\", \"_id\": \"123\", \"_version\": 1\x7d"]))
      (goStr "some-index") ⟨goStr "123", goStr "\x7b\x7d"⟩ ()).2
        ⟨200, goStr "\x7b\"result\": \"created\", \"_id\": \"123\", \"_version\": 1\x7d"⟩
        rfl).2 (by decide)).trans (by decide)⟩

set_option maxRecDepth 100000 in
/-- C15 fails as stated: the store answers the Index request with the failure status 403 and
the body `{"error":{"type":"cluster_block_exception"},"status":403}` (the index is read-only),
with no transport error.  `IndexDocument` does not fail with `ErrEsCouldNotFulfillRequest`: it
returns the empty id with a nil error. -/
theorem IndexDocument_failure_status_counterexample :
    ((MockEsApi [403] [none]
        [goStr "\x7b\"error\":\x7b\"type\":\"cluster_block_exception\"\x7d,\"status\":403\x7d"]).Index
        (goStr "urls") (goStr "\x7b\x7d") (goStr "123") ()).1
      = (⟨403, goStr "\x7b\"error\":\x7b\"type\":\"cluster_block_exception\"\x7d,\"status\":403\x7d"⟩,
          none)
    ∧ ((NewEsService (MockEsApi [403] [none]
          [goStr "\x7b\"error\":\x7b\"type\":\"cluster_block_exception\"\x7d,\"status\":403\x7d"])).IndexDocument
        (goStr "urls") ⟨goStr "123", goStr "\x7b\x7d"⟩ ()).1 = ([], none)
    ∧ ((NewEsService (MockEsApi [403] [none]
          [goStr "\x7b\"error\":\x7b\"type\":\"cluster_block_exception\"\x7d,\"status\":403\x7d"])).IndexDocument
        (goStr "urls") ⟨goStr "123", goStr "\x7b\x7d"⟩ ()).1.2
      ≠ some .ErrEsCouldNotFulfillRequest := by
  decide

/-- C16: for `kgsService.GenerateKey` and `kgsService.CreateNewKey` and every input, over every
client: an error of `PostJson` (a transport failure) gives `ErrKgsCouldNotProcessRequest`; a
response whose status code is not 201 gives `ErrKgsCouldNotFulfillRequest`, a different error
value; for `GenerateKey`, a 201 response whose body `json.Unmarshal` cannot decode gives
`ErrCouldNotParseResponseJson`, and otherwise the `key` field of the decoded body is returned with
a nil error; for `CreateNewKey`, a 201 response gives the key the call was given with a nil
error.  Every error comes with the empty key. -/
theorem kgsService_error_kinds {γ : Type} (s : kgsService γ) (sourceName key : GoString)
    (keyLength : Int) (st : γ) :
    ((∀ r e, (s.Client.PostJson (goStr "/key/generate")
          (generateKeyRequestJson.Marshal sourceName keyLength) st).1 = (r, some e) →
        (s.GenerateKey sourceName keyLength st).1 = ([], some .ErrKgsCouldNotProcessRequest))
      ∧ (∀ r, (s.Client.PostJson (goStr "/key/generate")
          (generateKeyRequestJson.Marshal sourceName keyLength) st).1 = (r, none) →
        (r.StatusCode ≠ 201 →
          (s.GenerateKey sourceName keyLength st).1 = ([], some .ErrKgsCouldNotFulfillRequest))
        ∧ (r.StatusCode = 201 → (generateKeyResponseJson.Unmarshal r.Body).2 ≠ none →
          (s.GenerateKey sourceName keyLength st).1 = ([], some .ErrCouldNotParseResponseJson))
        ∧ (r.StatusCode = 201 → (generateKeyResponseJson.Unmarshal r.Body).2 = none →
          (s.GenerateKey sourceName keyLength st).1
            = ((generateKeyResponseJson.Unmarshal r.Body).1.Key, none))))
    ∧ ((∀ r e, (s.Client.PostJson (goStr "/key/new")
          (newKeyRequestJson.Marshal sourceName key) st).1 = (r, some e) →
        (s.CreateNewKey sourceName key st).1 = ([], some .ErrKgsCouldNotProcessRequest))
      ∧ (∀ r, (s.Client.PostJson (goStr "/key/new")
          (newKeyRequestJson.Marshal sourceName key) st).1 = (r, none) →
        (r.StatusCode ≠ 201 →
          (s.CreateNewKey sourceName key st).1 = ([], some .ErrKgsCouldNotFulfillRequest))
        ∧ (r.StatusCode = 201 → (s.CreateNewKey sourceName key st).1 = (key, none))))
    ∧ GoError.ErrKgsCouldNotProcessRequest ≠ GoError.ErrKgsCouldNotFulfillRequest := by
  refine ⟨⟨?_, ?_⟩, ⟨?_, ?_⟩, by decide⟩
  · intro r e h
    rcases hp : s.Client.PostJson (goStr "/key/generate")
      (generateKeyRequestJson.Marshal sourceName keyLength) st with ⟨⟨r1, _ | e1⟩, st1⟩
    · rw [hp] at h; simp at h
    · simp [kgsService.GenerateKey, hp]
  · intro r h
    rcases hp : s.Client.PostJson (goStr "/key/generate")
      (generateKeyRequestJson.Marshal sourceName keyLength) st with ⟨⟨r1, _ | e1⟩, st1⟩
    · rw [hp] at h
      simp only [Prod.mk.injEq, and_true] at h
      subst h
      refine ⟨?_, ?_, ?_⟩
      · intro hs
        simp [kgsService.GenerateKey, hp, StatusCreated, hs]
      · intro hs hu
        rcases hm : generateKeyResponseJson.Unmarshal r1.Body with ⟨resp, _ | je⟩
        · rw [hm] at hu; exact absurd rfl hu
        · simp [kgsService.GenerateKey, hp, StatusCreated, hs, parseRawJsonFromHttpBody, hm]
      · intro hs hu
        rcases hm : generateKeyResponseJson.Unmarshal r1.Body with ⟨resp, _ | je⟩
        · simp [kgsService.GenerateKey, hp, StatusCreated, hs, parseRawJsonFromHttpBody, hm]
        · rw [hm] at hu; simp at hu
    · rw [hp] at h; simp at h
  · intro r e h
    rcases hp : s.Client.PostJson (goStr "/key/new")
      (newKeyRequestJson.Marshal sourceName key) st with ⟨⟨r1, _ | e1⟩, st1⟩
    · rw [hp] at h; simp at h
    · simp [kgsService.CreateNewKey, hp]
  · intro r h
    rcases hp : s.Client.PostJson (goStr "/key/new")
      (newKeyRequestJson.Marshal sourceName key) st with ⟨⟨r1, _ | e1⟩, st1⟩
    · rw [hp] at h
      simp only [Prod.mk.injEq, and_true] at h
      subst h
      refine ⟨?_, ?_⟩
      · intro hs
        simp [kgsService.CreateNewKey, hp, StatusCreated, hs]
      · intro hs
        simp [kgsService.CreateNewKey, hp, StatusCreated, hs]
    · rw [hp] at h; simp at h

set_option maxRecDepth 100000 in
/-- The tests of `GenerateKey` and `CreateNewKey`: the call fails; the status is 400; the 201
body is `{]`; the 201 body holds the key `12345`; `CreateNewKey` gets a 201 response. -/
theorem kgsService_error_kinds_witness :
    ((NewKgsService (MockKgsClient ⟨0, []⟩ (some (.errorString "failed")))).GenerateKey
        (goStr "some-source") 12 ()).1 = ([], some .ErrKgsCouldNotProcessRequest)
    ∧ ((NewKgsService (MockKgsClient ⟨400, []⟩ none)).GenerateKey
        (goStr "some-source") 12 ()).1 = ([], some .ErrKgsCouldNotFulfillRequest)
    ∧ ((NewKgsService (MockKgsClient ⟨201, goStr "\x7b]"⟩ none)).GenerateKey
        (goStr "some-source") 12 ()).1 = ([], some .ErrCouldNotParseResponseJson)
    ∧ ((NewKgsService (MockKgsClient ⟨201, goStr "\x7b\"key\": \"12345\"\x7d"⟩ none)).GenerateKey
        (goStr "some-source") 12 ()).1 = (goStr "12345", none)
    ∧ ((NewKgsService (MockKgsClient ⟨400, []⟩ none)).CreateNewKey
        (goStr "some-source") (goStr "12345") ()).1 = ([], some .ErrKgsCouldNotFulfillRequest)
    ∧ ((NewKgsService (MockKgsClient ⟨201, []⟩ none)).CreateNewKey
        (goStr "some-source") (goStr "12345") ()).1 = (goStr "12345", none) :=
  ⟨(kgsService_error_kinds (NewKgsService (MockKgsClient ⟨0, []⟩ (some (.errorString "failed"))))
      (goStr "some-source") [] 12 ()).1.1 ⟨0, []⟩ (.errorString "failed") rfl,
    ((kgsService_error_kinds (NewKgsService (MockKgsClient ⟨400, []⟩ none))
      (goStr "some-source") [] 12 ()).1.2 ⟨400, []⟩ rfl).1 (by decide),
    ((kgsService_error_kinds (NewKgsService (MockKgsClient ⟨201, goStr "\x7b]"⟩ none))
      (goStr "some-source") [] 12 ()).1.2 ⟨201, goStr "\x7b]"⟩ rfl).2.1 rfl (by decide),
    (((kgsService_error_kinds
      (NewKgsService (MockKgsClient ⟨201, goStr "\x7b\"key\": \"12345\"\x7d"⟩ none))
      (goStr "some-source") [] 12 ()).1.2 ⟨201, goStr "\x7b\"key\": \"12345\"\x7d"⟩ rfl).2.2 rfl
        (by decide)).trans (by decide),
    ((kgsService_error_kinds (NewKgsService (MockKgsClient ⟨400, []⟩ none))
      (goStr "some-source") (goStr "12345") 12 ()).2.1.2 ⟨400, []⟩ rfl).1 (by decide),
    ((kgsService_error_kinds (NewKgsService (MockKgsClient ⟨201, []⟩ none))
      (goStr "some-source") (goStr "12345") 12 ()).2.1.2 ⟨201, []⟩ rfl).2 rfl⟩

end urlshortenapp

/-! # Theorems: the HTTP handlers of the key generation service -/

namespace keygensvc

open urlshortenapp (appendString formatInt)

theorem Error_Code (w : ResponseRecorder) (msg : GoString) (code : Int)
    (h : w.wroteHeader = false) : (Error w msg code).Code = code := by
  simp [Error, ResponseRecorder.Write, ResponseRecorder.WriteHeader, ResponseRecorder.HeaderSet, h]

theorem Error_Body (w : ResponseRecorder) (msg : GoString) (code : Int) :
    (Error w msg code).Body = w.Body ++ (msg ++ goStr "\n") := by
  by_cases h : w.wroteHeader = true <;>
    simp [Error, ResponseRecorder.Write, ResponseRecorder.WriteHeader,
      ResponseRecorder.HeaderSet, h]

/-- C20: for every request to `HandleGenerateKeyRequest`, every environment and every
implementation of `App.Kg`, the checks apply in this order and the first that fails decides the
response: a method other than POST gives 405 with the header `Allow: POST`; a body that
`json.Unmarshal` rejects gives 422; `key_length < MinKeyLength` or `key_length > MaxKeyLength`
gives 400; `len(source_name) < MinSourceNameLength` gives 400; in each of these four cases no
call is made through `App.Kg`.  When all four checks pass, exactly one call is made,
`GetGeneratedKey(source_name, key_length)`: an error gives 500, and a key with a nil error gives
201 with the content type `application/json` and the body `{"key":<key>}`. -/
theorem HandleGenerateKeyRequest_check_order {κ : Type} (App : KeyGenSvc κ) (r : Request)
    (w : HandlerWorld κ) :
    (r.Method ≠ MethodPost →
      (HandleGenerateKeyRequest App r w).1.Code = 405
      ∧ (HandleGenerateKeyRequest App r w).1.HeaderGet (goStr "Allow") = goStr "POST"
      ∧ (HandleGenerateKeyRequest App r w).2.calls = w.calls)
    ∧ (r.Method = MethodPost →
      ((generateKeyRequestJson.Unmarshal r.Body).2 ≠ none →
        (HandleGenerateKeyRequest App r w).1.Code = 422
        ∧ (HandleGenerateKeyRequest App r w).2.calls = w.calls)
      ∧ ((generateKeyRequestJson.Unmarshal r.Body).2 = none →
        (((generateKeyRequestJson.Unmarshal r.Body).1.KeyLength < App.EnvVars.MinKeyLength
            ∨ (generateKeyRequestJson.Unmarshal r.Body).1.KeyLength > App.EnvVars.MaxKeyLength) →
          (HandleGenerateKeyRequest App r w).1.Code = 400
          ∧ (HandleGenerateKeyRequest App r w).2.calls = w.calls)
        ∧ (¬ ((generateKeyRequestJson.Unmarshal r.Body).1.KeyLength < App.EnvVars.MinKeyLength
            ∨ (generateKeyRequestJson.Unmarshal r.Body).1.KeyLength > App.EnvVars.MaxKeyLength) →
          ((((generateKeyRequestJson.Unmarshal r.Body).1.SourceName.length : Int)
              < App.EnvVars.MinSourceNameLength →
            (HandleGenerateKeyRequest App r w).1.Code = 400
            ∧ (HandleGenerateKeyRequest App r w).2.calls = w.calls)
          ∧ (¬ (((generateKeyRequestJson.Unmarshal r.Body).1.SourceName.length : Int)
              < App.EnvVars.MinSourceNameLength) →
            (HandleGenerateKeyRequest App r w).2.calls
              = w.calls ++ [.GetGeneratedKey (generateKeyRequestJson.Unmarshal r.Body).1.SourceName
                  (generateKeyRequestJson.Unmarshal r.Body).1.KeyLength]
            ∧ (∀ key e, (App.Kg.GetGeneratedKey
                  (generateKeyRequestJson.Unmarshal r.Body).1.SourceName
                  (generateKeyRequestJson.Unmarshal r.Body).1.KeyLength w.kg).1 = (key, some e) →
                (HandleGenerateKeyRequest App r w).1.Code = 500)
            ∧ (∀ key, (App.Kg.GetGeneratedKey
                  (generateKeyRequestJson.Unmarshal r.Body).1.SourceName
                  (generateKeyRequestJson.Unmarshal r.Body).1.KeyLength w.kg).1 = (key, none) →
                (HandleGenerateKeyRequest App r w).1.Code = 201
                ∧ (HandleGenerateKeyRequest App r w).1.HeaderGet (goStr "Content-Type")
                    = goStr "application/json"
                ∧ (HandleGenerateKeyRequest App r w).1.Body
                    = goStr "\x7b\"key\":" ++ appendString key ++ goStr "\x7d")))))) := by
  constructor
  · intro hm
    have hres : HandleGenerateKeyRequest App r w
        = (Error (NewRecorder.HeaderSet (goStr "Allow") MethodPost) [] StatusMethodNotAllowed,
            w) := by
      simp [HandleGenerateKeyRequest, hm]
    rw [hres]
    refine ⟨Error_Code _ _ _ rfl, ?_, rfl⟩
    show (Error (NewRecorder.HeaderSet (goStr "Allow") MethodPost) []
      StatusMethodNotAllowed).HeaderGet (goStr "Allow") = goStr "POST"
    decide
  · intro hm
    rcases hu : generateKeyRequestJson.Unmarshal r.Body with ⟨q, _ | je⟩
    · refine ⟨fun h => absurd rfl h, fun _ => ?_⟩
      by_cases hk : q.KeyLength < App.EnvVars.MinKeyLength
          ∨ q.KeyLength > App.EnvVars.MaxKeyLength
      · refine ⟨fun _ => ?_, fun h => absurd hk h⟩
        have hres : HandleGenerateKeyRequest App r w
            = (Error NewRecorder
                (goStr "Key length is invalid, must be >" ++ formatInt App.EnvVars.MinKeyLength
                  ++ goStr " and <" ++ formatInt App.EnvVars.MaxKeyLength) StatusBadRequest,
                w) := by
          simp only [HandleGenerateKeyRequest, hm, ne_eq, not_true_eq_false, if_false, hu, hk,
            if_true]
        rw [hres]
        exact ⟨Error_Code _ _ _ rfl, rfl⟩
      · refine ⟨fun h => absurd h hk, fun _ => ?_⟩
        by_cases hs : (q.SourceName.length : Int) < App.EnvVars.MinSourceNameLength
        · refine ⟨fun _ => ?_, fun h => absurd hs h⟩
          have hres : HandleGenerateKeyRequest App r w
              = (Error NewRecorder
                  (goStr "Source name length is invalid, must be >"
                    ++ formatInt App.EnvVars.MinSourceNameLength) StatusBadRequest, w) := by
            simp only [HandleGenerateKeyRequest, hm, ne_eq, not_true_eq_false, if_false, hu, hk,
              hs, if_true]
          rw [hres]
          exact ⟨Error_Code _ _ _ rfl, rfl⟩
        · refine ⟨fun h => absurd h hs, fun _ => ?_⟩
          rcases hg : App.Kg.GetGeneratedKey q.SourceName q.KeyLength w.kg
            with ⟨⟨key, _ | e⟩, k1⟩
          · have hres : HandleGenerateKeyRequest App r w
                = ((((NewRecorder.HeaderSet (goStr "Content-Type")
                      (goStr "application/json")).WriteHeader StatusCreated).Write
                      (generateKeyResponseJson.Marshal key)),
                    { kg := k1, calls := w.calls ++ [.GetGeneratedKey q.SourceName q.KeyLength] })
                := by
              simp only [HandleGenerateKeyRequest, hm, ne_eq, not_true_eq_false, if_false, hu, hk,
                hs, hg]
            rw [hres]
            refine ⟨rfl, by intro key1 e1 h1; simp at h1, ?_⟩
            intro key1 h1
            simp only [Prod.mk.injEq, and_true] at h1
            subst h1
            refine ⟨rfl, ?_, ?_⟩
            · show (ResponseRecorder.HeaderGet
                { Code := 201, HeaderMap := [(goStr "Content-Type", goStr "application/json")],
                  Body := generateKeyResponseJson.Marshal key, wroteHeader := true }
                (goStr "Content-Type")) = goStr "application/json"
              simp [ResponseRecorder.HeaderGet]
            simp [ResponseRecorder.Write, ResponseRecorder.WriteHeader,
              ResponseRecorder.HeaderSet, NewRecorder, generateKeyResponseJson.Marshal]
          · have hres : HandleGenerateKeyRequest App r w
                = (Error NewRecorder (goStr "Internal server error: Failed to process request.")
                    StatusInternalServerError,
                    { kg := k1, calls := w.calls ++ [.GetGeneratedKey q.SourceName q.KeyLength] })
                := by
              simp only [HandleGenerateKeyRequest, hm, ne_eq, not_true_eq_false, if_false, hu, hk,
                hs, hg]
            rw [hres]
            refine ⟨rfl, fun _ _ _ => Error_Code _ _ _ rfl, ?_⟩
            intro key1 h1
            simp at h1
    · refine ⟨fun _ => ?_, by intro h; simp at h⟩
      have hres : HandleGenerateKeyRequest App r w
          = (Error NewRecorder (goStr "Could not parse request JSON.")
              StatusUnprocessableEntity, w) := by
        simp only [HandleGenerateKeyRequest, hm, ne_eq, not_true_eq_false, if_false, hu]
      rw [hres]
      exact ⟨Error_Code _ _ _ rfl, rfl⟩

set_option maxRecDepth 100000 in
/-- The six tests of `HandleGenerateKeyRequest`: a GET; the body `{]`; the key length 0; the
source name `src`; a failing service; a service that returns the key `12345678`. -/
theorem HandleGenerateKeyRequest_check_order_witness :
    ((HandleGenerateKeyRequest (appMock [] none) ⟨goStr "GET", []⟩ ⟨(), []⟩).1.Code = 405
      ∧ (HandleGenerateKeyRequest (appMock [] none) ⟨goStr "GET", []⟩ ⟨(), []⟩).1.HeaderGet
          (goStr "Allow") = goStr "POST")
    ∧ (HandleGenerateKeyRequest (appMock [] none) ⟨goStr "POST", goStr "\x7b]"⟩
        ⟨(), []⟩).1.Code = 422
    ∧ (HandleGenerateKeyRequest (appMock [] none)
        ⟨goStr "POST", goStr "\x7b\"source_name\": \"my-source\", \"key_length\": 0\x7d"⟩
        ⟨(), []⟩).1.Code = 400
    ∧ (HandleGenerateKeyRequest (appMock [] none)
        ⟨goStr "POST", goStr "\x7b\"source_name\": \"src\", \"key_length\": 8\x7d"⟩
        ⟨(), []⟩).1.Code = 400
    ∧ (HandleGenerateKeyRequest (appMock [] (some (.errorString "failed")))
        ⟨goStr "POST", goStr "\x7b\"source_name\": \"my-source\", \"key_length\": 8\x7d"⟩
        ⟨(), []⟩).1.Code = 500
    ∧ ((HandleGenerateKeyRequest (appMock (goStr "12345678") none)
        ⟨goStr "POST", goStr "\x7b\"source_name\": \"my-source\", \"key_length\": 8\x7d"⟩
        ⟨(), []⟩).1.Code = 201
      ∧ (HandleGenerateKeyRequest (appMock (goStr "12345678") none)
        ⟨goStr "POST", goStr "\x7b\"source_name\": \"my-source\", \"key_length\": 8\x7d"⟩
        ⟨(), []⟩).1.Body = goStr "\x7b\"key\":\"12345678\"\x7d") :=
  have h1 := (HandleGenerateKeyRequest_check_order (appMock [] none) ⟨goStr "GET", []⟩
    ⟨(), []⟩).1 (by decide)
  have h2 := ((HandleGenerateKeyRequest_check_order (appMock [] none)
    ⟨goStr "POST", goStr "\x7b]"⟩ ⟨(), []⟩).2 rfl).1 (by decide)
  have h3 := (((HandleGenerateKeyRequest_check_order (appMock [] none)
    ⟨goStr "POST", goStr "\x7b\"source_name\": \"my-source\", \"key_length\": 0\x7d"⟩
    ⟨(), []⟩).2 rfl).2 (by decide)).1 (by decide)
  have h4 := ((((HandleGenerateKeyRequest_check_order (appMock [] none)
    ⟨goStr "POST", goStr "\x7b\"source_name\": \"src\", \"key_length\": 8\x7d"⟩
    ⟨(), []⟩).2 rfl).2 (by decide)).2 (by decide)).1 (by decide)
  have h5 := (((((HandleGenerateKeyRequest_check_order (appMock [] (some (.errorString "failed")))
    ⟨goStr "POST", goStr "\x7b\"source_name\": \"my-source\", \"key_length\": 8\x7d"⟩
    ⟨(), []⟩).2 rfl).2 (by decide)).2 (by decide)).2 (by decide)).2.1 []
      (.errorString "failed") rfl
  have h6 := (((((HandleGenerateKeyRequest_check_order (appMock (goStr "12345678") none)
    ⟨goStr "POST", goStr "\x7b\"source_name\": \"my-source\", \"key_length\": 8\x7d"⟩
    ⟨(), []⟩).2 rfl).2 (by decide)).2 (by decide)).2 (by decide)).2.2 (goStr "12345678") rfl
  ⟨⟨h1.1, h1.2.1⟩, h2.1, h3.1, h4.1, h5, h6.1, h6.2.2.trans (by decide)⟩

/-- C18, as the code has it: for every valid POST to `/key/new` (the method is POST, the body
decodes, and the lengths of the key and of the source name pass the checks), over every
implementation of `App.Kg`: exactly one call is made, `StoreCustomKey(source_name, key)`; when it
returns an error, whatever the error is (a collision with a key already in the ledger comes back
as `ErrCouldNotSaveKeyForSource`, as every other failure of the insert does), the handler
answers 500 with the body `Internal server error: Failed to process request.`; when it returns
nil the handler answers 201.  No 4xx status is given once the checks have passed. -/
theorem HandleNewKeyRequest_store_error_is_500 {κ : Type} (App : KeyGenSvc κ) (r : Request)
    (w : HandlerWorld κ) (hm : r.Method = MethodPost)
    (hu : (newKeyRequestJson.Unmarshal r.Body).2 = none)
    (hk : ¬ (((newKeyRequestJson.Unmarshal r.Body).1.Key.length : Int) < App.EnvVars.MinKeyLength
      ∨ ((newKeyRequestJson.Unmarshal r.Body).1.Key.length : Int) > App.EnvVars.MaxKeyLength))
    (hs : ¬ ((newKeyRequestJson.Unmarshal r.Body).1.SourceName ≠ []
      ∧ ((newKeyRequestJson.Unmarshal r.Body).1.SourceName.length : Int)
          < App.EnvVars.MinSourceNameLength)) :
    (HandleNewKeyRequest App r w).2.calls
        = w.calls ++ [.StoreCustomKey (newKeyRequestJson.Unmarshal r.Body).1.SourceName
            (newKeyRequestJson.Unmarshal r.Body).1.Key]
    ∧ (∀ e, (App.Kg.StoreCustomKey (newKeyRequestJson.Unmarshal r.Body).1.SourceName
          (newKeyRequestJson.Unmarshal r.Body).1.Key w.kg).1 = some e →
        (HandleNewKeyRequest App r w).1.Code = 500
        ∧ (HandleNewKeyRequest App r w).1.Body
            = goStr "Internal server error: Failed to process request.\n")
    ∧ ((App.Kg.StoreCustomKey (newKeyRequestJson.Unmarshal r.Body).1.SourceName
          (newKeyRequestJson.Unmarshal r.Body).1.Key w.kg).1 = none →
        (HandleNewKeyRequest App r w).1.Code = 201) := by
  rcases hq : newKeyRequestJson.Unmarshal r.Body with ⟨q, _ | je⟩
  · rw [hq] at hk hs
    rcases hg : App.Kg.StoreCustomKey q.SourceName q.Key w.kg with ⟨_ | e, k1⟩
    · have hres : HandleNewKeyRequest App r w
          = (NewRecorder.WriteHeader StatusCreated,
              { kg := k1, calls := w.calls ++ [.StoreCustomKey q.SourceName q.Key] }) := by
        simp only [HandleNewKeyRequest, hm, ne_eq, not_true_eq_false, if_false, hq, hg]
        rw [if_neg hk, if_neg hs]
      rw [hres]
      exact ⟨rfl, by intro e he; simp at he, fun _ => rfl⟩
    · have hres : HandleNewKeyRequest App r w
          = (Error NewRecorder (goStr "Internal server error: Failed to process request.")
              StatusInternalServerError,
              { kg := k1, calls := w.calls ++ [.StoreCustomKey q.SourceName q.Key] }) := by
        simp only [HandleNewKeyRequest, hm, ne_eq, not_true_eq_false, if_false, hq, hg]
        rw [if_neg hk, if_neg hs]
      rw [hres]
      refine ⟨rfl, fun _ _ => ⟨Error_Code _ _ _ rfl, ?_⟩, by intro he; simp at he⟩
      rw [Error_Body]
      decide
  · rw [hq] at hu
    simp at hu

set_option maxRecDepth 100000 in
/-- A collision at a concrete input: the ledger of `World.taken` holds the key `AAAAAAAAAA`, and
the request asks to register it again for the source `some-source`. -/
theorem HandleNewKeyRequest_store_error_is_500_witness :
    (StoreCustomKey pgKeyGenService (goStr "some-source") (goStr "AAAAAAAAAA") World.taken).1
      = some .ErrCouldNotSaveKeyForSource
    ∧ (HandleNewKeyRequest appPg
        ⟨goStr "POST", goStr "\x7b\"source_name\":\"some-source\",\"key\":\"AAAAAAAAAA\"\x7d"⟩
        ⟨World.taken, []⟩).1.Code = 500
    ∧ (HandleNewKeyRequest appPg
        ⟨goStr "POST", goStr "\x7b\"source_name\":\"some-source\",\"key\":\"AAAAAAAAAA\"\x7d"⟩
        ⟨World.taken, []⟩).1.Body
      = goStr "Internal server error: Failed to process request.\n" :=
  ⟨by decide,
    (HandleNewKeyRequest_store_error_is_500 appPg
      ⟨goStr "POST", goStr "\x7b\"source_name\":\"some-source\",\"key\":\"AAAAAAAAAA\"\x7d"⟩
      ⟨World.taken, []⟩ rfl (by decide) (by decide) (by decide)).2.1 .ErrCouldNotSaveKeyForSource
      (by decide)⟩

set_option maxRecDepth 100000 in
/-- C18 fails as stated: a valid POST to `/key/new` asks for the key `AAAAAAAAAA`, which the
ledger of `World.taken` already holds.  The INSERT into the key ledger is refused with SQLSTATE
23505, the one call of `StoreCustomKey` fails for that reason, and `HandleNewKeyRequest` answers
with the status 500, not with a 4xx status. -/
theorem HandleNewKeyRequest_collision_counterexample :
    (World.taken.db.rowsOfKey (goStr "AAAAAAAAAA")).length = 1
    ∧ (HandleNewKeyRequest appPg
        ⟨goStr "POST", goStr "\x7b\"source_name\":\"some-source\",\"key\":\"AAAAAAAAAA\"\x7d"⟩
        ⟨World.taken, []⟩).2.calls
      = [.StoreCustomKey (goStr "some-source") (goStr "AAAAAAAAAA")]
    ∧ Event.queryInt sqlInsertKey [.str (goStr "AAAAAAAAAA"), .int 1] 0
          (some (.PgError "23505"))
        ∈ (HandleNewKeyRequest appPg
          ⟨goStr "POST", goStr "\x7b\"source_name\":\"some-source\",\"key\":\"AAAAAAAAAA\"\x7d"⟩
          ⟨World.taken, []⟩).2.kg.log
    ∧ (HandleNewKeyRequest appPg
        ⟨goStr "POST", goStr "\x7b\"source_name\":\"some-source\",\"key\":\"AAAAAAAAAA\"\x7d"⟩
        ⟨World.taken, []⟩).1.Code = 500
    ∧ ¬ (400 ≤ (HandleNewKeyRequest appPg
          ⟨goStr "POST", goStr "\x7b\"source_name\":\"some-source\",\"key\":\"AAAAAAAAAA\"\x7d"⟩
          ⟨World.taken, []⟩).1.Code
        ∧ (HandleNewKeyRequest appPg
          ⟨goStr "POST", goStr "\x7b\"source_name\":\"some-source\",\"key\":\"AAAAAAAAAA\"\x7d"⟩
          ⟨World.taken, []⟩).1.Code < 500) := by
  decide

/-! ## The checks of `HandleNewKeyRequest` -/

/-- C21: for every request to `HandleNewKeyRequest`, every environment and every implementation
of `App.Kg`: a method other than POST gives 405 with the header `Allow: POST`; else a body that
`json.Unmarshal` rejects gives 422; else a key with `len(key) < MinKeyLength` or
`len(key) > MaxKeyLength` gives 400 with the key-length message, whatever the source name is;
else a non-empty `source_name` shorter than `MinSourceNameLength` gives 400 with the source-name
message, while an empty (or absent) `source_name` passes; in each of these cases no call is made
through `App.Kg`.  Otherwise exactly one call is made, `StoreCustomKey(source_name, key)`: an
error gives 500, and nil gives 201 with an empty body. -/
theorem HandleNewKeyRequest_check_order {κ : Type} (App : KeyGenSvc κ) (r : Request)
    (w : HandlerWorld κ) :
    (r.Method ≠ MethodPost →
      (HandleNewKeyRequest App r w).1.Code = 405
      ∧ (HandleNewKeyRequest App r w).1.HeaderGet (goStr "Allow") = goStr "POST"
      ∧ (HandleNewKeyRequest App r w).2.calls = w.calls)
    ∧ (r.Method = MethodPost →
      ((newKeyRequestJson.Unmarshal r.Body).2 ≠ none →
        (HandleNewKeyRequest App r w).1.Code = 422
        ∧ (HandleNewKeyRequest App r w).2.calls = w.calls)
      ∧ ((newKeyRequestJson.Unmarshal r.Body).2 = none →
        ((((newKeyRequestJson.Unmarshal r.Body).1.Key.length : Int) < App.EnvVars.MinKeyLength
            ∨ ((newKeyRequestJson.Unmarshal r.Body).1.Key.length : Int)
                > App.EnvVars.MaxKeyLength) →
          (HandleNewKeyRequest App r w).1.Code = 400
          ∧ (HandleNewKeyRequest App r w).1.Body
              = goStr "Key length is invalid, must be >" ++ formatInt App.EnvVars.MinKeyLength
                  ++ goStr " and <" ++ formatInt App.EnvVars.MaxKeyLength ++ goStr "\n"
          ∧ (HandleNewKeyRequest App r w).2.calls = w.calls)
        ∧ (¬ (((newKeyRequestJson.Unmarshal r.Body).1.Key.length : Int)
              < App.EnvVars.MinKeyLength
            ∨ ((newKeyRequestJson.Unmarshal r.Body).1.Key.length : Int)
                > App.EnvVars.MaxKeyLength) →
          (((newKeyRequestJson.Unmarshal r.Body).1.SourceName ≠ []
              ∧ ((newKeyRequestJson.Unmarshal r.Body).1.SourceName.length : Int)
                  < App.EnvVars.MinSourceNameLength) →
            (HandleNewKeyRequest App r w).1.Code = 400
            ∧ (HandleNewKeyRequest App r w).1.Body
                = goStr "Source name length is invalid, must be >"
                    ++ formatInt App.EnvVars.MinSourceNameLength ++ goStr "\n"
            ∧ (HandleNewKeyRequest App r w).2.calls = w.calls)
          ∧ (((newKeyRequestJson.Unmarshal r.Body).1.SourceName = []
              ∨ ¬ ((newKeyRequestJson.Unmarshal r.Body).1.SourceName.length : Int)
                  < App.EnvVars.MinSourceNameLength) →
            (HandleNewKeyRequest App r w).2.calls
              = w.calls ++ [.StoreCustomKey (newKeyRequestJson.Unmarshal r.Body).1.SourceName
                  (newKeyRequestJson.Unmarshal r.Body).1.Key]
            ∧ (∀ e, (App.Kg.StoreCustomKey (newKeyRequestJson.Unmarshal r.Body).1.SourceName
                  (newKeyRequestJson.Unmarshal r.Body).1.Key w.kg).1 = some e →
                (HandleNewKeyRequest App r w).1.Code = 500)
            ∧ ((App.Kg.StoreCustomKey (newKeyRequestJson.Unmarshal r.Body).1.SourceName
                  (newKeyRequestJson.Unmarshal r.Body).1.Key w.kg).1 = none →
                (HandleNewKeyRequest App r w).1.Code = 201
                ∧ (HandleNewKeyRequest App r w).1.Body = []))))) := by
  constructor
  · intro hm
    have hres : HandleNewKeyRequest App r w
        = (Error (NewRecorder.HeaderSet (goStr "Allow") MethodPost) [] StatusMethodNotAllowed,
            w) := by
      simp [HandleNewKeyRequest, hm]
    rw [hres]
    refine ⟨Error_Code _ _ _ rfl, ?_, rfl⟩
    show (Error (NewRecorder.HeaderSet (goStr "Allow") MethodPost) []
      StatusMethodNotAllowed).HeaderGet (goStr "Allow") = goStr "POST"
    decide
  · intro hm
    rcases hu : newKeyRequestJson.Unmarshal r.Body with ⟨q, _ | je⟩
    · refine ⟨fun h => absurd rfl h, fun _ => ?_⟩
      by_cases hk : (q.Key.length : Int) < App.EnvVars.MinKeyLength
          ∨ (q.Key.length : Int) > App.EnvVars.MaxKeyLength
      · refine ⟨fun _ => ?_, fun h => absurd hk h⟩
        have hres : HandleNewKeyRequest App r w
            = (Error NewRecorder
                (goStr "Key length is invalid, must be >" ++ formatInt App.EnvVars.MinKeyLength
                  ++ goStr " and <" ++ formatInt App.EnvVars.MaxKeyLength) StatusBadRequest,
                w) := by
          simp only [HandleNewKeyRequest, hm, ne_eq, not_true_eq_false, if_false, hu]
          rw [if_pos hk]
        rw [hres]
        refine ⟨Error_Code _ _ _ rfl, ?_, rfl⟩
        show (Error _ _ _).Body = _
        rw [Error_Body]
        simp [NewRecorder]
      · refine ⟨fun h => absurd h hk, fun _ => ?_⟩
        by_cases hs : q.SourceName ≠ []
            ∧ (q.SourceName.length : Int) < App.EnvVars.MinSourceNameLength
        · refine ⟨fun _ => ?_, fun h => ?_⟩
          · have hres : HandleNewKeyRequest App r w
                = (Error NewRecorder
                    (goStr "Source name length is invalid, must be >"
                      ++ formatInt App.EnvVars.MinSourceNameLength) StatusBadRequest, w) := by
              simp only [HandleNewKeyRequest, hm, ne_eq, not_true_eq_false, if_false, hu]
              rw [if_neg hk, if_pos hs]
            rw [hres]
            refine ⟨Error_Code _ _ _ rfl, ?_, rfl⟩
            show (Error _ _ _).Body = _
            rw [Error_Body]
            simp [NewRecorder]
          · rcases h with h | h
            · exact absurd h hs.1
            · exact absurd hs.2 h
        · refine ⟨fun h => absurd h hs, fun _ => ?_⟩
          rcases hg : App.Kg.StoreCustomKey q.SourceName q.Key w.kg with ⟨_ | e, k1⟩
          · have hres : HandleNewKeyRequest App r w
                = (NewRecorder.WriteHeader StatusCreated,
                    { kg := k1, calls := w.calls ++ [.StoreCustomKey q.SourceName q.Key] }) := by
              simp only [HandleNewKeyRequest, hm, ne_eq, not_true_eq_false, if_false, hu, hg]
              rw [if_neg hk, if_neg hs]
            rw [hres]
            exact ⟨rfl, by intro e he; simp at he, fun _ => ⟨rfl, rfl⟩⟩
          · have hres : HandleNewKeyRequest App r w
                = (Error NewRecorder (goStr "Internal server error: Failed to process request.")
                    StatusInternalServerError,
                    { kg := k1, calls := w.calls ++ [.StoreCustomKey q.SourceName q.Key] }) := by
              simp only [HandleNewKeyRequest, hm, ne_eq, not_true_eq_false, if_false, hu, hg]
              rw [if_neg hk, if_neg hs]
            rw [hres]
            exact ⟨rfl, fun _ _ => Error_Code _ _ _ rfl, by intro he; simp at he⟩
    · refine ⟨fun _ => ?_, by intro h; simp at h⟩
      have hres : HandleNewKeyRequest App r w
          = (Error NewRecorder (goStr "Could not parse request JSON.")
              StatusUnprocessableEntity, w) := by
        simp only [HandleNewKeyRequest, hm, ne_eq, not_true_eq_false, if_false, hu]
      rw [hres]
      exact ⟨Error_Code _ _ _ rfl, rfl⟩

set_option maxRecDepth 100000 in
/-- The six tests of `HandleNewKeyRequest`: a GET; the body `{]`; the key `123` without a source
name; the key `123` with the source name `src` (the key-length message wins); a failing service;
a key without a source name stored by the service. -/
theorem HandleNewKeyRequest_check_order_witness :
    ((HandleNewKeyRequest (appMock [] none) ⟨goStr "GET", []⟩ ⟨(), []⟩).1.Code = 405
      ∧ (HandleNewKeyRequest (appMock [] none) ⟨goStr "GET", []⟩ ⟨(), []⟩).1.HeaderGet
          (goStr "Allow") = goStr "POST")
    ∧ (HandleNewKeyRequest (appMock [] none) ⟨goStr "POST", goStr "\x7b]"⟩ ⟨(), []⟩).1.Code = 422
    ∧ ((HandleNewKeyRequest (appMock [] none) ⟨goStr "POST", goStr "\x7b\"key\": \"123\"\x7d"⟩
          ⟨(), []⟩).1.Code = 400
      ∧ (HandleNewKeyRequest (appMock [] none) ⟨goStr "POST", goStr "\x7b\"key\": \"123\"\x7d"⟩
          ⟨(), []⟩).1.Body = goStr "Key length is invalid, must be >4 and <16\n")
    ∧ ((HandleNewKeyRequest (appMock [] none)
          ⟨goStr "POST", goStr "\x7b\"source_name\": \"src\", \"key\": \"123\"\x7d"⟩
          ⟨(), []⟩).1.Code = 400
      ∧ (HandleNewKeyRequest (appMock [] none)
          ⟨goStr "POST", goStr "\x7b\"source_name\": \"src\", \"key\": \"123\"\x7d"⟩
          ⟨(), []⟩).1.Body = goStr "Key length is invalid, must be >4 and <16\n")
    ∧ ((HandleNewKeyRequest (appMock [] none)
          ⟨goStr "POST", goStr "\x7b\"source_name\": \"src\", \"key\": \"12345678\"\x7d"⟩
          ⟨(), []⟩).1.Code = 400
      ∧ (HandleNewKeyRequest (appMock [] none)
          ⟨goStr "POST", goStr "\x7b\"source_name\": \"src\", \"key\": \"12345678\"\x7d"⟩
          ⟨(), []⟩).1.Body = goStr "Source name length is invalid, must be >4\n")
    ∧ (HandleNewKeyRequest (appMock [] (some (.errorString "failed")))
          ⟨goStr "POST", goStr "\x7b\"key\": \"12345678\"\x7d"⟩ ⟨(), []⟩).1.Code = 500
    ∧ ((HandleNewKeyRequest (appMock [] none)
          ⟨goStr "POST", goStr "\x7b\"key\": \"12345678\"\x7d"⟩ ⟨(), []⟩).1.Code = 201
      ∧ (HandleNewKeyRequest (appMock [] none)
          ⟨goStr "POST", goStr "\x7b\"key\": \"12345678\"\x7d"⟩ ⟨(), []⟩).1.Body = []) :=
  have h1 := (HandleNewKeyRequest_check_order (appMock [] none) ⟨goStr "GET", []⟩
    ⟨(), []⟩).1 (by decide)
  have h2 := ((HandleNewKeyRequest_check_order (appMock [] none)
    ⟨goStr "POST", goStr "\x7b]"⟩ ⟨(), []⟩).2 rfl).1 (by decide)
  have h3 := (((HandleNewKeyRequest_check_order (appMock [] none)
    ⟨goStr "POST", goStr "\x7b\"key\": \"123\"\x7d"⟩ ⟨(), []⟩).2 rfl).2 (by decide)).1
      (by decide)
  have h4 := (((HandleNewKeyRequest_check_order (appMock [] none)
    ⟨goStr "POST", goStr "\x7b\"source_name\": \"src\", \"key\": \"123\"\x7d"⟩
    ⟨(), []⟩).2 rfl).2 (by decide)).1 (by decide)
  have h5 := ((((HandleNewKeyRequest_check_order (appMock [] none)
    ⟨goStr "POST", goStr "\x7b\"source_name\": \"src\", \"key\": \"12345678\"\x7d"⟩
    ⟨(), []⟩).2 rfl).2 (by decide)).2 (by decide)).1 (by decide)
  have h6 := (((((HandleNewKeyRequest_check_order (appMock [] (some (.errorString "failed")))
    ⟨goStr "POST", goStr "\x7b\"key\": \"12345678\"\x7d"⟩
    ⟨(), []⟩).2 rfl).2 (by decide)).2 (by decide)).2 (by decide)).2.1
      (.errorString "failed") rfl
  have h7 := (((((HandleNewKeyRequest_check_order (appMock [] none)
    ⟨goStr "POST", goStr "\x7b\"key\": \"12345678\"\x7d"⟩
    ⟨(), []⟩).2 rfl).2 (by decide)).2 (by decide)).2 (by decide)).2.2 rfl
  ⟨⟨h1.1, h1.2.1⟩, h2.1, ⟨h3.1, h3.2.1.trans (by decide)⟩, ⟨h4.1, h4.2.1.trans (by decide)⟩,
    ⟨h5.1, h5.2.1.trans (by decide)⟩, h6, h7⟩

/-! ## The length of the key a request gets -/

/-- The reply of `HandleGenerateKeyRequest` to a request that passes the four checks. -/
theorem HandleGenerateKeyRequest_accepted {κ : Type} (App : KeyGenSvc κ) (r : Request)
    (w : HandlerWorld κ) (hm : r.Method = MethodPost)
    (hu : (generateKeyRequestJson.Unmarshal r.Body).2 = none)
    (hk : ¬ ((generateKeyRequestJson.Unmarshal r.Body).1.KeyLength < App.EnvVars.MinKeyLength
      ∨ (generateKeyRequestJson.Unmarshal r.Body).1.KeyLength > App.EnvVars.MaxKeyLength))
    (hs : ¬ (((generateKeyRequestJson.Unmarshal r.Body).1.SourceName.length : Int)
      < App.EnvVars.MinSourceNameLength))
    (key : GoString) (k1 : κ)
    (hg : App.Kg.GetGeneratedKey (generateKeyRequestJson.Unmarshal r.Body).1.SourceName
      (generateKeyRequestJson.Unmarshal r.Body).1.KeyLength w.kg = ((key, none), k1)) :
    (HandleGenerateKeyRequest App r w).1
      = ((NewRecorder.HeaderSet (goStr "Content-Type") (goStr "application/json")).WriteHeader
          StatusCreated).Write (generateKeyResponseJson.Marshal key) := by
  rcases hq : generateKeyRequestJson.Unmarshal r.Body with ⟨q, _ | je⟩
  · rw [hq] at hk hs hg
    simp only [HandleGenerateKeyRequest, hm, ne_eq, not_true_eq_false, if_false, hq, hg]
    rw [if_neg hk, if_neg hs]
  · rw [hq] at hu
    simp at hu

/-- C27: for every key length `k` with `1 ≤ k ≤ 1000000`, whatever bytes `crypto/rand` delivers:
`generateUniqueKey(k)` reads `crypto/rand` once, for a buffer of `⌊3k/4⌋ + 1` bytes, and returns
a string of exactly `k + 2` characters when `k` is divisible by 4 and of exactly `k + 1`
characters otherwise, so always more than `k`; hence a key that `GetGeneratedKey` returns with a
nil error is longer than `k`, and when `HandleGenerateKeyRequest`, over the service, accepts a
request with `key_length = MaxKeyLength = k` and the service succeeds, the reply is 201 with a
key longer than `MaxKeyLength`. -/
theorem generated_key_exact_length {σ : Type} (kg : keyGenService σ) (sourceName : GoString)
    (k : Int) (w : World σ) (h1 : 1 ≤ k) (h2 : k ≤ 1000000) :
    eventsSince w (generateUniqueKey k.toNat w).2 = [.randRead (3 * k.toNat / 4 + 1)]
    ∧ (randRead (keyBufferLen k.toNat) w).1.length = 3 * k.toNat / 4 + 1
    ∧ ((generateUniqueKey k.toNat w).1.length : Int) = (if k % 4 = 0 then k + 2 else k + 1)
    ∧ k < ((generateUniqueKey k.toNat w).1.length : Int)
    ∧ ((GetGeneratedKey kg sourceName k w).1.2 = none →
        ((GetGeneratedKey kg sourceName k w).1.1.length : Int)
          = (if k % 4 = 0 then k + 2 else k + 1))
    ∧ (∀ (env : EnvVars) (r : Request) (hw : HandlerWorld (World σ)),
        r.Method = MethodPost →
        (generateKeyRequestJson.Unmarshal r.Body).2 = none →
        (generateKeyRequestJson.Unmarshal r.Body).1.KeyLength = k →
        env.MaxKeyLength = k → env.MinKeyLength ≤ k →
        ¬ (((generateKeyRequestJson.Unmarshal r.Body).1.SourceName.length : Int)
            < env.MinSourceNameLength) →
        (GetGeneratedKey kg (generateKeyRequestJson.Unmarshal r.Body).1.SourceName k
            hw.kg).1.2 = none →
        ∃ key, (HandleGenerateKeyRequest ⟨env, kg.toKeyGenService⟩ r hw).1.Code = 201
          ∧ (HandleGenerateKeyRequest ⟨env, kg.toKeyGenService⟩ r hw).1.Body
              = goStr "\x7b\"key\":" ++ appendString key ++ goStr "\x7d"
          ∧ env.MaxKeyLength < (key.length : Int)) := by
  have hb := keyBufferLen_eq k.toNat (by omega) (by omega)
  have hlen : ∀ v : World σ, ((generateUniqueKey k.toNat v).1.length : Int)
      = (if k % 4 = 0 then k + 2 else k + 1) := by
    intro v
    rw [generateUniqueKey_length, hb]
    rcases (by omega : k % 4 = 0 ∨ k % 4 = 1 ∨ k % 4 = 2 ∨ k % 4 = 3) with h | h | h | h <;>
      rw [h] <;> simp only [reduceCtorEq, OfNat.ofNat_ne_zero, if_true, if_false, one_ne_zero] <;>
      omega
  have hgt : ∀ v : World σ, k < ((generateUniqueKey k.toNat v).1.length : Int) := by
    intro v
    rw [hlen v]
    split <;> omega
  have hget : ∀ (name : GoString) (v : World σ), (GetGeneratedKey kg name k v).1.2 = none →
      ∃ v1 : World σ, (GetGeneratedKey kg name k v).1.1 = (generateUniqueKey k.toNat v1).1 := by
    intro name v hnil
    rcases GetGeneratedKey_cases kg name k v h1 with
      ⟨sid, e, w1, hg, hr⟩ | ⟨sid, w1, e, w2, hg, hc, hr⟩ | ⟨sid, w1, w2, hg, hc, hr⟩
    · rw [hr] at hnil; simp at hnil
    · rw [hr] at hnil; simp at hnil
    · exact ⟨w1, by rw [hr]⟩
  refine ⟨?_, ?_, hlen w, hgt w, ?_, ?_⟩
  · rw [eventsSince_append w _ [.randRead (keyBufferLen k.toNat)] (by
      simp [generateUniqueKey, randRead]), hb]
  · rw [randRead_length, hb]
  · intro hnil
    obtain ⟨v1, hv1⟩ := hget sourceName w hnil
    rw [hv1]
    exact hlen v1
  · intro env r hw hm hu hkl hmax hmin hs hnil
    obtain ⟨v1, hv1⟩ := hget _ hw.kg hnil
    rcases hg : GetGeneratedKey kg (generateKeyRequestJson.Unmarshal r.Body).1.SourceName k hw.kg
      with ⟨⟨key, err⟩, k1⟩
    rw [hg] at hnil hv1
    simp only at hnil hv1
    subst hnil
    have hacc := HandleGenerateKeyRequest_accepted ⟨env, kg.toKeyGenService⟩ r hw hm hu
      (by rw [hkl]; simp only []; omega) hs key k1 (by rw [hkl]; exact hg)
    refine ⟨key, ?_, ?_, ?_⟩
    · rw [hacc]; rfl
    · rw [hacc]
      simp [ResponseRecorder.Write, ResponseRecorder.WriteHeader, ResponseRecorder.HeaderSet,
        NewRecorder, generateKeyResponseJson.Marshal]
    · rw [hmax, hv1]
      exact hgt v1

set_option maxRecDepth 100000 in
/-- The key lengths 16 (divisible by 4) and 7 on a fresh database, and a request for a key of
the maximum length 16: the reply carries a key of 18 characters. -/
theorem generated_key_exact_length_witness :
    ((generateUniqueKey 16 World.fresh).1.length = 18
      ∧ eventsSince World.fresh (generateUniqueKey 16 World.fresh).2 = [.randRead 13])
    ∧ (generateUniqueKey 7 World.fresh).1.length = 8
    ∧ (HandleGenerateKeyRequest appPg
        ⟨goStr "POST", goStr "\x7b\"source_name\":\"some-source\",\"key_length\":16\x7d"⟩
        ⟨World.fresh, []⟩).1.Body = goStr "\x7b\"key\":\"AAAAAAAAAAAAAAAAAA\"\x7d" :=
  have h16 := generated_key_exact_length pgKeyGenService (goStr "some-source") 16 World.fresh
    (by decide) (by decide)
  have h7 := generated_key_exact_length pgKeyGenService (goStr "some-source") 7 World.fresh
    (by decide) (by decide)
  ⟨⟨by exact_mod_cast h16.2.2.1, h16.1⟩, by exact_mod_cast h7.2.2.1, by decide⟩

end keygensvc

namespace urlshortenapp

/-! ## The patterns -/

theorem stripLiteral_eq_some (p s r : List Nat) : stripLiteral p s = some r ↔ s = p ++ r := by
  unfold stripLiteral
  constructor
  · intro h
    split at h
    · next hp =>
      simp only [Option.some.injEq] at h
      rw [← h]
      conv_lhs => rw [← List.take_append_drop p.length s]
      rw [hp]
    · simp at h
  · intro h
    subst h
    simp

theorem matchItems_nil (s : List Nat) : matchItems [] s = true ↔ s = [] := by
  simp [matchItems]

theorem matchItems_lit (p : GoString) (items : List Item) (s : List Nat) :
    matchItems (.lit p :: items) s = true ↔ ∃ r, s = p ++ r ∧ matchItems items r = true := by
  rw [matchItems]
  constructor
  · intro h
    rcases hs : stripLiteral p s with _ | r
    · rw [hs] at h; simp at h
    · rw [hs] at h
      exact ⟨r, (stripLiteral_eq_some p s r).1 hs, h⟩
  · rintro ⟨r, hr, hm⟩
    rw [(stripLiteral_eq_some p s r).2 hr]
    exact hm

theorem matchItems_alt (choices : List GoString) (items : List Item) (s : List Nat) :
    matchItems (.alt choices :: items) s = true
      ↔ ∃ c ∈ choices, ∃ r, s = c ++ r ∧ matchItems items r = true := by
  rw [matchItems, List.any_eq_true]
  constructor
  · rintro ⟨c, hc, h⟩
    rcases hs : stripLiteral c s with _ | r
    · rw [hs] at h; simp at h
    · rw [hs] at h
      exact ⟨c, hc, r, (stripLiteral_eq_some c s r).1 hs, h⟩
  · rintro ⟨c, hc, r, hr, hm⟩
    refine ⟨c, hc, ?_⟩
    rw [(stripLiteral_eq_some c s r).2 hr]
    exact hm

theorem matchPlus_iff (cls : CharClass) (next : List Nat → Bool) : ∀ (s : List Nat),
    matchPlus cls next s = true
      ↔ ∃ a b, s = a ++ b ∧ a ≠ [] ∧ (∀ x ∈ a, cls.mem x = true) ∧ next b = true
  | [] => by
    simp only [matchPlus, Bool.false_eq_true, false_iff, not_exists, not_and]
    intro a b h ha
    cases a with
    | nil => exact absurd rfl ha
    | cons x a => simp at h
  | c :: rest => by
    have ih := matchPlus_iff cls next rest
    simp only [matchPlus, Bool.and_eq_true, Bool.or_eq_true]
    constructor
    · rintro ⟨hc, h | h⟩
      · exact ⟨[c], rest, rfl, by simp, by simpa using hc, h⟩
      · obtain ⟨a, b, hab, -, hall, hn⟩ := ih.1 h
        refine ⟨c :: a, b, by rw [hab]; rfl, by simp, ?_, hn⟩
        intro x hx
        rcases List.mem_cons.1 hx with rfl | hx
        · exact hc
        · exact hall x hx
    · rintro ⟨a, b, hab, ha, hall, hn⟩
      cases a with
      | nil => exact absurd rfl ha
      | cons x a =>
        simp only [List.cons_append, List.cons.injEq] at hab
        obtain ⟨rfl, hrest⟩ := hab
        refine ⟨hall c (by simp), ?_⟩
        cases a with
        | nil =>
          left
          simp only [List.nil_append] at hrest
          rw [hrest]
          exact hn
        | cons y a =>
          right
          exact ih.2 ⟨y :: a, b, hrest, by simp, fun z hz => hall z (by simp [hz]), hn⟩

theorem matchItems_plus (cls : CharClass) (items : List Item) (s : List Nat) :
    matchItems (.plus cls :: items) s = true
      ↔ ∃ a b, s = a ++ b ∧ a ≠ [] ∧ (∀ x ∈ a, cls.mem x = true)
          ∧ matchItems items b = true := by
  rw [matchItems]
  exact matchPlus_iff cls (matchItems items) s

/-- What `shortHostTemplate` matches: `http://` or `https://` and then one or more bytes of
`[a-zA-Z0-9\.]`. -/
theorem shortHostTemplate_iff (h : GoString) :
    shortHostTemplate.MatchString h = true
      ↔ ∃ c ∈ [goStr "http", goStr "https"], ∃ a, h = c ++ (goStr "://" ++ a) ∧ a ≠ []
          ∧ ∀ x ∈ a, hostClass.mem x = true := by
  simp only [Regexp.MatchString, shortHostTemplate, matchItems_alt, matchItems_lit,
    matchItems_plus, matchItems_nil]
  constructor
  · rintro ⟨c, hc, r, hr, r2, hr2, a, b, hab, ha, hall, rfl⟩
    refine ⟨c, hc, a, ?_, ha, hall⟩
    rw [hr, hr2, hab, List.append_nil]
  · rintro ⟨c, hc, a, hh, ha, hall⟩
    exact ⟨c, hc, _, hh, a, rfl, a, [], by simp, ha, hall, rfl⟩

/-- What `shortUrlTemplate` matches: a host that `shortHostTemplate` matches, a slash, and one or
more bytes of `[a-zA-Z0-9\-_]`. -/
theorem shortUrlTemplate_iff (u : GoString) :
    shortUrlTemplate.MatchString u = true
      ↔ ∃ h g, u = h ++ goStr "/" ++ g ∧ shortHostTemplate.MatchString h = true ∧ g ≠ []
          ∧ ∀ x ∈ g, slugClass.mem x = true := by
  rw [show shortUrlTemplate.MatchString u = matchItems shortUrlTemplate.items u from rfl]
  simp only [shortUrlTemplate, matchItems_alt, matchItems_lit, matchItems_plus, matchItems_nil,
    shortHostTemplate_iff]
  constructor
  · rintro ⟨c, hc, r, hr, r2, hr2, a, b, hab, ha, hall, r3, hr3, g, b2, hg, hgne, hgall, rfl⟩
    refine ⟨c ++ (goStr "://" ++ a), g, ?_, ⟨c, hc, a, rfl, ha, hall⟩, hgne, hgall⟩
    rw [hr, hr2, hab, hr3, hg]
    simp
  · rintro ⟨h, g, hu, ⟨c, hc, a, hh, ha, hall⟩, hgne, hgall⟩
    refine ⟨c, hc, goStr "://" ++ (a ++ (goStr "/" ++ g)), ?_, a ++ (goStr "/" ++ g), rfl, a,
      goStr "/" ++ g, rfl, ha, hall, g, rfl, g, [], by simp, hgne, hgall, rfl⟩
    rw [hu, hh]
    simp

/-- A string splits in one way only into a part without a slash, a slash, and the rest. -/
theorem slash_split_unique : ∀ (a1 a2 g1 g2 : List Nat), (∀ x ∈ a1, x ≠ 0x2F) →
    (∀ x ∈ a2, x ≠ 0x2F) → a1 ++ 0x2F :: g1 = a2 ++ 0x2F :: g2 → a1 = a2 ∧ g1 = g2
  | [], [], g1, g2, _, _, h => by simpa using h
  | [], y :: a2, g1, g2, _, h2, h => by
    simp only [List.nil_append, List.cons_append, List.cons.injEq] at h
    exact absurd h.1.symm (h2 y (by simp))
  | x :: a1, [], g1, g2, h1, _, h => by
    simp only [List.nil_append, List.cons_append, List.cons.injEq] at h
    exact absurd h.1 (h1 x (by simp))
  | x :: a1, y :: a2, g1, g2, h1, h2, h => by
    simp only [List.cons_append, List.cons.injEq] at h
    obtain ⟨rfl, hrest⟩ := h
    obtain ⟨ha, hg⟩ := slash_split_unique a1 a2 g1 g2 (fun z hz => h1 z (by simp [hz]))
      (fun z hz => h2 z (by simp [hz])) hrest
    exact ⟨by rw [ha], hg⟩

theorem hostClass_ne_slash (x : Nat) (h : hostClass.mem x = true) : x ≠ 0x2F := by
  rintro rfl
  exact absurd h (by decide)

/-- C30: for all hosts `h1`, `h2` that match the short-host pattern
`^(http|https)://[a-zA-Z0-9\.]+$` and all slugs `g1`, `g2` (any strings): if the short URLs
`h1 + "/" + g1` and `h2 + "/" + g2`, composed as `constructShortUrl` composes them, are equal,
then `h1 = h2` and `g1 = g2`; so two different pairs of host and slug never give the same short
URL, the input of the document id. -/
theorem short_url_determines_host_and_slug (h1 h2 g1 g2 : GoString)
    (hm1 : shortHostTemplate.MatchString h1 = true)
    (hm2 : shortHostTemplate.MatchString h2 = true)
    (heq : h1 ++ goStr "/" ++ g1 = h2 ++ goStr "/" ++ g2) : h1 = h2 ∧ g1 = g2 := by
  obtain ⟨c1, hc1, a1, rfl, -, hall1⟩ := (shortHostTemplate_iff h1).1 hm1
  obtain ⟨c2, hc2, a2, rfl, -, hall2⟩ := (shortHostTemplate_iff h2).1 hm2
  have hhttp : goStr "http" = [104, 116, 116, 112] := by decide
  have hhttps : goStr "https" = [104, 116, 116, 112, 115] := by decide
  have hsep : goStr "://" = [58, 47, 47] := by decide
  have hslash : goStr "/" = [47] := by decide
  have hsame : ∀ c : GoString, c ++ (goStr "://" ++ a1) ++ goStr "/" ++ g1
      = c ++ (goStr "://" ++ a2) ++ goStr "/" ++ g2 →
      c ++ (goStr "://" ++ a1) = c ++ (goStr "://" ++ a2) ∧ g1 = g2 := by
    intro c h
    rw [hslash] at h
    simp only [List.append_assoc, List.append_cancel_left_eq, List.singleton_append] at h
    obtain ⟨ha, hg⟩ := slash_split_unique a1 a2 g1 g2
      (fun x hx => hostClass_ne_slash x (hall1 x hx))
      (fun x hx => hostClass_ne_slash x (hall2 x hx)) h
    exact ⟨by rw [ha], hg⟩
  simp only [List.mem_cons, List.mem_singleton, List.not_mem_nil, or_false] at hc1 hc2
  rcases hc1 with rfl | rfl <;> rcases hc2 with rfl | rfl
  · exact hsame _ heq
  · rw [hhttp, hhttps, hsep] at heq
    simp at heq
  · rw [hhttp, hhttps, hsep] at heq
    simp at heq
  · exact hsame _ heq

/-- Two hosts and two slugs that give the same short URL: the hosts and the slugs agree. -/
theorem short_url_determines_host_and_slug_witness :
    shortHostTemplate.MatchString (goStr "http://shortho.st") = true
    ∧ goStr "http://shortho.st" ++ goStr "/" ++ goStr "a/b"
        = goStr "http://shortho.st" ++ goStr "/" ++ goStr "a/b"
    ∧ goStr "http://shortho.st" = goStr "http://shortho.st" ∧ goStr "a/b" = goStr "a/b" :=
  ⟨by decide, rfl,
    short_url_determines_host_and_slug (goStr "http://shortho.st") (goStr "http://shortho.st")
      (goStr "a/b") (goStr "a/b") (by decide) (by decide) rfl⟩

end urlshortenapp

namespace urlshortenapp

/-! ## The shorten endpoint -/

/-- C22: for every POST to `/url/shorten` whose body `json.Unmarshal` accepts, over every
environment and every implementation of `App.UsService`: when
`urlShortenRequestJson.Validate` reports at least one error, `HandleUrlShortenRequest` answers
400 with the content type `application/json` and the body
`{"original_url":...,"short_url":"","validation_errors":[...]}` that lists the errors, and makes
no call through `App.UsService`; when it reports none, exactly one call is made,
`ConstructShortUrlAndAssignToOriginalUrl` with the host and the slug length of the request or
their defaults, and the answer is 500 when the service returns an error and 201 with the short
URL the service returned in the body when it does not. -/
theorem HandleUrlShortenRequest_validation {υ : Type} (App : ServingApp υ) (r : Request)
    (hw : HandlerWorld υ) (hm : r.Method = MethodPost)
    (hu : (urlShortenRequestJson.Unmarshal r.Body).2 = none) :
    (((urlShortenRequestJson.Unmarshal r.Body).1.Validate App.toUrlShortenApp).Errors ≠ [] →
      (HandleUrlShortenRequest App keygensvc.NewRecorder r hw).1.Code = 400
      ∧ (HandleUrlShortenRequest App keygensvc.NewRecorder r hw).1.HeaderGet
          (goStr "Content-Type") = goStr "application/json"
      ∧ (HandleUrlShortenRequest App keygensvc.NewRecorder r hw).1.Body
          = goStr "\x7b\"original_url\":"
            ++ appendString (urlShortenRequestJson.Unmarshal r.Body).1.OriginalUrl
            ++ goStr ",\"short_url\":" ++ appendString []
            ++ goStr ",\"validation_errors\":"
            ++ marshalValidationErrors
                ((urlShortenRequestJson.Unmarshal r.Body).1.Validate App.toUrlShortenApp).Errors
            ++ goStr "\x7d"
      ∧ (HandleUrlShortenRequest App keygensvc.NewRecorder r hw).2.calls = hw.calls)
    ∧ (((urlShortenRequestJson.Unmarshal r.Body).1.Validate App.toUrlShortenApp).Errors = [] →
      (HandleUrlShortenRequest App keygensvc.NewRecorder r hw).2.calls
        = hw.calls ++ [.ConstructShortUrlAndAssignToOriginalUrl
            (urlShortenRequestJson.Unmarshal r.Body).1.OriginalUrl
            (if (urlShortenRequestJson.Unmarshal r.Body).1.ShortUrlHost = []
              then App.EnvVars.InternalShortHost
              else (urlShortenRequestJson.Unmarshal r.Body).1.ShortUrlHost)
            (urlShortenRequestJson.Unmarshal r.Body).1.CustomSlug
            (if (urlShortenRequestJson.Unmarshal r.Body).1.SlugLength ≤ 0
              then App.EnvVars.MinShortUrlPathLength
              else (urlShortenRequestJson.Unmarshal r.Body).1.SlugLength)]
      ∧ (∀ u e, (App.UsService.ConstructShortUrlAndAssignToOriginalUrl
            (urlShortenRequestJson.Unmarshal r.Body).1.OriginalUrl
            (if (urlShortenRequestJson.Unmarshal r.Body).1.ShortUrlHost = []
              then App.EnvVars.InternalShortHost
              else (urlShortenRequestJson.Unmarshal r.Body).1.ShortUrlHost)
            (urlShortenRequestJson.Unmarshal r.Body).1.CustomSlug
            (if (urlShortenRequestJson.Unmarshal r.Body).1.SlugLength ≤ 0
              then App.EnvVars.MinShortUrlPathLength
              else (urlShortenRequestJson.Unmarshal r.Body).1.SlugLength) hw.us).1
            = (u, some e) →
          (HandleUrlShortenRequest App keygensvc.NewRecorder r hw).1.Code = 500)
      ∧ (∀ u, (App.UsService.ConstructShortUrlAndAssignToOriginalUrl
            (urlShortenRequestJson.Unmarshal r.Body).1.OriginalUrl
            (if (urlShortenRequestJson.Unmarshal r.Body).1.ShortUrlHost = []
              then App.EnvVars.InternalShortHost
              else (urlShortenRequestJson.Unmarshal r.Body).1.ShortUrlHost)
            (urlShortenRequestJson.Unmarshal r.Body).1.CustomSlug
            (if (urlShortenRequestJson.Unmarshal r.Body).1.SlugLength ≤ 0
              then App.EnvVars.MinShortUrlPathLength
              else (urlShortenRequestJson.Unmarshal r.Body).1.SlugLength) hw.us).1
            = (u, none) →
          (HandleUrlShortenRequest App keygensvc.NewRecorder r hw).1.Code = 201
          ∧ (HandleUrlShortenRequest App keygensvc.NewRecorder r hw).1.Body
              = goStr "\x7b\"original_url\":"
                ++ appendString (urlShortenRequestJson.Unmarshal r.Body).1.OriginalUrl
                ++ goStr ",\"short_url\":" ++ appendString u
                ++ goStr ",\"validation_errors\":null\x7d")) := by
  have hallowed : isMethodAllowed r.Method [MethodPost] = true := by
    simp [isMethodAllowed, hm]
  rcases hq : urlShortenRequestJson.Unmarshal r.Body with ⟨q, _ | je⟩
  · constructor
    · intro hv
      have hf : (q.Validate App.toUrlShortenApp).Fails = true := by
        simp only [Validation.Fails, decide_eq_true_eq]
        exact List.length_pos.2 hv
      have hres : HandleUrlShortenRequest App keygensvc.NewRecorder r hw
          = (handleBadRequest keygensvc.NewRecorder
              (urlShortenResponseJson.Marshal q.OriginalUrl []
                (q.Validate App.toUrlShortenApp).Errors), hw) := by
        simp only [HandleUrlShortenRequest, hallowed, parseRawJsonFromHttpBody, hq, hf,
          Bool.not_true, Bool.false_eq_true, if_false, if_true]
      rw [hres]
      refine ⟨rfl, ?_, ?_, rfl⟩
      · simp [handleBadRequest, keygensvc.ResponseRecorder.HeaderGet,
          keygensvc.ResponseRecorder.Write, keygensvc.ResponseRecorder.WriteHeader,
          keygensvc.ResponseRecorder.HeaderSet, keygensvc.NewRecorder]
      · simp [handleBadRequest, keygensvc.ResponseRecorder.Write,
          keygensvc.ResponseRecorder.WriteHeader, keygensvc.ResponseRecorder.HeaderSet,
          keygensvc.NewRecorder, urlShortenResponseJson.Marshal]
    · intro hv
      have hf : (q.Validate App.toUrlShortenApp).Fails = false := by
        simp [Validation.Fails, hv]
      rcases hg : App.UsService.ConstructShortUrlAndAssignToOriginalUrl q.OriginalUrl
          (if q.ShortUrlHost = [] then App.EnvVars.InternalShortHost else q.ShortUrlHost)
          q.CustomSlug
          (if q.SlugLength ≤ 0 then App.EnvVars.MinShortUrlPathLength else q.SlugLength) hw.us
        with ⟨⟨u0, _ | e0⟩, u1⟩
      · have hres : HandleUrlShortenRequest App keygensvc.NewRecorder r hw
            = (handleCreated keygensvc.NewRecorder
                (urlShortenResponseJson.Marshal q.OriginalUrl u0
                  (q.Validate App.toUrlShortenApp).Errors),
                { us := u1,
                  calls := hw.calls ++ [.ConstructShortUrlAndAssignToOriginalUrl q.OriginalUrl
                    (if q.ShortUrlHost = [] then App.EnvVars.InternalShortHost
                      else q.ShortUrlHost)
                    q.CustomSlug
                    (if q.SlugLength ≤ 0 then App.EnvVars.MinShortUrlPathLength
                      else q.SlugLength)] }) := by
          simp only [HandleUrlShortenRequest, hallowed, parseRawJsonFromHttpBody, hq, hf,
            Bool.not_true, Bool.false_eq_true, if_false, hg]
        rw [hres]
        refine ⟨rfl, by intro u e h; simp at h, ?_⟩
        intro u h
        simp only [Prod.mk.injEq, and_true] at h
        subst h
        refine ⟨rfl, ?_⟩
        rw [hv]
        simp [handleCreated, keygensvc.ResponseRecorder.Write,
          keygensvc.ResponseRecorder.WriteHeader, keygensvc.ResponseRecorder.HeaderSet,
          keygensvc.NewRecorder, urlShortenResponseJson.Marshal, marshalValidationErrors]
        decide
      · have hres : HandleUrlShortenRequest App keygensvc.NewRecorder r hw
            = (handleInternalServerError keygensvc.NewRecorder
                (goStr "Could not shorten URL " ++ q.OriginalUrl),
                { us := u1,
                  calls := hw.calls ++ [.ConstructShortUrlAndAssignToOriginalUrl q.OriginalUrl
                    (if q.ShortUrlHost = [] then App.EnvVars.InternalShortHost
                      else q.ShortUrlHost)
                    q.CustomSlug
                    (if q.SlugLength ≤ 0 then App.EnvVars.MinShortUrlPathLength
                      else q.SlugLength)] }) := by
          simp only [HandleUrlShortenRequest, hallowed, parseRawJsonFromHttpBody, hq, hf,
            Bool.not_true, Bool.false_eq_true, if_false, hg]
        rw [hres]
        exact ⟨rfl, fun _ _ _ => rfl, by intro u h; simp at h⟩
  · rw [hq] at hu
    simp at hu

set_option maxRecDepth 100000 in
/-- Witness of C22 on the requests of `TestHandleUrlShortenRequest`: the request whose four
fields are all invalid is answered 400 without a call, and the valid request reaches the mock
service once and is answered 201 with the short URL of the mock. -/
theorem HandleUrlShortenRequest_validation_witness :
    (goStr "POST" = MethodPost
      ∧ (urlShortenRequestJson.Unmarshal (goStr "\n\x7b\n\"original_url\": \"definitely-fails\",\n\t\"short_url_host\": \"same-here\",\n\"custom_slug\": \"short\",\n\"slug_length\": 1\n\x7d")).2 = none
      ∧ (HandleUrlShortenRequest (servingMock true none [] []) keygensvc.NewRecorder
          ⟨goStr "POST", goStr "/url/shorten", goStr "\n\x7b\n\"original_url\": \"definitely-fails\",\n\t\"short_url_host\": \"same-here\",\n\"custom_slug\": \"short\",\n\"slug_length\": 1\n\x7d"⟩
          ⟨(), []⟩).1.Code = 400
      ∧ (HandleUrlShortenRequest (servingMock true none [] []) keygensvc.NewRecorder
          ⟨goStr "POST", goStr "/url/shorten", goStr "\n\x7b\n\"original_url\": \"definitely-fails\",\n\t\"short_url_host\": \"same-here\",\n\"custom_slug\": \"short\",\n\"slug_length\": 1\n\x7d"⟩
          ⟨(), []⟩).2.calls = [])
    ∧ ((urlShortenRequestJson.Unmarshal (goStr "\x7b\"original_url\": \"http://successful.url/over/here?params=true\",\"short_url_host\": \"\",\"custom_slug\": \"\",\"slug_length\": 8\x7d")).2 = none
      ∧ (HandleUrlShortenRequest (servingMock true none (goStr "http://shrt.url/12345678") [])
          keygensvc.NewRecorder
          ⟨goStr "POST", goStr "/url/shorten", goStr "\x7b\"original_url\": \"http://successful.url/over/here?params=true\",\"short_url_host\": \"\",\"custom_slug\": \"\",\"slug_length\": 8\x7d"⟩
          ⟨(), []⟩).2.calls
        = [.ConstructShortUrlAndAssignToOriginalUrl
            (goStr "http://successful.url/over/here?params=true") (goStr "http://shortho.st")
            [] 8]
      ∧ (HandleUrlShortenRequest (servingMock true none (goStr "http://shrt.url/12345678") [])
          keygensvc.NewRecorder
          ⟨goStr "POST", goStr "/url/shorten", goStr "\x7b\"original_url\": \"http://successful.url/over/here?params=true\",\"short_url_host\": \"\",\"custom_slug\": \"\",\"slug_length\": 8\x7d"⟩
          ⟨(), []⟩).1.Code = 201) := by
  have hbad := (HandleUrlShortenRequest_validation (servingMock true none [] [])
    ⟨goStr "POST", goStr "/url/shorten", goStr "\n\x7b\n\"original_url\": \"definitely-fails\",\n\t\"short_url_host\": \"same-here\",\n\"custom_slug\": \"short\",\n\"slug_length\": 1\n\x7d"⟩
    ⟨(), []⟩ (by decide) (by decide)).1 (by decide)
  have hgood := (HandleUrlShortenRequest_validation
    (servingMock true none (goStr "http://shrt.url/12345678") [])
    ⟨goStr "POST", goStr "/url/shorten", goStr "\x7b\"original_url\": \"http://successful.url/over/here?params=true\",\"short_url_host\": \"\",\"custom_slug\": \"\",\"slug_length\": 8\x7d"⟩
    ⟨(), []⟩ (by decide) (by decide)).2 (by decide)
  refine ⟨⟨by decide, by decide, hbad.1, hbad.2.2.2⟩, by decide, ?_, ?_⟩
  · rw [hgood.1]; decide
  · exact (hgood.2.2 (goStr "http://shrt.url/12345678") (by decide)).1

end urlshortenapp

namespace urlshortenapp

open keygensvc (ResponseRecorder NewRecorder)

/-! ## Routing -/

theorem serveFrom_first_match {υ : Type} (w : ResponseRecorder) (r : Request)
    (hw : HandlerWorld υ) : ∀ (handlers : List (RouteHandler υ)),
    (∃ pre h post, handlers = pre ++ h :: post
        ∧ (∀ p ∈ pre, p.Pattern.MatchString r.Path = false)
        ∧ h.Pattern.MatchString r.Path = true
        ∧ serveFrom handlers w r hw = h.Func w r hw)
    ∨ ((∀ p ∈ handlers, p.Pattern.MatchString r.Path = false)
        ∧ serveFrom handlers w r hw = NotFound w r hw)
  | [] => Or.inr ⟨by simp, rfl⟩
  | h :: rest => by
    by_cases hm : h.Pattern.MatchString r.Path = true
    · exact Or.inl ⟨[], h, rest, rfl, by simp, hm, by simp [serveFrom, hm]⟩
    · have hstep : serveFrom (h :: rest) w r hw = serveFrom rest w r hw := by
        simp [serveFrom, hm]
      rcases serveFrom_first_match w r hw rest with ⟨pre, h1, post, he, hpre, hm1, hres⟩ | ⟨hall, hres⟩
      · refine Or.inl ⟨h :: pre, h1, post, by rw [he]; rfl, ?_, hm1, by rw [hstep, hres]⟩
        intro p hp
        rcases List.mem_cons.1 hp with rfl | hp
        · simpa using hm
        · exact hpre p hp
      · refine Or.inr ⟨?_, by rw [hstep, hres]⟩
        intro p hp
        rcases List.mem_cons.1 hp with rfl | hp
        · simpa using hm
        · exact hall p hp

theorem literal_route_iff (l p : GoString) :
    (Regexp.mk [.lit l]).MatchString p = true ↔ p = l := by
  simp only [Regexp.MatchString, matchItems_lit, matchItems_nil]
  constructor
  · rintro ⟨r, rfl, rfl⟩; simp
  · rintro rfl; exact ⟨[], by simp, rfl⟩

theorem urlRedirectInternalRoute_iff (p : GoString) :
    urlRedirectInternalRoute.MatchString p = true
      ↔ ∃ g, p = goStr "/" ++ g ∧ g ≠ [] ∧ ∀ x ∈ g, slugClass.mem x = true := by
  simp only [Regexp.MatchString, urlRedirectInternalRoute, matchItems_lit, matchItems_plus,
    matchItems_nil]
  constructor
  · rintro ⟨r, rfl, a, b, rfl, ha, hall, rfl⟩
    exact ⟨a, by simp, ha, hall⟩
  · rintro ⟨g, rfl, hg, hall⟩
    exact ⟨g, rfl, g, [], by simp, hg, hall, rfl⟩

theorem Define_ServeHTTP {υ : Type} (App : ServingApp υ) (w : ResponseRecorder) (r : Request)
    (hw : HandlerWorld υ) :
    (Routes.Define App).ServeHTTP w r hw
      = if r.Path = goStr "/" then HandleIndexRequest w r hw
        else if r.Path = goStr "/healthcheck" then HandleHealthcheckRequest App w r hw
        else if r.Path = goStr "/url/shorten" then HandleUrlShortenRequest App w r hw
        else if r.Path = goStr "/url/redirect" then HandleExternalUrlRedirect App w r hw
        else if urlRedirectInternalRoute.MatchString r.Path = true
          then HandleInternalUrlRedirect App w r hw
        else NotFound w r hw := by
  have h1 := literal_route_iff (goStr "/") r.Path
  have h2 := literal_route_iff (goStr "/healthcheck") r.Path
  have h3 := literal_route_iff (goStr "/url/shorten") r.Path
  have h4 := literal_route_iff (goStr "/url/redirect") r.Path
  simp only [Routes.Define, Routes.HandleFunc, Routes.ServeHTTP, List.nil_append,
    List.cons_append, serveFrom, indexRoute, healthcheckRoute, urlShortenRoute,
    urlRedirectExternalRoute, h1, h2, h3, h4]

set_option maxRecDepth 100000 in
/-- C25: for every list of registered routes, every writer, request and environment,
`Routes.ServeHTTP` returns what exactly one handler does: the first handler in registration
order whose pattern matches the path of the request (no handler before it matches), or
`http.NotFound`, which answers 404, when no pattern matches. With the routes of `Define`, the
paths `/`, `/healthcheck`, `/url/shorten` and `/url/redirect` reach `HandleIndexRequest`,
`HandleHealthcheckRequest`, `HandleUrlShortenRequest` and `HandleExternalUrlRedirect`
(although `/healthcheck` also matches the slug pattern), every other path matching
`^/[a-zA-Z0-9\-_]+$`, that is a slash followed by one or more characters of the class, reaches
`HandleInternalUrlRedirect`, and every other path gets the 404 of `http.NotFound`. -/
theorem Routes_ServeHTTP_first_match {υ : Type} (App : ServingApp υ) (w : ResponseRecorder)
    (r : Request) (hw : HandlerWorld υ) :
    (∀ routes : Routes υ,
      (∃ pre h post, routes.Handlers = pre ++ h :: post
          ∧ (∀ p ∈ pre, p.Pattern.MatchString r.Path = false)
          ∧ h.Pattern.MatchString r.Path = true
          ∧ routes.ServeHTTP w r hw = h.Func w r hw)
      ∨ ((∀ p ∈ routes.Handlers, p.Pattern.MatchString r.Path = false)
          ∧ routes.ServeHTTP w r hw = NotFound w r hw))
    ∧ (NotFound keygensvc.NewRecorder r hw).1.Code = 404
    ∧ (r.Path = goStr "/" → (Routes.Define App).ServeHTTP w r hw = HandleIndexRequest w r hw)
    ∧ (r.Path = goStr "/healthcheck" →
        (Routes.Define App).ServeHTTP w r hw = HandleHealthcheckRequest App w r hw)
    ∧ (r.Path = goStr "/url/shorten" →
        (Routes.Define App).ServeHTTP w r hw = HandleUrlShortenRequest App w r hw)
    ∧ (r.Path = goStr "/url/redirect" →
        (Routes.Define App).ServeHTTP w r hw = HandleExternalUrlRedirect App w r hw)
    ∧ urlRedirectInternalRoute.MatchString (goStr "/healthcheck") = true
    ∧ (urlRedirectInternalRoute.MatchString r.Path = true
        ↔ ∃ g, r.Path = goStr "/" ++ g ∧ g ≠ [] ∧ ∀ x ∈ g, slugClass.mem x = true)
    ∧ (r.Path ∉ [goStr "/", goStr "/healthcheck", goStr "/url/shorten", goStr "/url/redirect"] →
        urlRedirectInternalRoute.MatchString r.Path = true →
        (Routes.Define App).ServeHTTP w r hw = HandleInternalUrlRedirect App w r hw)
    ∧ (r.Path ∉ [goStr "/", goStr "/healthcheck", goStr "/url/shorten", goStr "/url/redirect"] →
        urlRedirectInternalRoute.MatchString r.Path = false →
        (Routes.Define App).ServeHTTP w r hw = NotFound w r hw) := by
  refine ⟨fun routes => serveFrom_first_match w r hw routes.Handlers, rfl, ?_, ?_, ?_, ?_,
    by decide, urlRedirectInternalRoute_iff r.Path, ?_, ?_⟩
  · intro h
    rw [Define_ServeHTTP, if_pos h]
  · intro h
    rw [Define_ServeHTTP, if_neg (by rw [h]; decide), if_pos h]
  · intro h
    rw [Define_ServeHTTP, if_neg (by rw [h]; decide), if_neg (by rw [h]; decide), if_pos h]
  · intro h
    rw [Define_ServeHTTP, if_neg (by rw [h]; decide), if_neg (by rw [h]; decide),
      if_neg (by rw [h]; decide), if_pos h]
  · intro h hm
    simp only [List.mem_cons, List.mem_singleton, List.not_mem_nil, or_false, not_or] at h
    rw [Define_ServeHTTP, if_neg h.1, if_neg h.2.1, if_neg h.2.2.1, if_neg h.2.2.2, if_pos hm]
  · intro h hm
    simp only [List.mem_cons, List.mem_singleton, List.not_mem_nil, or_false, not_or] at h
    rw [Define_ServeHTTP, if_neg h.1, if_neg h.2.1, if_neg h.2.2.1, if_neg h.2.2.2,
      if_neg (by rw [hm]; decide)]

set_option maxRecDepth 100000 in
/-- Witness of C25 on the paths of `TestHandleHealthcheckRequest` and
`TestHandleInternalUrlRedirect`: `/healthcheck` reaches the healthcheck handler (200 with a live
cluster), `/some-method` reaches `HandleInternalUrlRedirect` (302 to the stored URL), and
`/some.method`, whose dot is outside the class, gets 404. -/
theorem Routes_ServeHTTP_first_match_witness :
    ((Routes.Define (servingMock true none [] [])).ServeHTTP keygensvc.NewRecorder
        ⟨goStr "GET", goStr "/healthcheck", []⟩ ⟨(), []⟩).1.Code = 200
    ∧ (goStr "/some-method"
        ∉ [goStr "/", goStr "/healthcheck", goStr "/url/shorten", goStr "/url/redirect"]
      ∧ urlRedirectInternalRoute.MatchString (goStr "/some-method") = true
      ∧ ((Routes.Define (servingMock true none [] (goStr "http://original.url"))).ServeHTTP
          keygensvc.NewRecorder ⟨goStr "GET", goStr "/some-method", []⟩ ⟨(), []⟩).1.Code = 302)
    ∧ (goStr "/some.method"
        ∉ [goStr "/", goStr "/healthcheck", goStr "/url/shorten", goStr "/url/redirect"]
      ∧ urlRedirectInternalRoute.MatchString (goStr "/some.method") = false
      ∧ ((Routes.Define (servingMock true none [] (goStr "http://original.url"))).ServeHTTP
          keygensvc.NewRecorder ⟨goStr "GET", goStr "/some.method", []⟩ ⟨(), []⟩).1.Code = 404)
    := by
  refine ⟨?_, ⟨by decide, by decide, ?_⟩, ⟨by decide, by decide, ?_⟩⟩
  · rw [(Routes_ServeHTTP_first_match (servingMock true none [] []) keygensvc.NewRecorder
      ⟨goStr "GET", goStr "/healthcheck", []⟩ ⟨(), []⟩).2.2.2.1 rfl]
    decide
  · rw [(Routes_ServeHTTP_first_match (servingMock true none [] (goStr "http://original.url"))
      keygensvc.NewRecorder ⟨goStr "GET", goStr "/some-method", []⟩
      ⟨(), []⟩).2.2.2.2.2.2.2.2.1 (by decide) (by decide)]
    decide
  · rw [(Routes_ServeHTTP_first_match (servingMock true none [] (goStr "http://original.url"))
      keygensvc.NewRecorder ⟨goStr "GET", goStr "/some.method", []⟩
      ⟨(), []⟩).2.2.2.2.2.2.2.2.2 (by decide) (by decide)]
    decide

end urlshortenapp

namespace urlshortenapp

/-! ## Short URLs between the shorten and the redirect endpoint -/

/-- A short URL made of a host that passes the short-host check and a non-empty slug of bytes
of `[a-zA-Z0-9\-_]` (every generated key is one) passes
`urlRedirectExternalRequestJson.Validate`. -/
theorem redirect_accepts_url_safe_slug (host slug : GoString)
    (hh : shortHostTemplate.MatchString host = true) (hne : slug ≠ [])
    (hs : ∀ x ∈ slug, slugClass.mem x = true) :
    (urlRedirectExternalRequestJson.Validate ⟨host ++ goStr "/" ++ slug⟩).Errors = [] := by
  have hm : shortUrlTemplate.MatchString (host ++ goStr "/" ++ slug) = true :=
    (shortUrlTemplate_iff _).2 ⟨host, slug, rfl, hh, hne, hs⟩
  simp only [urlRedirectExternalRequestJson.Validate, hm]
  rfl

set_option maxRecDepth 100000 in
/-- C28 at a concrete input (the defect).  The request
`{"original_url":"http://some.url","short_url_host":"http://shortho.st","custom_slug":"my.slug"}`
passes `urlShortenRequestJson.Validate`, which checks the custom slug for its length only;
`HandleUrlShortenRequest` answers 201 and hands out the short URL `http://shortho.st/my.slug`;
`urlRedirectExternalRequestJson.Validate` rejects that short URL, so `HandleExternalUrlRedirect`
answers 400 for it, and the routes send the path `/my.slug` to the 404 handler. -/
theorem custom_slug_short_url_rejected_by_redirect :
    ((urlShortenRequestJson.Unmarshal (goStr
        "\x7b\"original_url\":\"http://some.url\",\"short_url_host\":\"http://shortho.st\",\"custom_slug\":\"my.slug\"\x7d")).1
      = ⟨goStr "http://some.url", goStr "http://shortho.st", goStr "my.slug", 0⟩
      ∧ (urlShortenRequestJson.Validate appUrls
          ⟨goStr "http://some.url", goStr "http://shortho.st", goStr "my.slug", 0⟩).Errors = [])
    ∧ ((HandleUrlShortenRequest (servingUrls (goStr "my.slug")) keygensvc.NewRecorder
          ⟨goStr "POST", goStr "/url/shorten", goStr
            "\x7b\"original_url\":\"http://some.url\",\"short_url_host\":\"http://shortho.st\",\"custom_slug\":\"my.slug\"\x7d"⟩
          ⟨World.empty, []⟩).1.Code = 201
      ∧ (HandleUrlShortenRequest (servingUrls (goStr "my.slug")) keygensvc.NewRecorder
          ⟨goStr "POST", goStr "/url/shorten", goStr
            "\x7b\"original_url\":\"http://some.url\",\"short_url_host\":\"http://shortho.st\",\"custom_slug\":\"my.slug\"\x7d"⟩
          ⟨World.empty, []⟩).1.Body
        = goStr "\x7b\"original_url\":\"http://some.url\",\"short_url\":\"http://shortho.st/my.slug\",\"validation_errors\":null\x7d")
    ∧ (urlRedirectExternalRequestJson.Validate ⟨goStr "http://shortho.st/my.slug"⟩).Errors
        = [goStr "Provided short URL is invalid: http://shortho.st/my.slug"]
    ∧ (HandleExternalUrlRedirect (servingUrls (goStr "my.slug")) keygensvc.NewRecorder
          ⟨goStr "POST", goStr "/url/redirect",
            goStr "\x7b\"short_url\":\"http://shortho.st/my.slug\"\x7d"⟩
          ⟨World.empty, []⟩).1.Code = 400
    ∧ ((Routes.Define (servingUrls (goStr "my.slug"))).ServeHTTP keygensvc.NewRecorder
          ⟨goStr "GET", goStr "/my.slug", []⟩ ⟨World.empty, []⟩).1.Code = 404 := by
  decide

/-! ## The index of reads and writes -/

set_option maxRecDepth 100000 in
/-- C26 on the code (the defect).  For every service constructed by
`NewUrlShortenService(i, es, kgs)` and every value of the global `App`:
`assignShortUrlToOriginalUrl` passes the index name `i` to `IndexDocument`, and
`GetOriginalUrlForShortUrl` passes `App.EnvVars.EsIndex` to `GetDocumentById`, whatever `i` is.
For the service of the tests, constructed with `some-index` while the environment names `urls`,
the write addresses `some-index` and the read addresses `urls`. -/
theorem read_index_is_global_not_service {σ κ : Type} (App : UrlShortenApp) (i : GoString)
    (es : EsService σ) (kgs : KgsService κ) (url shortUrl : GoString) (w : World σ κ) :
    callsSince w (assignShortUrlToOriginalUrl (NewUrlShortenService i es kgs) url shortUrl w).2
        = [.IndexDocument i
            ⟨documentId shortUrl, Marshal { OriginalUrl := url, ShortUrl := shortUrl }⟩]
    ∧ callsSince w (GetOriginalUrlForShortUrl App (NewUrlShortenService i es kgs) shortUrl w).2
        = [.GetDocumentById App.EnvVars.EsIndex (documentId shortUrl)]
    ∧ callsSince World.empty (GetOriginalUrlForShortUrl appUrls serviceSomeIndex
          (goStr "http://shrt-url") World.empty).2
        = [.GetDocumentById (goStr "urls") (documentId (goStr "http://shrt-url"))]
    ∧ serviceSomeIndex.EsIndex = goStr "some-index"
    ∧ goStr "urls" ≠ goStr "some-index" := by
  have hget : ∀ (A : UrlShortenApp) {σ1 κ1 : Type} (s : urlShortenService σ1 κ1) (u : GoString)
      (v : World σ1 κ1), (GetOriginalUrlForShortUrl A s u v).2.calls
        = v.calls ++ [.GetDocumentById A.EnvVars.EsIndex (documentId u)] := by
    intro A σ1 κ1 s u v
    rcases hg : s.EsService.GetDocumentById A.EnvVars.EsIndex (documentId u) v.es
      with ⟨⟨d, _ | e⟩, e1⟩
    · rcases hu : Unmarshal d.Content { OriginalUrl := [], ShortUrl := [] } with ⟨c, _ | je⟩ <;>
        simp [GetOriginalUrlForShortUrl, hg, hu]
    · simp [GetOriginalUrlForShortUrl, hg]
  refine ⟨?_, ?_, ?_, rfl, by decide⟩
  · exact callsSince_append w _ _
      (assignShortUrlToOriginalUrl_calls (NewUrlShortenService i es kgs) url shortUrl w)
  · exact callsSince_append w _ _ (hget App _ shortUrl w)
  · exact callsSince_append World.empty _ _ (hget appUrls serviceSomeIndex _ World.empty)

/-! ## The content of a stored document -/

/-- Storing the members of an object all of whose addressed values are strings or `null`: no
error arises, and the field `OriginalUrl` ends as `originalUrlOf` says. -/
theorem foldl_storeMember_typed : ∀ (members : List (GoString × Json))
    (c : urlDocumentContent),
    (∀ m ∈ members, fieldOfKey m.1 ≠ none → m.2.isStringOrNull = true) →
    (members.foldl storeMember (c, none)).2 = none
      ∧ (members.foldl storeMember (c, none)).1.OriginalUrl
          = originalUrlOf members c.OriginalUrl
  | [], c, _ => by simp [originalUrlOf]
  | (key, v) :: rest, c, h => by
    have hrest : ∀ m ∈ rest, fieldOfKey m.1 ≠ none → m.2.isStringOrNull = true :=
      fun m hm => h m (by simp [hm])
    have hhead := h (key, v) (by simp)
    rw [List.foldl_cons]
    rcases hf : fieldOfKey key with _ | f
    · have hstep : storeMember (c, none) (key, v) = (c, none) := by
        simp [storeMember, hf]
      rw [hstep]
      have ih := foldl_storeMember_typed rest c hrest
      refine ⟨ih.1, ?_⟩
      rw [ih.2]
      cases v <;> simp [originalUrlOf, hf]
    · have hv := hhead (by rw [hf]; simp)
      cases v with
      | string s =>
        cases f with
        | OriginalUrl =>
          have hstep : storeMember (c, none) (key, .string s)
              = ({ c with OriginalUrl := s }, none) := by
            simp [storeMember, hf]
          rw [hstep]
          have ih := foldl_storeMember_typed rest { c with OriginalUrl := s } hrest
          refine ⟨ih.1, ?_⟩
          rw [ih.2]
          simp [originalUrlOf, hf]
        | ShortUrl =>
          have hstep : storeMember (c, none) (key, .string s)
              = ({ c with ShortUrl := s }, none) := by
            simp [storeMember, hf]
          rw [hstep]
          have ih := foldl_storeMember_typed rest { c with ShortUrl := s } hrest
          refine ⟨ih.1, ?_⟩
          rw [ih.2]
          simp [originalUrlOf, hf]
      | null =>
        have hstep : storeMember (c, none) (key, .null) = (c, none) := by
          cases f <;> simp [storeMember, hf]
        rw [hstep]
        have ih := foldl_storeMember_typed rest c hrest
        refine ⟨ih.1, ?_⟩
        rw [ih.2]
        simp [originalUrlOf]
      | bool b => simp [Json.isStringOrNull] at hv
      | number n => simp [Json.isStringOrNull] at hv
      | array a => simp [Json.isStringOrNull] at hv
      | object o => simp [Json.isStringOrNull] at hv

/-- An object without a member that addresses `original_url` leaves the field as it was. -/
theorem originalUrlOf_absent : ∀ (members : List (GoString × Json)) (cur : GoString),
    (∀ m ∈ members, fieldOfKey m.1 ≠ some .OriginalUrl) → originalUrlOf members cur = cur
  | [], _, _ => rfl
  | (key, v) :: rest, cur, h => by
    have hrest := originalUrlOf_absent rest cur (fun m hm => h m (by simp [hm]))
    have hk := h (key, v) (by simp)
    cases v <;> simp [originalUrlOf, hrest, hk]

/-- An error recorded while storing the members of an object is kept to the end. -/
theorem foldl_storeMember_error_kept : ∀ (members : List (GoString × Json))
    (st : urlDocumentContent × Option JsonError), st.2 ≠ none →
    (members.foldl storeMember st).2 ≠ none
  | [], _, h => h
  | m :: rest, st, h => by
    rw [List.foldl_cons]
    apply foldl_storeMember_error_kept rest
    rcases st with ⟨c, _ | e⟩
    · exact absurd rfl h
    · rcases m with ⟨key, v⟩
      rcases hf : fieldOfKey key with _ | f
      · simp [storeMember, hf]
      · cases f <;> cases v <;> simp [storeMember, hf]

/-- A member that addresses a field and holds neither a string nor `null` makes storing the
members end in an error. -/
theorem foldl_storeMember_mistyped : ∀ (members : List (GoString × Json))
    (st : urlDocumentContent × Option JsonError),
    (∃ m ∈ members, fieldOfKey m.1 ≠ none ∧ m.2.isStringOrNull = false) →
    (members.foldl storeMember st).2 ≠ none
  | [], _, h => by simp at h
  | (key, v) :: rest, st, h => by
    rw [List.foldl_cons]
    obtain ⟨m, hm, hf, hv⟩ := h
    rcases List.mem_cons.1 hm with rfl | hm
    · apply foldl_storeMember_error_kept rest
      rcases hk : fieldOfKey key with _ | f
      · exact absurd hk hf
      · rcases st with ⟨c, _ | e⟩ <;> cases f <;> cases v <;>
          simp [storeMember, hk, Json.isStringOrNull] at hv ⊢
    · exact foldl_storeMember_mistyped rest _ ⟨m, hm, hf, hv⟩

/-- C29, as the code has it: for every short URL whose stored document is returned and whose
content is syntactically valid JSON, the value `v`.  When `v` is `null`,
`GetOriginalUrlForShortUrl` returns the empty string with a nil error.  When `v` is an object in
which every member that addresses `original_url` or `short_url` holds a string or `null`, it
returns a nil error and the string of the last `original_url` member that holds one, the empty
string when no member addresses `original_url` (as in `{}`).  When `v` is an object in which a
member that addresses one of the two fields holds a value of another kind, and when `v` is a
string, a number, a boolean or an array, it returns `("", ErrCouldNotParseDocumentJson)`. -/
theorem GetOriginalUrlForShortUrl_valid_json_content {σ κ : Type} (App : UrlShortenApp)
    (s : urlShortenService σ κ) (shortUrl : GoString) (w : World σ κ) (d : Document) (v : Json)
    (hd : (s.EsService.GetDocumentById App.EnvVars.EsIndex (documentId shortUrl) w.es).1
      = (d, none))
    (hp : parseJson d.Content = some v) :
    (v = .null → (GetOriginalUrlForShortUrl App s shortUrl w).1 = ([], none))
    ∧ (∀ members, v = .object members →
        (∀ m ∈ members, fieldOfKey m.1 ≠ none → m.2.isStringOrNull = true) →
        (GetOriginalUrlForShortUrl App s shortUrl w).1 = (originalUrlOf members [], none)
        ∧ ((∀ m ∈ members, fieldOfKey m.1 ≠ some .OriginalUrl) →
            (GetOriginalUrlForShortUrl App s shortUrl w).1 = ([], none)))
    ∧ (∀ members, v = .object members →
        (∃ m ∈ members, fieldOfKey m.1 ≠ none ∧ m.2.isStringOrNull = false) →
        (GetOriginalUrlForShortUrl App s shortUrl w).1
          = ([], some .ErrCouldNotParseDocumentJson))
    ∧ (v ≠ .null → (∀ members, v ≠ .object members) →
        (GetOriginalUrlForShortUrl App s shortUrl w).1
          = ([], some .ErrCouldNotParseDocumentJson)) := by
  rcases hg : s.EsService.GetDocumentById App.EnvVars.EsIndex (documentId shortUrl) w.es
    with ⟨⟨d1, err⟩, e1⟩
  rw [hg] at hd
  simp only [Prod.mk.injEq] at hd
  obtain ⟨rfl, rfl⟩ := hd
  have hfail : ∀ c e, Unmarshal d1.Content { OriginalUrl := [], ShortUrl := [] } = (c, some e) →
      (GetOriginalUrlForShortUrl App s shortUrl w).1
        = ([], some .ErrCouldNotParseDocumentJson) := by
    intro c e hu
    simp only [GetOriginalUrlForShortUrl, hg, hu]
  have hok : ∀ c, Unmarshal d1.Content { OriginalUrl := [], ShortUrl := [] } = (c, none) →
      (GetOriginalUrlForShortUrl App s shortUrl w).1 = (c.OriginalUrl, none) := by
    intro c hu
    simp only [GetOriginalUrlForShortUrl, hg, hu]
  refine ⟨?_, ?_, ?_, ?_⟩
  · rintro rfl
    exact hok { OriginalUrl := [], ShortUrl := [] } (by simp [Unmarshal, hp])
  · rintro members rfl ht
    have hfold := foldl_storeMember_typed members { OriginalUrl := [], ShortUrl := [] } ht
    have hu : Unmarshal d1.Content { OriginalUrl := [], ShortUrl := [] }
        = members.foldl storeMember ({ OriginalUrl := [], ShortUrl := [] }, none) := by
      simp [Unmarshal, hp]
    rcases hm : members.foldl storeMember ({ OriginalUrl := [], ShortUrl := [] }, none)
      with ⟨c, je⟩
    rw [hm] at hfold hu
    simp only at hfold
    obtain ⟨rfl, hval⟩ := hfold
    have hmain : (GetOriginalUrlForShortUrl App s shortUrl w).1
        = (originalUrlOf members [], none) := by
      rw [hok c hu, hval]
    refine ⟨hmain, fun ha => ?_⟩
    rw [hmain, originalUrlOf_absent members [] ha]
  · rintro members rfl hbad
    have hu : Unmarshal d1.Content { OriginalUrl := [], ShortUrl := [] }
        = members.foldl storeMember ({ OriginalUrl := [], ShortUrl := [] }, none) := by
      simp [Unmarshal, hp]
    have herr := foldl_storeMember_mistyped members
      ({ OriginalUrl := [], ShortUrl := [] }, none) hbad
    rcases hm : members.foldl storeMember ({ OriginalUrl := [], ShortUrl := [] }, none)
      with ⟨c, _ | je⟩
    · rw [hm] at herr
      exact absurd rfl herr
    · rw [hm] at hu
      exact hfail c je hu
  · intro hnull hobj
    apply hfail { OriginalUrl := [], ShortUrl := [] } .UnmarshalTypeError
    cases v with
    | null => exact absurd rfl hnull
    | object o => exact absurd rfl (hobj o)
    | bool b => simp [Unmarshal, hp]
    | number n => simp [Unmarshal, hp]
    | string x => simp [Unmarshal, hp]
    | array a => simp [Unmarshal, hp]

set_option maxRecDepth 100000 in
/-- The test "returns nil when successful" and the contents `{}`, `null` and
`{"original_url": 5}`: the first gives the stored URL, the next two the empty string with a nil
error, the last the parse error. -/
theorem GetOriginalUrlForShortUrl_valid_json_content_witness :
    (GetOriginalUrlForShortUrl appUrls
        (NewUrlShortenService (goStr "some-index")
          (MockEsService [] ⟨goStr "123", goStr "\x7b\"original_url\": \"http://some-url\"\x7d"⟩
            none) (MockKgsService [] none))
        (goStr "http://shrt-url") ⟨(), (), []⟩).1 = (goStr "http://some-url", none)
    ∧ (GetOriginalUrlForShortUrl appUrls
        (NewUrlShortenService (goStr "some-index")
          (MockEsService [] ⟨goStr "123", goStr "\x7b\x7d"⟩ none) (MockKgsService [] none))
        (goStr "http://shrt-url") ⟨(), (), []⟩).1 = ([], none)
    ∧ (GetOriginalUrlForShortUrl appUrls
        (NewUrlShortenService (goStr "some-index")
          (MockEsService [] ⟨goStr "123", goStr "null"⟩ none) (MockKgsService [] none))
        (goStr "http://shrt-url") ⟨(), (), []⟩).1 = ([], none)
    ∧ (GetOriginalUrlForShortUrl appUrls
        (NewUrlShortenService (goStr "some-index")
          (MockEsService [] ⟨goStr "123", goStr "\x7b\"original_url\": 5\x7d"⟩ none)
          (MockKgsService [] none))
        (goStr "http://shrt-url") ⟨(), (), []⟩).1
      = ([], some .ErrCouldNotParseDocumentJson) :=
  ⟨(((GetOriginalUrlForShortUrl_valid_json_content appUrls
      (NewUrlShortenService (goStr "some-index")
        (MockEsService [] ⟨goStr "123", goStr "\x7b\"original_url\": \"http://some-url\"\x7d"⟩
          none) (MockKgsService [] none))
      (goStr "http://shrt-url") ⟨(), (), []⟩
      ⟨goStr "123", goStr "\x7b\"original_url\": \"http://some-url\"\x7d"⟩
      (.object [(goStr "original_url", .string (goStr "http://some-url"))]) rfl (by rfl)).2.1
        _ rfl (by decide)).1).trans (by decide),
    ((GetOriginalUrlForShortUrl_valid_json_content appUrls
      (NewUrlShortenService (goStr "some-index")
        (MockEsService [] ⟨goStr "123", goStr "\x7b\x7d"⟩ none) (MockKgsService [] none))
      (goStr "http://shrt-url") ⟨(), (), []⟩ ⟨goStr "123", goStr "\x7b\x7d"⟩ (.object []) rfl
      (by rfl)).2.1 _ rfl (by decide)).2 (by decide),
    (GetOriginalUrlForShortUrl_valid_json_content appUrls
      (NewUrlShortenService (goStr "some-index")
        (MockEsService [] ⟨goStr "123", goStr "null"⟩ none) (MockKgsService [] none))
      (goStr "http://shrt-url") ⟨(), (), []⟩ ⟨goStr "123", goStr "null"⟩ .null rfl
      (by rfl)).1 rfl,
    (GetOriginalUrlForShortUrl_valid_json_content appUrls
      (NewUrlShortenService (goStr "some-index")
        (MockEsService [] ⟨goStr "123", goStr "\x7b\"original_url\": 5\x7d"⟩ none)
        (MockKgsService [] none))
      (goStr "http://shrt-url") ⟨(), (), []⟩ ⟨goStr "123", goStr "\x7b\"original_url\": 5\x7d"⟩
      (.object [(goStr "original_url", .number (goStr "5"))]) rfl (by rfl)).2.2.1 _ rfl
      ⟨(goStr "original_url", .number (goStr "5")), by simp, by decide, rfl⟩⟩

set_option maxRecDepth 100000 in
/-- C29 fails as stated: the contents `{"original_url": 5}` and `[]` are syntactically valid
JSON, and `GetOriginalUrlForShortUrl` returns `("", ErrCouldNotParseDocumentJson)` for a document
with either content. -/
theorem GetOriginalUrlForShortUrl_valid_json_counterexample :
    (parseJson (goStr "\x7b\"original_url\": 5\x7d")).isSome = true
    ∧ (GetOriginalUrlForShortUrl appUrls
        (NewUrlShortenService (goStr "some-index")
          (MockEsService [] ⟨goStr "123", goStr "\x7b\"original_url\": 5\x7d"⟩ none)
          (MockKgsService [] none))
        (goStr "http://shrt-url") ⟨(), (), []⟩).1 = ([], some .ErrCouldNotParseDocumentJson)
    ∧ (parseJson (goStr "[]")).isSome = true
    ∧ (GetOriginalUrlForShortUrl appUrls
        (NewUrlShortenService (goStr "some-index")
          (MockEsService [] ⟨goStr "123", goStr "[]"⟩ none) (MockKgsService [] none))
        (goStr "http://shrt-url") ⟨(), (), []⟩).1 = ([], some .ErrCouldNotParseDocumentJson) := by
  decide

end urlshortenapp
